import Mathlib

/-!
The VDO recovery journal (`vdo/base/recovery-journal.c`).

A shallow embedding of the recovery journal: the lock counter, the entry
assigner, the writer's completion path and the drain check, followed by the
properties established about them.

Conventions of the embedding.

* C arrays are total maps from the index to the value; the index arithmetic of
  the source (`locks * zone_id + lock_number`) is kept.
* `uint16_t` values are natural numbers reduced modulo `2 ^ 16` when written,
  `atomic_t` values are integers wrapped into the signed 32-bit range when
  written, `uint64_t` subtraction is reduced modulo `2 ^ 64`.
* Calls that leave the journal (continuing a data_vio, entering read-only mode,
  invoking the lock counter's completion, submitting I/O) are appended, oldest
  first, to the `trace` of the journal.
* A NULL pointer dereference makes an operation return `none`.
-/

namespace RecoveryJournal

/-! ## Machine integers -/

/-- The largest `uint16_t`. -/
def UINT16_MAX : Nat := 65535

/-- Conversion of a natural number to `uint16_t`. -/
def to_u16 (n : Nat) : Nat := n % 65536

/-- Subtraction of two `uint64_t` values. -/
def sub_u64 (a b : Nat) : Nat := (a + (18446744073709551616 - b % 18446744073709551616)) % 18446744073709551616

/-- The value an `atomic_t` (a 32-bit `int`) holds after an arithmetic result `x`. -/
def atomic_wrap (x : Int) : Int := (x + 2147483648) % 4294967296 - 2147483648

/-- The value of `atomic_inc` applied to an `atomic_t` holding `x`. -/
def atomic_inc (x : Int) : Int := atomic_wrap (x + 1)

/-- The value returned (and stored) by `atomic_add_return(delta, v)` for `v` holding `x`. -/
def atomic_add_return (delta x : Int) : Int := atomic_wrap (x + delta)

/-- Conversion of an `int` to `uint32_t`. -/
def to_u32 (x : Int) : Nat := (x % 4294967296).toNat

/-! ## Data model -/

/-- The `enum vdo_zone_type` values used by the journal. -/
inductive vdo_zone_type where
  | VDO_ZONE_TYPE_JOURNAL
  | VDO_ZONE_TYPE_LOGICAL
  | VDO_ZONE_TYPE_PHYSICAL
  deriving DecidableEq, Repr

/-- The `enum lock_counter_state` of the source. -/
inductive lock_counter_state where
  | LOCK_COUNTER_STATE_NOT_NOTIFYING
  | LOCK_COUNTER_STATE_NOTIFYING
  | LOCK_COUNTER_STATE_SUSPENDED
  deriving DecidableEq, Repr

/-- The result codes the journal produces or passes on; `block_buffer_full` stands for the
error, not named by the spec, with which a full block buffer rejects an append. -/
inductive vdo_status where
  | VDO_SUCCESS
  | VDO_READ_ONLY
  | VDO_JOURNAL_OVERFLOW
  | VDO_RECOVERY_JOURNAL_FULL
  | VDO_INVALID_ADMIN_STATE
  | VDO_NOT_IMPLEMENTED
  | VDO_CORRUPT_JOURNAL
  | VDO_IO_ERROR (code : Nat)
  | block_buffer_full
  deriving DecidableEq, Repr

/-- The operation recorded by a journal entry (`data_vio->operation.type`). -/
inductive journal_operation where
  | VDO_JOURNAL_DATA_INCREMENT
  | VDO_JOURNAL_DATA_DECREMENT
  | VDO_JOURNAL_BLOCK_MAP_INCREMENT
  | VDO_JOURNAL_BLOCK_MAP_DECREMENT
  deriving DecidableEq, Repr

/-- The `enum block_mapping_state` of `types.h`: 0 is unmapped, 1 uncompressed, 2..15 compressed. -/
abbrev block_mapping_state := Nat

/-- The constant `VDO_MAPPING_STATE_UNMAPPED` of `types.h`. -/
def VDO_MAPPING_STATE_UNMAPPED : block_mapping_state := 0

/-- A position in the journal (`struct journal_point`). -/
structure journal_point where
  sequence_number : Nat
  entry_count : Nat
  deriving DecidableEq, Repr

/-- The part of `struct data_vio` the journal reads and writes; `id` stands for its address. -/
structure data_vio where
  id : Nat
  operation_type : journal_operation
  operation_state : block_mapping_state
  recovery_sequence_number : Nat
  recovery_journal_point : journal_point
  deriving DecidableEq, Repr

/-- The in-memory journal block (`struct recovery_journal_block`); `id` stands for its address. -/
structure recovery_journal_block where
  id : Nat
  sequence_number : Nat
  block_number : Nat
  entry_count : Nat
  uncommitted_entry_count : Nat
  entries_in_commit : Nat
  committing : Bool
  entry_waiters : List data_vio
  commit_waiters : List data_vio
  deriving DecidableEq, Repr

/-- Modelled from the spec: the admin states of the lifecycle (created suspended, opened
to normal operation, drained by suspend or save, resumed); `admin-state.h` is not among the
sources. -/
inductive admin_state_code where
  | VDO_ADMIN_STATE_NORMAL_OPERATION
  | VDO_ADMIN_STATE_SUSPENDING
  | VDO_ADMIN_STATE_SAVING
  | VDO_ADMIN_STATE_SUSPENDED
  | VDO_ADMIN_STATE_SAVED
  deriving DecidableEq, Repr

/-- The calls by which the journal acts on its collaborators. -/
inductive Event where
  | enter_read_only (error_code : vdo_status)
  | continue_data_vio (waiter : data_vio) (result : vdo_status)
  | commit_notification (waiter : data_vio) (result : vdo_status)
  | commit_order_assertion_failed (commit_point waiter_point : journal_point)
  | lock_counter_notification
  | commit_oldest_slab_journal_tail_blocks (slab_journal_head : Nat)
  | advance_block_map_era (tail : Nat)
  | submit_block_write (block_id sequence_number entries_in_commit : Nat)
  | submit_flush
  | finish_draining (result : vdo_status)
  deriving DecidableEq, Repr

/-- The lock counter (`struct lock_counter`). -/
structure lock_counter where
  logical_zones : Nat
  physical_zones : Nat
  locks : Nat
  state : lock_counter_state
  journal_counters : Nat → Nat
  journal_decrement_counts : Nat → Int
  logical_counters : Nat → Nat
  logical_zone_counts : Nat → Int
  physical_counters : Nat → Nat
  physical_zone_counts : Nat → Int

/-- The counters of `struct recovery_journal_statistics`. -/
structure recovery_journal_statistics where
  disk_full : Nat
  slab_journal_commits_requested : Nat
  entries_started : Nat
  entries_written : Nat
  entries_committed : Nat
  blocks_started : Nat
  blocks_written : Nat
  blocks_committed : Nat
  deriving DecidableEq, Repr

/-- The journal (`struct recovery_journal`). `read_only` is what `vdo_is_read_only` answers
on the journal thread; `trace` is the record of the outgoing calls made so far. -/
structure recovery_journal where
  size : Nat
  entries_per_block : Nat
  tail : Nat
  append_point : journal_point
  last_write_acknowledged : Nat
  commit_point : journal_point
  block_map_head : Nat
  slab_journal_head : Nat
  block_map_reap_head : Nat
  slab_journal_reap_head : Nat
  block_map_head_block_number : Nat
  slab_journal_head_block_number : Nat
  slab_journal_commit_threshold : Nat
  available_space : Nat
  pending_decrement_count : Nat
  logical_blocks_used : Nat
  block_map_data_blocks : Nat
  pending_write_count : Nat
  increment_waiters : List data_vio
  decrement_waiters : List data_vio
  pending_writes : List Nat
  free_tail_blocks : List recovery_journal_block
  active_tail_blocks : List recovery_journal_block
  active_block : Option Nat
  reaping : Bool
  adding_entries : Bool
  state : admin_state_code
  read_only : Bool
  lock_counter : lock_counter
  events : recovery_journal_statistics
  trace : List Event

open vdo_zone_type lock_counter_state vdo_status journal_operation admin_state_code

/-! ## Lock counter -/

/-- Modelled from the spec: `block_number = sequence_number mod size`
(`vdo_get_recovery_journal_block_number` is declared in `recovery-journal.h`, which is not
among the sources). -/
def vdo_get_recovery_journal_block_number (journal : recovery_journal) (sequence_number : Nat) : Nat :=
  sequence_number % journal.size

/-- The value of `*get_zone_count_ptr(journal, lock_number, zone_type)`. -/
def get_zone_count (journal : recovery_journal) (lock_number : Nat) (zone_type : vdo_zone_type) : Int :=
  if zone_type = VDO_ZONE_TYPE_LOGICAL then journal.lock_counter.logical_zone_counts lock_number
  else journal.lock_counter.physical_zone_counts lock_number

/-- A store through `get_zone_count_ptr(journal, lock_number, zone_type)`. -/
def set_zone_count (journal : recovery_journal) (lock_number : Nat) (zone_type : vdo_zone_type)
    (value : Int) : recovery_journal :=
  if zone_type = VDO_ZONE_TYPE_LOGICAL then
    { journal with lock_counter := { journal.lock_counter with
        logical_zone_counts := Function.update journal.lock_counter.logical_zone_counts lock_number value } }
  else
    { journal with lock_counter := { journal.lock_counter with
        physical_zone_counts := Function.update journal.lock_counter.physical_zone_counts lock_number value } }

/-- The value of `*get_counter(journal, lock_number, zone_type, zone_id)`. -/
def get_counter (journal : recovery_journal) (lock_number : Nat) (zone_type : vdo_zone_type)
    (zone_id : Nat) : Nat :=
  let zone_counter := journal.lock_counter.locks * zone_id + lock_number
  if zone_type = VDO_ZONE_TYPE_JOURNAL then journal.lock_counter.journal_counters zone_counter
  else if zone_type = VDO_ZONE_TYPE_LOGICAL then journal.lock_counter.logical_counters zone_counter
  else journal.lock_counter.physical_counters zone_counter

/-- A store of a `uint16_t` through `get_counter(journal, lock_number, zone_type, zone_id)`. -/
def set_counter (journal : recovery_journal) (lock_number : Nat) (zone_type : vdo_zone_type)
    (zone_id : Nat) (value : Nat) : recovery_journal :=
  let zone_counter := journal.lock_counter.locks * zone_id + lock_number
  if zone_type = VDO_ZONE_TYPE_JOURNAL then
    { journal with lock_counter := { journal.lock_counter with
        journal_counters := Function.update journal.lock_counter.journal_counters zone_counter (to_u16 value) } }
  else if zone_type = VDO_ZONE_TYPE_LOGICAL then
    { journal with lock_counter := { journal.lock_counter with
        logical_counters := Function.update journal.lock_counter.logical_counters zone_counter (to_u16 value) } }
  else
    { journal with lock_counter := { journal.lock_counter with
        physical_counters := Function.update journal.lock_counter.physical_counters zone_counter (to_u16 value) } }

/-- The value of `atomic_read(get_decrement_counter(journal, lock_number))`. -/
def get_decrement_counter (journal : recovery_journal) (lock_number : Nat) : Int :=
  journal.lock_counter.journal_decrement_counts lock_number

/-- A store through `get_decrement_counter(journal, lock_number)`. -/
def set_decrement_counter (journal : recovery_journal) (lock_number : Nat) (value : Int) :
    recovery_journal :=
  { journal with lock_counter := { journal.lock_counter with
      journal_decrement_counts :=
        Function.update journal.lock_counter.journal_decrement_counts lock_number value } }

/-- The function `is_journal_zone_locked`. -/
def is_journal_zone_locked (journal : recovery_journal) (lock_number : Nat) : Bool :=
  let journal_value := get_counter journal lock_number VDO_ZONE_TYPE_JOURNAL 0
  let decrements := to_u32 (get_decrement_counter journal lock_number)
  decide (journal_value ≠ decrements)

/-- The tail of `vdo_release_recovery_journal_block_reference`: the compare-and-swap of the
state from not-notifying to notifying and, when it succeeds, the invocation of the lock
counter's completion. -/
def notify_lock_counter (journal : recovery_journal) : recovery_journal :=
  if journal.lock_counter.state = LOCK_COUNTER_STATE_NOT_NOTIFYING then
    { journal with
      lock_counter := { journal.lock_counter with state := LOCK_COUNTER_STATE_NOTIFYING }
      trace := journal.trace ++ [Event.lock_counter_notification] }
  else journal

/-- The function `vdo_release_recovery_journal_block_reference`. -/
def vdo_release_recovery_journal_block_reference (journal : recovery_journal)
    (sequence_number : Nat) (zone_type : vdo_zone_type) (zone_id : Nat) : recovery_journal :=
  if sequence_number = 0 then journal
  else
    let lock_number := vdo_get_recovery_journal_block_number journal sequence_number
    let current_value := get_counter journal lock_number zone_type zone_id
    let journal1 := set_counter journal lock_number zone_type zone_id (current_value + 65535)
    if zone_type = VDO_ZONE_TYPE_JOURNAL then
      if is_journal_zone_locked journal1 lock_number then journal1
      else notify_lock_counter journal1
    else
      if get_counter journal1 lock_number zone_type zone_id ≠ 0 then journal1
      else
        let zone_count := atomic_add_return (-1) (get_zone_count journal1 lock_number zone_type)
        let journal2 := set_zone_count journal1 lock_number zone_type zone_count
        if zone_count > 0 then journal2
        else notify_lock_counter journal2

/-- The function `vdo_acquire_recovery_journal_block_reference`. -/
def vdo_acquire_recovery_journal_block_reference (journal : recovery_journal)
    (sequence_number : Nat) (zone_type : vdo_zone_type) (zone_id : Nat) : recovery_journal :=
  if sequence_number = 0 then journal
  else
    let lock_number := vdo_get_recovery_journal_block_number journal sequence_number
    let current_value := get_counter journal lock_number zone_type zone_id
    let journal1 :=
      if current_value = 0 then
        set_zone_count journal lock_number zone_type
          (atomic_inc (get_zone_count journal lock_number zone_type))
      else journal
    set_counter journal1 lock_number zone_type zone_id (current_value + 1)

/-- The function `vdo_release_journal_entry_lock`. -/
def vdo_release_journal_entry_lock (journal : recovery_journal) (sequence_number : Nat) :
    recovery_journal :=
  if sequence_number = 0 then journal
  else
    let lock_number := vdo_get_recovery_journal_block_number journal sequence_number
    set_decrement_counter journal lock_number
      (atomic_inc (get_decrement_counter journal lock_number))

/-- The function `suspend_lock_counter`: the new state and the returned flag. -/
def suspend_lock_counter (journal : recovery_journal) : Bool × recovery_journal :=
  let prior_state := journal.lock_counter.state
  let journal1 :=
    if prior_state = LOCK_COUNTER_STATE_NOT_NOTIFYING then
      { journal with lock_counter := { journal.lock_counter with state := LOCK_COUNTER_STATE_SUSPENDED } }
    else journal
  (decide (prior_state = LOCK_COUNTER_STATE_SUSPENDED ∨ prior_state = LOCK_COUNTER_STATE_NOT_NOTIFYING),
    journal1)

/-- The function `resume_lock_counter`: the new state and the returned flag. -/
def resume_lock_counter (journal : recovery_journal) : Bool × recovery_journal :=
  let prior_state := journal.lock_counter.state
  let journal1 :=
    if prior_state = LOCK_COUNTER_STATE_SUSPENDED then
      { journal with lock_counter := { journal.lock_counter with state := LOCK_COUNTER_STATE_NOT_NOTIFYING } }
    else journal
  (decide (prior_state = LOCK_COUNTER_STATE_SUSPENDED), journal1)

/-! ## Entry space -/

/-- The function `check_for_entry_space`; `available_space` is a `uint64_t`, so the
difference is taken modulo `2 ^ 64`. -/
def check_for_entry_space (journal : recovery_journal) (increment : Bool) : Bool :=
  if increment then
    decide (sub_u64 journal.available_space journal.pending_decrement_count > 1)
  else
    decide (journal.available_space > 0)

/-- The journal as `UDS_ALLOCATE` returns it: every field zero, every list empty. -/
def allocated_journal : recovery_journal :=
  { size := 0, entries_per_block := 0, tail := 0, append_point := ⟨0, 0⟩,
    last_write_acknowledged := 0, commit_point := ⟨0, 0⟩, block_map_head := 0,
    slab_journal_head := 0, block_map_reap_head := 0, slab_journal_reap_head := 0,
    block_map_head_block_number := 0, slab_journal_head_block_number := 0,
    slab_journal_commit_threshold := 0, available_space := 0, pending_decrement_count := 0,
    logical_blocks_used := 0, block_map_data_blocks := 0, pending_write_count := 0,
    increment_waiters := [], decrement_waiters := [], pending_writes := [],
    free_tail_blocks := [], active_tail_blocks := [], active_block := none,
    reaping := false, adding_entries := false, state := VDO_ADMIN_STATE_NORMAL_OPERATION,
    read_only := false,
    lock_counter :=
      { logical_zones := 0, physical_zones := 0, locks := 0,
        state := LOCK_COUNTER_STATE_NOT_NOTIFYING,
        journal_counters := fun _ => 0, journal_decrement_counts := fun _ => 0,
        logical_counters := fun _ => 0, logical_zone_counts := fun _ => 0,
        physical_counters := fun _ => 0, physical_zone_counts := fun _ => 0 },
    events := ⟨0, 0, 0, 0, 0, 0, 0, 0⟩,
    trace := [] }

/-- A small journal on which the definitions are evaluated: four on-disk blocks with three
entries each, two logical and two physical zones, next sequence number 1. -/
def sample_journal : recovery_journal :=
  { allocated_journal with
    size := 4, entries_per_block := 3, tail := 1,
    lock_counter := { allocated_journal.lock_counter with
      locks := 4, logical_zones := 2, physical_zones := 2 } }

/-- The sample journal with one reference held by logical zone 1 on block 1. -/
def sample_journal_locked : recovery_journal :=
  { sample_journal with
    lock_counter := { sample_journal.lock_counter with
      journal_counters := fun i => if i = 1 then 2 else 0,
      logical_counters := fun i => if i = 4 ∨ i = 5 then 1 else 0,
      logical_zone_counts := fun i => if i ≤ 1 then 1 else 0 } }

/-- The sample journal in a state the lock counter never produces: physical zone 0 holds a
reference on block 1 that the physical aggregate of block 1 does not count. -/
def sample_journal_uncounted : recovery_journal :=
  { sample_journal with
    lock_counter := { sample_journal.lock_counter with
      physical_counters := fun i => if i = 1 then 1 else 0 } }

/-- The function `initialize_lock_counter`: the arrays are allocated zeroed, the zone counts
are taken from the thread configuration and `locks` is the journal size. -/
def initialize_lock_counter (journal : recovery_journal)
    (logical_zone_count physical_zone_count : Nat) : recovery_journal :=
  { journal with
    lock_counter :=
      { logical_zones := logical_zone_count,
        physical_zones := physical_zone_count,
        locks := journal.size,
        state := journal.lock_counter.state,
        journal_counters := fun _ => 0,
        journal_decrement_counts := fun _ => 0,
        logical_counters := fun _ => 0,
        logical_zone_counts := fun _ => 0,
        physical_counters := fun _ => 0,
        physical_zone_counts := fun _ => 0 } }

/-- The per-zone counter array of a logical or physical zone type. -/
def counters_of (counter : lock_counter) (zone_type : vdo_zone_type) : Nat → Nat :=
  if zone_type = VDO_ZONE_TYPE_LOGICAL then counter.logical_counters else counter.physical_counters

/-- The aggregate array of a logical or physical zone type. -/
def zone_counts_of (counter : lock_counter) (zone_type : vdo_zone_type) : Nat → Int :=
  if zone_type = VDO_ZONE_TYPE_LOGICAL then counter.logical_zone_counts
  else counter.physical_zone_counts

/-- The number of zones of a logical or physical zone type. -/
def zones_of (counter : lock_counter) (zone_type : vdo_zone_type) : Nat :=
  if zone_type = VDO_ZONE_TYPE_LOGICAL then counter.logical_zones else counter.physical_zones

/-- The number of zones, among the first `zones`, whose counter for the block `lock_number`
is non-zero. -/
def zones_holding (counters : Nat → Nat) (locks lock_number : Nat) : Nat → Nat
  | 0 => 0
  | zones + 1 =>
    zones_holding counters locks lock_number zones
      + (if counters (locks * zones + lock_number) ≠ 0 then 1 else 0)

/-- The states of the journal reached from `start` by acquire and release calls of logical
and physical zones (each zone using its own zone id) that never release a counter that is 0
and never acquire on a counter that is at its maximum. -/
inductive zone_lock_run (start : recovery_journal) : recovery_journal → Prop where
  | init : zone_lock_run start start
  | acquire (journal : recovery_journal) (sequence_number zone_id : Nat)
      (zone_type : vdo_zone_type) :
      zone_lock_run start journal →
      zone_type ≠ VDO_ZONE_TYPE_JOURNAL →
      zone_id < zones_of journal.lock_counter zone_type →
      (sequence_number ≠ 0 →
        get_counter journal (sequence_number % journal.size) zone_type zone_id < UINT16_MAX) →
      zone_lock_run start
        (vdo_acquire_recovery_journal_block_reference journal sequence_number zone_type zone_id)
  | release (journal : recovery_journal) (sequence_number zone_id : Nat)
      (zone_type : vdo_zone_type) :
      zone_lock_run start journal →
      zone_type ≠ VDO_ZONE_TYPE_JOURNAL →
      zone_id < zones_of journal.lock_counter zone_type →
      (sequence_number ≠ 0 →
        1 ≤ get_counter journal (sequence_number % journal.size) zone_type zone_id) →
      zone_lock_run start
        (vdo_release_recovery_journal_block_reference journal sequence_number zone_type zone_id)

/-- The property of a lock counter that every aggregate counts the zones holding the block,
together with the bounds that keep the machine arithmetic exact. -/
def aggregates_exact (journal : recovery_journal) : Prop :=
  journal.lock_counter.locks = journal.size
  ∧ 0 < journal.size
  ∧ journal.lock_counter.logical_zones < 256
  ∧ journal.lock_counter.physical_zones < 256
  ∧ ∀ zone_type, zone_type ≠ VDO_ZONE_TYPE_JOURNAL →
      (∀ i, counters_of journal.lock_counter zone_type i < 65536)
      ∧ ∀ lock_number, lock_number < journal.lock_counter.locks →
          zone_counts_of journal.lock_counter zone_type lock_number
            = zones_holding (counters_of journal.lock_counter zone_type)
                journal.lock_counter.locks lock_number (zones_of journal.lock_counter zone_type)

/-! ## Journal blocks and waiters -/

/-- Addition of two `uint64_t` values. -/
def add_u64 (a b : Nat) : Nat := (a + b) % 18446744073709551616

/-- Modelled from the spec: journal positions are ordered lexicographically
(`vdo_before_journal_point` is defined in `journal-point.h`, which is not among the sources). -/
def vdo_before_journal_point (first second : journal_point) : Bool :=
  decide (first.sequence_number < second.sequence_number
    ∨ (first.sequence_number = second.sequence_number ∧ first.entry_count < second.entry_count))

/-- Modelled from the spec: a journal position names an entry slot of a block, so advancing
it moves to the next slot and, past the last slot of a block, to the first slot of the next
block (`vdo_advance_journal_point` is defined in `journal-point.h`, which is not among the
sources). -/
def vdo_advance_journal_point (point : journal_point) (entries_per_block : Nat) : journal_point :=
  if point.entry_count + 1 = entries_per_block then ⟨point.sequence_number + 1, 0⟩
  else ⟨point.sequence_number, point.entry_count + 1⟩

/-- The function `get_journal_block`: the first block of a list, or NULL. -/
def get_journal_block (list : List recovery_journal_block) : Option recovery_journal_block :=
  list.head?

/-- The function `pop_free_list`: the last block of the free list, removed from it. -/
def pop_free_list (journal : recovery_journal) : Option recovery_journal_block × recovery_journal :=
  match journal.free_tail_blocks.getLast? with
  | none => (none, journal)
  | some block => (some block, { journal with free_tail_blocks := journal.free_tail_blocks.dropLast })

/-- The function `is_block_dirty`. -/
def is_block_dirty (block : recovery_journal_block) : Bool :=
  decide (block.uncommitted_entry_count > 0)

/-- The function `is_block_empty`. -/
def is_block_empty (block : recovery_journal_block) : Bool :=
  decide (block.entry_count = 0)

/-- The function `is_block_full`; the journal of the block is the journal at hand. -/
def is_block_full (journal : recovery_journal) (block : Option recovery_journal_block) : Bool :=
  match block with
  | none => true
  | some b => decide (journal.entries_per_block = b.entry_count)

/-- The block a block pointer refers to: the block with that address on the active list or,
failing that, on the free list. -/
def block_at (journal : recovery_journal) (id : Nat) : Option recovery_journal_block :=
  (journal.active_tail_blocks ++ journal.free_tail_blocks).find? (fun b => b.id = id)

/-- The block `journal->active_block` points to, `none` when the pointer is NULL. -/
def active_block_of (journal : recovery_journal) : Option recovery_journal_block :=
  match journal.active_block with
  | none => none
  | some id => block_at journal id

/-- The list of blocks after a store to the fields of the first block at a given address. -/
def update_first (id : Nat) (f : recovery_journal_block → recovery_journal_block) :
    List recovery_journal_block → List recovery_journal_block
  | [] => []
  | b :: rest => if b.id = id then f b :: rest else b :: update_first id f rest

/-- A store to the fields of the block at a given address, the block `block_at` finds. -/
def update_block (journal : recovery_journal) (id : Nat)
    (f : recovery_journal_block → recovery_journal_block) : recovery_journal :=
  if journal.active_tail_blocks.any (fun b => b.id = id) then
    { journal with active_tail_blocks := update_first id f journal.active_tail_blocks }
  else
    { journal with free_tail_blocks := update_first id f journal.free_tail_blocks }

/-- The function `continue_waiter`: the data_vio is continued with the result of the context. -/
def continue_waiter (result : vdo_status) (journal : recovery_journal) (waiter : data_vio) :
    recovery_journal :=
  { journal with trace := journal.trace ++ [Event.continue_data_vio waiter result] }

/-- The function `has_block_waiters`. -/
def has_block_waiters (journal : recovery_journal) : Bool :=
  match get_journal_block journal.active_tail_blocks with
  | none => false
  | some block => !block.entry_waiters.isEmpty || !block.commit_waiters.isEmpty

/-- The function `release_journal_block_reference`. -/
def release_journal_block_reference (journal : recovery_journal)
    (block : recovery_journal_block) : recovery_journal :=
  vdo_release_recovery_journal_block_reference journal block.sequence_number
    VDO_ZONE_TYPE_JOURNAL 0

/-- The function `recycle_journal_block`. -/
def recycle_journal_block (journal : recovery_journal) (block : recovery_journal_block) :
    recovery_journal :=
  let journal1 :=
    { journal with
      active_tail_blocks := journal.active_tail_blocks.erase block
      free_tail_blocks := journal.free_tail_blocks.erase block ++ [block] }
  let journal2 :=
    Nat.iterate (fun j => release_journal_block_reference j block)
      (journal1.entries_per_block - block.entry_count) journal1
  let journal3 :=
    if block.entry_count > 0 then release_journal_block_reference journal2 block else journal2
  if journal3.active_block = some block.id then { journal3 with active_block := none }
  else journal3

/-- The function `continue_committed_waiter`. A failure of its assertion is recorded in the
trace, as `ASSERT_LOG_ONLY` records it in the log. -/
def continue_committed_waiter (journal : recovery_journal) (waiter : data_vio) : recovery_journal :=
  let result := if journal.read_only then VDO_READ_ONLY else VDO_SUCCESS
  let asserted :=
    if vdo_before_journal_point journal.commit_point waiter.recovery_journal_point then journal.trace
    else journal.trace ++
      [Event.commit_order_assertion_failed journal.commit_point waiter.recovery_journal_point]
  { journal with
    commit_point := waiter.recovery_journal_point
    trace := asserted ++ [Event.commit_notification waiter result] }

/-- The loop of `notify_commit_waiters` over the active blocks from a given block on: the
journal after the notifications and the blocks as the loop leaves them. -/
def notify_commit_waiters_from (journal : recovery_journal) :
    List recovery_journal_block → recovery_journal × List recovery_journal_block
  | [] => (journal, [])
  | block :: rest =>
    if block.committing then (journal, block :: rest)
    else
      let journal1 := block.commit_waiters.foldl continue_committed_waiter journal
      if journal1.read_only then
        let journal2 := block.entry_waiters.foldl continue_committed_waiter journal1
        let result := notify_commit_waiters_from journal2 rest
        (result.1, { block with commit_waiters := [], entry_waiters := [] } :: result.2)
      else if is_block_dirty block || !is_block_full journal1 (some block) then
        (journal1, { block with commit_waiters := [] } :: rest)
      else
        let result := notify_commit_waiters_from journal1 rest
        (result.1, { block with commit_waiters := [] } :: result.2)

/-- The function `notify_commit_waiters`. -/
def notify_commit_waiters (journal : recovery_journal) : recovery_journal :=
  let result := notify_commit_waiters_from journal journal.active_tail_blocks
  { result.1 with active_tail_blocks := result.2 }

/-- The loop of `recycle_journal_blocks` over the active blocks from a given block on. -/
def recycle_journal_blocks_from (journal : recovery_journal) :
    List recovery_journal_block → recovery_journal
  | [] => journal
  | block :: rest =>
    if block.committing then journal
    else if !journal.read_only && (is_block_dirty block || !is_block_full journal (some block)) then
      journal
    else recycle_journal_blocks_from (recycle_journal_block journal block) rest

/-- The function `recycle_journal_blocks`. -/
def recycle_journal_blocks (journal : recovery_journal) : recovery_journal :=
  recycle_journal_blocks_from journal journal.active_tail_blocks

/-! ## Admin state and read-only mode -/

/-- Modelled from the spec: the journal accepts entries only in normal operation. -/
def vdo_is_state_normal (state : admin_state_code) : Bool :=
  decide (state = VDO_ADMIN_STATE_NORMAL_OPERATION)

/-- Modelled from the spec: a drain is a suspend or a save in progress. -/
def vdo_is_state_draining (state : admin_state_code) : Bool :=
  decide (state = VDO_ADMIN_STATE_SUSPENDING ∨ state = VDO_ADMIN_STATE_SAVING)

/-- Modelled from the spec: the save drain in progress. -/
def vdo_is_state_saving (state : admin_state_code) : Bool :=
  decide (state = VDO_ADMIN_STATE_SAVING)

/-- Modelled from the spec: the journal is trying to quiesce while it drains. -/
def vdo_is_state_quiescing (state : admin_state_code) : Bool :=
  vdo_is_state_draining state

/-- Modelled from the spec: the quiescent states are suspended and saved. -/
def vdo_is_state_quiescent (state : admin_state_code) : Bool :=
  decide (state = VDO_ADMIN_STATE_SUSPENDED ∨ state = VDO_ADMIN_STATE_SAVED)

/-- Modelled from the spec: the state reached by a completed save. -/
def vdo_is_state_saved (state : admin_state_code) : Bool :=
  decide (state = VDO_ADMIN_STATE_SAVED)

/-- Modelled from the spec: finishing a drain moves suspending to suspended and saving to
saved and reports the result to the parent of the drain. -/
def vdo_finish_draining_with_result (journal : recovery_journal) (result : vdo_status) :
    recovery_journal :=
  { journal with
    state :=
      if journal.state = VDO_ADMIN_STATE_SUSPENDING then VDO_ADMIN_STATE_SUSPENDED
      else if journal.state = VDO_ADMIN_STATE_SAVING then VDO_ADMIN_STATE_SAVED
      else journal.state
    trace := journal.trace ++ [Event.finish_draining result] }

/-- Modelled from the spec: entering read-only mode makes `vdo_is_read_only` true from then
on; the call and its error code are recorded (`read-only-notifier.c` is not among the
sources). -/
def vdo_enter_read_only_mode (journal : recovery_journal) (error_code : vdo_status) :
    recovery_journal :=
  { journal with
    read_only := true
    trace := journal.trace ++ [Event.enter_read_only error_code] }

/-- The first part of `check_for_drain_complete`, taken when the journal is read-only: the
commit waiters are notified, the blocks recycled and the data_vios waiting to be assigned
entries released with `VDO_READ_ONLY`. -/
def release_waiters_read_only (journal : recovery_journal) : recovery_journal :=
  let notified := notify_commit_waiters journal
  let recycled := recycle_journal_blocks notified
  let decrements_released :=
    recycled.decrement_waiters.foldl (continue_waiter VDO_READ_ONLY)
      { recycled with decrement_waiters := [] }
  decrements_released.increment_waiters.foldl (continue_waiter VDO_READ_ONLY)
    { decrements_released with increment_waiters := [] }

/-- The second part of `check_for_drain_complete`: the drain is finished with `result` if
nothing is left to wait for. -/
def finish_drain_if_complete (journal : recovery_journal) (result : vdo_status) : recovery_journal :=
  if !vdo_is_state_draining journal.state || journal.reaping || has_block_waiters journal
      || !journal.increment_waiters.isEmpty || !journal.decrement_waiters.isEmpty then
    journal
  else
    let suspended := suspend_lock_counter journal
    if !suspended.1 then suspended.2
    else
      let journal1 :=
        if vdo_is_state_saving suspended.2.state then
          match active_block_of suspended.2 with
          | some block => recycle_journal_block suspended.2 block
          | none => suspended.2
        else suspended.2
      vdo_finish_draining_with_result journal1 result

/-- The function `check_for_drain_complete`. -/
def check_for_drain_complete (journal : recovery_journal) : recovery_journal :=
  if journal.read_only then
    finish_drain_if_complete (release_waiters_read_only journal) VDO_READ_ONLY
  else finish_drain_if_complete journal VDO_SUCCESS

/-- The function `notify_recovery_journal_of_read_only_mode`. -/
def notify_recovery_journal_of_read_only_mode (journal : recovery_journal) : recovery_journal :=
  check_for_drain_complete journal

/-- The function `enter_journal_read_only_mode`. -/
def enter_journal_read_only_mode (journal : recovery_journal) (error_code : vdo_status) :
    recovery_journal :=
  check_for_drain_complete (vdo_enter_read_only_mode journal error_code)

/-- The function `get_recovery_journal_head`. -/
def get_recovery_journal_head (journal : recovery_journal) : Nat :=
  min journal.block_map_head journal.slab_journal_head

/-- The function `check_slab_journal_commit_threshold`. -/
def check_slab_journal_commit_threshold (journal : recovery_journal) : recovery_journal :=
  let current_length := sub_u64 journal.tail journal.slab_journal_head
  if current_length > journal.slab_journal_commit_threshold then
    { journal with
      events := { journal.events with
        slab_journal_commits_requested :=
          add_u64 journal.events.slab_journal_commits_requested 1 }
      trace := journal.trace ++
        [Event.commit_oldest_slab_journal_tail_blocks journal.slab_journal_head] }
  else journal

/-! ## Entry assignment -/

/-- Subtraction of two `uint16_t` values. -/
def sub_u16 (a b : Nat) : Nat := (a + (65536 - b % 65536)) % 65536

/-- The function `set_journal_tail`. -/
def set_journal_tail (journal : recovery_journal) (tail : Nat) : recovery_journal :=
  let journal1 :=
    if tail ≥ 2 ^ 48 then enter_journal_read_only_mode journal VDO_JOURNAL_OVERFLOW
    else journal
  { journal1 with tail := tail }

/-- Modelled from the spec: `reset(sequence_number)` initialises the block buffer empty, at
the position `sequence_number mod size` of the ring (`vdo_initialize_recovery_block` is
defined in `recovery-journal-block.c`, which is not among the sources); the sequence number
is the tail of the journal. -/
def vdo_initialize_recovery_block (journal : recovery_journal) (block : recovery_journal_block) :
    recovery_journal_block :=
  { block with
    sequence_number := journal.tail
    block_number := vdo_get_recovery_journal_block_number journal journal.tail
    entry_count := 0
    uncommitted_entry_count := 0
    entries_in_commit := 0
    committing := false
    entry_waiters := []
    commit_waiters := [] }

/-- The function `advance_tail`. The notice to the block map (`vdo_advance_block_map_era`)
is recorded in the trace. -/
def advance_tail (journal : recovery_journal) : Bool × recovery_journal :=
  match pop_free_list journal with
  | (none, journal1) => (false, { journal1 with active_block := none })
  | (some block, journal1) =>
    let journal2 :=
      { journal1 with
        active_block := some block.id
        active_tail_blocks :=
          journal1.active_tail_blocks ++ [vdo_initialize_recovery_block journal1 block] }
    let journal3 := set_journal_tail journal2 (add_u64 journal2.tail 1)
    (true, { journal3 with trace := journal3.trace ++ [Event.advance_block_map_era journal3.tail] })

/-- The body of `initialize_lock_count` for the block `journal->active_block` points to. -/
def initialize_lock_count_of (journal : recovery_journal) (block : recovery_journal_block) :
    recovery_journal :=
  let lock_number := block.block_number
  let journal1 :=
    set_counter journal lock_number VDO_ZONE_TYPE_JOURNAL 0 (journal.entries_per_block + 1)
  set_decrement_counter journal1 lock_number 0

/-- The function `initialize_lock_count`; `none` when `journal->active_block` is NULL. -/
def initialize_lock_count (journal : recovery_journal) : Option recovery_journal :=
  match active_block_of journal with
  | none => none
  | some block => some (initialize_lock_count_of journal block)

/-- The function `prepare_to_assign_entry`: the returned flag and the journal, `none` when
`is_block_empty` is applied to a NULL active block. -/
def prepare_to_assign_entry (journal : recovery_journal) (increment : Bool) :
    Option (Bool × recovery_journal) :=
  if !check_for_entry_space journal increment then
    if !increment then
      some (false, enter_journal_read_only_mode journal VDO_RECOVERY_JOURNAL_FULL)
    else some (false, journal)
  else
    let advanced :=
      if is_block_full journal (active_block_of journal) then advance_tail journal
      else (true, journal)
    if !advanced.1 then some (false, advanced.2)
    else
      match active_block_of advanced.2 with
      | none => none
      | some block =>
        if !is_block_empty block then some (true, advanced.2)
        else if sub_u64 advanced.2.tail (get_recovery_journal_head advanced.2) > advanced.2.size then
          some (false, { advanced.2 with
            events := { advanced.2.events with disk_full := add_u64 advanced.2.events.disk_full 1 } })
        else
          match initialize_lock_count advanced.2 with
          | none => none
          | some journal1 => some (true, journal1)

/-- The function `schedule_block_write`. -/
def schedule_block_write (journal : recovery_journal) (block : recovery_journal_block) :
    recovery_journal :=
  if !block.committing then { journal with pending_writes := journal.pending_writes ++ [block.id] }
  else journal

/-- Modelled from the spec: `append` rejects when the block is full and otherwise appends the
entry, which then counts as recorded and as uncommitted, its data_vio waiting on the block
(`vdo_enqueue_recovery_block_entry` is defined in `recovery-journal-block.c`, which is not
among the sources). -/
def vdo_enqueue_recovery_block_entry (journal : recovery_journal) (block : recovery_journal_block)
    (waiter : data_vio) : vdo_status × recovery_journal :=
  if is_block_full journal (some block) then (block_buffer_full, journal)
  else
    (VDO_SUCCESS, update_block journal block.id (fun b =>
      { b with
        entry_waiters := b.entry_waiters ++ [waiter]
        entry_count := b.entry_count + 1
        uncommitted_entry_count := b.uncommitted_entry_count + 1 }))

/-- The function `assign_entry`; `waiter` has already been taken off its queue and `block` is
the block the context pointer refers to. -/
def assign_entry (journal : recovery_journal) (waiter : data_vio) (block : recovery_journal_block) :
    recovery_journal :=
  let stamped : data_vio :=
    { waiter with recovery_journal_point := ⟨block.sequence_number, block.entry_count⟩ }
  let counted : Option recovery_journal :=
    match stamped.operation_type with
    | VDO_JOURNAL_DATA_INCREMENT =>
      let journal1 :=
        if stamped.operation_state ≠ VDO_MAPPING_STATE_UNMAPPED then
          { journal with logical_blocks_used := add_u64 journal.logical_blocks_used 1 }
        else journal
      some { journal1 with pending_decrement_count := to_u16 (journal1.pending_decrement_count + 1) }
    | VDO_JOURNAL_DATA_DECREMENT =>
      let journal1 :=
        if stamped.operation_state ≠ VDO_MAPPING_STATE_UNMAPPED then
          { journal with logical_blocks_used := sub_u64 journal.logical_blocks_used 1 }
        else journal
      let journal2 := release_journal_block_reference journal1 block
      some { journal2 with pending_decrement_count := sub_u16 journal2.pending_decrement_count 1 }
    | VDO_JOURNAL_BLOCK_MAP_INCREMENT =>
      some { journal with block_map_data_blocks := add_u64 journal.block_map_data_blocks 1 }
    | VDO_JOURNAL_BLOCK_MAP_DECREMENT => none
  match counted with
  | none =>
    continue_waiter VDO_NOT_IMPLEMENTED
      (enter_journal_read_only_mode journal VDO_NOT_IMPLEMENTED) stamped
  | some journal1 =>
    let journal2 := { journal1 with available_space := sub_u64 journal1.available_space 1 }
    let enqueued := vdo_enqueue_recovery_block_entry journal2 block stamped
    if enqueued.1 ≠ VDO_SUCCESS then
      continue_waiter enqueued.1 (enter_journal_read_only_mode enqueued.2 enqueued.1) stamped
    else
      let journal3 :=
        match block_at enqueued.2 block.id with
        | some current =>
          if is_block_full enqueued.2 (some current) then schedule_block_write enqueued.2 current
          else enqueued.2
        | none => enqueued.2
      check_slab_journal_commit_threshold journal3

/-- The wait queue of `assign_entries_from_queue` selected by `increment`. -/
def entry_waiters_of (journal : recovery_journal) (increment : Bool) : List data_vio :=
  if increment then journal.increment_waiters else journal.decrement_waiters

/-- A store to the wait queue selected by `increment`. -/
def set_entry_waiters (journal : recovery_journal) (increment : Bool) (waiters : List data_vio) :
    recovery_journal :=
  if increment then { journal with increment_waiters := waiters }
  else { journal with decrement_waiters := waiters }

/-- The function `assign_entries_from_queue`, its loop bounded by `fuel` iterations: `none`
when the fuel runs out before the queue is empty or when a NULL block is dereferenced. -/
def assign_entries_from_queue (increment : Bool) :
    Nat → recovery_journal → Option (Bool × recovery_journal)
  | 0, journal =>
    if (entry_waiters_of journal increment).isEmpty then some (true, journal) else none
  | fuel + 1, journal =>
    if (entry_waiters_of journal increment).isEmpty then some (true, journal)
    else
      match prepare_to_assign_entry journal increment with
      | none => none
      | some (false, journal1) => some (false, journal1)
      | some (true, journal1) =>
        match entry_waiters_of journal1 increment with
        | [] => assign_entries_from_queue increment fuel journal1
        | waiter :: rest =>
          match active_block_of journal1 with
          | none => none
          | some block =>
            assign_entries_from_queue increment fuel
              (assign_entry (set_entry_waiters journal1 increment rest) waiter block)

/-! ## Writing blocks -/

/-- Modelled from the spec: the active block is written when it has uncommitted entries not
yet handed to a write and is not being written (`vdo_can_commit_recovery_block` is defined in
`recovery-journal-block.c`, which is not among the sources). -/
def vdo_can_commit_recovery_block (block : Option recovery_journal_block) : Bool :=
  match block with
  | none => false
  | some b => !b.committing && !b.entry_waiters.isEmpty

/-- Modelled from the spec: a block commit snapshots the entries it carries into
`entries_in_commit`, marks the block committing and submits the asynchronous write; the
data_vios of the carried entries from then on wait for the commit
(`vdo_commit_recovery_block` is defined in `recovery-journal-block.c`, which is not among the
sources). -/
def vdo_commit_recovery_block (journal : recovery_journal) (block : recovery_journal_block) :
    vdo_status × recovery_journal :=
  if !vdo_can_commit_recovery_block (some block) then (VDO_SUCCESS, journal)
  else
    let journal1 := update_block journal block.id (fun b =>
      { b with
        entries_in_commit := b.entry_waiters.length
        committing := true
        commit_waiters := b.commit_waiters ++ b.entry_waiters
        entry_waiters := [] })
    (VDO_SUCCESS,
      { journal1 with
        pending_write_count := add_u64 journal1.pending_write_count 1
        events := { journal1.events with
          blocks_written := add_u64 journal1.events.blocks_written 1
          entries_written := add_u64 journal1.events.entries_written block.entry_waiters.length }
        trace := journal1.trace ++
          [Event.submit_block_write block.id block.sequence_number block.entry_waiters.length] })

/-- The function `write_block`, applied to the block whose write waiter is notified. -/
def write_block (journal : recovery_journal) (id : Nat) : recovery_journal :=
  if journal.read_only then journal
  else
    match block_at journal id with
    | none => journal
    | some block =>
      let committed := vdo_commit_recovery_block journal block
      if committed.1 ≠ VDO_SUCCESS then enter_journal_read_only_mode committed.2 committed.1
      else committed.2

/-- The function `write_blocks`. -/
def write_blocks (journal : recovery_journal) : recovery_journal :=
  if journal.pending_write_count > 0 then journal
  else
    let journal1 := journal.pending_writes.foldl write_block { journal with pending_writes := [] }
    if journal1.pending_write_count = 0 && vdo_can_commit_recovery_block (active_block_of journal1) then
      match journal1.active_block with
      | some id => write_block journal1 id
      | none => journal1
    else journal1

/-- The function `assign_entries`; each queue is given as many iterations as it has waiters. -/
def assign_entries (journal : recovery_journal) : Option recovery_journal :=
  if journal.adding_entries then some journal
  else
    let journal1 := { journal with adding_entries := true }
    match assign_entries_from_queue false journal1.decrement_waiters.length journal1 with
    | none => none
    | some (false, journal2) => some { write_blocks journal2 with adding_entries := false }
    | some (true, journal2) =>
      match assign_entries_from_queue true journal2.increment_waiters.length journal2 with
      | none => none
      | some (_, journal3) => some { write_blocks journal3 with adding_entries := false }

/-- The function `complete_write` for the block at address `id`; `none` when the block or
the first active block does not exist. -/
def complete_write (journal : recovery_journal) (id : Nat) : Option recovery_journal :=
  match block_at journal id with
  | none => none
  | some block =>
    let journal1 :=
      { update_block journal id (fun b =>
          { b with
            uncommitted_entry_count := sub_u16 b.uncommitted_entry_count b.entries_in_commit
            entries_in_commit := 0
            committing := false }) with
        pending_write_count := sub_u64 journal.pending_write_count 1
        events := { journal.events with
          blocks_committed := add_u64 journal.events.blocks_committed 1
          entries_committed := add_u64 journal.events.entries_committed block.entries_in_commit } }
    let journal2 :=
      if block.sequence_number > journal1.last_write_acknowledged then
        { journal1 with last_write_acknowledged := block.sequence_number }
      else journal1
    match get_journal_block journal2.active_tail_blocks with
    | none => none
    | some _ =>
      let journal3 := notify_commit_waiters journal2
      let journal4 :=
        match block_at journal3 id with
        | some current =>
          if is_block_dirty current && is_block_full journal3 (some current) then
            schedule_block_write journal3 current
          else journal3
        | none => journal3
      some (check_for_drain_complete (write_blocks (recycle_journal_blocks journal4)))

/-- The function `handle_write_error` for the block at address `id` and the error of the
write. -/
def handle_write_error (journal : recovery_journal) (id : Nat) (result : vdo_status) :
    Option recovery_journal :=
  complete_write (enter_journal_read_only_mode journal result) id

/-- Modelled from the spec: the increments are data_increment and block_map_increment
(`vdo_is_journal_increment_operation` is not among the sources). -/
def vdo_is_journal_increment_operation (operation : journal_operation) : Bool :=
  decide (operation = VDO_JOURNAL_DATA_INCREMENT ∨ operation = VDO_JOURNAL_BLOCK_MAP_INCREMENT)

/-- The function `vdo_add_recovery_journal_entry`. -/
def vdo_add_recovery_journal_entry (journal : recovery_journal) (waiter : data_vio) :
    Option recovery_journal :=
  if !vdo_is_state_normal journal.state then
    some (continue_waiter VDO_INVALID_ADMIN_STATE journal waiter)
  else if journal.read_only then
    some (continue_waiter VDO_READ_ONLY journal waiter)
  else
    let increment := vdo_is_journal_increment_operation waiter.operation_type
    let journal1 :=
      { journal with
        append_point := vdo_advance_journal_point journal.append_point journal.entries_per_block }
    assign_entries
      (set_entry_waiters journal1 increment (entry_waiters_of journal1 increment ++ [waiter]))

/-! ## Reaping and lifecycle -/

/-- Multiplication of two `uint64_t` values. -/
def mul_u64 (a b : Nat) : Nat := (a * b) % 18446744073709551616

/-- The constant `RECOVERY_JOURNAL_RESERVED_BLOCKS`. -/
def RECOVERY_JOURNAL_RESERVED_BLOCKS : Nat := 8

/-- The function `vdo_get_recovery_journal_length`. -/
def vdo_get_recovery_journal_length (journal_size : Nat) : Nat :=
  let reserved_blocks := journal_size / 4
  let reserved_blocks :=
    if reserved_blocks > RECOVERY_JOURNAL_RESERVED_BLOCKS then RECOVERY_JOURNAL_RESERVED_BLOCKS
    else reserved_blocks
  journal_size - reserved_blocks

/-- The function `initialize_journal_state`. -/
def initialize_journal_state (journal : recovery_journal) : recovery_journal :=
  { journal with
    append_point := { journal.append_point with sequence_number := journal.tail }
    last_write_acknowledged := journal.tail
    block_map_head := journal.tail
    slab_journal_head := journal.tail
    block_map_reap_head := journal.tail
    slab_journal_reap_head := journal.tail
    block_map_head_block_number := vdo_get_recovery_journal_block_number journal journal.tail
    slab_journal_head_block_number := vdo_get_recovery_journal_block_number journal journal.tail
    available_space :=
      mul_u64 journal.entries_per_block (vdo_get_recovery_journal_length journal.size) }

/-- The function `is_lock_locked`. -/
def is_lock_locked (journal : recovery_journal) (lock_number : Nat) (zone_type : vdo_zone_type) :
    Bool :=
  if is_journal_zone_locked journal lock_number then true
  else decide (get_zone_count journal lock_number zone_type ≠ 0)

/-- The first loop of `reap_recovery_journal`, run for at most `fuel` iterations. -/
def reap_block_map_head : Nat → recovery_journal → recovery_journal
  | 0, journal => journal
  | fuel + 1, journal =>
    if journal.block_map_reap_head < journal.last_write_acknowledged
        ∧ !is_lock_locked journal journal.block_map_head_block_number VDO_ZONE_TYPE_LOGICAL then
      reap_block_map_head fuel
        { journal with
          block_map_reap_head := journal.block_map_reap_head + 1
          block_map_head_block_number :=
            if journal.block_map_head_block_number + 1 = journal.size then 0
            else journal.block_map_head_block_number + 1 }
    else journal

/-- The second loop of `reap_recovery_journal`, run for at most `fuel` iterations. -/
def reap_slab_journal_head : Nat → recovery_journal → recovery_journal
  | 0, journal => journal
  | fuel + 1, journal =>
    if journal.slab_journal_reap_head < journal.last_write_acknowledged
        ∧ !is_lock_locked journal journal.slab_journal_head_block_number VDO_ZONE_TYPE_PHYSICAL then
      reap_slab_journal_head fuel
        { journal with
          slab_journal_reap_head := journal.slab_journal_reap_head + 1
          slab_journal_head_block_number :=
            if journal.slab_journal_head_block_number + 1 = journal.size then 0
            else journal.slab_journal_head_block_number + 1 }
    else journal

/-- The function `reap_recovery_journal`; each loop is given as many iterations as its reap
head is behind `last_write_acknowledged`, after which its condition is false. -/
def reap_recovery_journal (journal : recovery_journal) : recovery_journal :=
  if journal.reaping then journal
  else if vdo_is_state_quiescent journal.state then journal
  else
    let journal1 :=
      reap_block_map_head (journal.last_write_acknowledged - journal.block_map_reap_head) journal
    let journal2 :=
      reap_slab_journal_head (journal1.last_write_acknowledged - journal1.slab_journal_reap_head)
        journal1
    if journal2.block_map_reap_head = journal2.block_map_head
        ∧ journal2.slab_journal_reap_head = journal2.slab_journal_head then
      journal2
    else
      { journal2 with reaping := true, trace := journal2.trace ++ [Event.submit_flush] }

/-- The function `finish_reaping`. -/
def finish_reaping (journal : recovery_journal) : Option recovery_journal :=
  let old_head := get_recovery_journal_head journal
  let journal1 :=
    { journal with
      block_map_head := journal.block_map_reap_head
      slab_journal_head := journal.slab_journal_reap_head }
  let blocks_reaped := sub_u64 (get_recovery_journal_head journal1) old_head
  let journal2 :=
    { journal1 with
      available_space :=
        add_u64 journal1.available_space (mul_u64 blocks_reaped journal1.entries_per_block)
      reaping := false }
  match assign_entries (check_slab_journal_commit_threshold journal2) with
  | none => none
  | some journal3 => some (check_for_drain_complete journal3)

/-- The function `complete_reaping`. -/
def complete_reaping (journal : recovery_journal) : Option recovery_journal :=
  match finish_reaping journal with
  | none => none
  | some journal1 => some (reap_recovery_journal journal1)

/-- The function `handle_flush_error` for the error of the flush. -/
def handle_flush_error (journal : recovery_journal) (result : vdo_status) : recovery_journal :=
  enter_journal_read_only_mode { journal with reaping := false } result

/-- The function `reap_recovery_journal_callback`. -/
def reap_recovery_journal_callback (journal : recovery_journal) : recovery_journal :=
  let journal1 :=
    { journal with
      lock_counter := { journal.lock_counter with state := LOCK_COUNTER_STATE_NOT_NOTIFYING } }
  if vdo_is_state_quiescing journal1.state then check_for_drain_complete journal1
  else check_slab_journal_commit_threshold (reap_recovery_journal journal1)

/-- The function `vdo_open_recovery_journal`. -/
def vdo_open_recovery_journal (journal : recovery_journal) : recovery_journal :=
  { journal with state := VDO_ADMIN_STATE_NORMAL_OPERATION }

/-- The function `vdo_drain_recovery_journal`. Modelled from the spec: `drain(op)`, for a
suspend or a save requested in normal operation, sets the state to draining and runs the drain
check at once (`vdo_start_draining` is not among the sources); `save` selects the save. -/
def vdo_drain_recovery_journal (journal : recovery_journal) (save : Bool) : recovery_journal :=
  if vdo_is_state_normal journal.state then
    check_for_drain_complete
      { journal with
        state := if save then VDO_ADMIN_STATE_SAVING else VDO_ADMIN_STATE_SUSPENDING }
  else journal

/-- The function `vdo_resume_recovery_journal`. Modelled from the spec: a quiescent journal
re-enters normal operation (`vdo_resume_if_quiescent` is not among the sources). -/
def vdo_resume_recovery_journal (journal : recovery_journal) : recovery_journal :=
  let saved := vdo_is_state_saved journal.state
  let journal1 :=
    if vdo_is_state_quiescent journal.state then
      { journal with state := VDO_ADMIN_STATE_NORMAL_OPERATION }
    else journal
  if journal1.read_only then journal1
  else
    let journal2 := if saved then initialize_journal_state journal1 else journal1
    let resumed := resume_lock_counter journal2
    if resumed.1 then reap_recovery_journal resumed.2 else resumed.2

/-- The calls the journal receives in the course of a run. -/
inductive journal_call where
  | add_entry (waiter : data_vio)
  | write_completed (block_id : Nat)
  | write_failed (block_id : Nat) (result : vdo_status)
  | flush_completed
  | flush_failed (result : vdo_status)
  | lock_counter_callback
  | read_only_notification
  | acquire_reference (sequence_number : Nat) (zone_type : vdo_zone_type) (zone_id : Nat)
  | release_reference (sequence_number : Nat) (zone_type : vdo_zone_type) (zone_id : Nat)
  | release_entry_lock (sequence_number : Nat)
  | drain (save : Bool)
  | resume
  deriving DecidableEq, Repr

/-- The journal after a call; `none` when the call dereferences a NULL block. A read-only
notification reaches the journal thread with `vdo_is_read_only` already true there. -/
def apply_call (journal : recovery_journal) : journal_call → Option recovery_journal
  | journal_call.add_entry waiter => vdo_add_recovery_journal_entry journal waiter
  | journal_call.write_completed id => complete_write journal id
  | journal_call.write_failed id result => handle_write_error journal id result
  | journal_call.flush_completed => complete_reaping journal
  | journal_call.flush_failed result => some (handle_flush_error journal result)
  | journal_call.lock_counter_callback => some (reap_recovery_journal_callback journal)
  | journal_call.read_only_notification =>
    some (notify_recovery_journal_of_read_only_mode { journal with read_only := true })
  | journal_call.acquire_reference sequence_number zone_type zone_id =>
    some (vdo_acquire_recovery_journal_block_reference journal sequence_number zone_type zone_id)
  | journal_call.release_reference sequence_number zone_type zone_id =>
    some (vdo_release_recovery_journal_block_reference journal sequence_number zone_type zone_id)
  | journal_call.release_entry_lock sequence_number =>
    some (vdo_release_journal_entry_lock journal sequence_number)
  | journal_call.drain save => some (vdo_drain_recovery_journal journal save)
  | journal_call.resume => some (vdo_resume_recovery_journal journal)

/-- The journal after a sequence of calls, `none` as soon as one of them faults. -/
def run_calls (journal : recovery_journal) : List journal_call → Option recovery_journal
  | [] => some journal
  | call :: rest =>
    match apply_call journal call with
    | none => none
    | some journal1 => run_calls journal1 rest

/-! ## Auxiliary notions for the properties -/

/-- The trace events issued by `continue_committed_waiter`. -/
def is_commit_event : Event → Bool
  | Event.commit_notification _ _ => true
  | Event.commit_order_assertion_failed _ _ => true
  | _ => false

/-- A stretch of trace in which `continue_committed_waiter` was not called. -/
def quiet (events : List Event) : Prop :=
  ∀ e, e ∈ events → is_commit_event e = false

/-- A data_vio asking for a data increment of a mapped block. -/
def sample_increment (id : Nat) : data_vio :=
  ⟨id, VDO_JOURNAL_DATA_INCREMENT, 1, 0, ⟨0, 0⟩⟩

/-- A data_vio asking for a data decrement of a mapped block. -/
def sample_decrement (id : Nat) : data_vio :=
  ⟨id, VDO_JOURNAL_DATA_DECREMENT, 1, 0, ⟨0, 0⟩⟩

/-- A block buffer as `vdo_make_recovery_block` returns it. -/
def sample_block (id : Nat) : recovery_journal_block :=
  ⟨id, 0, 0, 0, 0, 0, false, [], []⟩

/-- The sample journal in normal operation with three free block buffers and its state
initialised from the tail. -/
def sample_journal_open : recovery_journal :=
  initialize_journal_state
    { sample_journal with free_tail_blocks := [sample_block 0, sample_block 1, sample_block 2] }

/-- The open sample journal gone read-only with a decrement and an increment still queued. -/
def sample_journal_read_only : recovery_journal :=
  { sample_journal_open with
    read_only := true
    decrement_waiters := [sample_decrement 2]
    increment_waiters := [sample_increment 3] }

/-! ## The ledger of the per-entry locks -/

/-- The journal positions of the commit notifications of a trace, oldest first. -/
def notified_points (trace : List Event) : List journal_point :=
  trace.filterMap (fun e =>
    match e with
    | Event.commit_notification waiter _ => some waiter.recovery_journal_point
    | _ => none)

/-- The data_vios waiting on a block, in the order in which they are notified. -/
def block_waiters (block : recovery_journal_block) : List data_vio :=
  block.commit_waiters ++ block.entry_waiters

/-- What the journal maintains for every active block: its sequence number is below `bound`,
its counts are consistent, its waiters hold increasing positions within the block, all after
the commit point, and the next position of the block is after the commit point unless the
block is full or the journal read-only. -/
def block_ok (commit_point : journal_point) (bound entries_per_block : Nat) (read_only : Bool)
    (block : recovery_journal_block) : Prop :=
  block.sequence_number < bound
  ∧ block.entry_waiters.length + block.entries_in_commit ≤ block.uncommitted_entry_count
  ∧ block.uncommitted_entry_count ≤ block.entry_count
  ∧ block.entry_count ≤ entries_per_block
  ∧ (block_waiters block).Pairwise (fun v w =>
      v.recovery_journal_point.entry_count < w.recovery_journal_point.entry_count)
  ∧ (∀ w, w ∈ block_waiters block →
      w.recovery_journal_point.sequence_number = block.sequence_number
      ∧ w.recovery_journal_point.entry_count < block.entry_count
      ∧ vdo_before_journal_point commit_point w.recovery_journal_point = true)
  ∧ (vdo_before_journal_point commit_point ⟨block.sequence_number, block.entry_count⟩ = true
      ∨ entries_per_block = block.entry_count ∨ read_only = true)

/-- The commit notifications issued so far were issued in strictly increasing position, none
after the commit point, the assertion of `continue_committed_waiter` never failed, and the
commit point is the position notified last. -/
def trace_in_order (journal : recovery_journal) : Prop :=
  (notified_points journal.trace).Pairwise (fun p q => vdo_before_journal_point p q = true)
  ∧ (∀ p, p ∈ notified_points journal.trace →
      p = journal.commit_point ∨ vdo_before_journal_point p journal.commit_point = true)
  ∧ (∀ e, e ∈ journal.trace → ∀ a b, e ≠ Event.commit_order_assertion_failed a b)
  ∧ (∀ p, (notified_points journal.trace).getLast? = some p → p = journal.commit_point)

/-- The part of the invariant of the journal that does not concern the entry queues; `bound`
stands for the tail, and is one more than the tail while `advance_tail` is at work. -/
def commit_order_core (bound : Nat) (journal : recovery_journal) : Prop :=
  journal.entries_per_block < 65536
  ∧ journal.active_tail_blocks.Pairwise (fun a b => a.sequence_number < b.sequence_number)
  ∧ (∀ b, b ∈ journal.active_tail_blocks →
      block_ok journal.commit_point bound journal.entries_per_block journal.read_only b)
  ∧ journal.commit_point.sequence_number < bound
  ∧ (journal.read_only = false → journal.tail < 2 ^ 48)
  ∧ trace_in_order journal

/-- The invariant of the journal behind the order of the commit notifications. -/
def commit_order_invariant (journal : recovery_journal) : Prop :=
  commit_order_core journal.tail journal
  ∧ (journal.read_only = true →
      journal.increment_waiters = [] ∧ journal.decrement_waiters = [])

/-- The calls of a run of the sample journal: four entries, which fill the first block and
open the second, and the completions of the three block writes they cause. -/
def sample_calls : List journal_call :=
  [journal_call.add_entry (sample_increment 1), journal_call.add_entry (sample_decrement 2),
   journal_call.add_entry (sample_increment 3), journal_call.add_entry (sample_increment 4),
   journal_call.write_completed 2, journal_call.write_completed 2,
   journal_call.write_completed 1]

/-- The open sample journal as it would be with sequence number 0 as its next one. -/
def sample_journal_from_zero : recovery_journal :=
  initialize_journal_state
    { sample_journal with
      tail := 0
      free_tail_blocks := [sample_block 0, sample_block 1, sample_block 2] }

/-! ## Reaping, creation and recording -/

/-- The first part of `finish_reaping`: the heads take the values of the reap heads, the
space of the blocks reaped is added to `available_space` and `reaping` is cleared. The rest
of `finish_reaping` runs from the journal this part leaves. -/
def finish_reaping_heads (journal : recovery_journal) : recovery_journal :=
  let old_head := get_recovery_journal_head journal
  let journal1 :=
    { journal with
      block_map_head := journal.block_map_reap_head
      slab_journal_head := journal.slab_journal_reap_head }
  let blocks_reaped := sub_u64 (get_recovery_journal_head journal1) old_head
  { journal1 with
    available_space :=
      add_u64 journal1.available_space (mul_u64 blocks_reaped journal1.entries_per_block)
    reaping := false }

/-- The order of the heads: each head is at most its reap head, each reap head at most the
last block acknowledged, and that one at most the tail. -/
def heads_in_order (journal : recovery_journal) : Prop :=
  journal.block_map_head ≤ journal.block_map_reap_head
  ∧ journal.block_map_reap_head ≤ journal.last_write_acknowledged
  ∧ journal.slab_journal_head ≤ journal.slab_journal_reap_head
  ∧ journal.slab_journal_reap_head ≤ journal.last_write_acknowledged
  ∧ journal.last_write_acknowledged ≤ journal.tail

/-- The heads, the reap heads, the last block acknowledged and the reaping flag of `journal1`
are those of `journal`. -/
def heads_kept (journal journal1 : recovery_journal) : Prop :=
  journal1.block_map_head = journal.block_map_head
  ∧ journal1.slab_journal_head = journal.slab_journal_head
  ∧ journal1.block_map_reap_head = journal.block_map_reap_head
  ∧ journal1.slab_journal_reap_head = journal.slab_journal_reap_head
  ∧ journal1.last_write_acknowledged = journal.last_write_acknowledged
  ∧ journal1.reaping = journal.reaping

/-- Besides what `heads_kept` lists, the tail and the available space of `journal1` are those
of `journal`. -/
def space_kept (journal journal1 : recovery_journal) : Prop :=
  heads_kept journal journal1
  ∧ journal1.tail = journal.tail
  ∧ journal1.available_space = journal.available_space

/-- The state of the journal recorded in the super block
(`struct recovery_journal_state_7_0`). -/
structure recovery_journal_state_7_0 where
  journal_start : Nat
  logical_blocks_used : Nat
  block_map_data_blocks : Nat
  deriving DecidableEq, Repr

/-- The function `vdo_record_recovery_journal`; its argument is a pointer to a constant
journal. -/
def vdo_record_recovery_journal (journal : recovery_journal) : recovery_journal_state_7_0 :=
  { logical_blocks_used := journal.logical_blocks_used
    block_map_data_blocks := journal.block_map_data_blocks
    journal_start :=
      if vdo_is_state_saved journal.state then journal.tail
      else get_recovery_journal_head journal }

/-- Modelled from the spec: the pool is sized to `tail_buffer_size` block buffers, each made
empty (`vdo_make_recovery_block` is defined in `recovery-journal-block.c`, which is not among
the sources); the buffer made as the `index`-th stands at the address `index`. -/
def vdo_make_recovery_block (index : Nat) : recovery_journal_block :=
  ⟨index, 0, 0, 0, 0, 0, false, [], []⟩

/-- The function `vdo_decode_recovery_journal` when every allocation and registration
succeeds. `entries_per_block` stands for the constant `RECOVERY_JOURNAL_ENTRIES_PER_BLOCK`,
the zone counts for the thread configuration, and `read_only` for what the read-only notifier
handed to the journal answers. -/
def vdo_decode_recovery_journal (state : recovery_journal_state_7_0)
    (journal_size tail_buffer_size entries_per_block logical_zone_count
      physical_zone_count : Nat) (read_only : Bool) : recovery_journal :=
  let journal1 :=
    { allocated_journal with
      read_only := read_only
      size := journal_size
      slab_journal_commit_threshold := mul_u64 journal_size 2 / 3
      logical_blocks_used := state.logical_blocks_used
      block_map_data_blocks := state.block_map_data_blocks
      entries_per_block := entries_per_block }
  let journal2 := initialize_journal_state (set_journal_tail journal1 state.journal_start)
  let journal3 := { journal2 with state := VDO_ADMIN_STATE_SUSPENDED }
  let journal4 :=
    { journal3 with
      free_tail_blocks := (List.range tail_buffer_size).map vdo_make_recovery_block }
  initialize_lock_counter journal4 logical_zone_count physical_zone_count

/-- The journal decoded with four blocks of three entries and first sequence number 1, with
its tail moved to `tail`. -/
def sample_journal_at (tail : Nat) : recovery_journal :=
  { vdo_decode_recovery_journal ⟨1, 0, 0⟩ 4 3 3 2 2 false with tail := tail }

/-- The open sample journal after three blocks were opened and two of them acknowledged;
logical zone 0 holds a reference on block 2. -/
def sample_journal_to_reap : recovery_journal :=
  { sample_journal_open with
    tail := 4
    last_write_acknowledged := 3
    lock_counter := { sample_journal_open.lock_counter with
      logical_counters := fun i => if i = 2 then 1 else 0
      logical_zone_counts := fun i => if i = 2 then 1 else 0 } }

/-- The sample journal when the flush of a reap completes that moved `block_map_reap_head`
to 2 and left `slab_journal_reap_head` at 1. -/
def sample_journal_reaped : recovery_journal :=
  { sample_journal_open with
    tail := 4
    last_write_acknowledged := 3
    block_map_reap_head := 2
    block_map_head_block_number := 2
    reaping := true }

/-- The sample journal when the flush of a reap completes that moved `block_map_reap_head`
to 3 and `slab_journal_reap_head` to 2. -/
def sample_journal_reaped_both : recovery_journal :=
  { sample_journal_open with
    tail := 4
    last_write_acknowledged := 3
    block_map_reap_head := 3
    block_map_head_block_number := 3
    slab_journal_reap_head := 2
    slab_journal_head_block_number := 2
    reaping := true }

/-! ## The recovery scan, entry validation and the order of assignment -/

/-- Modelled from the spec: the unpacked header of an on-disk journal block
(`struct recovery_block_header`, declared in a header that is not among the sources). -/
structure recovery_block_header where
  block_map_head : Nat
  slab_journal_head : Nat
  sequence_number : Nat
  nonce : Nat
  recovery_count : Nat
  metadata_type : Nat
  entry_count : Nat
  deriving DecidableEq, Repr

/-- The function `is_congruent_recovery_journal_block`: the header's sequence number
belongs at `offset` and the header is valid. `valid` stands for
`vdo_is_valid_recovery_journal_block(journal, ·)`, which is declared in `recovery-journal.h`,
not among the sources. -/
def is_congruent_recovery_journal_block (journal : recovery_journal)
    (valid : recovery_block_header → Bool) (header : recovery_block_header) (offset : Nat) : Bool :=
  let expected_offset := vdo_get_recovery_journal_block_number journal header.sequence_number
  (expected_offset == offset) && valid header

/-- The locals of `vdo_find_recovery_journal_head_and_tail` carried around its loop. -/
structure head_and_tail_scan where
  highest_tail : Nat
  block_map_head_max : Nat
  slab_journal_head_max : Nat
  found_entries : Bool
  deriving DecidableEq, Repr

/-- One iteration of the loop of `vdo_find_recovery_journal_head_and_tail`, at position `i`;
`journal_data i` is the header unpacked from block `i` of the journal region. -/
def scan_recovery_journal_block (journal : recovery_journal)
    (valid : recovery_block_header → Bool) (journal_data : Nat → recovery_block_header)
    (scan : head_and_tail_scan) (i : Nat) : head_and_tail_scan :=
  let header := journal_data i
  if !is_congruent_recovery_journal_block journal valid header i then scan
  else
    let scan1 := if header.sequence_number ≥ scan.highest_tail then
        { scan with found_entries := true, highest_tail := header.sequence_number }
      else scan
    let scan2 := if header.block_map_head > scan1.block_map_head_max then
        { scan1 with block_map_head_max := header.block_map_head }
      else scan1
    if header.slab_journal_head > scan2.slab_journal_head_max then
      { scan2 with slab_journal_head_max := header.slab_journal_head }
    else scan2

/-- What `vdo_find_recovery_journal_head_and_tail` hands back: its return value and the
values stored through its three pointers (`none` where nothing is stored). -/
structure head_and_tail where
  found_entries : Bool
  tail : Nat
  block_map_head : Option Nat
  slab_journal_head : Option Nat
  deriving DecidableEq, Repr

/-- The function `vdo_find_recovery_journal_head_and_tail`; `slab_journal_head_requested`
says that `slab_journal_head_ptr` is not NULL. -/
def vdo_find_recovery_journal_head_and_tail (journal : recovery_journal)
    (valid : recovery_block_header → Bool) (journal_data : Nat → recovery_block_header)
    (slab_journal_head_requested : Bool) : head_and_tail :=
  let scan := (List.range journal.size).foldl
    (scan_recovery_journal_block journal valid journal_data)
    { highest_tail := journal.tail, block_map_head_max := 0, slab_journal_head_max := 0,
      found_entries := false }
  if !scan.found_entries then
    { found_entries := false, tail := scan.highest_tail, block_map_head := none,
      slab_journal_head := none }
  else
    { found_entries := true, tail := scan.highest_tail,
      block_map_head := some scan.block_map_head_max,
      slab_journal_head :=
        if slab_journal_head_requested then some scan.slab_journal_head_max else none }

/-- The `struct block_map_slot` of `types.h`. -/
structure block_map_slot where
  pbn : Nat
  slot : Nat
  deriving DecidableEq, Repr

/-- The `struct data_location` of `types.h`. -/
structure data_location where
  pbn : Nat
  state : block_mapping_state
  deriving DecidableEq, Repr

/-- Modelled from the spec: a decoded journal entry, (operation, slot, mapping)
(`struct recovery_journal_entry` is declared in a header that is not among the sources). -/
structure recovery_journal_entry where
  slot : block_map_slot
  mapping : data_location
  operation : journal_operation
  deriving DecidableEq, Repr

/-- The constant `VDO_MAPPING_STATE_UNCOMPRESSED` of `types.h`. -/
def VDO_MAPPING_STATE_UNCOMPRESSED : block_mapping_state := 1

/-- Modelled from the spec: the compressed mapping states are the compression slots, the
states above `VDO_MAPPING_STATE_UNCOMPRESSED` in `types.h` (`vdo_is_state_compressed` is
declared in a header that is not among the sources). -/
def vdo_is_state_compressed (mapping_state : block_mapping_state) : Bool :=
  decide (mapping_state > VDO_MAPPING_STATE_UNCOMPRESSED)

/-- Modelled from the spec: the zero block is physical block 0 (`VDO_ZERO_BLOCK` is
declared in a header that is not among the sources). -/
def VDO_ZERO_BLOCK : Nat := 0

/-- What `vdo_validate_recovery_journal_entry` reads of `struct vdo`: the configured number
of physical blocks and, for `vdo_is_physical_data_block(vdo->depot, ·)`, the physical block
numbers the depot holds data in. -/
structure vdo where
  physical_blocks : Nat
  is_physical_data_block : Nat → Bool

/-- The function `vdo_validate_recovery_journal_entry`. The constant
`VDO_BLOCK_MAP_ENTRIES_PER_PAGE` and the function `vdo_is_valid_location`, declared in
headers that are not among the sources, are arguments; `uds_log_error_strerror` logs and
returns the code it is given. -/
def vdo_validate_recovery_journal_entry (entries_per_page : Nat)
    (is_valid_location : data_location → Bool) (vdo : vdo)
    (entry : recovery_journal_entry) : vdo_status :=
  if decide (entry.slot.pbn ≥ vdo.physical_blocks) || decide (entry.slot.slot ≥ entries_per_page)
      || !is_valid_location entry.mapping
      || !vdo.is_physical_data_block entry.mapping.pbn then
    VDO_CORRUPT_JOURNAL
  else if decide (entry.operation = VDO_JOURNAL_BLOCK_MAP_INCREMENT)
      && (vdo_is_state_compressed entry.mapping.state
        || decide (entry.mapping.pbn = VDO_ZERO_BLOCK)) then
    VDO_CORRUPT_JOURNAL
  else VDO_SUCCESS

/-- A journal region of four blocks for the scanner: position 0 holds a stale block of
sequence number 1, positions 1, 2 and 3 hold the blocks 5, 6 and 7. -/
def sample_journal_data (i : Nat) : recovery_block_header :=
  if i = 0 then
    { block_map_head := 9, slab_journal_head := 9, sequence_number := 1, nonce := 0,
      recovery_count := 0, metadata_type := 1, entry_count := 0 }
  else
    { block_map_head := i + 1, slab_journal_head := 4 - i, sequence_number := i + 4,
      nonce := 0, recovery_count := 0, metadata_type := 1, entry_count := 0 }

/-- A journal region of four blocks whose only congruent block, at position 1, has
sequence number 1. -/
def sample_journal_data_old (_ : Nat) : recovery_block_header :=
  { block_map_head := 1, slab_journal_head := 1, sequence_number := 1, nonce := 0,
    recovery_count := 0, metadata_type := 1, entry_count := 0 }

/-- A validity check of headers by nonce and metadata type, for the samples. -/
def sample_valid (header : recovery_block_header) : Bool :=
  header.nonce == 0 && header.metadata_type == 1

/-- A device of 100 physical blocks whose depot holds data in the blocks 1 to 99. -/
def sample_vdo : vdo :=
  { physical_blocks := 100, is_physical_data_block := fun pbn => decide (0 < pbn ∧ pbn < 100) }

/-- Each entry queue of `journal1` is that of `journal` or has been emptied, and `journal1`
is read-only if `journal` is. -/
def queues_left (journal journal1 : recovery_journal) : Prop :=
  (journal1.increment_waiters = journal.increment_waiters ∨ journal1.increment_waiters = [])
  ∧ (journal1.decrement_waiters = journal.decrement_waiters
    ∨ journal1.decrement_waiters = [])
  ∧ (journal.read_only = true → journal1.read_only = true)

/-- The first part of `complete_write` for the block `block` at address `id`: the counters
of the journal and of the block are updated and the acknowledgement is recorded. -/
def complete_write_counts (journal : recovery_journal) (id : Nat)
    (block : recovery_journal_block) : recovery_journal :=
  let journal1 :=
    { update_block journal id (fun b =>
        { b with
          uncommitted_entry_count := sub_u16 b.uncommitted_entry_count b.entries_in_commit
          entries_in_commit := 0
          committing := false }) with
      pending_write_count := sub_u64 journal.pending_write_count 1
      events := { journal.events with
        blocks_committed := add_u64 journal.events.blocks_committed 1
        entries_committed := add_u64 journal.events.entries_committed block.entries_in_commit } }
  if block.sequence_number > journal1.last_write_acknowledged then
    { journal1 with last_write_acknowledged := block.sequence_number }
  else journal1

/-- The rest of `complete_write`, from the journal `complete_write_counts` leaves: the
commit waiters are notified, the block is queued for another write if it is dirty and
full, the blocks are recycled and written and the drain is checked; `none` when there is
no first active block. -/
def complete_write_finish (journal : recovery_journal) (id : Nat) : Option recovery_journal :=
  match get_journal_block journal.active_tail_blocks with
  | none => none
  | some _ =>
    let journal3 := notify_commit_waiters journal
    let journal4 :=
      match block_at journal3 id with
      | some current =>
        if is_block_dirty current && is_block_full journal3 (some current) then
          schedule_block_write journal3 current
        else journal3
      | none => journal3
    some (check_for_drain_complete (write_blocks (recycle_journal_blocks journal4)))

/-- The open sample journal with its block 0 active as block 1 of the journal, three
entries recorded of which two are being written. -/
def sample_journal_writing : recovery_journal :=
  { sample_journal_open with
    tail := 2
    free_tail_blocks := [sample_block 1, sample_block 2]
    active_tail_blocks :=
      [{ sample_block 0 with
          sequence_number := 1, block_number := 1, entry_count := 3
          uncommitted_entry_count := 3, entries_in_commit := 2, committing := true
          entry_waiters := [sample_increment 9] }]
    active_block := some 0
    pending_write_count := 1 }

/-- The counters an entry is counted in, the block size and the block lists of `journal1`
are those of `journal`. -/
def counts_kept (journal journal1 : recovery_journal) : Prop :=
  journal1.available_space = journal.available_space
  ∧ journal1.logical_blocks_used = journal.logical_blocks_used
  ∧ journal1.pending_decrement_count = journal.pending_decrement_count
  ∧ journal1.block_map_data_blocks = journal.block_map_data_blocks
  ∧ journal1.entries_per_block = journal.entries_per_block
  ∧ journal1.active_tail_blocks = journal.active_tail_blocks
  ∧ journal1.free_tail_blocks = journal.free_tail_blocks

/-- The open sample journal with its block 0 active as block 1 of the journal and empty. -/
def sample_journal_active : recovery_journal :=
  { sample_journal_open with
    tail := 2
    free_tail_blocks := [sample_block 1, sample_block 2]
    active_tail_blocks := [{ sample_block 0 with sequence_number := 1, block_number := 1 }]
    active_block := some 0 }

/-! ## Initialisation after a recovery and the counters of an assignment -/

/-- The constant `RECOVERY_COUNT_MASK`. -/
def RECOVERY_COUNT_MASK : Nat := 0xff

/-- The function `compute_recovery_count_byte`: the masked count converted to `uint8_t`. -/
def compute_recovery_count_byte (recovery_count : Nat) : Nat :=
  (recovery_count &&& RECOVERY_COUNT_MASK) % 256

/-- The function `vdo_initialize_recovery_journal_post_recovery`: the journal, and the byte
stored in `journal->recovery_count`, which the journal record here does not carry;
`tail + 1` is computed in `uint64_t`. -/
def vdo_initialize_recovery_journal_post_recovery (journal : recovery_journal)
    (recovery_count tail : Nat) : recovery_journal × Nat :=
  let journal1 := set_journal_tail journal (add_u64 tail 1)
  (initialize_journal_state journal1, compute_recovery_count_byte recovery_count)

/-- The four counters an entry is counted in are in `journal1` what they are in
`journal`. -/
def accounts_kept (journal journal1 : recovery_journal) : Prop :=
  journal1.available_space = journal.available_space
  ∧ journal1.logical_blocks_used = journal.logical_blocks_used
  ∧ journal1.block_map_data_blocks = journal.block_map_data_blocks
  ∧ journal1.pending_decrement_count = journal.pending_decrement_count

/-- The entry count of every block buffer of the journal, by address: the active blocks
followed by the free ones. -/
def block_entry_counts (journal : recovery_journal) : List (Nat × Nat) :=
  (journal.active_tail_blocks ++ journal.free_tail_blocks).map (fun b => (b.id, b.entry_count))

/-- The block buffers of `journal1` are those of `journal`, each with the entry count it
has there. -/
def entry_counts_kept (journal journal1 : recovery_journal) : Prop :=
  ∀ p, p ∈ block_entry_counts journal1 ↔ p ∈ block_entry_counts journal

/-- A data_vio asking for a block map decrement, an operation the journal does not
implement. -/
def sample_block_map_decrement (id : Nat) : data_vio :=
  ⟨id, VDO_JOURNAL_BLOCK_MAP_DECREMENT, 1, 0, ⟨0, 0⟩⟩

/-! ## The accounts of the block writes -/

/-- The outgoing call is the submission of the write of a block. -/
def is_block_write : Event → Bool
  | Event.submit_block_write _ _ _ => true
  | _ => false

/-- The outgoing call is the submission of a write of the block buffer at address `id`. -/
def is_write_of (id : Nat) : Event → Bool
  | Event.submit_block_write block_id _ _ => decide (block_id = id)
  | _ => false

/-- The writes of blocks the journal has submitted so far, in the order of submission. -/
def submitted_writes (journal : recovery_journal) : List Event :=
  journal.trace.filter is_block_write

/-- What a block buffer records of its writes: its address, its sequence number, its entries
not yet committed, the entries of the write in flight and whether a write is in flight. -/
def block_write_state (block : recovery_journal_block) : Nat × Nat × Nat × Nat × Bool :=
  (block.id, block.sequence_number, block.uncommitted_entry_count, block.entries_in_commit,
    block.committing)

/-- The write states of the block buffers of the journal, active and free. -/
def block_write_states (journal : recovery_journal) :
    List (Nat × Nat × Nat × Nat × Bool) :=
  (journal.active_tail_blocks ++ journal.free_tail_blocks).map block_write_state

/-- Between `journal` and `journal1` no write was submitted: the writes submitted, the
count of pending writes and the write state of every block buffer are the same. -/
def writes_kept (journal journal1 : recovery_journal) : Prop :=
  submitted_writes journal1 = submitted_writes journal
  ∧ journal1.pending_write_count = journal.pending_write_count
  ∧ ∀ p, p ∈ block_write_states journal1 ↔ p ∈ block_write_states journal

/-- The address, the sequence number and the count of uncommitted entries of a block
buffer. -/
def block_uncommitted_count (block : recovery_journal_block) : Nat × Nat × Nat :=
  (block.id, block.sequence_number, block.uncommitted_entry_count)

/-- The counts of uncommitted entries of the block buffers of the journal. -/
def block_uncommitted_counts (journal : recovery_journal) : List (Nat × Nat × Nat) :=
  (journal.active_tail_blocks ++ journal.free_tail_blocks).map block_uncommitted_count

/-- Between `journal` and `journal1` the writes `writes` were submitted and nothing else
was done to the accounts of the writes: each write submitted has added one to the count of
pending writes, the uncommitted entries of every block buffer are as they were, and a block
buffer no write of which is among `writes` has its write state as it was. -/
def writes_accounted (journal journal1 : recovery_journal) (writes : List Event) : Prop :=
  submitted_writes journal1 = submitted_writes journal ++ writes
  ∧ journal1.pending_write_count
      = Nat.iterate (fun n => add_u64 n 1) writes.length journal.pending_write_count
  ∧ (∀ p, p ∈ block_uncommitted_counts journal1 ↔ p ∈ block_uncommitted_counts journal)
  ∧ (∀ p, p ∈ block_write_states journal1 → writes.filter (is_write_of p.1) = [] →
      p ∈ block_write_states journal)

/-- The addresses of the block buffers of the journal, active and free. -/
def block_ids (journal : recovery_journal) : List Nat :=
  (journal.active_tail_blocks ++ journal.free_tail_blocks).map (fun b => b.id)

/-- Block 0 of `sample_journal_writing`: full with three entries, two of them in the write
in flight. -/
def sample_block_writing : recovery_journal_block :=
  { sample_block 0 with
    sequence_number := 1, block_number := 1, entry_count := 3
    uncommitted_entry_count := 3, entries_in_commit := 2, committing := true
    entry_waiters := [sample_increment 9] }

/-! ## Theorems -/

/-- C1, as stated, fails: with `available_space = 0` and `pending_decrement_count = 1`
the unsigned difference wraps and the increment is admitted, although `0 - 1 > 1` is false. -/
theorem check_for_entry_space_wraps :
    check_for_entry_space
      { allocated_journal with available_space := 0, pending_decrement_count := 1 } true = true
    ∧ ¬ ((0 : Int) - 1 > 1) := by
  decide

/-- C1, amended: for a `uint64_t` `available_space` and a `data_vio_count_t` (16-bit)
`pending_decrement_count`, `check_for_entry_space` admits an increment exactly when
`available_space - pending_decrement_count > 1` or the pending decrements exceed the
available space (the unsigned difference wraps), and admits a decrement exactly when
`available_space > 0`. -/
theorem check_for_entry_space_spec (journal : recovery_journal)
    (h_space : journal.available_space < 2 ^ 64)
    (h_pending : journal.pending_decrement_count < 2 ^ 16) :
    (check_for_entry_space journal true = true ↔
      ((journal.available_space : Int) - journal.pending_decrement_count > 1
        ∨ journal.available_space < journal.pending_decrement_count))
    ∧ (check_for_entry_space journal false = true ↔ journal.available_space > 0) := by
  norm_num at h_space h_pending
  have h_pending64 : journal.pending_decrement_count < 18446744073709551616 := by omega
  simp only [check_for_entry_space, sub_u64, Nat.mod_eq_of_lt h_pending64]
  constructor
  · simp only [if_true, decide_eq_true_eq]
    have h_int : ((journal.available_space : Int) - journal.pending_decrement_count > 1)
        ↔ journal.pending_decrement_count + 1 < journal.available_space := by omega
    rw [h_int]
    have h_sum : 18446744073709551616 - journal.pending_decrement_count
        + journal.pending_decrement_count = 18446744073709551616 :=
      Nat.sub_add_cancel (Nat.le_of_lt h_pending64)
    generalize 18446744073709551616 - journal.pending_decrement_count = d at h_sum ⊢
    omega
  · simp

/-- Witness of `check_for_entry_space_spec` at `available_space = 5`,
`pending_decrement_count = 2`. -/
theorem check_for_entry_space_spec_witness :
    (check_for_entry_space
        { allocated_journal with available_space := 5, pending_decrement_count := 2 } true = true ↔
      (((5 : Nat) : Int) - (2 : Nat) > 1 ∨ 5 < 2))
    ∧ (check_for_entry_space
        { allocated_journal with available_space := 5, pending_decrement_count := 2 } false = true ↔
      5 > 0) :=
  check_for_entry_space_spec
    { allocated_journal with available_space := 5, pending_decrement_count := 2 }
    (by decide) (by decide)

/-! ### Lock counter: acquire and release -/

@[simp]
theorem notify_lock_counter_journal_counters (journal : recovery_journal) :
    (notify_lock_counter journal).lock_counter.journal_counters
      = journal.lock_counter.journal_counters := by
  unfold notify_lock_counter
  split <;> rfl

@[simp]
theorem notify_lock_counter_journal_decrement_counts (journal : recovery_journal) :
    (notify_lock_counter journal).lock_counter.journal_decrement_counts
      = journal.lock_counter.journal_decrement_counts := by
  unfold notify_lock_counter
  split <;> rfl

@[simp]
theorem notify_lock_counter_logical_counters (journal : recovery_journal) :
    (notify_lock_counter journal).lock_counter.logical_counters
      = journal.lock_counter.logical_counters := by
  unfold notify_lock_counter
  split <;> rfl

@[simp]
theorem notify_lock_counter_physical_counters (journal : recovery_journal) :
    (notify_lock_counter journal).lock_counter.physical_counters
      = journal.lock_counter.physical_counters := by
  unfold notify_lock_counter
  split <;> rfl

@[simp]
theorem notify_lock_counter_logical_zone_counts (journal : recovery_journal) :
    (notify_lock_counter journal).lock_counter.logical_zone_counts
      = journal.lock_counter.logical_zone_counts := by
  unfold notify_lock_counter
  split <;> rfl

@[simp]
theorem notify_lock_counter_physical_zone_counts (journal : recovery_journal) :
    (notify_lock_counter journal).lock_counter.physical_zone_counts
      = journal.lock_counter.physical_zone_counts := by
  unfold notify_lock_counter
  split <;> rfl

@[simp]
theorem notify_lock_counter_locks (journal : recovery_journal) :
    (notify_lock_counter journal).lock_counter.locks = journal.lock_counter.locks := by
  unfold notify_lock_counter
  split <;> rfl

@[simp]
theorem notify_lock_counter_size (journal : recovery_journal) :
    (notify_lock_counter journal).size = journal.size := by
  unfold notify_lock_counter
  split <;> rfl

@[simp]
theorem notify_lock_counter_logical_zones (journal : recovery_journal) :
    (notify_lock_counter journal).lock_counter.logical_zones
      = journal.lock_counter.logical_zones := by
  unfold notify_lock_counter
  split <;> rfl

@[simp]
theorem notify_lock_counter_physical_zones (journal : recovery_journal) :
    (notify_lock_counter journal).lock_counter.physical_zones
      = journal.lock_counter.physical_zones := by
  unfold notify_lock_counter
  split <;> rfl

theorem atomic_wrap_zero : atomic_wrap 0 = 0 := by
  decide

theorem atomic_wrap_of_range (x : Int) (h_low : -2147483648 ≤ x) (h_high : x < 2147483648) :
    atomic_wrap x = x := by
  unfold atomic_wrap
  omega

/-- C6: for a logical or physical zone, a non-zero sequence number and a zone counter below
65535 (the aggregate being an `atomic_t` below its maximum), the acquire adds exactly one to
the counter of (zone_type, zone_id, sequence_number mod size), adds one to that zone type's
aggregate for the block exactly when the counter was zero, and changes no other counter,
aggregate or decrement count. -/
theorem acquire_block_reference_spec (journal : recovery_journal)
    (sequence_number zone_id : Nat) (zone_type : vdo_zone_type)
    (h_zone : zone_type ≠ VDO_ZONE_TYPE_JOURNAL) (h_seq : sequence_number ≠ 0)
    (h_counter : get_counter journal (sequence_number % journal.size) zone_type zone_id < UINT16_MAX)
    (h_low : -2147483648 ≤ get_zone_count journal (sequence_number % journal.size) zone_type)
    (h_high : get_zone_count journal (sequence_number % journal.size) zone_type < 2147483647) :
    get_counter (vdo_acquire_recovery_journal_block_reference journal sequence_number zone_type zone_id)
        (sequence_number % journal.size) zone_type zone_id
      = get_counter journal (sequence_number % journal.size) zone_type zone_id + 1
    ∧ get_zone_count (vdo_acquire_recovery_journal_block_reference journal sequence_number zone_type zone_id)
        (sequence_number % journal.size) zone_type
      = (if get_counter journal (sequence_number % journal.size) zone_type zone_id = 0
          then get_zone_count journal (sequence_number % journal.size) zone_type + 1
          else get_zone_count journal (sequence_number % journal.size) zone_type)
    ∧ (vdo_acquire_recovery_journal_block_reference journal sequence_number zone_type zone_id).lock_counter.journal_counters
      = journal.lock_counter.journal_counters
    ∧ (vdo_acquire_recovery_journal_block_reference journal sequence_number zone_type zone_id).lock_counter.journal_decrement_counts
      = journal.lock_counter.journal_decrement_counts
    ∧ (∀ i, (zone_type ≠ VDO_ZONE_TYPE_LOGICAL
          ∨ i ≠ journal.lock_counter.locks * zone_id + sequence_number % journal.size) →
        (vdo_acquire_recovery_journal_block_reference journal sequence_number zone_type zone_id).lock_counter.logical_counters i
          = journal.lock_counter.logical_counters i)
    ∧ (∀ i, (zone_type ≠ VDO_ZONE_TYPE_PHYSICAL
          ∨ i ≠ journal.lock_counter.locks * zone_id + sequence_number % journal.size) →
        (vdo_acquire_recovery_journal_block_reference journal sequence_number zone_type zone_id).lock_counter.physical_counters i
          = journal.lock_counter.physical_counters i)
    ∧ (∀ i, (zone_type ≠ VDO_ZONE_TYPE_LOGICAL ∨ i ≠ sequence_number % journal.size) →
        (vdo_acquire_recovery_journal_block_reference journal sequence_number zone_type zone_id).lock_counter.logical_zone_counts i
          = journal.lock_counter.logical_zone_counts i)
    ∧ (∀ i, (zone_type ≠ VDO_ZONE_TYPE_PHYSICAL ∨ i ≠ sequence_number % journal.size) →
        (vdo_acquire_recovery_journal_block_reference journal sequence_number zone_type zone_id).lock_counter.physical_zone_counts i
          = journal.lock_counter.physical_zone_counts i) := by
  have h_wrap := atomic_wrap_of_range
    (get_zone_count journal (sequence_number % journal.size) zone_type + 1) (by omega) (by omega)
  cases zone_type with
  | VDO_ZONE_TYPE_JOURNAL => exact absurd rfl h_zone
  | VDO_ZONE_TYPE_LOGICAL =>
    simp [get_counter, get_zone_count, UINT16_MAX] at h_counter h_wrap
    by_cases h0 : journal.lock_counter.logical_counters
        (journal.lock_counter.locks * zone_id + sequence_number % journal.size) = 0
    · simp [vdo_acquire_recovery_journal_block_reference, h_seq, get_counter, set_counter,
        get_zone_count, set_zone_count, vdo_get_recovery_journal_block_number, atomic_inc,
        to_u16, h0, h_wrap]
      refine ⟨?_, ?_⟩
      · intro i hi
        exact Function.update_noteq hi _ _
      · intro i hi
        exact Function.update_noteq hi _ _
    · simp [vdo_acquire_recovery_journal_block_reference, h_seq, get_counter, set_counter,
        get_zone_count, set_zone_count, vdo_get_recovery_journal_block_number, atomic_inc,
        to_u16, h0]
      refine ⟨?_, ?_⟩
      · omega
      · intro i hi
        exact Function.update_noteq hi _ _
  | VDO_ZONE_TYPE_PHYSICAL =>
    simp [get_counter, get_zone_count, UINT16_MAX] at h_counter h_wrap
    by_cases h0 : journal.lock_counter.physical_counters
        (journal.lock_counter.locks * zone_id + sequence_number % journal.size) = 0
    · simp [vdo_acquire_recovery_journal_block_reference, h_seq, get_counter, set_counter,
        get_zone_count, set_zone_count, vdo_get_recovery_journal_block_number, atomic_inc,
        to_u16, h0, h_wrap]
      refine ⟨?_, ?_⟩
      · intro i hi
        exact Function.update_noteq hi _ _
      · intro i hi
        exact Function.update_noteq hi _ _
    · simp [vdo_acquire_recovery_journal_block_reference, h_seq, get_counter, set_counter,
        get_zone_count, set_zone_count, vdo_get_recovery_journal_block_number, atomic_inc,
        to_u16, h0]
      refine ⟨?_, ?_⟩
      · omega
      · intro i hi
        exact Function.update_noteq hi _ _

/-- Witness of `acquire_block_reference_spec`: logical zone 1 acquires block 5 mod 4 of the
sample journal. -/
theorem acquire_block_reference_spec_witness :
    get_counter (vdo_acquire_recovery_journal_block_reference sample_journal 5
        VDO_ZONE_TYPE_LOGICAL 1) (5 % sample_journal.size) VDO_ZONE_TYPE_LOGICAL 1
      = get_counter sample_journal (5 % sample_journal.size) VDO_ZONE_TYPE_LOGICAL 1 + 1 :=
  (acquire_block_reference_spec sample_journal 5 1 VDO_ZONE_TYPE_LOGICAL
    (by decide) (by decide) (by decide) (by decide) (by decide)).1

/-- C7, as stated, fails: releasing a journal-zone reference on block 1 lowers
`journal_counters[1]` from 2 to 1 and leaves the decrement count at 0, whereas
`vdo_release_journal_entry_lock` leaves `journal_counters[1]` at 2 and raises the decrement
count to 1. -/
theorem release_journal_zone_is_not_entry_lock_release :
    (vdo_release_recovery_journal_block_reference sample_journal_locked 1
        VDO_ZONE_TYPE_JOURNAL 0).lock_counter.journal_counters 1 = 1
    ∧ (vdo_release_recovery_journal_block_reference sample_journal_locked 1
        VDO_ZONE_TYPE_JOURNAL 0).lock_counter.journal_decrement_counts 1 = 0
    ∧ (vdo_release_journal_entry_lock sample_journal_locked 1).lock_counter.journal_counters 1 = 2
    ∧ (vdo_release_journal_entry_lock sample_journal_locked 1).lock_counter.journal_decrement_counts 1
        = 1 := by
  decide

/-- C7, amended: for a non-zero sequence number, a release with zone_type = journal subtracts
one from `journal_counters` at the zone's index and leaves every decrement count unchanged,
while `vdo_release_journal_entry_lock` adds one to `journal_decrement_counts[block]` and leaves
`journal_counters` unchanged; for zone 0 both lower the effective count (counter minus
decrement count) by one, so both results agree on `is_journal_zone_locked`. -/
theorem release_journal_zone_spec (journal : recovery_journal) (sequence_number zone_id : Nat)
    (h_seq : sequence_number ≠ 0)
    (h_counter : 1 ≤ journal.lock_counter.journal_counters
      (journal.lock_counter.locks * zone_id + sequence_number % journal.size))
    (h_u16 : journal.lock_counter.journal_counters
      (journal.lock_counter.locks * zone_id + sequence_number % journal.size) < 65536)
    (h_low : 0 ≤ journal.lock_counter.journal_decrement_counts (sequence_number % journal.size))
    (h_high : journal.lock_counter.journal_decrement_counts (sequence_number % journal.size)
      < 2147483647) :
    (vdo_release_recovery_journal_block_reference journal sequence_number
        VDO_ZONE_TYPE_JOURNAL zone_id).lock_counter.journal_counters
      = Function.update journal.lock_counter.journal_counters
          (journal.lock_counter.locks * zone_id + sequence_number % journal.size)
          (journal.lock_counter.journal_counters
            (journal.lock_counter.locks * zone_id + sequence_number % journal.size) - 1)
    ∧ (vdo_release_recovery_journal_block_reference journal sequence_number
        VDO_ZONE_TYPE_JOURNAL zone_id).lock_counter.journal_decrement_counts
      = journal.lock_counter.journal_decrement_counts
    ∧ (vdo_release_journal_entry_lock journal sequence_number).lock_counter.journal_counters
      = journal.lock_counter.journal_counters
    ∧ (vdo_release_journal_entry_lock journal sequence_number).lock_counter.journal_decrement_counts
      = Function.update journal.lock_counter.journal_decrement_counts
          (sequence_number % journal.size)
          (journal.lock_counter.journal_decrement_counts (sequence_number % journal.size) + 1)
    ∧ (zone_id = 0 →
        is_journal_zone_locked (vdo_release_recovery_journal_block_reference journal
            sequence_number VDO_ZONE_TYPE_JOURNAL zone_id) (sequence_number % journal.size)
          = is_journal_zone_locked (vdo_release_journal_entry_lock journal sequence_number)
              (sequence_number % journal.size)) := by
  have h_wrap := atomic_wrap_of_range
    (journal.lock_counter.journal_decrement_counts (sequence_number % journal.size) + 1)
    (by omega) (by omega)
  have h_sub : (journal.lock_counter.journal_counters
      (journal.lock_counter.locks * zone_id + sequence_number % journal.size) + 65535) % 65536
      = journal.lock_counter.journal_counters
        (journal.lock_counter.locks * zone_id + sequence_number % journal.size) - 1 := by
    omega
  have h_counters : (vdo_release_recovery_journal_block_reference journal sequence_number
        VDO_ZONE_TYPE_JOURNAL zone_id).lock_counter.journal_counters
      = Function.update journal.lock_counter.journal_counters
          (journal.lock_counter.locks * zone_id + sequence_number % journal.size)
          (journal.lock_counter.journal_counters
            (journal.lock_counter.locks * zone_id + sequence_number % journal.size) - 1)
      ∧ (vdo_release_recovery_journal_block_reference journal sequence_number
        VDO_ZONE_TYPE_JOURNAL zone_id).lock_counter.journal_decrement_counts
      = journal.lock_counter.journal_decrement_counts := by
    simp only [vdo_release_recovery_journal_block_reference, h_seq, if_false, if_true,
      vdo_get_recovery_journal_block_number, get_counter, set_counter, to_u16, h_sub]
    split <;> simp
  refine ⟨h_counters.1, h_counters.2, ?_, ?_, ?_⟩
  · simp [vdo_release_journal_entry_lock, h_seq, set_decrement_counter]
  · simp [vdo_release_journal_entry_lock, h_seq, set_decrement_counter, get_decrement_counter,
      vdo_get_recovery_journal_block_number, atomic_inc, h_wrap]
  · intro h_zero
    subst h_zero
    simp only [is_journal_zone_locked, get_counter, get_decrement_counter, if_true, h_counters.1,
      h_counters.2]
    simp only [vdo_release_journal_entry_lock, h_seq, if_false, set_decrement_counter,
      get_decrement_counter, vdo_get_recovery_journal_block_number, atomic_inc, h_wrap,
      Function.update_same, Nat.mul_zero, Nat.zero_add, to_u32]
    simp only [Nat.mul_zero, Nat.zero_add] at h_counter h_u16
    rw [decide_eq_decide]
    have h1 : journal.lock_counter.journal_decrement_counts (sequence_number % journal.size)
        % 4294967296
        = journal.lock_counter.journal_decrement_counts (sequence_number % journal.size) :=
      Int.emod_eq_of_lt h_low (by omega)
    have h2 : (journal.lock_counter.journal_decrement_counts (sequence_number % journal.size) + 1)
        % 4294967296
        = journal.lock_counter.journal_decrement_counts (sequence_number % journal.size) + 1 :=
      Int.emod_eq_of_lt (by omega) (by omega)
    rw [h1, h2]
    omega

/-- Witness of `release_journal_zone_spec` on block 1 of the locked sample journal. -/
theorem release_journal_zone_spec_witness :
    (vdo_release_recovery_journal_block_reference sample_journal_locked 1
        VDO_ZONE_TYPE_JOURNAL 0).lock_counter.journal_decrement_counts
      = sample_journal_locked.lock_counter.journal_decrement_counts :=
  (release_journal_zone_spec sample_journal_locked 1 0
    (by decide) (by decide) (by decide) (by decide) (by decide)).2.1

/-- C8, as stated, fails. With sequence number 0 the release returns at once: the counter
of logical zone 1 for block 0 stays at 1. And the code tests the decremented aggregate with
`> 0`, not `== 0`: from a counter of 1 whose zone is not counted in the aggregate, the
notification is invoked although the aggregate went to -1, not to 0. -/
theorem release_zone_reference_counterexample :
    (get_counter sample_journal_locked (0 % sample_journal_locked.size) VDO_ZONE_TYPE_LOGICAL 1 = 1
      ∧ get_counter (vdo_release_recovery_journal_block_reference sample_journal_locked 0
          VDO_ZONE_TYPE_LOGICAL 1) (0 % sample_journal_locked.size) VDO_ZONE_TYPE_LOGICAL 1 = 1)
    ∧ (get_counter sample_journal_uncounted (1 % sample_journal_uncounted.size)
          VDO_ZONE_TYPE_PHYSICAL 0 = 1
      ∧ get_zone_count (vdo_release_recovery_journal_block_reference sample_journal_uncounted 1
          VDO_ZONE_TYPE_PHYSICAL 0) (1 % sample_journal_uncounted.size) VDO_ZONE_TYPE_PHYSICAL = -1
      ∧ (vdo_release_recovery_journal_block_reference sample_journal_uncounted 1
          VDO_ZONE_TYPE_PHYSICAL 0).trace = [Event.lock_counter_notification]) := by
  decide

/-- C8, amended: for a non-zero sequence number, a logical or physical zone, a counter of at
least 1 and an aggregate of at least 1, the release subtracts one from the zone's counter; it
invokes the lock counter's notification exactly when the counter reached 0, the aggregate
thereby reached 0 and the state was not-notifying, and the state then becomes notifying; in
every other case the state is unchanged and nothing is invoked. -/
theorem release_zone_reference_spec (journal : recovery_journal)
    (sequence_number zone_id : Nat) (zone_type : vdo_zone_type)
    (h_seq : sequence_number ≠ 0) (h_zone : zone_type ≠ VDO_ZONE_TYPE_JOURNAL)
    (h_counter : 1 ≤ get_counter journal (sequence_number % journal.size) zone_type zone_id)
    (h_u16 : get_counter journal (sequence_number % journal.size) zone_type zone_id < 65536)
    (h_low : 1 ≤ get_zone_count journal (sequence_number % journal.size) zone_type)
    (h_high : get_zone_count journal (sequence_number % journal.size) zone_type < 2147483648) :
    get_counter (vdo_release_recovery_journal_block_reference journal sequence_number
        zone_type zone_id) (sequence_number % journal.size) zone_type zone_id
      = get_counter journal (sequence_number % journal.size) zone_type zone_id - 1
    ∧ (if get_counter (vdo_release_recovery_journal_block_reference journal sequence_number
            zone_type zone_id) (sequence_number % journal.size) zone_type zone_id = 0
          ∧ get_zone_count (vdo_release_recovery_journal_block_reference journal sequence_number
            zone_type zone_id) (sequence_number % journal.size) zone_type = 0
          ∧ journal.lock_counter.state = LOCK_COUNTER_STATE_NOT_NOTIFYING
        then
          (vdo_release_recovery_journal_block_reference journal sequence_number
            zone_type zone_id).lock_counter.state = LOCK_COUNTER_STATE_NOTIFYING
          ∧ (vdo_release_recovery_journal_block_reference journal sequence_number
            zone_type zone_id).trace = journal.trace ++ [Event.lock_counter_notification]
        else
          (vdo_release_recovery_journal_block_reference journal sequence_number
            zone_type zone_id).lock_counter.state = journal.lock_counter.state
          ∧ (vdo_release_recovery_journal_block_reference journal sequence_number
            zone_type zone_id).trace = journal.trace) := by
  have h_wrap := atomic_wrap_of_range
    (get_zone_count journal (sequence_number % journal.size) zone_type + -1) (by omega) (by omega)
  cases zone_type with
  | VDO_ZONE_TYPE_JOURNAL => exact absurd rfl h_zone
  | VDO_ZONE_TYPE_LOGICAL =>
    simp [get_counter, get_zone_count] at h_counter h_u16 h_low h_high h_wrap
    have h_sub : (journal.lock_counter.logical_counters
        (journal.lock_counter.locks * zone_id + sequence_number % journal.size) + 65535) % 65536
        = journal.lock_counter.logical_counters
          (journal.lock_counter.locks * zone_id + sequence_number % journal.size) - 1 := by
      omega
    by_cases h1 : journal.lock_counter.logical_counters
        (journal.lock_counter.locks * zone_id + sequence_number % journal.size) - 1 = 0
    · by_cases h2 : journal.lock_counter.logical_zone_counts (sequence_number % journal.size)
          + -1 > 0
      · have h2ne : ¬ journal.lock_counter.logical_zone_counts (sequence_number % journal.size)
            + -1 = 0 := by omega
        simp [vdo_release_recovery_journal_block_reference, h_seq, get_counter, set_counter,
          get_zone_count, set_zone_count, vdo_get_recovery_journal_block_number,
          atomic_add_return, to_u16, h_sub, h_wrap, h1, h2, h2ne]
      · have h2eq : journal.lock_counter.logical_zone_counts (sequence_number % journal.size)
            + -1 = 0 := by omega
        have h2le : journal.lock_counter.logical_zone_counts (sequence_number % journal.size)
            + -1 ≤ 0 := by omega
        by_cases h3 : journal.lock_counter.state = LOCK_COUNTER_STATE_NOT_NOTIFYING
        · simp [vdo_release_recovery_journal_block_reference, h_seq, get_counter, set_counter,
            get_zone_count, set_zone_count, vdo_get_recovery_journal_block_number,
            atomic_add_return, to_u16, h_sub, h_wrap, h1, h2eq, h3, notify_lock_counter,
            atomic_wrap_zero]
        · simp [vdo_release_recovery_journal_block_reference, h_seq, get_counter, set_counter,
            get_zone_count, set_zone_count, vdo_get_recovery_journal_block_number,
            atomic_add_return, to_u16, h_sub, h_wrap, h1, h2eq, h3, notify_lock_counter,
            atomic_wrap_zero]
    · simp [vdo_release_recovery_journal_block_reference, h_seq, get_counter, set_counter,
        get_zone_count, set_zone_count, vdo_get_recovery_journal_block_number,
        atomic_add_return, to_u16, h_sub, h1]
  | VDO_ZONE_TYPE_PHYSICAL =>
    simp [get_counter, get_zone_count] at h_counter h_u16 h_low h_high h_wrap
    have h_sub : (journal.lock_counter.physical_counters
        (journal.lock_counter.locks * zone_id + sequence_number % journal.size) + 65535) % 65536
        = journal.lock_counter.physical_counters
          (journal.lock_counter.locks * zone_id + sequence_number % journal.size) - 1 := by
      omega
    by_cases h1 : journal.lock_counter.physical_counters
        (journal.lock_counter.locks * zone_id + sequence_number % journal.size) - 1 = 0
    · by_cases h2 : journal.lock_counter.physical_zone_counts (sequence_number % journal.size)
          + -1 > 0
      · have h2ne : ¬ journal.lock_counter.physical_zone_counts (sequence_number % journal.size)
            + -1 = 0 := by omega
        simp [vdo_release_recovery_journal_block_reference, h_seq, get_counter, set_counter,
          get_zone_count, set_zone_count, vdo_get_recovery_journal_block_number,
          atomic_add_return, to_u16, h_sub, h_wrap, h1, h2, h2ne]
      · have h2eq : journal.lock_counter.physical_zone_counts (sequence_number % journal.size)
            + -1 = 0 := by omega
        by_cases h3 : journal.lock_counter.state = LOCK_COUNTER_STATE_NOT_NOTIFYING
        · simp [vdo_release_recovery_journal_block_reference, h_seq, get_counter, set_counter,
            get_zone_count, set_zone_count, vdo_get_recovery_journal_block_number,
            atomic_add_return, to_u16, h_sub, h_wrap, h1, h2eq, h3, notify_lock_counter,
            atomic_wrap_zero]
        · simp [vdo_release_recovery_journal_block_reference, h_seq, get_counter, set_counter,
            get_zone_count, set_zone_count, vdo_get_recovery_journal_block_number,
            atomic_add_return, to_u16, h_sub, h_wrap, h1, h2eq, h3, notify_lock_counter,
            atomic_wrap_zero]
    · simp [vdo_release_recovery_journal_block_reference, h_seq, get_counter, set_counter,
        get_zone_count, set_zone_count, vdo_get_recovery_journal_block_number,
        atomic_add_return, to_u16, h_sub, h1]

/-- Witness of `release_zone_reference_spec`: logical zone 1 drops its only reference on
block 1 of the locked sample journal. -/
theorem release_zone_reference_spec_witness :
    get_counter (vdo_release_recovery_journal_block_reference sample_journal_locked 1
        VDO_ZONE_TYPE_LOGICAL 1) (1 % sample_journal_locked.size) VDO_ZONE_TYPE_LOGICAL 1
      = get_counter sample_journal_locked (1 % sample_journal_locked.size)
          VDO_ZONE_TYPE_LOGICAL 1 - 1 :=
  (release_zone_reference_spec sample_journal_locked 1 1 VDO_ZONE_TYPE_LOGICAL
    (by decide) (by decide) (by decide) (by decide) (by decide) (by decide)).1

/-! ### Lock counter: the aggregates count the zones -/

theorem zones_holding_le (counters : Nat → Nat) (locks lock_number zones : Nat) :
    zones_holding counters locks lock_number zones ≤ zones := by
  induction zones with
  | zero => simp [zones_holding]
  | succ n ih =>
    simp only [zones_holding]
    split <;> omega

theorem zones_holding_update_other (counters : Nat → Nat) (locks lock_number zones i v : Nat)
    (h : ∀ z, z < zones → locks * z + lock_number ≠ i) :
    zones_holding (Function.update counters i v) locks lock_number zones
      = zones_holding counters locks lock_number zones := by
  induction zones with
  | zero => simp [zones_holding]
  | succ n ih =>
    have h_n : locks * n + lock_number ≠ i := h n (Nat.lt_succ_self n)
    simp only [zones_holding, Function.update_noteq h_n]
    rw [ih (fun z hz => h z (Nat.lt_succ_of_lt hz))]

theorem zones_holding_update_same (counters : Nat → Nat) (locks lock_number zones zone v : Nat)
    (h_lock : lock_number < locks) (h_zone : zone < zones) :
    zones_holding (Function.update counters (locks * zone + lock_number) v) locks lock_number zones
        + (if counters (locks * zone + lock_number) ≠ 0 then 1 else 0)
      = zones_holding counters locks lock_number zones + (if v ≠ 0 then 1 else 0) := by
  induction zones with
  | zero => omega
  | succ n ih =>
    by_cases h_eq : zone = n
    · subst h_eq
      have h_other : ∀ z, z < zone → locks * z + lock_number ≠ locks * zone + lock_number := by
        intro z hz h_idx
        have h_mul : locks * z = locks * zone := by omega
        have h_pos : 0 < locks := by omega
        have := Nat.eq_of_mul_eq_mul_left h_pos h_mul
        omega
      simp only [zones_holding, Function.update_same]
      rw [zones_holding_update_other _ _ _ _ _ _ h_other]
      omega
    · have h_lt : zone < n := by omega
      have h_idx : locks * n + lock_number ≠ locks * zone + lock_number := by
        intro h_idx
        have h_mul : locks * n = locks * zone := by omega
        have h_pos : 0 < locks := by omega
        have := Nat.eq_of_mul_eq_mul_left h_pos h_mul
        omega
      simp only [zones_holding, Function.update_noteq h_idx]
      have := ih h_lt
      omega

theorem index_ne_of_lock_ne (locks zone zone0 lock_number lock_number0 : Nat)
    (h_lock : lock_number < locks) (h_lock0 : lock_number0 < locks)
    (h_ne : lock_number ≠ lock_number0) :
    locks * zone + lock_number ≠ locks * zone0 + lock_number0 := by
  intro h_idx
  have h1 : (locks * zone + lock_number) % locks = lock_number := by
    rw [Nat.mul_add_mod]
    exact Nat.mod_eq_of_lt h_lock
  have h2 : (locks * zone0 + lock_number0) % locks = lock_number0 := by
    rw [Nat.mul_add_mod]
    exact Nat.mod_eq_of_lt h_lock0
  rw [h_idx, h2] at h1
  exact h_ne h1.symm

theorem aggregate_exact_after_acquire (counters : Nat → Nat) (aggregates : Nat → Int)
    (locks zones zone lock_number : Nat)
    (h_exact : ∀ b, b < locks → aggregates b = zones_holding counters locks b zones)
    (h_zones : zones < 256) (h_zone : zone < zones) (h_lock : lock_number < locks)
    (h_max : counters (locks * zone + lock_number) < 65535) :
    ∀ b, b < locks →
      (if counters (locks * zone + lock_number) = 0
        then Function.update aggregates lock_number (atomic_wrap (aggregates lock_number + 1))
        else aggregates) b
      = zones_holding
          (Function.update counters (locks * zone + lock_number)
            ((counters (locks * zone + lock_number) + 1) % 65536))
          locks b zones := by
  intro b hb
  have h_new : (counters (locks * zone + lock_number) + 1) % 65536
      = counters (locks * zone + lock_number) + 1 := by omega
  rw [h_new]
  by_cases h_b : b = lock_number
  · subst h_b
    have h_count := zones_holding_update_same counters locks b zones zone
      (counters (locks * zone + b) + 1) hb h_zone
    have h_le := zones_holding_le counters locks b zones
    have h_agg := h_exact b hb
    by_cases h0 : counters (locks * zone + b) = 0
    · simp only [h0, if_true, Function.update_same, Nat.zero_add]
      rw [atomic_wrap_of_range _ (by omega) (by omega)]
      simp only [h0, ne_eq, not_true_eq_false, if_false, Nat.zero_add] at h_count
      simp at h_count
      omega
    · simp only [h0, if_false]
      simp [h0] at h_count
      omega
  · have h_other : ∀ z, z < zones → locks * z + b ≠ locks * zone + lock_number :=
      fun z _ => index_ne_of_lock_ne locks z zone b lock_number hb h_lock h_b
    rw [zones_holding_update_other _ _ _ _ _ _ h_other]
    split
    · rw [Function.update_noteq h_b]
      exact h_exact b hb
    · exact h_exact b hb

theorem aggregate_exact_after_release (counters : Nat → Nat) (aggregates : Nat → Int)
    (locks zones zone lock_number : Nat)
    (h_exact : ∀ b, b < locks → aggregates b = zones_holding counters locks b zones)
    (h_zones : zones < 256) (h_zone : zone < zones) (h_lock : lock_number < locks)
    (h_held : 1 ≤ counters (locks * zone + lock_number))
    (h_u16 : counters (locks * zone + lock_number) < 65536) :
    ∀ b, b < locks →
      (if (counters (locks * zone + lock_number) + 65535) % 65536 ≠ 0
        then aggregates
        else Function.update aggregates lock_number (atomic_wrap (aggregates lock_number + -1))) b
      = zones_holding
          (Function.update counters (locks * zone + lock_number)
            ((counters (locks * zone + lock_number) + 65535) % 65536))
          locks b zones := by
  intro b hb
  have h_new : (counters (locks * zone + lock_number) + 65535) % 65536
      = counters (locks * zone + lock_number) - 1 := by omega
  rw [h_new]
  by_cases h_b : b = lock_number
  · subst h_b
    have h_count := zones_holding_update_same counters locks b zones zone
      (counters (locks * zone + b) - 1) hb h_zone
    have h_le := zones_holding_le counters locks b zones
    have h_agg := h_exact b hb
    have h_nonzero : counters (locks * zone + b) ≠ 0 := by omega
    simp only [h_nonzero, ne_eq, not_false_eq_true, if_true] at h_count
    by_cases h1 : counters (locks * zone + b) - 1 = 0
    · simp only [h1, ne_eq, not_true_eq_false, if_false, Function.update_same]
      simp only [h1, ne_eq, not_true_eq_false, if_false] at h_count
      rw [atomic_wrap_of_range _ (by omega) (by omega)]
      omega
    · simp only [h1, ne_eq, not_false_eq_true, if_true]
      simp only [h1, ne_eq, not_false_eq_true, if_true] at h_count
      omega
  · have h_other : ∀ z, z < zones → locks * z + b ≠ locks * zone + lock_number :=
      fun z _ => index_ne_of_lock_ne locks z zone b lock_number hb h_lock h_b
    rw [zones_holding_update_other _ _ _ _ _ _ h_other]
    split
    · exact h_exact b hb
    · rw [Function.update_noteq h_b]
      exact h_exact b hb

theorem acquire_logical_eq (journal : recovery_journal) (sequence_number zone_id : Nat)
    (h_seq : sequence_number ≠ 0) :
    vdo_acquire_recovery_journal_block_reference journal sequence_number VDO_ZONE_TYPE_LOGICAL zone_id
      = { journal with lock_counter := { journal.lock_counter with
            logical_counters :=
              Function.update journal.lock_counter.logical_counters
                (journal.lock_counter.locks * zone_id + sequence_number % journal.size)
                ((journal.lock_counter.logical_counters
                  (journal.lock_counter.locks * zone_id + sequence_number % journal.size) + 1) % 65536),
            logical_zone_counts :=
              if journal.lock_counter.logical_counters
                  (journal.lock_counter.locks * zone_id + sequence_number % journal.size) = 0
              then Function.update journal.lock_counter.logical_zone_counts
                (sequence_number % journal.size)
                (atomic_wrap (journal.lock_counter.logical_zone_counts
                  (sequence_number % journal.size) + 1))
              else journal.lock_counter.logical_zone_counts } } := by
  by_cases h0 : journal.lock_counter.logical_counters
      (journal.lock_counter.locks * zone_id + sequence_number % journal.size) = 0
  · simp [vdo_acquire_recovery_journal_block_reference, h_seq, get_counter, set_counter,
      get_zone_count, set_zone_count, vdo_get_recovery_journal_block_number, atomic_inc,
      to_u16, h0]
  · simp [vdo_acquire_recovery_journal_block_reference, h_seq, get_counter, set_counter,
      get_zone_count, set_zone_count, vdo_get_recovery_journal_block_number, atomic_inc,
      to_u16, h0]

theorem acquire_physical_eq (journal : recovery_journal) (sequence_number zone_id : Nat)
    (h_seq : sequence_number ≠ 0) :
    vdo_acquire_recovery_journal_block_reference journal sequence_number VDO_ZONE_TYPE_PHYSICAL zone_id
      = { journal with lock_counter := { journal.lock_counter with
            physical_counters :=
              Function.update journal.lock_counter.physical_counters
                (journal.lock_counter.locks * zone_id + sequence_number % journal.size)
                ((journal.lock_counter.physical_counters
                  (journal.lock_counter.locks * zone_id + sequence_number % journal.size) + 1) % 65536),
            physical_zone_counts :=
              if journal.lock_counter.physical_counters
                  (journal.lock_counter.locks * zone_id + sequence_number % journal.size) = 0
              then Function.update journal.lock_counter.physical_zone_counts
                (sequence_number % journal.size)
                (atomic_wrap (journal.lock_counter.physical_zone_counts
                  (sequence_number % journal.size) + 1))
              else journal.lock_counter.physical_zone_counts } } := by
  by_cases h0 : journal.lock_counter.physical_counters
      (journal.lock_counter.locks * zone_id + sequence_number % journal.size) = 0
  · simp [vdo_acquire_recovery_journal_block_reference, h_seq, get_counter, set_counter,
      get_zone_count, set_zone_count, vdo_get_recovery_journal_block_number, atomic_inc,
      to_u16, h0]
  · simp [vdo_acquire_recovery_journal_block_reference, h_seq, get_counter, set_counter,
      get_zone_count, set_zone_count, vdo_get_recovery_journal_block_number, atomic_inc,
      to_u16, h0]

theorem aggregates_exact_acquire (journal : recovery_journal) (sequence_number zone_id : Nat)
    (zone_type : vdo_zone_type) (h_inv : aggregates_exact journal)
    (h_type : zone_type ≠ VDO_ZONE_TYPE_JOURNAL)
    (h_zone : zone_id < zones_of journal.lock_counter zone_type)
    (h_max : sequence_number ≠ 0 →
      get_counter journal (sequence_number % journal.size) zone_type zone_id < UINT16_MAX) :
    aggregates_exact
      (vdo_acquire_recovery_journal_block_reference journal sequence_number zone_type zone_id) := by
  by_cases h_seq : sequence_number = 0
  · simpa [vdo_acquire_recovery_journal_block_reference, h_seq] using h_inv
  · obtain ⟨h_locks, h_size, h_lz, h_pz, h_all⟩ := h_inv
    have h_block : sequence_number % journal.size < journal.lock_counter.locks := by
      rw [h_locks]
      exact Nat.mod_lt _ h_size
    have h_max := h_max h_seq
    cases zone_type with
    | VDO_ZONE_TYPE_JOURNAL => exact absurd rfl h_type
    | VDO_ZONE_TYPE_LOGICAL =>
      rw [acquire_logical_eq journal sequence_number zone_id h_seq]
      simp [get_counter, UINT16_MAX] at h_max
      simp [zones_of] at h_zone
      have h_log := h_all VDO_ZONE_TYPE_LOGICAL (by decide)
      have h_phys := h_all VDO_ZONE_TYPE_PHYSICAL (by decide)
      simp [counters_of, zone_counts_of, zones_of] at h_log h_phys
      refine ⟨h_locks, h_size, h_lz, h_pz, ?_⟩
      intro zone_type1 h_type1
      cases zone_type1 with
      | VDO_ZONE_TYPE_JOURNAL => exact absurd rfl h_type1
      | VDO_ZONE_TYPE_LOGICAL =>
        simp only [counters_of, zone_counts_of, zones_of, if_true]
        refine ⟨?_, ?_⟩
        · intro i
          by_cases h_i : i = journal.lock_counter.locks * zone_id + sequence_number % journal.size
          · subst h_i
            rw [Function.update_same]
            exact Nat.mod_lt _ (by decide)
          · rw [Function.update_noteq h_i]
            exact h_log.1 i
        · exact aggregate_exact_after_acquire _ _ _ _ _ _ h_log.2 h_lz h_zone h_block h_max
      | VDO_ZONE_TYPE_PHYSICAL =>
        simpa [counters_of, zone_counts_of, zones_of] using h_phys
    | VDO_ZONE_TYPE_PHYSICAL =>
      rw [acquire_physical_eq journal sequence_number zone_id h_seq]
      simp [get_counter, UINT16_MAX] at h_max
      simp [zones_of] at h_zone
      have h_log := h_all VDO_ZONE_TYPE_LOGICAL (by decide)
      have h_phys := h_all VDO_ZONE_TYPE_PHYSICAL (by decide)
      simp [counters_of, zone_counts_of, zones_of] at h_log h_phys
      refine ⟨h_locks, h_size, h_lz, h_pz, ?_⟩
      intro zone_type1 h_type1
      cases zone_type1 with
      | VDO_ZONE_TYPE_JOURNAL => exact absurd rfl h_type1
      | VDO_ZONE_TYPE_LOGICAL =>
        simpa [counters_of, zone_counts_of, zones_of] using h_log
      | VDO_ZONE_TYPE_PHYSICAL =>
        simp only [counters_of, zone_counts_of, zones_of, if_false, reduceCtorEq]
        refine ⟨?_, ?_⟩
        · intro i
          by_cases h_i : i = journal.lock_counter.locks * zone_id + sequence_number % journal.size
          · subst h_i
            rw [Function.update_same]
            exact Nat.mod_lt _ (by decide)
          · rw [Function.update_noteq h_i]
            exact h_phys.1 i
        · exact aggregate_exact_after_acquire _ _ _ _ _ _ h_phys.2 h_pz h_zone h_block h_max

theorem release_logical_fields (journal : recovery_journal) (sequence_number zone_id : Nat)
    (h_seq : sequence_number ≠ 0) :
    (vdo_release_recovery_journal_block_reference journal sequence_number
        VDO_ZONE_TYPE_LOGICAL zone_id).lock_counter.logical_counters
      = Function.update journal.lock_counter.logical_counters
          (journal.lock_counter.locks * zone_id + sequence_number % journal.size)
          ((journal.lock_counter.logical_counters
            (journal.lock_counter.locks * zone_id + sequence_number % journal.size) + 65535) % 65536)
    ∧ (vdo_release_recovery_journal_block_reference journal sequence_number
        VDO_ZONE_TYPE_LOGICAL zone_id).lock_counter.logical_zone_counts
      = (if (journal.lock_counter.logical_counters
            (journal.lock_counter.locks * zone_id + sequence_number % journal.size) + 65535) % 65536 ≠ 0
          then journal.lock_counter.logical_zone_counts
          else Function.update journal.lock_counter.logical_zone_counts
            (sequence_number % journal.size)
            (atomic_wrap (journal.lock_counter.logical_zone_counts
              (sequence_number % journal.size) + -1)))
    ∧ (vdo_release_recovery_journal_block_reference journal sequence_number
        VDO_ZONE_TYPE_LOGICAL zone_id).lock_counter.physical_counters
      = journal.lock_counter.physical_counters
    ∧ (vdo_release_recovery_journal_block_reference journal sequence_number
        VDO_ZONE_TYPE_LOGICAL zone_id).lock_counter.physical_zone_counts
      = journal.lock_counter.physical_zone_counts
    ∧ (vdo_release_recovery_journal_block_reference journal sequence_number
        VDO_ZONE_TYPE_LOGICAL zone_id).lock_counter.locks = journal.lock_counter.locks
    ∧ (vdo_release_recovery_journal_block_reference journal sequence_number
        VDO_ZONE_TYPE_LOGICAL zone_id).lock_counter.logical_zones
      = journal.lock_counter.logical_zones
    ∧ (vdo_release_recovery_journal_block_reference journal sequence_number
        VDO_ZONE_TYPE_LOGICAL zone_id).lock_counter.physical_zones
      = journal.lock_counter.physical_zones
    ∧ (vdo_release_recovery_journal_block_reference journal sequence_number
        VDO_ZONE_TYPE_LOGICAL zone_id).size = journal.size := by
  by_cases h1 : (journal.lock_counter.logical_counters
      (journal.lock_counter.locks * zone_id + sequence_number % journal.size) + 65535) % 65536 = 0
  · simp only [vdo_release_recovery_journal_block_reference, h_seq, if_false, get_counter,
      set_counter, get_zone_count, set_zone_count, vdo_get_recovery_journal_block_number,
      atomic_add_return, to_u16, reduceCtorEq, if_true, Function.update_same, h1, ne_eq,
      not_true_eq_false]
    split <;> simp
  · simp [vdo_release_recovery_journal_block_reference, h_seq, get_counter,
      set_counter, vdo_get_recovery_journal_block_number, to_u16, h1]

theorem release_physical_fields (journal : recovery_journal) (sequence_number zone_id : Nat)
    (h_seq : sequence_number ≠ 0) :
    (vdo_release_recovery_journal_block_reference journal sequence_number
        VDO_ZONE_TYPE_PHYSICAL zone_id).lock_counter.physical_counters
      = Function.update journal.lock_counter.physical_counters
          (journal.lock_counter.locks * zone_id + sequence_number % journal.size)
          ((journal.lock_counter.physical_counters
            (journal.lock_counter.locks * zone_id + sequence_number % journal.size) + 65535) % 65536)
    ∧ (vdo_release_recovery_journal_block_reference journal sequence_number
        VDO_ZONE_TYPE_PHYSICAL zone_id).lock_counter.physical_zone_counts
      = (if (journal.lock_counter.physical_counters
            (journal.lock_counter.locks * zone_id + sequence_number % journal.size) + 65535) % 65536 ≠ 0
          then journal.lock_counter.physical_zone_counts
          else Function.update journal.lock_counter.physical_zone_counts
            (sequence_number % journal.size)
            (atomic_wrap (journal.lock_counter.physical_zone_counts
              (sequence_number % journal.size) + -1)))
    ∧ (vdo_release_recovery_journal_block_reference journal sequence_number
        VDO_ZONE_TYPE_PHYSICAL zone_id).lock_counter.logical_counters
      = journal.lock_counter.logical_counters
    ∧ (vdo_release_recovery_journal_block_reference journal sequence_number
        VDO_ZONE_TYPE_PHYSICAL zone_id).lock_counter.logical_zone_counts
      = journal.lock_counter.logical_zone_counts
    ∧ (vdo_release_recovery_journal_block_reference journal sequence_number
        VDO_ZONE_TYPE_PHYSICAL zone_id).lock_counter.locks = journal.lock_counter.locks
    ∧ (vdo_release_recovery_journal_block_reference journal sequence_number
        VDO_ZONE_TYPE_PHYSICAL zone_id).lock_counter.logical_zones
      = journal.lock_counter.logical_zones
    ∧ (vdo_release_recovery_journal_block_reference journal sequence_number
        VDO_ZONE_TYPE_PHYSICAL zone_id).lock_counter.physical_zones
      = journal.lock_counter.physical_zones
    ∧ (vdo_release_recovery_journal_block_reference journal sequence_number
        VDO_ZONE_TYPE_PHYSICAL zone_id).size = journal.size := by
  by_cases h1 : (journal.lock_counter.physical_counters
      (journal.lock_counter.locks * zone_id + sequence_number % journal.size) + 65535) % 65536 = 0
  · simp only [vdo_release_recovery_journal_block_reference, h_seq, if_false, get_counter,
      set_counter, get_zone_count, set_zone_count, vdo_get_recovery_journal_block_number,
      atomic_add_return, to_u16, reduceCtorEq, if_true, Function.update_same, h1, ne_eq,
      not_true_eq_false]
    split <;> simp
  · simp [vdo_release_recovery_journal_block_reference, h_seq, get_counter,
      set_counter, vdo_get_recovery_journal_block_number, to_u16, h1]

theorem aggregates_exact_release (journal : recovery_journal) (sequence_number zone_id : Nat)
    (zone_type : vdo_zone_type) (h_inv : aggregates_exact journal)
    (h_type : zone_type ≠ VDO_ZONE_TYPE_JOURNAL)
    (h_zone : zone_id < zones_of journal.lock_counter zone_type)
    (h_held : sequence_number ≠ 0 →
      1 ≤ get_counter journal (sequence_number % journal.size) zone_type zone_id) :
    aggregates_exact
      (vdo_release_recovery_journal_block_reference journal sequence_number zone_type zone_id) := by
  by_cases h_seq : sequence_number = 0
  · simpa [vdo_release_recovery_journal_block_reference, h_seq] using h_inv
  · obtain ⟨h_locks, h_size, h_lz, h_pz, h_all⟩ := h_inv
    have h_block : sequence_number % journal.size < journal.lock_counter.locks := by
      rw [h_locks]
      exact Nat.mod_lt _ h_size
    have h_held := h_held h_seq
    have h_log := h_all VDO_ZONE_TYPE_LOGICAL (by decide)
    have h_phys := h_all VDO_ZONE_TYPE_PHYSICAL (by decide)
    simp [counters_of, zone_counts_of, zones_of] at h_log h_phys
    cases zone_type with
    | VDO_ZONE_TYPE_JOURNAL => exact absurd rfl h_type
    | VDO_ZONE_TYPE_LOGICAL =>
      obtain ⟨e1, e2, e3, e4, e5, e6, e7, e8⟩ :=
        release_logical_fields journal sequence_number zone_id h_seq
      simp [get_counter] at h_held
      simp [zones_of] at h_zone
      refine ⟨by rw [e5, e8]; exact h_locks, by rw [e8]; exact h_size,
        by rw [e6]; exact h_lz, by rw [e7]; exact h_pz, ?_⟩
      intro zone_type1 h_type1
      cases zone_type1 with
      | VDO_ZONE_TYPE_JOURNAL => exact absurd rfl h_type1
      | VDO_ZONE_TYPE_LOGICAL =>
        simp only [counters_of, zone_counts_of, zones_of, if_true]
        rw [e1, e2, e5, e6]
        refine ⟨?_, ?_⟩
        · intro i
          by_cases h_i : i = journal.lock_counter.locks * zone_id + sequence_number % journal.size
          · subst h_i
            rw [Function.update_same]
            exact Nat.mod_lt _ (by decide)
          · rw [Function.update_noteq h_i]
            exact h_log.1 i
        · exact aggregate_exact_after_release _ _ _ _ _ _ h_log.2 h_lz h_zone h_block h_held
            (h_log.1 _)
      | VDO_ZONE_TYPE_PHYSICAL =>
        simp only [counters_of, zone_counts_of, zones_of, if_false, reduceCtorEq]
        rw [e3, e4, e5, e7]
        exact h_phys
    | VDO_ZONE_TYPE_PHYSICAL =>
      obtain ⟨e1, e2, e3, e4, e5, e6, e7, e8⟩ :=
        release_physical_fields journal sequence_number zone_id h_seq
      simp [get_counter] at h_held
      simp [zones_of] at h_zone
      refine ⟨by rw [e5, e8]; exact h_locks, by rw [e8]; exact h_size,
        by rw [e6]; exact h_lz, by rw [e7]; exact h_pz, ?_⟩
      intro zone_type1 h_type1
      cases zone_type1 with
      | VDO_ZONE_TYPE_JOURNAL => exact absurd rfl h_type1
      | VDO_ZONE_TYPE_LOGICAL =>
        simp only [counters_of, zone_counts_of, zones_of, if_true]
        rw [e3, e4, e5, e6]
        exact h_log
      | VDO_ZONE_TYPE_PHYSICAL =>
        simp only [counters_of, zone_counts_of, zones_of, if_false, reduceCtorEq]
        rw [e1, e2, e5, e7]
        refine ⟨?_, ?_⟩
        · intro i
          by_cases h_i : i = journal.lock_counter.locks * zone_id + sequence_number % journal.size
          · subst h_i
            rw [Function.update_same]
            exact Nat.mod_lt _ (by decide)
          · rw [Function.update_noteq h_i]
            exact h_phys.1 i
        · exact aggregate_exact_after_release _ _ _ _ _ _ h_phys.2 h_pz h_zone h_block h_held
            (h_phys.1 _)

theorem aggregates_exact_of_run (start journal : recovery_journal)
    (h_start : aggregates_exact start) (h_run : zone_lock_run start journal) :
    aggregates_exact journal := by
  induction h_run with
  | init => exact h_start
  | acquire journal sequence_number zone_id zone_type _ h_type h_zone h_max ih =>
    exact aggregates_exact_acquire journal sequence_number zone_id zone_type ih h_type h_zone h_max
  | release journal sequence_number zone_id zone_type _ h_type h_zone h_held ih =>
    exact aggregates_exact_release journal sequence_number zone_id zone_type ih h_type h_zone h_held

theorem zones_holding_zero (locks lock_number zones : Nat) :
    zones_holding (fun _ => 0) locks lock_number zones = 0 := by
  induction zones with
  | zero => rfl
  | succ n ih => simp [zones_holding, ih]

/-- C9: from a freshly initialised lock counter (journal size at least 1, at most 255 zones
of each type), after every sequence of acquire and release calls by logical and physical
zones that never releases a counter that is 0 and never acquires on a counter at 65535,
`logical_zone_counts[b]` is the number of logical zones whose counter for `b` is non-zero
and `physical_zone_counts[b]` is the number of physical zones whose counter for `b` is
non-zero, for every block number `b`. -/
theorem zone_counts_count_holding_zones (journal0 journal : recovery_journal)
    (logical_zone_count physical_zone_count : Nat)
    (h_size : 0 < journal0.size)
    (h_logical : logical_zone_count < 256) (h_physical : physical_zone_count < 256)
    (h_run : zone_lock_run
      (initialize_lock_counter journal0 logical_zone_count physical_zone_count) journal)
    (lock_number : Nat) (h_lock : lock_number < journal.size) :
    journal.lock_counter.logical_zone_counts lock_number
      = zones_holding journal.lock_counter.logical_counters journal.lock_counter.locks
          lock_number journal.lock_counter.logical_zones
    ∧ journal.lock_counter.physical_zone_counts lock_number
      = zones_holding journal.lock_counter.physical_counters journal.lock_counter.locks
          lock_number journal.lock_counter.physical_zones := by
  have h_start : aggregates_exact
      (initialize_lock_counter journal0 logical_zone_count physical_zone_count) := by
    refine ⟨rfl, h_size, h_logical, h_physical, ?_⟩
    intro zone_type _
    refine ⟨?_, ?_⟩
    · intro i
      simp [counters_of, initialize_lock_counter]
    · intro b _
      cases zone_type <;>
        simp [counters_of, zone_counts_of, initialize_lock_counter, zones_holding_zero]
  obtain ⟨h_locks, _, _, _, h_all⟩ := aggregates_exact_of_run _ _ h_start h_run
  have h_log := (h_all VDO_ZONE_TYPE_LOGICAL (by decide)).2 lock_number (by omega)
  have h_phys := (h_all VDO_ZONE_TYPE_PHYSICAL (by decide)).2 lock_number (by omega)
  simp [counters_of, zone_counts_of, zones_of] at h_log h_phys
  exact ⟨h_log, h_phys⟩

/-- Witness of `zone_counts_count_holding_zones`: logical zone 1 acquires block 1 of the
freshly initialised sample journal. -/
theorem zone_counts_count_holding_zones_witness :
    (vdo_acquire_recovery_journal_block_reference (initialize_lock_counter sample_journal 2 2) 1
        VDO_ZONE_TYPE_LOGICAL 1).lock_counter.logical_zone_counts 1
      = zones_holding
          (vdo_acquire_recovery_journal_block_reference (initialize_lock_counter sample_journal 2 2)
            1 VDO_ZONE_TYPE_LOGICAL 1).lock_counter.logical_counters
          (vdo_acquire_recovery_journal_block_reference (initialize_lock_counter sample_journal 2 2)
            1 VDO_ZONE_TYPE_LOGICAL 1).lock_counter.locks
          1
          (vdo_acquire_recovery_journal_block_reference (initialize_lock_counter sample_journal 2 2)
            1 VDO_ZONE_TYPE_LOGICAL 1).lock_counter.logical_zones :=
  (zone_counts_count_holding_zones sample_journal
    (vdo_acquire_recovery_journal_block_reference (initialize_lock_counter sample_journal 2 2) 1
      VDO_ZONE_TYPE_LOGICAL 1)
    2 2 (by decide) (by decide) (by decide)
    (zone_lock_run.acquire _ 1 1 VDO_ZONE_TYPE_LOGICAL zone_lock_run.init
      (by decide) (by decide) (by decide))
    1 (by decide)).1

/-! ### Frames of the lock counter operations -/

theorem quiet_nil : quiet [] := by
  intro e h
  cases h

theorem quiet_append (first second : List Event) (h_first : quiet first) (h_second : quiet second) :
    quiet (first ++ second) := by
  intro e h
  rcases List.mem_append.mp h with h1 | h1
  · exact h_first e h1
  · exact h_second e h1

theorem release_reference_quiet (journal : recovery_journal) (sequence_number zone_id : Nat)
    (zone_type : vdo_zone_type) :
    ∃ counter suffix,
      vdo_release_recovery_journal_block_reference journal sequence_number zone_type zone_id
        = { journal with lock_counter := counter, trace := journal.trace ++ suffix }
      ∧ quiet suffix := by
  have h_notify : ∀ j : recovery_journal, ∃ counter suffix, notify_lock_counter j
      = { j with lock_counter := counter, trace := j.trace ++ suffix } ∧ quiet suffix := by
    intro j
    unfold notify_lock_counter
    split
    · refine ⟨_, _, rfl, ?_⟩
      intro e h
      simp at h
      subst h
      rfl
    · exact ⟨j.lock_counter, [], by simp, quiet_nil⟩
  unfold vdo_release_recovery_journal_block_reference
  by_cases h_seq : sequence_number = 0
  · exact ⟨journal.lock_counter, [], by simp [h_seq], quiet_nil⟩
  · simp only [h_seq, if_false]
    have h_set : ∀ (j : recovery_journal) (l v : Nat) (t : vdo_zone_type) (z : Nat),
        ∃ counter, set_counter j l t z v = { j with lock_counter := counter } := by
      intro j l v t z
      unfold set_counter
      split
      · exact ⟨_, rfl⟩
      · split <;> exact ⟨_, rfl⟩
    have h_zone : ∀ (j : recovery_journal) (l : Nat) (t : vdo_zone_type) (v : Int),
        ∃ counter, set_zone_count j l t v = { j with lock_counter := counter } := by
      intro j l t v
      unfold set_zone_count
      split <;> exact ⟨_, rfl⟩
    obtain ⟨c1, h1⟩ := h_set journal
      (vdo_get_recovery_journal_block_number journal sequence_number)
      (get_counter journal (vdo_get_recovery_journal_block_number journal sequence_number)
        zone_type zone_id + 65535) zone_type zone_id
    rw [h1]
    split
    · split
      · exact ⟨c1, [], by simp, quiet_nil⟩
      · obtain ⟨c2, suffix, h2, hq⟩ := h_notify { journal with lock_counter := c1 }
        exact ⟨c2, suffix, by rw [h2], hq⟩
    · split
      · exact ⟨c1, [], by simp, quiet_nil⟩
      · obtain ⟨c3, h3⟩ := h_zone { journal with lock_counter := c1 }
          (vdo_get_recovery_journal_block_number journal sequence_number) zone_type
          (atomic_add_return (-1)
            (get_zone_count { journal with lock_counter := c1 }
              (vdo_get_recovery_journal_block_number journal sequence_number) zone_type))
        simp only [vdo_get_recovery_journal_block_number] at h3 ⊢
        rw [h3]
        split
        · exact ⟨c3, [], by simp, quiet_nil⟩
        · obtain ⟨c4, suffix, h4, hq⟩ := h_notify { journal with lock_counter := c3 }
          exact ⟨c4, suffix, by rw [h4], hq⟩

theorem release_iterate_quiet (block : recovery_journal_block) (count : Nat)
    (journal : recovery_journal) :
    ∃ counter suffix,
      Nat.iterate (fun j => release_journal_block_reference j block) count journal
        = { journal with lock_counter := counter, trace := journal.trace ++ suffix }
      ∧ quiet suffix := by
  induction count generalizing journal with
  | zero => exact ⟨journal.lock_counter, [], by simp, quiet_nil⟩
  | succ n ih =>
    obtain ⟨c1, s1, h1, q1⟩ := release_reference_quiet journal block.sequence_number 0
      VDO_ZONE_TYPE_JOURNAL
    obtain ⟨c2, s2, h2, q2⟩ := ih { journal with lock_counter := c1, trace := journal.trace ++ s1 }
    refine ⟨c2, s1 ++ s2, ?_, quiet_append _ _ q1 q2⟩
    rw [Function.iterate_succ_apply]
    unfold release_journal_block_reference at h2 ⊢
    rw [h1, h2]
    simp [List.append_assoc]

theorem recycle_journal_block_frame (journal : recovery_journal) (block : recovery_journal_block) :
    ∃ active_block counter suffix,
      recycle_journal_block journal block
        = { journal with
            active_tail_blocks := journal.active_tail_blocks.erase block
            free_tail_blocks := journal.free_tail_blocks.erase block ++ [block]
            active_block := active_block
            lock_counter := counter
            trace := journal.trace ++ suffix }
      ∧ quiet suffix := by
  unfold recycle_journal_block
  obtain ⟨c1, s1, h1, q1⟩ := release_iterate_quiet block
    (journal.entries_per_block - block.entry_count)
    { journal with
      active_tail_blocks := journal.active_tail_blocks.erase block
      free_tail_blocks := journal.free_tail_blocks.erase block ++ [block] }
  simp only [h1]
  by_cases h_count : block.entry_count > 0
  · obtain ⟨c2, s2, h2, q2⟩ := release_reference_quiet
      { journal with
        active_tail_blocks := journal.active_tail_blocks.erase block
        free_tail_blocks := journal.free_tail_blocks.erase block ++ [block]
        lock_counter := c1
        trace := journal.trace ++ s1 } block.sequence_number 0 VDO_ZONE_TYPE_JOURNAL
    simp only [h_count, if_true, release_journal_block_reference, h2]
    split
    · exact ⟨none, c2, s1 ++ s2, by simp [List.append_assoc], quiet_append _ _ q1 q2⟩
    · exact ⟨journal.active_block, c2, s1 ++ s2, by simp [List.append_assoc],
        quiet_append _ _ q1 q2⟩
  · simp only [h_count, if_false]
    split
    · exact ⟨none, c1, s1, rfl, q1⟩
    · exact ⟨journal.active_block, c1, s1, rfl, q1⟩

/-! ### Frames of the notification and drain functions -/

theorem continue_waiter_foldl (result : vdo_status) (waiters : List data_vio)
    (journal : recovery_journal) :
    waiters.foldl (continue_waiter result) journal
      = { journal with
          trace := journal.trace ++ waiters.map (fun w => Event.continue_data_vio w result) } := by
  induction waiters generalizing journal with
  | nil => simp
  | cons w rest ih =>
    rw [List.foldl_cons, ih]
    simp [continue_waiter, List.append_assoc]

theorem continue_committed_waiter_frame (journal : recovery_journal) (waiter : data_vio) :
    ∃ suffix,
      continue_committed_waiter journal waiter
        = { journal with
            commit_point := waiter.recovery_journal_point
            trace := journal.trace ++ suffix }
      ∧ Event.commit_notification waiter
          (if journal.read_only then VDO_READ_ONLY else VDO_SUCCESS) ∈ suffix := by
  unfold continue_committed_waiter
  by_cases h_before :
      vdo_before_journal_point journal.commit_point waiter.recovery_journal_point = true
  · refine ⟨[Event.commit_notification waiter
        (if journal.read_only then VDO_READ_ONLY else VDO_SUCCESS)], ?_, by simp⟩
    simp [h_before]
  · refine ⟨[Event.commit_order_assertion_failed journal.commit_point
        waiter.recovery_journal_point,
      Event.commit_notification waiter
        (if journal.read_only then VDO_READ_ONLY else VDO_SUCCESS)], ?_, by simp⟩
    simp [h_before]

theorem continue_committed_waiter_foldl (waiters : List data_vio) (journal : recovery_journal) :
    ∃ commit_point suffix,
      waiters.foldl continue_committed_waiter journal
        = { journal with commit_point := commit_point, trace := journal.trace ++ suffix }
      ∧ ∀ w, w ∈ waiters →
          Event.commit_notification w (if journal.read_only then VDO_READ_ONLY else VDO_SUCCESS)
            ∈ suffix := by
  induction waiters generalizing journal with
  | nil => exact ⟨journal.commit_point, [], by simp, by simp⟩
  | cons w rest ih =>
    obtain ⟨s1, h1, m1⟩ := continue_committed_waiter_frame journal w
    obtain ⟨cp, s2, h2, m2⟩ := ih
      { journal with commit_point := w.recovery_journal_point, trace := journal.trace ++ s1 }
    rw [List.foldl_cons, h1, h2]
    refine ⟨cp, s1 ++ s2, by simp [List.append_assoc], ?_⟩
    intro w1 h_w1
    rcases List.mem_cons.mp h_w1 with h | h
    · subst h
      exact List.mem_append_left _ m1
    · exact List.mem_append_right _ (m2 w1 h)

theorem notify_commit_waiters_from_frame (blocks : List recovery_journal_block)
    (journal : recovery_journal) :
    ∃ commit_point suffix,
      (notify_commit_waiters_from journal blocks).1
        = { journal with commit_point := commit_point, trace := journal.trace ++ suffix }
      ∧ (journal.read_only = true →
          ∀ b, b ∈ blocks.takeWhile (fun b => !b.committing) →
            ∀ w, w ∈ b.commit_waiters ++ b.entry_waiters →
              Event.commit_notification w VDO_READ_ONLY ∈ suffix) := by
  induction blocks generalizing journal with
  | nil => exact ⟨journal.commit_point, [], by simp [notify_commit_waiters_from], by simp⟩
  | cons block rest ih =>
    unfold notify_commit_waiters_from
    by_cases h_committing : block.committing = true
    · simp only [h_committing, if_true]
      exact ⟨journal.commit_point, [], by simp, by simp [List.takeWhile, h_committing]⟩
    · simp only [h_committing, Bool.false_eq_true, if_false]
      obtain ⟨cp1, s1, h1, m1⟩ := continue_committed_waiter_foldl block.commit_waiters journal
      rw [h1]
      by_cases h_ro : journal.read_only = true
      · rw [if_pos (by exact h_ro)]
        rw [if_pos h_ro] at m1
        obtain ⟨cp2, s2, h2, m2⟩ := continue_committed_waiter_foldl block.entry_waiters
          { journal with commit_point := cp1, trace := journal.trace ++ s1 }
        rw [h2]
        rw [if_pos (by exact h_ro)] at m2
        obtain ⟨cp3, s3, h3, m3⟩ := ih
          { journal with commit_point := cp2, trace := journal.trace ++ s1 ++ s2 }
        simp only at h3 ⊢
        rw [h3]
        refine ⟨cp3, s1 ++ s2 ++ s3, by simp [List.append_assoc], ?_⟩
        intro _ b h_b w h_w
        have h_not : block.committing = false := by simpa using h_committing
        simp only [List.takeWhile_cons, h_not, Bool.not_false, if_true] at h_b
        rcases List.mem_cons.mp h_b with h | h
        · subst h
          rcases List.mem_append.mp h_w with hw | hw
          · exact List.mem_append_left _ (List.mem_append_left _ (m1 w hw))
          · exact List.mem_append_left _ (List.mem_append_right _ (m2 w hw))
        · exact List.mem_append_right _ (m3 h_ro b h w h_w)
      · rw [if_neg (by exact h_ro)]
        split
        · exact ⟨cp1, s1, rfl, fun h => absurd h h_ro⟩
        · obtain ⟨cp3, s3, h3, _⟩ := ih
            { journal with commit_point := cp1, trace := journal.trace ++ s1 }
          simp only at h3 ⊢
          rw [h3]
          exact ⟨cp3, s1 ++ s3, by simp [List.append_assoc], fun h => absurd h h_ro⟩

theorem recycle_journal_blocks_from_frame (blocks : List recovery_journal_block)
    (journal : recovery_journal) :
    ∃ active free active_block counter suffix,
      recycle_journal_blocks_from journal blocks
        = { journal with
            active_tail_blocks := active
            free_tail_blocks := free
            active_block := active_block
            lock_counter := counter
            trace := journal.trace ++ suffix }
      ∧ quiet suffix
      ∧ active.Sublist journal.active_tail_blocks := by
  induction blocks generalizing journal with
  | nil =>
    exact ⟨journal.active_tail_blocks, journal.free_tail_blocks, journal.active_block,
      journal.lock_counter, [], by simp [recycle_journal_blocks_from], quiet_nil,
      List.Sublist.refl _⟩
  | cons block rest ih =>
    unfold recycle_journal_blocks_from
    split
    · exact ⟨journal.active_tail_blocks, journal.free_tail_blocks, journal.active_block,
        journal.lock_counter, [], by simp, quiet_nil, List.Sublist.refl _⟩
    · split
      · exact ⟨journal.active_tail_blocks, journal.free_tail_blocks, journal.active_block,
          journal.lock_counter, [], by simp, quiet_nil, List.Sublist.refl _⟩
      · obtain ⟨ab1, c1, s1, h1, q1⟩ := recycle_journal_block_frame journal block
        rw [h1]
        obtain ⟨a2, f2, ab2, c2, s2, h2, q2, sub2⟩ := ih
          { journal with
            active_tail_blocks := journal.active_tail_blocks.erase block
            free_tail_blocks := journal.free_tail_blocks.erase block ++ [block]
            active_block := ab1
            lock_counter := c1
            trace := journal.trace ++ s1 }
        rw [h2]
        exact ⟨a2, f2, ab2, c2, s1 ++ s2, by simp [List.append_assoc], quiet_append _ _ q1 q2,
          sub2.trans (List.erase_sublist _ _)⟩

theorem release_waiters_read_only_frame (journal : recovery_journal) :
    ∃ active free active_block counter commit_point suffix,
      release_waiters_read_only journal
        = { journal with
            active_tail_blocks := active
            free_tail_blocks := free
            active_block := active_block
            lock_counter := counter
            commit_point := commit_point
            increment_waiters := []
            decrement_waiters := []
            trace := journal.trace ++ suffix }
      ∧ (∀ w, w ∈ journal.decrement_waiters → Event.continue_data_vio w VDO_READ_ONLY ∈ suffix)
      ∧ (∀ w, w ∈ journal.increment_waiters → Event.continue_data_vio w VDO_READ_ONLY ∈ suffix)
      ∧ (journal.read_only = true →
          ∀ b, b ∈ journal.active_tail_blocks.takeWhile (fun b => !b.committing) →
            ∀ w, w ∈ b.commit_waiters ++ b.entry_waiters →
              Event.commit_notification w VDO_READ_ONLY ∈ suffix) := by
  unfold release_waiters_read_only notify_commit_waiters recycle_journal_blocks
  obtain ⟨cp1, s1, h1, m1⟩ := notify_commit_waiters_from_frame journal.active_tail_blocks journal
  simp only [h1]
  obtain ⟨a2, f2, ab2, c2, s2, h2, _, _⟩ := recycle_journal_blocks_from_frame
    (notify_commit_waiters_from journal journal.active_tail_blocks).2
    { journal with
      commit_point := cp1
      trace := journal.trace ++ s1
      active_tail_blocks := (notify_commit_waiters_from journal journal.active_tail_blocks).2 }
  simp only [h2, continue_waiter_foldl]
  refine ⟨a2, f2, ab2, c2, cp1,
    s1 ++ s2 ++ journal.decrement_waiters.map (fun w => Event.continue_data_vio w VDO_READ_ONLY)
      ++ journal.increment_waiters.map (fun w => Event.continue_data_vio w VDO_READ_ONLY),
    by simp [List.append_assoc], ?_, ?_, ?_⟩
  · intro w h_w
    exact List.mem_append_left _ (List.mem_append_right _ (List.mem_map_of_mem _ h_w))
  · intro w h_w
    exact List.mem_append_right _ (List.mem_map_of_mem _ h_w)
  · intro h_ro b h_b w h_w
    exact List.mem_append_left _ (List.mem_append_left _
      (List.mem_append_left _ (m1 h_ro b h_b w h_w)))

theorem finish_drain_if_complete_frame (journal : recovery_journal) (result : vdo_status) :
    ∃ active free active_block counter state suffix,
      finish_drain_if_complete journal result
        = { journal with
            active_tail_blocks := active
            free_tail_blocks := free
            active_block := active_block
            lock_counter := counter
            state := state
            trace := journal.trace ++ suffix }
      ∧ quiet suffix
      ∧ active.Sublist journal.active_tail_blocks := by
  have h_finish : ∀ j : recovery_journal, ∃ state suffix,
      vdo_finish_draining_with_result j result
        = { j with state := state, trace := j.trace ++ suffix } ∧ quiet suffix := by
    intro j
    refine ⟨_, [Event.finish_draining result], rfl, ?_⟩
    intro e h
    simp at h
    subst h
    rfl
  have h_suspend : ∀ j : recovery_journal, ∃ counter,
      (suspend_lock_counter j).2 = { j with lock_counter := counter } := by
    intro j
    unfold suspend_lock_counter
    simp only
    split
    · exact ⟨_, rfl⟩
    · exact ⟨j.lock_counter, rfl⟩
  unfold finish_drain_if_complete
  split
  · exact ⟨journal.active_tail_blocks, journal.free_tail_blocks, journal.active_block,
      journal.lock_counter, journal.state, [], by simp, quiet_nil, List.Sublist.refl _⟩
  · obtain ⟨c1, h1⟩ := h_suspend journal
    simp only [h1]
    split
    · exact ⟨journal.active_tail_blocks, journal.free_tail_blocks, journal.active_block,
        c1, journal.state, [], by simp, quiet_nil, List.Sublist.refl _⟩
    · split
      · split
        · rename_i block _
          obtain ⟨ab2, c2, s2, h2, q2⟩ := recycle_journal_block_frame
            { journal with lock_counter := c1 } block
          rw [h2]
          obtain ⟨st3, s3, h3, q3⟩ := h_finish
            { journal with
              lock_counter := c2
              active_tail_blocks := journal.active_tail_blocks.erase block
              free_tail_blocks := journal.free_tail_blocks.erase block ++ [block]
              active_block := ab2
              trace := journal.trace ++ s2 }
          rw [h3]
          exact ⟨journal.active_tail_blocks.erase block,
            journal.free_tail_blocks.erase block ++ [block], ab2, c2, st3, s2 ++ s3,
            by simp [List.append_assoc], quiet_append _ _ q2 q3, List.erase_sublist _ _⟩
        · obtain ⟨st3, s3, h3, q3⟩ := h_finish { journal with lock_counter := c1 }
          rw [h3]
          exact ⟨journal.active_tail_blocks, journal.free_tail_blocks, journal.active_block,
            c1, st3, s3, rfl, q3, List.Sublist.refl _⟩
      · obtain ⟨st3, s3, h3, q3⟩ := h_finish { journal with lock_counter := c1 }
        rw [h3]
        exact ⟨journal.active_tail_blocks, journal.free_tail_blocks, journal.active_block,
          c1, st3, s3, rfl, q3, List.Sublist.refl _⟩

/-! ### Drain check, entry admission and entry submission -/

theorem check_for_drain_complete_frame (journal : recovery_journal) :
    ∃ active free active_block counter commit_point increments decrements state suffix,
      check_for_drain_complete journal
        = { journal with
            active_tail_blocks := active
            free_tail_blocks := free
            active_block := active_block
            lock_counter := counter
            commit_point := commit_point
            increment_waiters := increments
            decrement_waiters := decrements
            state := state
            trace := journal.trace ++ suffix } := by
  unfold check_for_drain_complete
  split
  · obtain ⟨a1, f1, ab1, c1, cp1, s1, h1, _⟩ := release_waiters_read_only_frame journal
    rw [h1]
    obtain ⟨a2, f2, ab2, c2, st2, s2, h2, _⟩ := finish_drain_if_complete_frame
      { journal with
        active_tail_blocks := a1
        free_tail_blocks := f1
        active_block := ab1
        lock_counter := c1
        commit_point := cp1
        increment_waiters := []
        decrement_waiters := []
        trace := journal.trace ++ s1 } VDO_READ_ONLY
    rw [h2]
    exact ⟨a2, f2, ab2, c2, cp1, [], [], st2, s1 ++ s2, by simp [List.append_assoc]⟩
  · obtain ⟨a2, f2, ab2, c2, st2, s2, h2, _⟩ := finish_drain_if_complete_frame journal VDO_SUCCESS
    rw [h2]
    exact ⟨a2, f2, ab2, c2, journal.commit_point, journal.increment_waiters,
      journal.decrement_waiters, st2, s2, rfl⟩

/-- C5: when the journal is read-only, `check_for_drain_complete` leaves both entry queues
empty, continues every data_vio that was queued on them with `VDO_READ_ONLY`, and notifies
every commit waiter and entry waiter of the leading non-committing blocks of
`active_tail_blocks` with `VDO_READ_ONLY`. -/
theorem check_for_drain_complete_read_only (journal : recovery_journal)
    (h_read_only : journal.read_only = true) :
    (check_for_drain_complete journal).increment_waiters = []
    ∧ (check_for_drain_complete journal).decrement_waiters = []
    ∧ ∃ suffix, (check_for_drain_complete journal).trace = journal.trace ++ suffix
        ∧ (∀ w, w ∈ journal.decrement_waiters →
            Event.continue_data_vio w VDO_READ_ONLY ∈ suffix)
        ∧ (∀ w, w ∈ journal.increment_waiters →
            Event.continue_data_vio w VDO_READ_ONLY ∈ suffix)
        ∧ (∀ b, b ∈ journal.active_tail_blocks.takeWhile (fun b => !b.committing) →
            ∀ w, w ∈ b.commit_waiters ++ b.entry_waiters →
              Event.commit_notification w VDO_READ_ONLY ∈ suffix) := by
  unfold check_for_drain_complete
  rw [if_pos h_read_only]
  obtain ⟨a1, f1, ab1, c1, cp1, s1, h1, m_dec, m_inc, m_commit⟩ :=
    release_waiters_read_only_frame journal
  rw [h1]
  obtain ⟨a2, f2, ab2, c2, st2, s2, h2, _⟩ := finish_drain_if_complete_frame
    { journal with
      active_tail_blocks := a1
      free_tail_blocks := f1
      active_block := ab1
      lock_counter := c1
      commit_point := cp1
      increment_waiters := []
      decrement_waiters := []
      trace := journal.trace ++ s1 } VDO_READ_ONLY
  rw [h2]
  refine ⟨rfl, rfl, s1 ++ s2, by simp [List.append_assoc], ?_, ?_, ?_⟩
  · exact fun w h_w => List.mem_append_left _ (m_dec w h_w)
  · exact fun w h_w => List.mem_append_left _ (m_inc w h_w)
  · exact fun b h_b w h_w => List.mem_append_left _ (m_commit h_read_only b h_b w h_w)

/-- Witness of `check_for_drain_complete_read_only` on the read-only sample journal. -/
theorem check_for_drain_complete_read_only_witness :
    (check_for_drain_complete sample_journal_read_only).increment_waiters = []
    ∧ (check_for_drain_complete sample_journal_read_only).decrement_waiters = [] :=
  ⟨(check_for_drain_complete_read_only sample_journal_read_only rfl).1,
    (check_for_drain_complete_read_only sample_journal_read_only rfl).2.1⟩

/-- C2: called for a decrement with `available_space = 0`, `prepare_to_assign_entry` enters
read-only mode with `VDO_RECOVERY_JOURNAL_FULL` and returns false; called for an increment
for which `check_for_entry_space` finds no space, it returns false and leaves the whole
journal (tail, active block, lock counts and everything else) as it was. -/
theorem prepare_to_assign_entry_without_space (journal : recovery_journal) :
    (journal.available_space = 0 →
      ∃ journal1 suffix,
        prepare_to_assign_entry journal false = some (false, journal1)
        ∧ journal1.read_only = true
        ∧ journal1.trace
            = journal.trace ++ Event.enter_read_only VDO_RECOVERY_JOURNAL_FULL :: suffix)
    ∧ (check_for_entry_space journal true = false →
        prepare_to_assign_entry journal true = some (false, journal)) := by
  constructor
  · intro h_space
    obtain ⟨a, f, ab, c, cp, inc, dec, st, suffix, h⟩ := check_for_drain_complete_frame
      (vdo_enter_read_only_mode journal VDO_RECOVERY_JOURNAL_FULL)
    refine ⟨enter_journal_read_only_mode journal VDO_RECOVERY_JOURNAL_FULL, suffix, ?_, ?_, ?_⟩
    · simp [prepare_to_assign_entry, check_for_entry_space, h_space]
    · unfold enter_journal_read_only_mode
      rw [h]
      rfl
    · unfold enter_journal_read_only_mode
      rw [h]
      simp [vdo_enter_read_only_mode]
  · intro h_space
    simp [prepare_to_assign_entry, h_space]

/-- Witness of `prepare_to_assign_entry_without_space` on the sample journal, whose
`available_space` is 0. -/
theorem prepare_to_assign_entry_without_space_witness :
    (∃ journal1 suffix,
        prepare_to_assign_entry sample_journal false = some (false, journal1)
        ∧ journal1.read_only = true
        ∧ journal1.trace
            = sample_journal.trace ++ Event.enter_read_only VDO_RECOVERY_JOURNAL_FULL :: suffix)
    ∧ prepare_to_assign_entry sample_journal true = some (false, sample_journal) :=
  ⟨(prepare_to_assign_entry_without_space sample_journal).1 rfl,
    (prepare_to_assign_entry_without_space sample_journal).2 (by decide)⟩

/-- C3: `vdo_add_recovery_journal_entry` continues the data_vio with
`VDO_INVALID_ADMIN_STATE` when the admin state is not normal operation and with
`VDO_READ_ONLY` when it is normal but the journal is read-only, in both cases changing no
field of the journal and queueing nothing; otherwise it appends the data_vio to
`increment_waiters` if its operation is a data or block-map increment and to
`decrement_waiters` if not, and runs `assign_entries` on the result. -/
theorem add_recovery_journal_entry_spec (journal : recovery_journal) (waiter : data_vio) :
    (journal.state ≠ VDO_ADMIN_STATE_NORMAL_OPERATION →
      vdo_add_recovery_journal_entry journal waiter
        = some { journal with
            trace := journal.trace ++ [Event.continue_data_vio waiter VDO_INVALID_ADMIN_STATE] })
    ∧ (journal.state = VDO_ADMIN_STATE_NORMAL_OPERATION → journal.read_only = true →
        vdo_add_recovery_journal_entry journal waiter
          = some { journal with
              trace := journal.trace ++ [Event.continue_data_vio waiter VDO_READ_ONLY] })
    ∧ (journal.state = VDO_ADMIN_STATE_NORMAL_OPERATION → journal.read_only = false →
        (waiter.operation_type = VDO_JOURNAL_DATA_INCREMENT
            ∨ waiter.operation_type = VDO_JOURNAL_BLOCK_MAP_INCREMENT →
          vdo_add_recovery_journal_entry journal waiter
            = assign_entries { journal with
                append_point :=
                  vdo_advance_journal_point journal.append_point journal.entries_per_block
                increment_waiters := journal.increment_waiters ++ [waiter] })
        ∧ (¬ (waiter.operation_type = VDO_JOURNAL_DATA_INCREMENT
              ∨ waiter.operation_type = VDO_JOURNAL_BLOCK_MAP_INCREMENT) →
          vdo_add_recovery_journal_entry journal waiter
            = assign_entries { journal with
                append_point :=
                  vdo_advance_journal_point journal.append_point journal.entries_per_block
                decrement_waiters := journal.decrement_waiters ++ [waiter] })) := by
  refine ⟨?_, ?_, ?_⟩
  · intro h_state
    simp [vdo_add_recovery_journal_entry, vdo_is_state_normal, h_state, continue_waiter]
  · intro h_state h_read_only
    simp [vdo_add_recovery_journal_entry, vdo_is_state_normal, h_state, h_read_only,
      continue_waiter]
  · intro h_state h_read_only
    constructor
    · intro h_op
      simp [vdo_add_recovery_journal_entry, vdo_is_state_normal, h_state, h_read_only,
        vdo_is_journal_increment_operation, h_op, set_entry_waiters, entry_waiters_of]
    · intro h_op
      simp [vdo_add_recovery_journal_entry, vdo_is_state_normal, h_state, h_read_only,
        vdo_is_journal_increment_operation, h_op, set_entry_waiters, entry_waiters_of]

/-- Witness of `add_recovery_journal_entry_spec`: an entry offered to the suspended sample
journal and one offered to the read-only sample journal. -/
theorem add_recovery_journal_entry_spec_witness :
    vdo_add_recovery_journal_entry
        { sample_journal with state := VDO_ADMIN_STATE_SUSPENDED } (sample_increment 1)
      = some { sample_journal with
          state := VDO_ADMIN_STATE_SUSPENDED
          trace := [Event.continue_data_vio (sample_increment 1) VDO_INVALID_ADMIN_STATE] }
    ∧ vdo_add_recovery_journal_entry sample_journal_read_only (sample_increment 1)
      = some { sample_journal_read_only with
          trace := sample_journal_read_only.trace
            ++ [Event.continue_data_vio (sample_increment 1) VDO_READ_ONLY] } :=
  ⟨(add_recovery_journal_entry_spec
      { sample_journal with state := VDO_ADMIN_STATE_SUSPENDED } (sample_increment 1)).1
      (by decide),
    (add_recovery_journal_entry_spec sample_journal_read_only (sample_increment 1)).2.1
      rfl rfl⟩

/-! ### Journal-zone counters and decrement counts -/

@[simp]
theorem notify_lock_counter_entries_per_block (journal : recovery_journal) :
    (notify_lock_counter journal).entries_per_block = journal.entries_per_block := by
  unfold notify_lock_counter
  split <;> rfl

theorem before_iff (p q : journal_point) :
    vdo_before_journal_point p q = true ↔
      (p.sequence_number < q.sequence_number
        ∨ (p.sequence_number = q.sequence_number ∧ p.entry_count < q.entry_count)) := by
  simp [vdo_before_journal_point]

theorem before_trans (p q r : journal_point) (h1 : vdo_before_journal_point p q = true)
    (h2 : vdo_before_journal_point q r = true) : vdo_before_journal_point p r = true := by
  rw [before_iff] at h1 h2 ⊢
  omega

theorem notified_points_append (first second : List Event) :
    notified_points (first ++ second) = notified_points first ++ notified_points second := by
  simp [notified_points, List.filterMap_append]

theorem notified_points_quiet (events : List Event) (h : quiet events) :
    notified_points events = [] := by
  induction events with
  | nil => rfl
  | cons e rest ih =>
    have h_e := h e (List.mem_cons_self _ _)
    have h_rest : quiet rest := fun x hx => h x (List.mem_cons_of_mem _ hx)
    cases e <;> simp_all [notified_points, is_commit_event]

theorem not_failure_of_quiet (events : List Event) (h : quiet events) :
    ∀ e, e ∈ events → ∀ a b, e ≠ Event.commit_order_assertion_failed a b := by
  intro e h_e a b h_eq
  have := h e h_e
  rw [h_eq] at this
  simp [is_commit_event] at this

theorem trace_in_order_congr (journal journal1 : recovery_journal) (suffix : List Event)
    (h_point : journal1.commit_point = journal.commit_point)
    (h_trace : journal1.trace = journal.trace ++ suffix) (h_quiet : quiet suffix)
    (h : trace_in_order journal) : trace_in_order journal1 := by
  unfold trace_in_order at h ⊢
  rw [h_trace, h_point, notified_points_append, notified_points_quiet suffix h_quiet,
    List.append_nil]
  refine ⟨h.1, h.2.1, ?_, h.2.2.2⟩
  intro e h_e
  rcases List.mem_append.mp h_e with h1 | h1
  · exact h.2.2.1 e h1
  · exact not_failure_of_quiet suffix h_quiet e h1

theorem continue_committed_waiter_in_order (journal : recovery_journal) (waiter : data_vio)
    (h_before : vdo_before_journal_point journal.commit_point waiter.recovery_journal_point = true)
    (h : trace_in_order journal) :
    ∃ suffix,
      continue_committed_waiter journal waiter
        = { journal with
            commit_point := waiter.recovery_journal_point
            trace := journal.trace ++ suffix }
      ∧ trace_in_order (continue_committed_waiter journal waiter) := by
  have h_eq : continue_committed_waiter journal waiter
      = { journal with
          commit_point := waiter.recovery_journal_point
          trace := journal.trace ++ [Event.commit_notification waiter
            (if journal.read_only then VDO_READ_ONLY else VDO_SUCCESS)] } := by
    simp [continue_committed_waiter, h_before]
  refine ⟨_, h_eq, ?_⟩
  rw [h_eq]
  unfold trace_in_order at h ⊢
  simp only [notified_points_append]
  have h_single : notified_points [Event.commit_notification waiter
      (if journal.read_only then VDO_READ_ONLY else VDO_SUCCESS)]
      = [waiter.recovery_journal_point] := by
    simp [notified_points]
  rw [h_single]
  refine ⟨?_, ?_, ?_, ?_⟩
  · rw [List.pairwise_append]
    refine ⟨h.1, List.pairwise_singleton _ _, ?_⟩
    intro p h_p q h_q
    rw [List.mem_singleton] at h_q
    subst h_q
    rcases h.2.1 p h_p with h1 | h1
    · rw [h1]
      exact h_before
    · exact before_trans _ _ _ h1 h_before
  · intro p h_p
    rcases List.mem_append.mp h_p with h1 | h1
    · right
      rcases h.2.1 p h1 with h2 | h2
      · rw [h2]
        exact h_before
      · exact before_trans _ _ _ h2 h_before
    · left
      exact List.mem_singleton.mp h1
  · intro e h_e a b
    rcases List.mem_append.mp h_e with h1 | h1
    · exact h.2.2.1 e h1 a b
    · rw [List.mem_singleton] at h1
      rw [h1]
      simp
  · intro p h_p
    rw [List.getLast?_append, List.getLast?_singleton] at h_p
    exact (Option.some.inj h_p).symm

theorem continue_committed_waiter_foldl_in_order (waiters : List data_vio)
    (journal : recovery_journal)
    (h_sorted : waiters.Pairwise (fun v w =>
      vdo_before_journal_point v.recovery_journal_point w.recovery_journal_point = true))
    (h_after : ∀ w, w ∈ waiters →
      vdo_before_journal_point journal.commit_point w.recovery_journal_point = true)
    (h : trace_in_order journal) :
    ∃ commit_point suffix,
      waiters.foldl continue_committed_waiter journal
        = { journal with commit_point := commit_point, trace := journal.trace ++ suffix }
      ∧ trace_in_order (waiters.foldl continue_committed_waiter journal)
      ∧ (commit_point = journal.commit_point
          ∨ ∃ w, w ∈ waiters ∧ commit_point = w.recovery_journal_point)
      ∧ (∀ q, vdo_before_journal_point journal.commit_point q = true →
          (∀ w, w ∈ waiters → vdo_before_journal_point w.recovery_journal_point q = true) →
          vdo_before_journal_point commit_point q = true) := by
  induction waiters generalizing journal with
  | nil =>
    exact ⟨journal.commit_point, [], by simp, by simpa using h, Or.inl rfl, fun q hq _ => hq⟩
  | cons w rest ih =>
    obtain ⟨s1, h1, t1⟩ := continue_committed_waiter_in_order journal w
      (h_after w (List.mem_cons_self _ _)) h
    rw [List.pairwise_cons] at h_sorted
    have h_ih := ih (continue_committed_waiter journal w) h_sorted.2
      (by
        intro v h_v
        rw [h1]
        exact h_sorted.1 v h_v)
      t1
    obtain ⟨cp, s2, h2, t2, h_cp, h_q⟩ := h_ih
    rw [List.foldl_cons]
    refine ⟨cp, s1 ++ s2, ?_, t2, ?_, ?_⟩
    · rw [h2, h1]
      simp [List.append_assoc]
    · rcases h_cp with h3 | ⟨v, h_v, h3⟩
      · right
        refine ⟨w, List.mem_cons_self _ _, ?_⟩
        rw [h3, h1]
      · exact Or.inr ⟨v, List.mem_cons_of_mem _ h_v, h3⟩
    · intro q _ h_all
      apply h_q q
      · rw [h1]
        exact h_all w (List.mem_cons_self _ _)
      · exact fun v h_v => h_all v (List.mem_cons_of_mem _ h_v)

theorem block_waiters_sorted (commit_point : journal_point) (bound entries : Nat)
    (read_only : Bool) (block : recovery_journal_block)
    (h : block_ok commit_point bound entries read_only block) :
    (block_waiters block).Pairwise (fun v w =>
      vdo_before_journal_point v.recovery_journal_point w.recovery_journal_point = true) := by
  obtain ⟨_, _, _, _, h_pair, h_all, _⟩ := h
  refine List.Pairwise.imp_of_mem ?_ h_pair
  intro v w h_v h_w h_lt
  rw [before_iff]
  right
  exact ⟨by rw [(h_all v h_v).1, (h_all w h_w).1], h_lt⟩

theorem block_ok_advance (commit_point commit_point1 : journal_point) (bound entries : Nat)
    (read_only : Bool) (block : recovery_journal_block)
    (h : block_ok commit_point bound entries read_only block)
    (h_advance : ∀ q : journal_point, q.sequence_number = block.sequence_number →
      vdo_before_journal_point commit_point q = true →
      vdo_before_journal_point commit_point1 q = true) :
    block_ok commit_point1 bound entries read_only block := by
  obtain ⟨h1, h2, h3, h4, h5, h6, h7⟩ := h
  refine ⟨h1, h2, h3, h4, h5, ?_, ?_⟩
  · intro w h_w
    obtain ⟨a, b, c⟩ := h6 w h_w
    exact ⟨a, b, h_advance _ a c⟩
  · rcases h7 with h | h | h
    · exact Or.inl (h_advance _ rfl h)
    · exact Or.inr (Or.inl h)
    · exact Or.inr (Or.inr h)

theorem block_ok_without_waiters (commit_point commit_point1 : journal_point)
    (bound entries : Nat) (read_only : Bool) (block block1 : recovery_journal_block)
    (h : block_ok commit_point bound entries read_only block)
    (h_seq : block1.sequence_number = block.sequence_number)
    (h_count : block1.entry_count = block.entry_count)
    (h_uncommitted : block1.uncommitted_entry_count = block.uncommitted_entry_count)
    (h_in_commit : block1.entries_in_commit = block.entries_in_commit)
    (h_commit : block1.commit_waiters = []) (h_entry : block1.entry_waiters = [])
    (h_closed : entries = block.entry_count ∨ read_only = true) :
    block_ok commit_point1 bound entries read_only block1 := by
  obtain ⟨h1, h2, h3, h4, _, _, _⟩ := h
  unfold block_ok block_waiters
  rw [h_seq, h_count, h_uncommitted, h_in_commit, h_commit, h_entry]
  refine ⟨h1, by simp only [List.length_nil]; omega, h3, h4, by simp, by simp, Or.inr h_closed⟩

theorem block_ok_commit_notified (commit_point commit_point1 : journal_point)
    (bound entries : Nat) (read_only : Bool) (block : recovery_journal_block)
    (h : block_ok commit_point bound entries read_only block)
    (h_advance : ∀ q : journal_point,
      vdo_before_journal_point commit_point q = true →
      (∀ w, w ∈ block.commit_waiters →
        vdo_before_journal_point w.recovery_journal_point q = true) →
      vdo_before_journal_point commit_point1 q = true) :
    block_ok commit_point1 bound entries read_only { block with commit_waiters := [] } := by
  have h_sorted := block_waiters_sorted _ _ _ _ _ h
  obtain ⟨h1, h2, h3, h4, h5, h6, h7⟩ := h
  unfold block_waiters at h5 h6 h_sorted
  rw [List.pairwise_append] at h_sorted
  refine ⟨h1, h2, h3, h4, ?_, ?_, ?_⟩
  · show (([] : List data_vio) ++ block.entry_waiters).Pairwise _
    rw [List.nil_append]
    exact (List.pairwise_append.mp h5).2.1
  · intro w h_w
    have h_w1 : w ∈ block.entry_waiters := by
      simpa [block_waiters] using h_w
    obtain ⟨a, b, c⟩ := h6 w (List.mem_append_right _ h_w1)
    exact ⟨a, b, h_advance _ c (fun v h_v => h_sorted.2.2 v h_v w h_w1)⟩
  · rcases h7 with h | h | h
    · left
      apply h_advance _ h
      intro v h_v
      obtain ⟨a, b, _⟩ := h6 v (List.mem_append_left _ h_v)
      rw [before_iff]
      right
      exact ⟨a, b⟩
    · exact Or.inr (Or.inl h)
    · exact Or.inr (Or.inr h)

theorem notify_commit_waiters_from_core (blocks : List recovery_journal_block)
    (journal : recovery_journal) (bound : Nat)
    (h_pair : blocks.Pairwise (fun a b => a.sequence_number < b.sequence_number))
    (h_ok : ∀ b, b ∈ blocks →
      block_ok journal.commit_point bound journal.entries_per_block journal.read_only b)
    (h_trace : trace_in_order journal) :
    ∃ commit_point suffix,
      (notify_commit_waiters_from journal blocks).1
        = { journal with commit_point := commit_point, trace := journal.trace ++ suffix }
      ∧ trace_in_order (notify_commit_waiters_from journal blocks).1
      ∧ (notify_commit_waiters_from journal blocks).2.map (fun b => b.sequence_number)
          = blocks.map (fun b => b.sequence_number)
      ∧ (∀ b, b ∈ (notify_commit_waiters_from journal blocks).2 →
          block_ok commit_point bound journal.entries_per_block journal.read_only b)
      ∧ (commit_point = journal.commit_point
          ∨ ∃ b, b ∈ blocks ∧ ∃ w, w ∈ block_waiters b
              ∧ commit_point = w.recovery_journal_point)
      ∧ (∀ q, vdo_before_journal_point journal.commit_point q = true →
          (∀ b, b ∈ blocks → ∀ w, w ∈ block_waiters b →
            vdo_before_journal_point w.recovery_journal_point q = true) →
          vdo_before_journal_point commit_point q = true) := by
  induction blocks generalizing journal with
  | nil =>
    exact ⟨journal.commit_point, [], by simp [notify_commit_waiters_from],
      by simpa [notify_commit_waiters_from] using h_trace, rfl,
      by simp [notify_commit_waiters_from], Or.inl rfl, fun q hq _ => hq⟩
  | cons block rest ih =>
    have h_block := h_ok block (List.mem_cons_self _ _)
    have h_rest : ∀ b, b ∈ rest →
        block_ok journal.commit_point bound journal.entries_per_block journal.read_only b :=
      fun b hb => h_ok b (List.mem_cons_of_mem _ hb)
    rw [List.pairwise_cons] at h_pair
    have h_sorted := block_waiters_sorted _ _ _ _ _ h_block
    unfold block_waiters at h_sorted
    rw [List.pairwise_append] at h_sorted
    have h_fields := h_block
    obtain ⟨f1, f2, f3, f4, f5, f6, f7⟩ := h_fields
    unfold notify_commit_waiters_from
    by_cases h_committing : block.committing = true
    · rw [if_pos h_committing]
      exact ⟨journal.commit_point, [], by simp, h_trace, rfl, h_ok, Or.inl rfl,
        fun q hq _ => hq⟩
    · rw [if_neg h_committing]
      obtain ⟨cp1, s1, e1, t1, o1, a1⟩ := continue_committed_waiter_foldl_in_order
        block.commit_waiters journal h_sorted.1
        (fun w h_w => (f6 w (List.mem_append_left _ h_w)).2.2) h_trace
      -- blocks after this one see the commit point advance
      have h_later : ∀ (cp : journal_point),
          (∀ q, vdo_before_journal_point journal.commit_point q = true →
            (∀ w, w ∈ block_waiters block →
              vdo_before_journal_point w.recovery_journal_point q = true) →
            vdo_before_journal_point cp q = true) →
          ∀ b, b ∈ rest →
            block_ok cp bound journal.entries_per_block journal.read_only b := by
        intro cp h_cp b h_b
        apply block_ok_advance _ _ _ _ _ _ (h_rest b h_b)
        intro q h_q h_before
        apply h_cp q h_before
        intro w h_w
        rw [before_iff]
        left
        rw [(f6 w h_w).1, h_q]
        exact h_pair.1 b h_b
      simp only
      rw [e1] at t1 ⊢
      by_cases h_ro : journal.read_only = true
      · rw [if_pos (by exact h_ro)]
        obtain ⟨cp2, s2, e2, t2, o2, a2⟩ := continue_committed_waiter_foldl_in_order
          block.entry_waiters
          { journal with commit_point := cp1, trace := journal.trace ++ s1 } h_sorted.2.1
          (fun w h_w => a1 _ (f6 w (List.mem_append_right _ h_w)).2.2
            (fun v h_v => h_sorted.2.2 v h_v w h_w)) t1
        rw [e2] at t2 ⊢
        have h_all2 : ∀ q, vdo_before_journal_point journal.commit_point q = true →
            (∀ w, w ∈ block_waiters block →
              vdo_before_journal_point w.recovery_journal_point q = true) →
            vdo_before_journal_point cp2 q = true := by
          intro q h_q h_w
          apply a2 q
          · exact a1 q h_q (fun w hw => h_w w (List.mem_append_left _ hw))
          · exact fun w hw => h_w w (List.mem_append_right _ hw)
        obtain ⟨cp3, s3, e3, t3, m3, k3, o3, a3⟩ := ih
          { journal with commit_point := cp2, trace := journal.trace ++ s1 ++ s2 }
          h_pair.2 (h_later cp2 h_all2) t2
        refine ⟨cp3, s1 ++ s2 ++ s3, ?_, t3, ?_, ?_, ?_, ?_⟩
        · rw [e3]
          simp [List.append_assoc]
        · simp only [List.map_cons, m3]
        · intro b h_b
          rcases List.mem_cons.mp h_b with h | h
          · rw [h]
            exact block_ok_without_waiters _ _ _ _ _ _ _ h_block rfl rfl rfl rfl rfl rfl
              (Or.inr h_ro)
          · exact k3 b h
        · rcases o3 with h | ⟨b, h_b, w, h_w, h⟩
          · rcases o2 with h2 | ⟨w, h_w, h2⟩
            · rcases o1 with h1 | ⟨w, h_w, h1⟩
              · left
                rw [h, h2, h1]
              · right
                exact ⟨block, List.mem_cons_self _ _, w, List.mem_append_left _ h_w,
                  by rw [h, h2, h1]⟩
            · right
              exact ⟨block, List.mem_cons_self _ _, w, List.mem_append_right _ h_w,
                by rw [h, h2]⟩
          · right
            exact ⟨b, List.mem_cons_of_mem _ h_b, w, h_w, h⟩
        · intro q h_q h_w
          apply a3 q
          · exact h_all2 q h_q (fun w hw => h_w block (List.mem_cons_self _ _) w hw)
          · exact fun b hb w hw => h_w b (List.mem_cons_of_mem _ hb) w hw
      · rw [if_neg (by exact h_ro)]
        have h_all1 : ∀ q, vdo_before_journal_point journal.commit_point q = true →
            (∀ w, w ∈ block_waiters block →
              vdo_before_journal_point w.recovery_journal_point q = true) →
            vdo_before_journal_point cp1 q = true :=
          fun q h_q h_w => a1 q h_q (fun w hw => h_w w (List.mem_append_left _ hw))
        have h_origin : cp1 = journal.commit_point
            ∨ ∃ b, b ∈ block :: rest ∧ ∃ w, w ∈ block_waiters b
                ∧ cp1 = w.recovery_journal_point := by
          rcases o1 with h1 | ⟨w, h_w, h1⟩
          · exact Or.inl h1
          · exact Or.inr ⟨block, List.mem_cons_self _ _, w, List.mem_append_left _ h_w, h1⟩
        by_cases h_stop : (is_block_dirty block
            || !is_block_full
              { journal with commit_point := cp1, trace := journal.trace ++ s1 }
              (some block)) = true
        · rw [if_pos h_stop]
          refine ⟨cp1, s1, rfl, t1, rfl, ?_, h_origin, ?_⟩
          · intro b h_b
            rcases List.mem_cons.mp h_b with h | h
            · rw [h]
              exact block_ok_commit_notified _ _ _ _ _ _ h_block a1
            · exact h_later cp1 h_all1 b h
          · exact fun q h_q h_w =>
              h_all1 q h_q (fun w hw => h_w block (List.mem_cons_self _ _) w hw)
        · rw [if_neg h_stop]
          have h_clean : block.uncommitted_entry_count = 0
              ∧ journal.entries_per_block = block.entry_count := by
            simp [is_block_dirty, is_block_full] at h_stop
            exact h_stop
          have h_no_entry : block.entry_waiters = [] := by
            apply List.eq_nil_of_length_eq_zero
            omega
          obtain ⟨cp3, s3, e3, t3, m3, k3, o3, a3⟩ := ih
            { journal with commit_point := cp1, trace := journal.trace ++ s1 }
            h_pair.2 (h_later cp1 h_all1) t1
          refine ⟨cp3, s1 ++ s3, ?_, t3, ?_, ?_, ?_, ?_⟩
          · rw [e3]
            simp [List.append_assoc]
          · simp only [List.map_cons, m3]
          · intro b h_b
            rcases List.mem_cons.mp h_b with h | h
            · rw [h]
              exact block_ok_without_waiters _ _ _ _ _ _ _ h_block rfl rfl rfl rfl rfl
                h_no_entry (Or.inl h_clean.2)
            · exact k3 b h
          · rcases o3 with h | ⟨b, h_b, w, h_w, h⟩
            · rcases h_origin with h1 | h1
              · left
                rw [h, h1]
              · right
                rw [h]
                exact h1
            · right
              exact ⟨b, List.mem_cons_of_mem _ h_b, w, h_w, h⟩
          · intro q h_q h_w
            apply a3 q
            · exact h_all1 q h_q (fun w hw => h_w block (List.mem_cons_self _ _) w hw)
            · exact fun b hb w hw => h_w b (List.mem_cons_of_mem _ hb) w hw

theorem notified_points_filter (trace : List Event) :
    notified_points (trace.filter is_commit_event) = notified_points trace := by
  induction trace with
  | nil => rfl
  | cons e rest ih =>
    cases e <;> simp_all [notified_points, List.filter_cons, is_commit_event]

theorem filter_quiet (trace suffix : List Event) (h : quiet suffix) :
    (trace ++ suffix).filter is_commit_event = trace.filter is_commit_event := by
  rw [List.filter_append]
  have h_nil : suffix.filter is_commit_event = [] := by
    rw [List.filter_eq_nil_iff]
    intro e h_e
    rw [h e h_e]
    decide
  rw [h_nil, List.append_nil]

theorem trace_in_order_transfer (journal journal1 : recovery_journal)
    (h_point : journal1.commit_point = journal.commit_point)
    (h_trace : journal1.trace.filter is_commit_event = journal.trace.filter is_commit_event)
    (h : trace_in_order journal) : trace_in_order journal1 := by
  unfold trace_in_order at h ⊢
  rw [← notified_points_filter journal1.trace, h_trace, notified_points_filter, h_point]
  refine ⟨h.1, h.2.1, ?_, h.2.2.2⟩
  intro e h_e a b h_eq
  have h_mem : e ∈ journal1.trace.filter is_commit_event := by
    rw [List.mem_filter]
    exact ⟨h_e, by rw [h_eq]; rfl⟩
  rw [h_trace, List.mem_filter] at h_mem
  exact h.2.2.1 e h_mem.1 a b h_eq

theorem block_ok_weaken (commit_point : journal_point) (bound bound1 entries : Nat)
    (read_only read_only1 : Bool) (block : recovery_journal_block)
    (h_bound : bound ≤ bound1)
    (h_ro : read_only1 = read_only ∨ read_only1 = true)
    (h : block_ok commit_point bound entries read_only block) :
    block_ok commit_point bound1 entries read_only1 block := by
  obtain ⟨h1, h2, h3, h4, h5, h6, h7⟩ := h
  refine ⟨by omega, h2, h3, h4, h5, h6, ?_⟩
  rcases h7 with h | h | h
  · exact Or.inl h
  · exact Or.inr (Or.inl h)
  · right
    right
    rcases h_ro with h_same | h_true
    · rw [h_same]
      exact h
    · exact h_true

theorem commit_order_core_transfer (bound bound1 : Nat) (journal journal1 : recovery_journal)
    (h : commit_order_core bound journal)
    (h_bound : bound ≤ bound1)
    (h_entries : journal1.entries_per_block = journal.entries_per_block)
    (h_point : journal1.commit_point = journal.commit_point)
    (h_ro : journal1.read_only = journal.read_only ∨ journal1.read_only = true)
    (h_tail : journal1.read_only = false → journal1.tail = journal.tail)
    (h_active : journal1.active_tail_blocks.Sublist journal.active_tail_blocks)
    (h_trace : journal1.trace.filter is_commit_event = journal.trace.filter is_commit_event) :
    commit_order_core bound1 journal1 := by
  obtain ⟨h1, h2, h3, h4, h5, h6⟩ := h
  refine ⟨by rw [h_entries]; exact h1, h2.sublist h_active, ?_, by rw [h_point]; omega, ?_,
    trace_in_order_transfer _ _ h_point h_trace h6⟩
  · intro b h_b
    rw [h_point, h_entries]
    exact block_ok_weaken _ _ _ _ _ _ _ h_bound h_ro (h3 b (h_active.subset h_b))
  · intro h_false
    rw [h_tail h_false]
    apply h5
    rcases h_ro with h_same | h_true
    · rw [← h_same]
      exact h_false
    · rw [h_true] at h_false
      cases h_false

theorem notify_commit_waiters_core (bound : Nat) (journal : recovery_journal)
    (h : commit_order_core bound journal) :
    commit_order_core bound (notify_commit_waiters journal)
    ∧ (notify_commit_waiters journal).read_only = journal.read_only
    ∧ (notify_commit_waiters journal).tail = journal.tail
    ∧ (notify_commit_waiters journal).increment_waiters = journal.increment_waiters
    ∧ (notify_commit_waiters journal).decrement_waiters = journal.decrement_waiters := by
  obtain ⟨h1, h2, h3, h4, h5, h6⟩ := h
  obtain ⟨cp, suffix, e, t, m, k, o, _⟩ :=
    notify_commit_waiters_from_core journal.active_tail_blocks journal bound h2 h3 h6
  unfold notify_commit_waiters
  simp only
  rw [e] at t ⊢
  refine ⟨⟨h1, ?_, k, ?_, h5, t⟩, rfl, rfl, rfl, rfl⟩
  · show (notify_commit_waiters_from journal journal.active_tail_blocks).2.Pairwise _
    have h_map := (List.pairwise_map (f := fun b : recovery_journal_block => b.sequence_number)
      (R := fun a b : Nat => a < b)
      (l := (notify_commit_waiters_from journal journal.active_tail_blocks).2))
    rw [← h_map, m, List.pairwise_map]
    exact h2
  · show cp.sequence_number < bound
    rcases o with h_o | ⟨b, h_b, w, h_w, h_o⟩
    · rw [h_o]
      exact h4
    · rw [h_o]
      have h_block := h3 b h_b
      rw [(h_block.2.2.2.2.2.1 w h_w).1]
      exact h_block.1

theorem recycle_journal_blocks_core (bound : Nat) (journal : recovery_journal)
    (h : commit_order_core bound journal) :
    commit_order_core bound (recycle_journal_blocks journal)
    ∧ (recycle_journal_blocks journal).read_only = journal.read_only
    ∧ (recycle_journal_blocks journal).tail = journal.tail
    ∧ (recycle_journal_blocks journal).increment_waiters = journal.increment_waiters
    ∧ (recycle_journal_blocks journal).decrement_waiters = journal.decrement_waiters := by
  unfold recycle_journal_blocks
  obtain ⟨active, free, active_block, counter, suffix, e, h_quiet, h_sub⟩ :=
    recycle_journal_blocks_from_frame journal.active_tail_blocks journal
  rw [e]
  exact ⟨commit_order_core_transfer bound bound journal _ h (le_refl _) rfl rfl (Or.inl rfl)
    (fun _ => rfl) h_sub (filter_quiet _ _ h_quiet), rfl, rfl, rfl, rfl⟩

theorem release_waiters_read_only_core (bound : Nat) (journal : recovery_journal)
    (h : commit_order_core bound journal) :
    commit_order_core bound (release_waiters_read_only journal)
    ∧ (release_waiters_read_only journal).read_only = journal.read_only
    ∧ (release_waiters_read_only journal).tail = journal.tail
    ∧ (release_waiters_read_only journal).increment_waiters = []
    ∧ (release_waiters_read_only journal).decrement_waiters = [] := by
  obtain ⟨n1, n2, n3, _, _⟩ := notify_commit_waiters_core bound journal h
  obtain ⟨r1, r2, r3, _, _⟩ := recycle_journal_blocks_core bound _ n1
  have e : release_waiters_read_only journal
      = { recycle_journal_blocks (notify_commit_waiters journal) with
          increment_waiters := []
          decrement_waiters := []
          trace := (recycle_journal_blocks (notify_commit_waiters journal)).trace
            ++ (recycle_journal_blocks (notify_commit_waiters journal)).decrement_waiters.map
                (fun w => Event.continue_data_vio w VDO_READ_ONLY)
            ++ (recycle_journal_blocks (notify_commit_waiters journal)).increment_waiters.map
                (fun w => Event.continue_data_vio w VDO_READ_ONLY) } := by
    unfold release_waiters_read_only
    simp only [continue_waiter_foldl]
  rw [e]
  refine ⟨commit_order_core_transfer bound bound
    (recycle_journal_blocks (notify_commit_waiters journal)) _ r1 (le_refl _) rfl rfl
    (Or.inl rfl) (fun _ => rfl) (List.Sublist.refl _) ?_, ?_, ?_, rfl, rfl⟩
  · show (((recycle_journal_blocks (notify_commit_waiters journal)).trace ++ _) ++ _).filter _ = _
    rw [filter_quiet, filter_quiet]
    · intro e h_e
      obtain ⟨w, _, h_w⟩ := List.mem_map.mp h_e
      rw [← h_w]
      rfl
    · intro e h_e
      obtain ⟨w, _, h_w⟩ := List.mem_map.mp h_e
      rw [← h_w]
      rfl
  · show (recycle_journal_blocks (notify_commit_waiters journal)).read_only = _
    rw [r2, n2]
  · show (recycle_journal_blocks (notify_commit_waiters journal)).tail = _
    rw [r3, n3]

theorem finish_drain_if_complete_core (bound : Nat) (journal : recovery_journal)
    (result : vdo_status) (h : commit_order_core bound journal) :
    commit_order_core bound (finish_drain_if_complete journal result)
    ∧ (finish_drain_if_complete journal result).read_only = journal.read_only
    ∧ (finish_drain_if_complete journal result).tail = journal.tail
    ∧ (finish_drain_if_complete journal result).increment_waiters = journal.increment_waiters
    ∧ (finish_drain_if_complete journal result).decrement_waiters
        = journal.decrement_waiters := by
  obtain ⟨active, free, active_block, counter, state, suffix, e, h_quiet, h_sub⟩ :=
    finish_drain_if_complete_frame journal result
  rw [e]
  exact ⟨commit_order_core_transfer bound bound journal _ h (le_refl _) rfl rfl (Or.inl rfl)
    (fun _ => rfl) h_sub (filter_quiet _ _ h_quiet), rfl, rfl, rfl, rfl⟩

theorem check_for_drain_complete_core (bound : Nat) (journal : recovery_journal)
    (h : commit_order_core bound journal) :
    commit_order_core bound (check_for_drain_complete journal)
    ∧ (check_for_drain_complete journal).read_only = journal.read_only
    ∧ (check_for_drain_complete journal).tail = journal.tail
    ∧ (journal.read_only = true →
        (check_for_drain_complete journal).increment_waiters = []
        ∧ (check_for_drain_complete journal).decrement_waiters = [])
    ∧ (journal.read_only = false →
        (check_for_drain_complete journal).increment_waiters = journal.increment_waiters
        ∧ (check_for_drain_complete journal).decrement_waiters = journal.decrement_waiters) := by
  unfold check_for_drain_complete
  by_cases h_ro : journal.read_only = true
  · rw [if_pos (by exact h_ro)]
    obtain ⟨r1, r2, r3, r4, r5⟩ := release_waiters_read_only_core bound journal h
    obtain ⟨f1, f2, f3, f4, f5⟩ := finish_drain_if_complete_core bound _ VDO_READ_ONLY r1
    refine ⟨f1, by rw [f2, r2], by rw [f3, r3], fun _ => ⟨by rw [f4, r4], by rw [f5, r5]⟩, ?_⟩
    intro h_false
    rw [h_ro] at h_false
    cases h_false
  · rw [if_neg (by exact h_ro)]
    obtain ⟨f1, f2, f3, f4, f5⟩ := finish_drain_if_complete_core bound journal VDO_SUCCESS h
    exact ⟨f1, f2, f3, fun h_true => absurd h_true h_ro, fun _ => ⟨f4, f5⟩⟩

theorem check_for_drain_complete_invariant (journal : recovery_journal)
    (h : commit_order_invariant journal) :
    commit_order_invariant (check_for_drain_complete journal) := by
  obtain ⟨c1, c2, c3, c4, c5⟩ := check_for_drain_complete_core journal.tail journal h.1
  refine ⟨by rw [c3]; exact c1, ?_⟩
  intro h_ro
  rw [c2] at h_ro
  exact c4 h_ro

theorem enter_journal_read_only_mode_core (bound : Nat) (journal : recovery_journal)
    (error_code : vdo_status) (h : commit_order_core bound journal) :
    commit_order_core bound (enter_journal_read_only_mode journal error_code)
    ∧ (enter_journal_read_only_mode journal error_code).read_only = true
    ∧ (enter_journal_read_only_mode journal error_code).tail = journal.tail
    ∧ (enter_journal_read_only_mode journal error_code).increment_waiters = []
    ∧ (enter_journal_read_only_mode journal error_code).decrement_waiters = [] := by
  unfold enter_journal_read_only_mode
  have h_entered : commit_order_core bound (vdo_enter_read_only_mode journal error_code) := by
    refine commit_order_core_transfer bound bound journal
      (vdo_enter_read_only_mode journal error_code) h (le_refl _) rfl rfl (Or.inr rfl)
      ?_ (List.Sublist.refl _) ?_
    · intro h_false
      cases h_false
    · exact filter_quiet _ _ (by
        intro e h_e
        rw [List.mem_singleton.mp h_e]
        rfl)
  obtain ⟨c1, c2, c3, c4, _⟩ := check_for_drain_complete_core bound _ h_entered
  exact ⟨c1, by rw [c2]; rfl, by rw [c3]; rfl, (c4 rfl).1, (c4 rfl).2⟩

theorem enter_journal_read_only_mode_invariant (journal : recovery_journal)
    (error_code : vdo_status) (h : commit_order_core journal.tail journal) :
    commit_order_invariant (enter_journal_read_only_mode journal error_code) := by
  obtain ⟨c1, c2, c3, c4, c5⟩ := enter_journal_read_only_mode_core journal.tail journal
    error_code h
  exact ⟨by rw [c3]; exact c1, fun _ => ⟨c4, c5⟩⟩

theorem commit_order_invariant_transfer (journal journal1 : recovery_journal)
    (h : commit_order_invariant journal)
    (h_entries : journal1.entries_per_block = journal.entries_per_block)
    (h_point : journal1.commit_point = journal.commit_point)
    (h_ro : journal1.read_only = journal.read_only)
    (h_tail : journal1.tail = journal.tail)
    (h_active : journal1.active_tail_blocks.Sublist journal.active_tail_blocks)
    (h_trace : journal1.trace.filter is_commit_event = journal.trace.filter is_commit_event)
    (h_increments : journal1.increment_waiters = journal.increment_waiters)
    (h_decrements : journal1.decrement_waiters = journal.decrement_waiters) :
    commit_order_invariant journal1 := by
  refine ⟨?_, ?_⟩
  · rw [h_tail]
    exact commit_order_core_transfer _ _ journal journal1 h.1 (le_refl _) h_entries h_point
      (Or.inl h_ro) (fun _ => h_tail) h_active h_trace
  · rw [h_ro, h_increments, h_decrements]
    exact h.2

theorem filter_quiet_one (trace : List Event) (e : Event) (h : is_commit_event e = false) :
    (trace ++ [e]).filter is_commit_event = trace.filter is_commit_event := by
  apply filter_quiet
  intro x h_x
  rw [List.mem_singleton.mp h_x]
  exact h

theorem set_journal_tail_invariant (journal : recovery_journal) (tail : Nat)
    (h : commit_order_core tail journal)
    (h_queues : journal.read_only = true →
      journal.increment_waiters = [] ∧ journal.decrement_waiters = []) :
    commit_order_invariant (set_journal_tail journal tail) := by
  unfold set_journal_tail
  by_cases h_over : tail ≥ 2 ^ 48
  · simp only [if_pos h_over]
    obtain ⟨⟨c1, c2, c3, c4, c5, c6⟩, c7, _, c8, c9⟩ :=
      enter_journal_read_only_mode_core tail journal VDO_JOURNAL_OVERFLOW h
    refine ⟨⟨c1, c2, c3, c4, ?_, c6⟩, fun _ => ⟨c8, c9⟩⟩
    intro h_false
    have h_true : (enter_journal_read_only_mode journal VDO_JOURNAL_OVERFLOW).read_only
        = true := c7
    rw [h_true] at h_false
    cases h_false
  · simp only [if_neg h_over]
    obtain ⟨c1, c2, c3, c4, c5, c6⟩ := h
    exact ⟨⟨c1, c2, c3, c4, fun _ => by
      show tail < 2 ^ 48
      omega, c6⟩, h_queues⟩

theorem pop_free_list_frame (journal : recovery_journal) :
    ∃ free, (pop_free_list journal).2 = { journal with free_tail_blocks := free } := by
  unfold pop_free_list
  split
  · exact ⟨journal.free_tail_blocks, rfl⟩
  · exact ⟨_, rfl⟩

theorem advance_tail_invariant (journal : recovery_journal)
    (h : commit_order_invariant journal) (h_ro : journal.read_only = false) :
    commit_order_invariant (advance_tail journal).2 := by
  obtain ⟨free, e⟩ := pop_free_list_frame journal
  unfold advance_tail
  cases h_pop : pop_free_list journal with
  | mk popped journal1 =>
    rw [h_pop] at e
    simp only at e
    subst e
    cases popped with
    | none =>
      exact commit_order_invariant_transfer journal _ h rfl rfl rfl rfl (List.Sublist.refl _)
        rfl rfl rfl
    | some block =>
      simp only
      obtain ⟨⟨c1, c2, c3, c4, c5, c6⟩, c7⟩ := h
      have h_tail : journal.tail < 2 ^ 48 := c5 h_ro
      have h_add : add_u64 journal.tail 1 = journal.tail + 1 := by
        unfold add_u64
        apply Nat.mod_eq_of_lt
        have : (2 : Nat) ^ 48 = 281474976710656 := by norm_num
        omega
      have h_core : commit_order_core (journal.tail + 1)
          { journal with
            free_tail_blocks := free
            active_block := some block.id
            active_tail_blocks := journal.active_tail_blocks
              ++ [vdo_initialize_recovery_block { journal with free_tail_blocks := free }
                    block] } := by
        refine ⟨c1, ?_, ?_, by
          show journal.commit_point.sequence_number < journal.tail + 1
          omega, c5, c6⟩
        · show (journal.active_tail_blocks ++ [_]).Pairwise _
          rw [List.pairwise_append]
          refine ⟨c2, List.pairwise_singleton _ _, ?_⟩
          intro a h_a b h_b
          rw [List.mem_singleton.mp h_b]
          exact (c3 a h_a).1
        · intro b h_b
          have h_mem : b ∈ journal.active_tail_blocks
              ++ [vdo_initialize_recovery_block { journal with free_tail_blocks := free }
                    block] := h_b
          rcases List.mem_append.mp h_mem with h_old | h_new
          · exact block_ok_weaken _ _ _ _ _ _ _ (Nat.le_succ _) (Or.inl rfl) (c3 b h_old)
          · rw [List.mem_singleton.mp h_new]
            refine ⟨Nat.lt_succ_self _, Nat.le_refl _, Nat.le_refl _, Nat.zero_le _,
              List.Pairwise.nil, ?_, ?_⟩
            · intro w h_w
              cases h_w
            · left
              rw [before_iff]
              left
              exact c4
      have h_set := set_journal_tail_invariant _ (journal.tail + 1) h_core (by
        intro h_true
        have h_false : journal.read_only = false := h_ro
        rw [h_false] at h_true
        cases h_true)
      rw [h_add]
      exact commit_order_invariant_transfer _ _ h_set rfl rfl rfl rfl (List.Sublist.refl _)
        (filter_quiet_one _ (Event.advance_block_map_era _) rfl) rfl rfl

theorem update_first_map_sequence (id : Nat)
    (f : recovery_journal_block → recovery_journal_block)
    (h_seq : ∀ b, (f b).sequence_number = b.sequence_number)
    (blocks : List recovery_journal_block) :
    (update_first id f blocks).map (fun b => b.sequence_number)
      = blocks.map (fun b => b.sequence_number) := by
  induction blocks with
  | nil => rfl
  | cons b rest ih =>
    unfold update_first
    split
    · simp only [List.map_cons, h_seq]
    · simp only [List.map_cons, ih]

theorem update_first_mem (id : Nat) (f : recovery_journal_block → recovery_journal_block)
    (blocks : List recovery_journal_block) (x : recovery_journal_block)
    (h : x ∈ update_first id f blocks) :
    x ∈ blocks ∨ ∃ y, blocks.find? (fun b => decide (b.id = id)) = some y ∧ x = f y := by
  induction blocks with
  | nil => cases h
  | cons b rest ih =>
    unfold update_first at h
    by_cases h_id : b.id = id
    · rw [if_pos h_id] at h
      rcases List.mem_cons.mp h with h_x | h_x
      · right
        refine ⟨b, ?_, h_x⟩
        simp [List.find?_cons, h_id]
      · exact Or.inl (List.mem_cons_of_mem _ h_x)
    · rw [if_neg h_id] at h
      rcases List.mem_cons.mp h with h_x | h_x
      · left
        rw [h_x]
        exact List.mem_cons_self _ _
      · rcases ih h_x with h_old | ⟨y, h_y, h_eq⟩
        · exact Or.inl (List.mem_cons_of_mem _ h_old)
        · right
          refine ⟨y, ?_, h_eq⟩
          simp [List.find?_cons, h_id, h_y]

theorem update_block_core (bound : Nat) (journal : recovery_journal) (id : Nat)
    (f : recovery_journal_block → recovery_journal_block)
    (h_seq : ∀ b, (f b).sequence_number = b.sequence_number)
    (h_ok : ∀ y, journal.active_tail_blocks.find? (fun b => decide (b.id = id)) = some y →
      block_ok journal.commit_point bound journal.entries_per_block journal.read_only y →
      block_ok journal.commit_point bound journal.entries_per_block journal.read_only (f y))
    (h : commit_order_core bound journal) :
    ∃ active free,
      update_block journal id f
        = { journal with active_tail_blocks := active, free_tail_blocks := free }
      ∧ commit_order_core bound
          { journal with active_tail_blocks := active, free_tail_blocks := free } := by
  unfold update_block
  split
  · refine ⟨update_first id f journal.active_tail_blocks, journal.free_tail_blocks, rfl, ?_⟩
    obtain ⟨c1, c2, c3, c4, c5, c6⟩ := h
    refine ⟨c1, ?_, ?_, c4, c5, c6⟩
    · show (update_first id f journal.active_tail_blocks).Pairwise _
      have h_map := (List.pairwise_map (f := fun b : recovery_journal_block => b.sequence_number)
        (R := fun a b : Nat => a < b) (l := update_first id f journal.active_tail_blocks))
      rw [← h_map, update_first_map_sequence id f h_seq, List.pairwise_map]
      exact c2
    · intro b h_b
      rcases update_first_mem id f journal.active_tail_blocks b h_b with h_old | ⟨y, h_y, h_eq⟩
      · exact c3 b h_old
      · rw [h_eq]
        exact h_ok y h_y (c3 y (List.mem_of_find?_eq_some h_y))
  · exact ⟨journal.active_tail_blocks, update_first id f journal.free_tail_blocks, rfl, h⟩

theorem block_at_of_active (journal : recovery_journal) (id : Nat) (y : recovery_journal_block)
    (h : journal.active_tail_blocks.find? (fun b => decide (b.id = id)) = some y) :
    block_at journal id = some y := by
  unfold block_at
  rw [List.find?_append, h]
  rfl

theorem block_at_id (journal : recovery_journal) (id : Nat) (y : recovery_journal_block)
    (h : block_at journal id = some y) : y.id = id := by
  unfold block_at at h
  have h_some := List.find?_some h
  simpa using h_some

theorem active_block_of_at (journal : recovery_journal) (block : recovery_journal_block)
    (h : active_block_of journal = some block) : block_at journal block.id = some block := by
  unfold active_block_of at h
  split at h
  · cases h
  · rw [block_at_id _ _ _ h]
    exact h

theorem prepare_to_assign_entry_invariant (journal journal1 : recovery_journal)
    (increment flag : Bool) (h : commit_order_invariant journal)
    (h_ro : journal.read_only = false)
    (h_eq : prepare_to_assign_entry journal increment = some (flag, journal1)) :
    commit_order_invariant journal1 := by
  unfold prepare_to_assign_entry at h_eq
  by_cases h_space : (!check_for_entry_space journal increment) = true
  · rw [if_pos h_space] at h_eq
    by_cases h_inc : (!increment) = true
    · rw [if_pos h_inc] at h_eq
      simp only [Option.some.injEq, Prod.mk.injEq] at h_eq
      rw [← h_eq.2]
      exact enter_journal_read_only_mode_invariant _ _ h.1
    · rw [if_neg h_inc] at h_eq
      simp only [Option.some.injEq, Prod.mk.injEq] at h_eq
      rw [← h_eq.2]
      exact h
  · rw [if_neg h_space] at h_eq
    simp only at h_eq
    have h_advanced : commit_order_invariant
        (if is_block_full journal (active_block_of journal) then advance_tail journal
          else (true, journal)).2 := by
      split
      · exact advance_tail_invariant journal h h_ro
      · exact h
    generalize (if is_block_full journal (active_block_of journal) then advance_tail journal
          else (true, journal)) = advanced at h_eq h_advanced
    by_cases h_flag : (!advanced.1) = true
    · rw [if_pos h_flag] at h_eq
      simp only [Option.some.injEq, Prod.mk.injEq] at h_eq
      rw [← h_eq.2]
      exact h_advanced
    · rw [if_neg h_flag] at h_eq
      cases h_active : active_block_of advanced.2 with
      | none =>
        rw [h_active] at h_eq
        cases h_eq
      | some block =>
        rw [h_active] at h_eq
        simp only at h_eq
        split at h_eq
        · simp only [Option.some.injEq, Prod.mk.injEq] at h_eq
          rw [← h_eq.2]
          exact h_advanced
        · split at h_eq
          · simp only [Option.some.injEq, Prod.mk.injEq] at h_eq
            rw [← h_eq.2]
            exact commit_order_invariant_transfer advanced.2 _ h_advanced rfl rfl rfl rfl
              (List.Sublist.refl _) rfl rfl rfl
          · unfold initialize_lock_count at h_eq
            rw [h_active] at h_eq
            simp only [Option.some.injEq, Prod.mk.injEq] at h_eq
            rw [← h_eq.2]
            exact commit_order_invariant_transfer advanced.2 _ h_advanced rfl rfl rfl rfl
              (List.Sublist.refl _) rfl rfl rfl

theorem continue_waiter_invariant (result : vdo_status) (journal : recovery_journal)
    (waiter : data_vio) (h : commit_order_invariant journal) :
    commit_order_invariant (continue_waiter result journal waiter) :=
  commit_order_invariant_transfer journal _ h rfl rfl rfl rfl (List.Sublist.refl _)
    (filter_quiet_one _ (Event.continue_data_vio waiter result) rfl) rfl rfl

theorem schedule_block_write_invariant (journal : recovery_journal)
    (block : recovery_journal_block) (h : commit_order_invariant journal) :
    commit_order_invariant (schedule_block_write journal block) := by
  unfold schedule_block_write
  split
  · exact commit_order_invariant_transfer journal _ h rfl rfl rfl rfl (List.Sublist.refl _)
      rfl rfl rfl
  · exact h

theorem check_slab_journal_commit_threshold_invariant (journal : recovery_journal)
    (h : commit_order_invariant journal) :
    commit_order_invariant (check_slab_journal_commit_threshold journal) := by
  unfold check_slab_journal_commit_threshold
  simp only
  split
  · exact commit_order_invariant_transfer journal _ h rfl rfl rfl rfl (List.Sublist.refl _)
      (filter_quiet_one _ (Event.commit_oldest_slab_journal_tail_blocks _) rfl) rfl rfl
  · exact h

theorem block_ok_enqueue (commit_point : journal_point) (bound entries : Nat)
    (block : recovery_journal_block) (waiter : data_vio)
    (h : block_ok commit_point bound entries false block)
    (h_room : entries ≠ block.entry_count)
    (h_point : waiter.recovery_journal_point = ⟨block.sequence_number, block.entry_count⟩) :
    block_ok commit_point bound entries false
      { block with
        entry_waiters := block.entry_waiters ++ [waiter]
        entry_count := block.entry_count + 1
        uncommitted_entry_count := block.uncommitted_entry_count + 1 } := by
  obtain ⟨h1, h2, h3, h4, h5, h6, h7⟩ := h
  have h_next : vdo_before_journal_point commit_point
      ⟨block.sequence_number, block.entry_count⟩ = true := by
    rcases h7 with h | h | h
    · exact h
    · exact absurd h h_room
    · cases h
  have h_waiters : block_waiters
      { block with
        entry_waiters := block.entry_waiters ++ [waiter]
        entry_count := block.entry_count + 1
        uncommitted_entry_count := block.uncommitted_entry_count + 1 }
      = block_waiters block ++ [waiter] := by
    unfold block_waiters
    simp only [List.append_assoc]
  refine ⟨h1, ?_, ?_, ?_, ?_, ?_, ?_⟩
  · show (block.entry_waiters ++ [waiter]).length + block.entries_in_commit
      ≤ block.uncommitted_entry_count + 1
    rw [List.length_append, List.length_singleton]
    omega
  · show block.uncommitted_entry_count + 1 ≤ block.entry_count + 1
    omega
  · show block.entry_count + 1 ≤ entries
    omega
  · rw [h_waiters, List.pairwise_append]
    refine ⟨h5, List.pairwise_singleton _ _, ?_⟩
    intro v h_v w h_w
    rw [List.mem_singleton.mp h_w, h_point]
    exact (h6 v h_v).2.1
  · rw [h_waiters]
    intro w h_w
    rcases List.mem_append.mp h_w with h_old | h_new
    · obtain ⟨a, b, c⟩ := h6 w h_old
      exact ⟨a, Nat.lt_succ_of_lt b, c⟩
    · rw [List.mem_singleton.mp h_new, h_point]
      exact ⟨rfl, Nat.lt_succ_self _, h_next⟩
  · left
    rw [before_iff] at h_next ⊢
    rcases h_next with h | ⟨h_a, h_b⟩
    · exact Or.inl h
    · exact Or.inr ⟨h_a, Nat.lt_succ_of_lt h_b⟩

theorem assign_entry_enqueue_invariant (journal : recovery_journal) (stamped : data_vio)
    (block : recovery_journal_block) (h : commit_order_invariant journal)
    (h_ro : journal.read_only = false)
    (h_block : block_at journal block.id = some block)
    (h_point : stamped.recovery_journal_point = ⟨block.sequence_number, block.entry_count⟩) :
    commit_order_invariant
      (if (vdo_enqueue_recovery_block_entry journal block stamped).1 ≠ VDO_SUCCESS then
        continue_waiter (vdo_enqueue_recovery_block_entry journal block stamped).1
          (enter_journal_read_only_mode (vdo_enqueue_recovery_block_entry journal block stamped).2
            (vdo_enqueue_recovery_block_entry journal block stamped).1) stamped
      else
        check_slab_journal_commit_threshold
          (match block_at (vdo_enqueue_recovery_block_entry journal block stamped).2 block.id with
          | some current =>
            if is_block_full (vdo_enqueue_recovery_block_entry journal block stamped).2
                (some current) then
              schedule_block_write (vdo_enqueue_recovery_block_entry journal block stamped).2
                current
            else (vdo_enqueue_recovery_block_entry journal block stamped).2
          | none => (vdo_enqueue_recovery_block_entry journal block stamped).2)) := by
  have h_enqueued : commit_order_invariant
      (vdo_enqueue_recovery_block_entry journal block stamped).2 := by
    unfold vdo_enqueue_recovery_block_entry
    by_cases h_full : is_block_full journal (some block) = true
    · rw [if_pos h_full]
      exact h
    · rw [if_neg h_full]
      have h_room : journal.entries_per_block ≠ block.entry_count := by
        simpa [is_block_full] using h_full
      obtain ⟨active, free, e, h_core⟩ := update_block_core journal.tail journal block.id
        (fun b =>
          { b with
            entry_waiters := b.entry_waiters ++ [stamped]
            entry_count := b.entry_count + 1
            uncommitted_entry_count := b.uncommitted_entry_count + 1 })
        (fun _ => rfl)
        (by
          intro y h_y h_ok
          have h_same : y = block := by
            have h_at := block_at_of_active journal block.id y h_y
            rw [h_block] at h_at
            exact (Option.some.inj h_at).symm
          rw [h_same] at h_ok ⊢
          rw [h_ro] at h_ok ⊢
          exact block_ok_enqueue _ _ _ _ _ h_ok h_room h_point)
        h.1
      simp only
      rw [e]
      refine ⟨h_core, ?_⟩
      intro h_true
      have h_false : journal.read_only = false := h_ro
      rw [h_false] at h_true
      cases h_true
  split
  · exact continue_waiter_invariant _ _ _
      (enter_journal_read_only_mode_invariant _ _ h_enqueued.1)
  · apply check_slab_journal_commit_threshold_invariant
    split
    · split
      · exact schedule_block_write_invariant _ _ h_enqueued
      · exact h_enqueued
    · exact h_enqueued

theorem release_journal_block_reference_invariant (journal : recovery_journal)
    (block : recovery_journal_block) (h : commit_order_invariant journal) :
    commit_order_invariant (release_journal_block_reference journal block)
    ∧ (release_journal_block_reference journal block).read_only = journal.read_only
    ∧ (release_journal_block_reference journal block).active_tail_blocks
        = journal.active_tail_blocks
    ∧ (release_journal_block_reference journal block).free_tail_blocks
        = journal.free_tail_blocks := by
  unfold release_journal_block_reference
  obtain ⟨counter, suffix, e, h_quiet⟩ :=
    release_reference_quiet journal block.sequence_number 0 VDO_ZONE_TYPE_JOURNAL
  rw [e]
  exact ⟨commit_order_invariant_transfer journal _ h rfl rfl rfl rfl (List.Sublist.refl _)
    (filter_quiet _ _ h_quiet) rfl rfl, rfl, rfl, rfl⟩

theorem block_at_congr (journal journal1 : recovery_journal) (id : Nat)
    (h_active : journal1.active_tail_blocks = journal.active_tail_blocks)
    (h_free : journal1.free_tail_blocks = journal.free_tail_blocks) :
    block_at journal1 id = block_at journal id := by
  unfold block_at
  rw [h_active, h_free]

theorem assign_entry_invariant (journal : recovery_journal) (waiter : data_vio)
    (block : recovery_journal_block) (h : commit_order_invariant journal)
    (h_ro : journal.read_only = false)
    (h_block : block_at journal block.id = some block) :
    commit_order_invariant (assign_entry journal waiter block) := by
  have h_used : ∀ used : Nat, commit_order_invariant { journal with logical_blocks_used := used } :=
    fun used => commit_order_invariant_transfer journal _ h rfl rfl rfl rfl
      (List.Sublist.refl _) rfl rfl rfl
  have h_at : ∀ j : recovery_journal,
      j.active_tail_blocks = journal.active_tail_blocks →
      j.free_tail_blocks = journal.free_tail_blocks → block_at j block.id = some block :=
    fun j h_active h_free => (block_at_congr journal j _ h_active h_free).trans h_block
  unfold assign_entry
  cases h_op : waiter.operation_type with
  | VDO_JOURNAL_DATA_INCREMENT =>
    simp only [h_op]
    refine assign_entry_enqueue_invariant _ _ block ?_ ?_ ?_ rfl
    · split
      · exact commit_order_invariant_transfer journal _ h rfl rfl rfl rfl
          (List.Sublist.refl _) rfl rfl rfl
      · exact commit_order_invariant_transfer journal _ h rfl rfl rfl rfl
          (List.Sublist.refl _) rfl rfl rfl
    · split
      · exact h_ro
      · exact h_ro
    · split
      · exact h_at _ rfl rfl
      · exact h_at _ rfl rfl
  | VDO_JOURNAL_DATA_DECREMENT =>
    simp only [h_op]
    refine assign_entry_enqueue_invariant _ _ block ?_ ?_ ?_ rfl
    · split
      · obtain ⟨r1, r2, r3, r4⟩ := release_journal_block_reference_invariant
          { journal with logical_blocks_used := sub_u64 journal.logical_blocks_used 1 } block
          (h_used _)
        exact commit_order_invariant_transfer _ _ r1 rfl rfl rfl rfl
          (List.Sublist.refl _) rfl rfl rfl
      · obtain ⟨r1, r2, r3, r4⟩ := release_journal_block_reference_invariant journal block h
        exact commit_order_invariant_transfer _ _ r1 rfl rfl rfl rfl
          (List.Sublist.refl _) rfl rfl rfl
    · split
      · obtain ⟨r1, r2, r3, r4⟩ := release_journal_block_reference_invariant
          { journal with logical_blocks_used := sub_u64 journal.logical_blocks_used 1 } block
          (h_used _)
        exact r2.trans h_ro
      · obtain ⟨r1, r2, r3, r4⟩ := release_journal_block_reference_invariant journal block h
        exact r2.trans h_ro
    · split
      · obtain ⟨r1, r2, r3, r4⟩ := release_journal_block_reference_invariant
          { journal with logical_blocks_used := sub_u64 journal.logical_blocks_used 1 } block
          (h_used _)
        exact h_at _ r3 r4
      · obtain ⟨r1, r2, r3, r4⟩ := release_journal_block_reference_invariant journal block h
        exact h_at _ r3 r4
  | VDO_JOURNAL_BLOCK_MAP_INCREMENT =>
    simp only [h_op]
    refine assign_entry_enqueue_invariant _ _ block ?_ ?_ ?_ rfl
    · exact commit_order_invariant_transfer journal _ h rfl rfl rfl rfl
        (List.Sublist.refl _) rfl rfl rfl
    · exact h_ro
    · exact h_at _ rfl rfl
  | VDO_JOURNAL_BLOCK_MAP_DECREMENT =>
    simp only [h_op]
    exact continue_waiter_invariant _ _ _ (enter_journal_read_only_mode_invariant _ _ h.1)

theorem not_read_only_of_waiters (journal : recovery_journal) (increment : Bool)
    (h : commit_order_invariant journal)
    (h_waiters : (entry_waiters_of journal increment).isEmpty = false) :
    journal.read_only = false := by
  cases h_ro : journal.read_only with
  | false => rfl
  | true =>
    obtain ⟨h_inc, h_dec⟩ := h.2 h_ro
    unfold entry_waiters_of at h_waiters
    rw [h_inc, h_dec] at h_waiters
    cases increment <;> simp at h_waiters

theorem set_entry_waiters_invariant (journal : recovery_journal) (increment : Bool)
    (waiters : List data_vio) (h : commit_order_invariant journal)
    (h_ro : journal.read_only = false) :
    commit_order_invariant (set_entry_waiters journal increment waiters)
    ∧ (set_entry_waiters journal increment waiters).read_only = false
    ∧ (set_entry_waiters journal increment waiters).active_tail_blocks
        = journal.active_tail_blocks
    ∧ (set_entry_waiters journal increment waiters).free_tail_blocks
        = journal.free_tail_blocks
    ∧ (set_entry_waiters journal increment waiters).active_block = journal.active_block := by
  have h_queues : ∀ j : recovery_journal, j.read_only = journal.read_only →
      (j.read_only = true → j.increment_waiters = [] ∧ j.decrement_waiters = []) := by
    intro j h_same h_true
    rw [h_same, h_ro] at h_true
    cases h_true
  unfold set_entry_waiters
  split
  · exact ⟨⟨h.1, h_queues _ rfl⟩, h_ro, rfl, rfl, rfl⟩
  · exact ⟨⟨h.1, h_queues _ rfl⟩, h_ro, rfl, rfl, rfl⟩

theorem assign_entries_from_queue_invariant (increment : Bool) (fuel : Nat)
    (journal journal1 : recovery_journal) (flag : Bool)
    (h : commit_order_invariant journal)
    (h_eq : assign_entries_from_queue increment fuel journal = some (flag, journal1)) :
    commit_order_invariant journal1 := by
  induction fuel generalizing journal with
  | zero =>
    unfold assign_entries_from_queue at h_eq
    split at h_eq
    · simp only [Option.some.injEq, Prod.mk.injEq] at h_eq
      rw [← h_eq.2]
      exact h
    · cases h_eq
  | succ fuel ih =>
    unfold assign_entries_from_queue at h_eq
    by_cases h_empty : (entry_waiters_of journal increment).isEmpty = true
    · rw [if_pos h_empty] at h_eq
      simp only [Option.some.injEq, Prod.mk.injEq] at h_eq
      rw [← h_eq.2]
      exact h
    · rw [if_neg h_empty] at h_eq
      have h_ro := not_read_only_of_waiters journal increment h (by simpa using h_empty)
      cases h_prepared : prepare_to_assign_entry journal increment with
      | none =>
        rw [h_prepared] at h_eq
        cases h_eq
      | some prepared =>
        obtain ⟨ready, journal2⟩ := prepared
        have h_inv := prepare_to_assign_entry_invariant journal journal2 increment ready h h_ro
          h_prepared
        rw [h_prepared] at h_eq
        cases ready with
        | false =>
          simp only [Option.some.injEq, Prod.mk.injEq] at h_eq
          rw [← h_eq.2]
          exact h_inv
        | true =>
          simp only at h_eq
          cases h_queue : entry_waiters_of journal2 increment with
          | nil =>
            rw [h_queue] at h_eq
            exact ih journal2 h_inv h_eq
          | cons waiter rest =>
            rw [h_queue] at h_eq
            simp only at h_eq
            cases h_active : active_block_of journal2 with
            | none =>
              rw [h_active] at h_eq
              cases h_eq
            | some block =>
              rw [h_active] at h_eq
              simp only at h_eq
              have h_ro2 := not_read_only_of_waiters journal2 increment h_inv (by
                rw [h_queue]
                rfl)
              obtain ⟨s1, s2, s3, s4, _⟩ :=
                set_entry_waiters_invariant journal2 increment rest h_inv h_ro2
              exact ih _ (assign_entry_invariant _ waiter block s1 s2
                ((block_at_congr _ _ _ s3 s4).trans (active_block_of_at _ _ h_active))) h_eq

theorem block_ok_commit (commit_point : journal_point) (bound entries : Nat) (read_only : Bool)
    (block : recovery_journal_block)
    (h : block_ok commit_point bound entries read_only block) :
    block_ok commit_point bound entries read_only
      { block with
        entries_in_commit := block.entry_waiters.length
        committing := true
        commit_waiters := block.commit_waiters ++ block.entry_waiters
        entry_waiters := [] } := by
  obtain ⟨h1, h2, h3, h4, h5, h6, h7⟩ := h
  have h_waiters : block_waiters
      { block with
        entries_in_commit := block.entry_waiters.length
        committing := true
        commit_waiters := block.commit_waiters ++ block.entry_waiters
        entry_waiters := [] } = block_waiters block := by
    unfold block_waiters
    simp only [List.append_nil]
  refine ⟨h1, ?_, h3, h4, by rw [h_waiters]; exact h5, by rw [h_waiters]; exact h6, h7⟩
  show ([] : List data_vio).length + block.entry_waiters.length ≤ block.uncommitted_entry_count
  rw [List.length_nil]
  omega

theorem vdo_commit_recovery_block_invariant (journal : recovery_journal)
    (block : recovery_journal_block) (h : commit_order_invariant journal) :
    commit_order_invariant (vdo_commit_recovery_block journal block).2 := by
  unfold vdo_commit_recovery_block
  split
  · exact h
  · obtain ⟨active, free, e, h_core⟩ := update_block_core journal.tail journal block.id
      (fun b =>
        { b with
          entries_in_commit := b.entry_waiters.length
          committing := true
          commit_waiters := b.commit_waiters ++ b.entry_waiters
          entry_waiters := [] })
      (fun _ => rfl) (fun y _ h_ok => block_ok_commit _ _ _ _ y h_ok) h.1
    simp only
    rw [e]
    exact commit_order_invariant_transfer
      { journal with active_tail_blocks := active, free_tail_blocks := free } _
      ⟨h_core, h.2⟩ rfl rfl rfl rfl (List.Sublist.refl _)
      (filter_quiet_one _ (Event.submit_block_write _ _ _) rfl) rfl rfl

theorem write_block_invariant (journal : recovery_journal) (id : Nat)
    (h : commit_order_invariant journal) : commit_order_invariant (write_block journal id) := by
  unfold write_block
  split
  · exact h
  · split
    · exact h
    · simp only
      split
      · exact enter_journal_read_only_mode_invariant _ _
          (vdo_commit_recovery_block_invariant _ _ h).1
      · exact vdo_commit_recovery_block_invariant _ _ h

theorem write_block_foldl_invariant (ids : List Nat) (journal : recovery_journal)
    (h : commit_order_invariant journal) :
    commit_order_invariant (ids.foldl write_block journal) := by
  induction ids generalizing journal with
  | nil => exact h
  | cons id rest ih => exact ih _ (write_block_invariant journal id h)

theorem write_blocks_invariant (journal : recovery_journal)
    (h : commit_order_invariant journal) : commit_order_invariant (write_blocks journal) := by
  unfold write_blocks
  split
  · exact h
  · have h_written := write_block_foldl_invariant journal.pending_writes
      { journal with pending_writes := [] }
      (commit_order_invariant_transfer journal _ h rfl rfl rfl rfl (List.Sublist.refl _)
        rfl rfl rfl)
    simp only
    split
    · split
      · exact write_block_invariant _ _ h_written
      · exact h_written
    · exact h_written

theorem adding_entries_invariant (journal : recovery_journal) (flag : Bool)
    (h : commit_order_invariant journal) :
    commit_order_invariant { journal with adding_entries := flag } :=
  commit_order_invariant_transfer journal _ h rfl rfl rfl rfl (List.Sublist.refl _)
    rfl rfl rfl

theorem assign_entries_invariant (journal journal1 : recovery_journal)
    (h : commit_order_invariant journal) (h_eq : assign_entries journal = some journal1) :
    commit_order_invariant journal1 := by
  unfold assign_entries at h_eq
  split at h_eq
  · rw [← Option.some.inj h_eq]
    exact h
  · simp only at h_eq
    have h_adding := adding_entries_invariant journal true h
    split at h_eq
    · cases h_eq
    · rename_i journal2 h_first
      rw [← Option.some.inj h_eq]
      exact adding_entries_invariant _ false (write_blocks_invariant _
        (assign_entries_from_queue_invariant _ _ _ _ _ h_adding h_first))
    · rename_i journal2 h_first
      have h_second := assign_entries_from_queue_invariant _ _ _ _ _ h_adding h_first
      split at h_eq
      · cases h_eq
      · rename_i flag journal3 h_third
        rw [← Option.some.inj h_eq]
        exact adding_entries_invariant _ false (write_blocks_invariant _
          (assign_entries_from_queue_invariant _ _ _ _ _ h_second h_third))

theorem notify_commit_waiters_invariant (journal : recovery_journal)
    (h : commit_order_invariant journal) :
    commit_order_invariant (notify_commit_waiters journal) := by
  obtain ⟨n1, n2, n3, n4, n5⟩ := notify_commit_waiters_core journal.tail journal h.1
  refine ⟨by rw [n3]; exact n1, ?_⟩
  rw [n2, n4, n5]
  exact h.2

theorem recycle_journal_blocks_invariant (journal : recovery_journal)
    (h : commit_order_invariant journal) :
    commit_order_invariant (recycle_journal_blocks journal) := by
  obtain ⟨n1, n2, n3, n4, n5⟩ := recycle_journal_blocks_core journal.tail journal h.1
  refine ⟨by rw [n3]; exact n1, ?_⟩
  rw [n2, n4, n5]
  exact h.2

theorem sub_u16_exact (a b : Nat) (h_le : b ≤ a) (h_a : a < 65536) : sub_u16 a b = a - b := by
  unfold sub_u16
  rw [Nat.mod_eq_of_lt (by omega : b < 65536)]
  omega

theorem block_ok_complete (commit_point : journal_point) (bound entries : Nat)
    (read_only : Bool) (block : recovery_journal_block) (h_entries : entries < 65536)
    (h : block_ok commit_point bound entries read_only block) :
    block_ok commit_point bound entries read_only
      { block with
        uncommitted_entry_count :=
          sub_u16 block.uncommitted_entry_count block.entries_in_commit
        entries_in_commit := 0
        committing := false } := by
  obtain ⟨h1, h2, h3, h4, h5, h6, h7⟩ := h
  refine ⟨h1, ?_, ?_, h4, h5, h6, h7⟩
  · show block.entry_waiters.length + 0
      ≤ sub_u16 block.uncommitted_entry_count block.entries_in_commit
    rw [sub_u16_exact _ _ (by omega) (by omega)]
    omega
  · show sub_u16 block.uncommitted_entry_count block.entries_in_commit ≤ block.entry_count
    rw [sub_u16_exact _ _ (by omega) (by omega)]
    omega

theorem complete_write_finish_invariant (journal : recovery_journal) (id : Nat)
    (h : commit_order_invariant journal) :
    commit_order_invariant
      (check_for_drain_complete (write_blocks (recycle_journal_blocks
        (match block_at (notify_commit_waiters journal) id with
        | some current =>
          if is_block_dirty current
              && is_block_full (notify_commit_waiters journal) (some current) then
            schedule_block_write (notify_commit_waiters journal) current
          else notify_commit_waiters journal
        | none => notify_commit_waiters journal)))) := by
  apply check_for_drain_complete_invariant
  apply write_blocks_invariant
  apply recycle_journal_blocks_invariant
  have h_notified := notify_commit_waiters_invariant _ h
  split
  · split
    · exact schedule_block_write_invariant _ _ h_notified
    · exact h_notified
  · exact h_notified

theorem complete_write_invariant (journal journal1 : recovery_journal) (id : Nat)
    (h : commit_order_invariant journal) (h_eq : complete_write journal id = some journal1) :
    commit_order_invariant journal1 := by
  unfold complete_write at h_eq
  split at h_eq
  · cases h_eq
  · rename_i block h_block
    obtain ⟨active, free, e, h_core⟩ := update_block_core journal.tail journal id
      (fun b =>
        { b with
          uncommitted_entry_count := sub_u16 b.uncommitted_entry_count b.entries_in_commit
          entries_in_commit := 0
          committing := false })
      (fun _ => rfl) (fun y _ h_ok => block_ok_complete _ _ _ _ y h.1.1 h_ok) h.1
    rw [e] at h_eq
    simp only at h_eq
    have h_updated : commit_order_invariant
        { journal with active_tail_blocks := active, free_tail_blocks := free } :=
      ⟨h_core, h.2⟩
    split at h_eq
    · cases h_eq
    · rw [← Option.some.inj h_eq]
      refine complete_write_finish_invariant _ id ?_
      split
      · exact commit_order_invariant_transfer _ _ h_updated rfl rfl rfl rfl
          (List.Sublist.refl _) rfl rfl rfl
      · exact commit_order_invariant_transfer _ _ h_updated rfl rfl rfl rfl
          (List.Sublist.refl _) rfl rfl rfl

theorem handle_write_error_invariant (journal journal1 : recovery_journal) (id : Nat)
    (result : vdo_status) (h : commit_order_invariant journal)
    (h_eq : handle_write_error journal id result = some journal1) :
    commit_order_invariant journal1 := by
  unfold handle_write_error at h_eq
  exact complete_write_invariant _ _ id (enter_journal_read_only_mode_invariant _ _ h.1) h_eq

theorem vdo_add_recovery_journal_entry_invariant (journal journal1 : recovery_journal)
    (waiter : data_vio) (h : commit_order_invariant journal)
    (h_eq : vdo_add_recovery_journal_entry journal waiter = some journal1) :
    commit_order_invariant journal1 := by
  unfold vdo_add_recovery_journal_entry at h_eq
  split at h_eq
  · rw [← Option.some.inj h_eq]
    exact continue_waiter_invariant _ _ _ h
  · by_cases h_ro : journal.read_only = true
    · rw [if_pos (by exact h_ro)] at h_eq
      rw [← Option.some.inj h_eq]
      exact continue_waiter_invariant _ _ _ h
    · rw [if_neg (by exact h_ro)] at h_eq
      simp only at h_eq
      have h_false : journal.read_only = false := by
        cases h_b : journal.read_only
        · rfl
        · exact absurd h_b h_ro
      have h_appended : commit_order_invariant
          { journal with
            append_point :=
              vdo_advance_journal_point journal.append_point journal.entries_per_block } :=
        commit_order_invariant_transfer journal _ h rfl rfl rfl rfl (List.Sublist.refl _)
          rfl rfl rfl
      exact assign_entries_invariant _ _
        (set_entry_waiters_invariant _ _ _ h_appended h_false).1 h_eq

theorem reap_block_map_head_invariant (fuel : Nat) (journal : recovery_journal)
    (h : commit_order_invariant journal) :
    commit_order_invariant (reap_block_map_head fuel journal) := by
  induction fuel generalizing journal with
  | zero => exact h
  | succ fuel ih =>
    unfold reap_block_map_head
    split
    · exact ih _ (commit_order_invariant_transfer journal _ h rfl rfl rfl rfl
        (List.Sublist.refl _) rfl rfl rfl)
    · exact h

theorem reap_slab_journal_head_invariant (fuel : Nat) (journal : recovery_journal)
    (h : commit_order_invariant journal) :
    commit_order_invariant (reap_slab_journal_head fuel journal) := by
  induction fuel generalizing journal with
  | zero => exact h
  | succ fuel ih =>
    unfold reap_slab_journal_head
    split
    · exact ih _ (commit_order_invariant_transfer journal _ h rfl rfl rfl rfl
        (List.Sublist.refl _) rfl rfl rfl)
    · exact h

theorem reap_recovery_journal_invariant (journal : recovery_journal)
    (h : commit_order_invariant journal) :
    commit_order_invariant (reap_recovery_journal journal) := by
  unfold reap_recovery_journal
  split
  · exact h
  · split
    · exact h
    · have h_reaped := reap_slab_journal_head_invariant
        ((reap_block_map_head (journal.last_write_acknowledged - journal.block_map_reap_head)
            journal).last_write_acknowledged
          - (reap_block_map_head (journal.last_write_acknowledged - journal.block_map_reap_head)
              journal).slab_journal_reap_head)
        _ (reap_block_map_head_invariant
          (journal.last_write_acknowledged - journal.block_map_reap_head) journal h)
      simp only
      split
      · exact h_reaped
      · exact commit_order_invariant_transfer _ _ h_reaped rfl rfl rfl rfl
          (List.Sublist.refl _) (filter_quiet_one _ Event.submit_flush rfl) rfl rfl

theorem finish_reaping_invariant (journal journal1 : recovery_journal)
    (h : commit_order_invariant journal) (h_eq : finish_reaping journal = some journal1) :
    commit_order_invariant journal1 := by
  unfold finish_reaping at h_eq
  simp only at h_eq
  split at h_eq
  · cases h_eq
  · rename_i journal3 h_assigned
    rw [← Option.some.inj h_eq]
    apply check_for_drain_complete_invariant
    refine assign_entries_invariant _ _ ?_ h_assigned
    apply check_slab_journal_commit_threshold_invariant
    exact commit_order_invariant_transfer journal _ h rfl rfl rfl rfl (List.Sublist.refl _)
      rfl rfl rfl

theorem complete_reaping_invariant (journal journal1 : recovery_journal)
    (h : commit_order_invariant journal) (h_eq : complete_reaping journal = some journal1) :
    commit_order_invariant journal1 := by
  unfold complete_reaping at h_eq
  split at h_eq
  · cases h_eq
  · rename_i journal2 h_finished
    rw [← Option.some.inj h_eq]
    exact reap_recovery_journal_invariant _ (finish_reaping_invariant _ _ h h_finished)

theorem handle_flush_error_invariant (journal : recovery_journal) (result : vdo_status)
    (h : commit_order_invariant journal) :
    commit_order_invariant (handle_flush_error journal result) := by
  unfold handle_flush_error
  exact enter_journal_read_only_mode_invariant _ _
    (commit_order_invariant_transfer journal { journal with reaping := false } h rfl rfl rfl
      rfl (List.Sublist.refl _) rfl rfl rfl).1

theorem reap_recovery_journal_callback_invariant (journal : recovery_journal)
    (h : commit_order_invariant journal) :
    commit_order_invariant (reap_recovery_journal_callback journal) := by
  unfold reap_recovery_journal_callback
  have h_state : commit_order_invariant
      { journal with
        lock_counter :=
          { journal.lock_counter with state := LOCK_COUNTER_STATE_NOT_NOTIFYING } } :=
    commit_order_invariant_transfer journal _ h rfl rfl rfl rfl (List.Sublist.refl _)
      rfl rfl rfl
  simp only
  split
  · exact check_for_drain_complete_invariant _ h_state
  · exact check_slab_journal_commit_threshold_invariant _
      (reap_recovery_journal_invariant _ h_state)

theorem read_only_notification_invariant (journal : recovery_journal)
    (h : commit_order_invariant journal) :
    commit_order_invariant
      (notify_recovery_journal_of_read_only_mode { journal with read_only := true }) := by
  unfold notify_recovery_journal_of_read_only_mode
  have h_core : commit_order_core journal.tail { journal with read_only := true } := by
    refine commit_order_core_transfer _ _ journal { journal with read_only := true } h.1
      (le_refl _) rfl rfl (Or.inr rfl) ?_ (List.Sublist.refl _) rfl
    intro h_false
    cases h_false
  obtain ⟨c1, c2, c3, c4, _⟩ := check_for_drain_complete_core journal.tail _ h_core
  exact ⟨by rw [c3]; exact c1, fun _ => c4 rfl⟩

theorem vdo_drain_recovery_journal_invariant (journal : recovery_journal) (save : Bool)
    (h : commit_order_invariant journal) :
    commit_order_invariant (vdo_drain_recovery_journal journal save) := by
  unfold vdo_drain_recovery_journal
  split
  · exact check_for_drain_complete_invariant _
      (commit_order_invariant_transfer journal _ h rfl rfl rfl rfl (List.Sublist.refl _)
        rfl rfl rfl)
  · exact h

theorem set_counter_frame (journal : recovery_journal) (lock_number zone_id value : Nat)
    (zone_type : vdo_zone_type) :
    ∃ counter, set_counter journal lock_number zone_type zone_id value
      = { journal with lock_counter := counter } := by
  unfold set_counter
  simp only
  split
  · exact ⟨_, rfl⟩
  · split
    · exact ⟨_, rfl⟩
    · exact ⟨_, rfl⟩

theorem set_zone_count_frame (journal : recovery_journal) (lock_number : Nat)
    (zone_type : vdo_zone_type) (value : Int) :
    ∃ counter, set_zone_count journal lock_number zone_type value
      = { journal with lock_counter := counter } := by
  unfold set_zone_count
  split
  · exact ⟨_, rfl⟩
  · exact ⟨_, rfl⟩

theorem lock_counter_invariant (journal : recovery_journal) (counter : lock_counter)
    (h : commit_order_invariant journal) :
    commit_order_invariant { journal with lock_counter := counter } :=
  commit_order_invariant_transfer journal _ h rfl rfl rfl rfl (List.Sublist.refl _)
    rfl rfl rfl

theorem acquire_reference_invariant (journal : recovery_journal) (sequence_number zone_id : Nat)
    (zone_type : vdo_zone_type) (h : commit_order_invariant journal) :
    commit_order_invariant
      (vdo_acquire_recovery_journal_block_reference journal sequence_number zone_type
        zone_id) := by
  unfold vdo_acquire_recovery_journal_block_reference
  split
  · exact h
  · simp only
    split
    · obtain ⟨c1, e1⟩ := set_zone_count_frame journal
        (vdo_get_recovery_journal_block_number journal sequence_number) zone_type
        (atomic_inc (get_zone_count journal
          (vdo_get_recovery_journal_block_number journal sequence_number) zone_type))
      rw [e1]
      obtain ⟨c2, e2⟩ := set_counter_frame { journal with lock_counter := c1 }
        (vdo_get_recovery_journal_block_number journal sequence_number) zone_id
        (get_counter journal (vdo_get_recovery_journal_block_number journal sequence_number)
          zone_type zone_id + 1) zone_type
      rw [e2]
      exact lock_counter_invariant journal c2 h
    · obtain ⟨c2, e2⟩ := set_counter_frame journal
        (vdo_get_recovery_journal_block_number journal sequence_number) zone_id
        (get_counter journal (vdo_get_recovery_journal_block_number journal sequence_number)
          zone_type zone_id + 1) zone_type
      rw [e2]
      exact lock_counter_invariant journal c2 h

theorem release_reference_invariant (journal : recovery_journal) (sequence_number zone_id : Nat)
    (zone_type : vdo_zone_type) (h : commit_order_invariant journal) :
    commit_order_invariant
      (vdo_release_recovery_journal_block_reference journal sequence_number zone_type
        zone_id) := by
  obtain ⟨counter, suffix, e, h_quiet⟩ :=
    release_reference_quiet journal sequence_number zone_id zone_type
  rw [e]
  exact commit_order_invariant_transfer journal _ h rfl rfl rfl rfl (List.Sublist.refl _)
    (filter_quiet _ _ h_quiet) rfl rfl

theorem release_entry_lock_invariant (journal : recovery_journal) (sequence_number : Nat)
    (h : commit_order_invariant journal) :
    commit_order_invariant (vdo_release_journal_entry_lock journal sequence_number) := by
  unfold vdo_release_journal_entry_lock
  split
  · exact h
  · exact commit_order_invariant_transfer journal _ h rfl rfl rfl rfl (List.Sublist.refl _)
      rfl rfl rfl

theorem resume_lock_counter_invariant (journal : recovery_journal)
    (h : commit_order_invariant journal) :
    commit_order_invariant (resume_lock_counter journal).2 := by
  unfold resume_lock_counter
  simp only
  split
  · exact commit_order_invariant_transfer journal _ h rfl rfl rfl rfl (List.Sublist.refl _)
      rfl rfl rfl
  · exact h

theorem vdo_resume_recovery_journal_invariant (journal : recovery_journal)
    (h : commit_order_invariant journal) :
    commit_order_invariant (vdo_resume_recovery_journal journal) := by
  unfold vdo_resume_recovery_journal
  simp only
  have h_state : commit_order_invariant
      (if vdo_is_state_quiescent journal.state then
        { journal with state := VDO_ADMIN_STATE_NORMAL_OPERATION }
      else journal) := by
    split
    · exact commit_order_invariant_transfer journal _ h rfl rfl rfl rfl (List.Sublist.refl _)
        rfl rfl rfl
    · exact h
  generalize (if vdo_is_state_quiescent journal.state then
        { journal with state := VDO_ADMIN_STATE_NORMAL_OPERATION }
      else journal) = journal1 at h_state
  split
  · exact h_state
  · have h_initialized : commit_order_invariant
        (if vdo_is_state_saved journal.state then initialize_journal_state journal1
          else journal1) := by
      split
      · exact commit_order_invariant_transfer journal1 (initialize_journal_state journal1)
          h_state rfl rfl rfl rfl (List.Sublist.refl _) rfl rfl rfl
      · exact h_state
    generalize (if vdo_is_state_saved journal.state then initialize_journal_state journal1
          else journal1) = journal2 at h_initialized
    split
    · exact reap_recovery_journal_invariant _ (resume_lock_counter_invariant _ h_initialized)
    · exact resume_lock_counter_invariant _ h_initialized

theorem apply_call_invariant (journal journal1 : recovery_journal) (call : journal_call)
    (h : commit_order_invariant journal) (h_eq : apply_call journal call = some journal1) :
    commit_order_invariant journal1 := by
  cases call with
  | add_entry waiter => exact vdo_add_recovery_journal_entry_invariant _ _ waiter h h_eq
  | write_completed id => exact complete_write_invariant _ _ id h h_eq
  | write_failed id result => exact handle_write_error_invariant _ _ id result h h_eq
  | flush_completed => exact complete_reaping_invariant _ _ h h_eq
  | flush_failed result =>
    rw [← Option.some.inj h_eq]
    exact handle_flush_error_invariant _ result h
  | lock_counter_callback =>
    rw [← Option.some.inj h_eq]
    exact reap_recovery_journal_callback_invariant _ h
  | read_only_notification =>
    rw [← Option.some.inj h_eq]
    exact read_only_notification_invariant _ h
  | acquire_reference sequence_number zone_type zone_id =>
    rw [← Option.some.inj h_eq]
    exact acquire_reference_invariant _ _ _ _ h
  | release_reference sequence_number zone_type zone_id =>
    rw [← Option.some.inj h_eq]
    exact release_reference_invariant _ _ _ _ h
  | release_entry_lock sequence_number =>
    rw [← Option.some.inj h_eq]
    exact release_entry_lock_invariant _ _ h
  | drain save =>
    rw [← Option.some.inj h_eq]
    exact vdo_drain_recovery_journal_invariant _ save h
  | resume =>
    rw [← Option.some.inj h_eq]
    exact vdo_resume_recovery_journal_invariant _ h

theorem run_calls_invariant (calls : List journal_call) (journal journal1 : recovery_journal)
    (h : commit_order_invariant journal) (h_eq : run_calls journal calls = some journal1) :
    commit_order_invariant journal1 := by
  induction calls generalizing journal with
  | nil =>
    unfold run_calls at h_eq
    rw [← Option.some.inj h_eq]
    exact h
  | cons call rest ih =>
    unfold run_calls at h_eq
    split at h_eq
    · cases h_eq
    · rename_i journal2 h_call
      exact ih journal2 (apply_call_invariant _ _ call h h_call) h_eq

theorem commit_order_invariant_start (start : recovery_journal)
    (h_blocks : start.active_tail_blocks = [])
    (h_point : start.commit_point.sequence_number < start.tail)
    (h_tail : start.read_only = false → start.tail < 2 ^ 48)
    (h_entries : start.entries_per_block < 65536)
    (h_increments : start.increment_waiters = [])
    (h_decrements : start.decrement_waiters = [])
    (h_trace : quiet start.trace) : commit_order_invariant start := by
  refine ⟨⟨h_entries, ?_, ?_, h_point, h_tail, ?_, ?_, ?_, ?_⟩, fun _ =>
    ⟨h_increments, h_decrements⟩⟩
  · rw [h_blocks]
    exact List.Pairwise.nil
  · intro b h_b
    rw [h_blocks] at h_b
    cases h_b
  · rw [notified_points_quiet _ h_trace]
    exact List.Pairwise.nil
  · intro p h_p
    rw [notified_points_quiet _ h_trace] at h_p
    cases h_p
  · exact not_failure_of_quiet _ h_trace
  · intro p h_p
    rw [notified_points_quiet _ h_trace] at h_p
    cases h_p

/-- C4: in every run of calls from a journal with no active block, its commit point before
the tail block, its entry queues empty and no commit notification issued yet, the commit
notifications are issued in strictly increasing journal position, the assertion of
`continue_committed_waiter` never fails, and the commit point is the position notified
last. -/
theorem commit_notifications_in_order (start journal : recovery_journal)
    (calls : List journal_call)
    (h_blocks : start.active_tail_blocks = [])
    (h_point : start.commit_point.sequence_number < start.tail)
    (h_tail : start.read_only = false → start.tail < 2 ^ 48)
    (h_entries : start.entries_per_block < 65536)
    (h_increments : start.increment_waiters = [])
    (h_decrements : start.decrement_waiters = [])
    (h_trace : quiet start.trace)
    (h_run : run_calls start calls = some journal) :
    (notified_points journal.trace).Pairwise
        (fun p q => vdo_before_journal_point p q = true)
    ∧ (∀ e, e ∈ journal.trace → ∀ a b, e ≠ Event.commit_order_assertion_failed a b)
    ∧ (∀ p, (notified_points journal.trace).getLast? = some p → p = journal.commit_point) := by
  have h := run_calls_invariant calls start journal
    (commit_order_invariant_start start h_blocks h_point h_tail h_entries h_increments
      h_decrements h_trace) h_run
  exact ⟨h.1.2.2.2.2.2.1, h.1.2.2.2.2.2.2.2.1, h.1.2.2.2.2.2.2.2.2⟩

/-- Witness of `commit_notifications_in_order`: the run of `sample_calls` from the open
sample journal, which notifies the positions (1,0), (1,1), (1,2) and (2,0). -/
theorem commit_notifications_in_order_witness :
    ∃ journal, run_calls sample_journal_open sample_calls = some journal
      ∧ notified_points journal.trace = [⟨1, 0⟩, ⟨1, 1⟩, ⟨1, 2⟩, ⟨2, 0⟩]
      ∧ (notified_points journal.trace).Pairwise
          (fun p q => vdo_before_journal_point p q = true)
      ∧ (∀ e, e ∈ journal.trace → ∀ a b, e ≠ Event.commit_order_assertion_failed a b)
      ∧ (∀ p, (notified_points journal.trace).getLast? = some p →
          p = journal.commit_point) :=
  ⟨(run_calls sample_journal_open sample_calls).get (by decide),
    (Option.some_get (by decide)).symm, by decide,
    commit_notifications_in_order sample_journal_open _ sample_calls (by decide) (by decide)
      (by decide) (by decide) (by decide) (by decide) quiet_nil
      (Option.some_get (by decide)).symm⟩

/-- The commit point of the start state has to lie before the tail block: a journal whose
next sequence number is 0 hands out the position (0,0), which is not after the zero commit
point, and the assertion of `continue_committed_waiter` fails at its first notification. -/
theorem first_position_not_after_zero_commit_point :
    (run_calls sample_journal_from_zero
        [journal_call.add_entry (sample_increment 1), journal_call.write_completed 2]).map
      (fun j => j.trace.filter is_commit_event)
      = some [Event.commit_order_assertion_failed ⟨0, 0⟩ ⟨0, 0⟩,
          Event.commit_notification
            { sample_increment 1 with recovery_journal_point := ⟨0, 0⟩ } VDO_SUCCESS] := by
  decide

/-! ### Usable length, available space and the commit threshold -/

theorem recovery_journal_length_eq (journal_size : Nat) :
    vdo_get_recovery_journal_length journal_size = journal_size - min (journal_size / 4) 8
    ∧ vdo_get_recovery_journal_length journal_size ≤ journal_size := by
  unfold vdo_get_recovery_journal_length RECOVERY_JOURNAL_RESERVED_BLOCKS
  simp only
  split <;> omega

/-- C16: for every journal size, `vdo_get_recovery_journal_length` is the size less the
smaller of a quarter of the size (integer division) and 8; it is at most the size, at least
the size less 8, and positive for every size of at least 1. -/
theorem recovery_journal_length_spec (journal_size : Nat) :
    vdo_get_recovery_journal_length journal_size = journal_size - min (journal_size / 4) 8
    ∧ vdo_get_recovery_journal_length journal_size ≤ journal_size
    ∧ journal_size - 8 ≤ vdo_get_recovery_journal_length journal_size
    ∧ (1 ≤ journal_size → 0 < vdo_get_recovery_journal_length journal_size) := by
  unfold vdo_get_recovery_journal_length RECOVERY_JOURNAL_RESERVED_BLOCKS
  simp only
  split <;> omega

/-- Witness of `recovery_journal_length_spec`: the sizes 1, 4, 32 and 33. -/
theorem recovery_journal_length_spec_witness :
    vdo_get_recovery_journal_length 1 = 1 ∧ vdo_get_recovery_journal_length 4 = 3
    ∧ vdo_get_recovery_journal_length 32 = 24 ∧ vdo_get_recovery_journal_length 33 = 25
    ∧ 0 < vdo_get_recovery_journal_length 1 :=
  ⟨by decide, by decide, by decide, by decide,
    (recovery_journal_length_spec 1).2.2.2 (by decide)⟩

/-- C15, as stated, fails: after `initialize_journal_state` the sample journal (four blocks of
three entries, head = tail) has 9 entries of space, not 3 × (4 − (tail − head)) = 12. -/
theorem available_space_excludes_reserved_blocks :
    get_recovery_journal_head (initialize_journal_state sample_journal)
      = (initialize_journal_state sample_journal).tail
    ∧ (initialize_journal_state sample_journal).available_space = 9
    ∧ (initialize_journal_state sample_journal).available_space
      ≠ (initialize_journal_state sample_journal).entries_per_block
        * ((initialize_journal_state sample_journal).size
          - ((initialize_journal_state sample_journal).tail
            - get_recovery_journal_head (initialize_journal_state sample_journal))) := by
  decide

/-- C15, amended: immediately after `initialize_journal_state` the head is the tail and
`available_space` is `entries_per_block` times the usable length, the size less the reserved
blocks min(size / 4, 8), for a product that fits 64 bits; it is
`entries_per_block × (size − (tail − head))` when the size is below 4 and no block is
reserved. -/
theorem initialize_journal_state_available_space (journal : recovery_journal)
    (h_fits : journal.entries_per_block * journal.size < 2 ^ 64) :
    get_recovery_journal_head (initialize_journal_state journal)
      = (initialize_journal_state journal).tail
    ∧ (initialize_journal_state journal).available_space
      = journal.entries_per_block * (journal.size - min (journal.size / 4) 8)
    ∧ (journal.size < 4 →
        (initialize_journal_state journal).available_space
          = (initialize_journal_state journal).entries_per_block
            * ((initialize_journal_state journal).size
              - ((initialize_journal_state journal).tail
                - get_recovery_journal_head (initialize_journal_state journal)))) := by
  have h_length := recovery_journal_length_eq journal.size
  have h_le : journal.entries_per_block * vdo_get_recovery_journal_length journal.size
      ≤ journal.entries_per_block * journal.size :=
    Nat.mul_le_mul_left _ h_length.2
  have h_pow : (2 : Nat) ^ 64 = 18446744073709551616 := by norm_num
  have h_space : (initialize_journal_state journal).available_space
      = journal.entries_per_block * (journal.size - min (journal.size / 4) 8) := by
    show mul_u64 journal.entries_per_block (vdo_get_recovery_journal_length journal.size) = _
    unfold mul_u64
    rw [Nat.mod_eq_of_lt (by omega), h_length.1]
  refine ⟨?_, h_space, ?_⟩
  · show min journal.tail journal.tail = journal.tail
    exact Nat.min_self _
  · intro h_small
    rw [h_space]
    show _ = journal.entries_per_block * (journal.size - (journal.tail - min journal.tail journal.tail))
    rw [Nat.min_self, Nat.sub_self, Nat.sub_zero]
    have h_quarter : journal.size / 4 = 0 := by omega
    rw [h_quarter]
    simp

/-- Witness of `initialize_journal_state_available_space`: the sample journal. -/
theorem initialize_journal_state_available_space_witness :
    get_recovery_journal_head (initialize_journal_state sample_journal)
      = (initialize_journal_state sample_journal).tail
    ∧ (initialize_journal_state sample_journal).available_space = 3 * (4 - min (4 / 4) 8) :=
  ⟨(initialize_journal_state_available_space sample_journal (by decide)).1,
    (initialize_journal_state_available_space sample_journal (by decide)).2.1⟩

theorem sub_u64_exact (a b : Nat) (h_le : b ≤ a) (h_a : a < 2 ^ 64) : sub_u64 a b = a - b := by
  have h_pow : (2 : Nat) ^ 64 = 18446744073709551616 := by norm_num
  unfold sub_u64
  rw [Nat.mod_eq_of_lt (by omega : b < 18446744073709551616)]
  omega

/-- C17: with `slab_journal_commit_threshold = (size × 2) / 3` in integer arithmetic, a size
below 2^63 and a tail at or after the slab journal head, `check_slab_journal_commit_threshold`
counts a request in `slab_journal_commits_requested` and asks the slab depot to commit its
oldest tail blocks exactly when 3 × (tail − slab_journal_head) > 2 × size; otherwise it
leaves the journal as it is. -/
theorem check_slab_journal_commit_threshold_spec (journal : recovery_journal)
    (h_threshold : journal.slab_journal_commit_threshold = mul_u64 journal.size 2 / 3)
    (h_size : journal.size < 2 ^ 63)
    (h_order : journal.slab_journal_head ≤ journal.tail)
    (h_tail : journal.tail < 2 ^ 64) :
    (3 * (journal.tail - journal.slab_journal_head) > 2 * journal.size →
      check_slab_journal_commit_threshold journal
        = { journal with
            events := { journal.events with
              slab_journal_commits_requested :=
                add_u64 journal.events.slab_journal_commits_requested 1 }
            trace := journal.trace ++
              [Event.commit_oldest_slab_journal_tail_blocks journal.slab_journal_head] })
    ∧ (¬ 3 * (journal.tail - journal.slab_journal_head) > 2 * journal.size →
      check_slab_journal_commit_threshold journal = journal) := by
  have h_pow : (2 : Nat) ^ 63 = 9223372036854775808 := by norm_num
  have h_double : mul_u64 journal.size 2 = journal.size * 2 := by
    unfold mul_u64
    exact Nat.mod_eq_of_lt (by omega)
  unfold check_slab_journal_commit_threshold
  simp only
  rw [sub_u64_exact _ _ h_order h_tail, h_threshold, h_double]
  constructor
  · intro h_over
    rw [if_pos (by omega)]
  · intro h_under
    rw [if_neg (by omega)]

/-- Witness of `check_slab_journal_commit_threshold_spec`: the decoded sample journal, whose
threshold is 2, with its tail at 4 (a request, 3 × 3 > 8) and at 3 (none, 3 × 2 ≤ 8). -/
theorem check_slab_journal_commit_threshold_spec_witness :
    check_slab_journal_commit_threshold (sample_journal_at 4)
      = { sample_journal_at 4 with
          events := { (sample_journal_at 4).events with
            slab_journal_commits_requested :=
              add_u64 (sample_journal_at 4).events.slab_journal_commits_requested 1 }
          trace := (sample_journal_at 4).trace ++
            [Event.commit_oldest_slab_journal_tail_blocks
              (sample_journal_at 4).slab_journal_head] }
    ∧ check_slab_journal_commit_threshold (sample_journal_at 3) = sample_journal_at 3 :=
  ⟨(check_slab_journal_commit_threshold_spec (sample_journal_at 4) (by decide) (by decide)
      (by decide) (by decide)).1 (by decide),
    (check_slab_journal_commit_threshold_spec (sample_journal_at 3) (by decide) (by decide)
      (by decide) (by decide)).2 (by decide)⟩

/-- C18: `set_journal_tail` enters read-only mode with `VDO_JOURNAL_OVERFLOW` exactly when
the new tail is at least 2^48, and for a smaller tail only stores the tail; so `advance_tail`
from the tail 2^48 − 1 with a free block succeeds and leaves the journal read-only, its tail
at 2^48. -/
theorem set_journal_tail_overflow (journal : recovery_journal) (tail : Nat) :
    (2 ^ 48 ≤ tail →
      (set_journal_tail journal tail).read_only = true
      ∧ (set_journal_tail journal tail).tail = tail
      ∧ ∃ later, (set_journal_tail journal tail).trace
          = journal.trace ++ Event.enter_read_only VDO_JOURNAL_OVERFLOW :: later)
    ∧ (tail < 2 ^ 48 → set_journal_tail journal tail = { journal with tail := tail })
    ∧ (journal.tail = 2 ^ 48 - 1 → journal.free_tail_blocks ≠ [] →
        (advance_tail journal).1 = true
        ∧ (advance_tail journal).2.read_only = true
        ∧ (advance_tail journal).2.tail = 2 ^ 48) := by
  have h_enter : ∀ (j : recovery_journal) (new_tail : Nat), 2 ^ 48 ≤ new_tail →
      (set_journal_tail j new_tail).read_only = true
      ∧ (set_journal_tail j new_tail).tail = new_tail
      ∧ ∃ later, (set_journal_tail j new_tail).trace
          = j.trace ++ Event.enter_read_only VDO_JOURNAL_OVERFLOW :: later := by
    intro j new_tail h_over
    unfold set_journal_tail enter_journal_read_only_mode
    simp only [ge_iff_le, if_pos h_over]
    obtain ⟨active, free, active_block, counter, commit_point, increments, decrements, state,
      suffix, e⟩ := check_for_drain_complete_frame
        (vdo_enter_read_only_mode j VDO_JOURNAL_OVERFLOW)
    rw [e]
    refine ⟨?_, ?_, suffix, ?_⟩
    · trivial
    · trivial
    · show (j.trace ++ [Event.enter_read_only VDO_JOURNAL_OVERFLOW]) ++ suffix = _
      simp
  refine ⟨h_enter journal tail, ?_, ?_⟩
  · intro h_under
    unfold set_journal_tail
    simp only [ge_iff_le, if_neg (Nat.not_le.mpr h_under)]
  · intro h_tail h_free
    unfold advance_tail pop_free_list
    cases h_last : journal.free_tail_blocks.getLast? with
    | none =>
      rw [List.getLast?_eq_none_iff] at h_last
      exact absurd h_last h_free
    | some block =>
      simp only
      have h_add : add_u64 journal.tail 1 = 2 ^ 48 := by
        rw [h_tail]
        decide
      rw [h_add]
      obtain ⟨r1, r2, _⟩ := h_enter
        { journal with
          free_tail_blocks := journal.free_tail_blocks.dropLast
          active_block := some block.id
          active_tail_blocks := journal.active_tail_blocks
            ++ [vdo_initialize_recovery_block
                  { journal with free_tail_blocks := journal.free_tail_blocks.dropLast }
                  block] }
        (2 ^ 48) (le_refl _)
      exact ⟨trivial, r1, r2⟩

/-- Witness of `set_journal_tail_overflow`: the open sample journal. -/
theorem set_journal_tail_overflow_witness :
    (set_journal_tail sample_journal_open (2 ^ 48)).read_only = true
    ∧ set_journal_tail sample_journal_open 5 = { sample_journal_open with tail := 5 }
    ∧ (advance_tail { sample_journal_open with tail := 2 ^ 48 - 1 }).2.read_only = true :=
  ⟨((set_journal_tail_overflow sample_journal_open (2 ^ 48)).1 (le_refl _)).1,
    (set_journal_tail_overflow sample_journal_open 5).2.1 (by decide),
    ((set_journal_tail_overflow { sample_journal_open with tail := 2 ^ 48 - 1 } 0).2.2
      (by decide) (by decide)).2.1⟩

/-- The drain check made on entering read-only mode recycles the block `advance_tail` has
just made active, so the entry whose assignment advanced the tail to 2^48 finds
`active_block` NULL in `prepare_to_assign_entry`. -/
theorem entry_after_overflow_finds_no_active_block :
    (advance_tail { sample_journal_open with tail := 2 ^ 48 - 1 }).2.active_block = none
    ∧ (vdo_add_recovery_journal_entry { sample_journal_open with tail := 2 ^ 48 - 1 }
        (sample_increment 1)).isNone = true := by
  decide

/-- C19: `vdo_record_recovery_journal` reports `logical_blocks_used` and
`block_map_data_blocks` of the journal as they are, and as `journal_start` the tail when the
admin state is saved and otherwise the head, the smaller of `block_map_head` and
`slab_journal_head`; the journal, passed as a constant, is not written. -/
theorem record_recovery_journal_spec (journal : recovery_journal) :
    (vdo_record_recovery_journal journal).logical_blocks_used = journal.logical_blocks_used
    ∧ (vdo_record_recovery_journal journal).block_map_data_blocks
        = journal.block_map_data_blocks
    ∧ (journal.state = VDO_ADMIN_STATE_SAVED →
        (vdo_record_recovery_journal journal).journal_start = journal.tail)
    ∧ (journal.state ≠ VDO_ADMIN_STATE_SAVED →
        (vdo_record_recovery_journal journal).journal_start
          = min journal.block_map_head journal.slab_journal_head) := by
  refine ⟨rfl, rfl, ?_, ?_⟩
  · intro h_saved
    show (if vdo_is_state_saved journal.state then journal.tail
      else get_recovery_journal_head journal) = journal.tail
    rw [if_pos (by rw [h_saved]; rfl)]
  · intro h_other
    show (if vdo_is_state_saved journal.state then journal.tail
      else get_recovery_journal_head journal) = _
    rw [if_neg (by simpa [vdo_is_state_saved] using h_other)]
    rfl

/-- Witness of `record_recovery_journal_spec`: the sample journal with heads 2 and 3 and
tail 5, saved and suspended. -/
theorem record_recovery_journal_spec_witness :
    (vdo_record_recovery_journal
        { sample_journal with
          tail := 5, block_map_head := 3, slab_journal_head := 2
          state := VDO_ADMIN_STATE_SAVED }).journal_start = 5
    ∧ (vdo_record_recovery_journal
        { sample_journal with
          tail := 5, block_map_head := 3, slab_journal_head := 2
          state := VDO_ADMIN_STATE_SUSPENDED }).journal_start = min 3 2 :=
  ⟨(record_recovery_journal_spec
      { sample_journal with
        tail := 5, block_map_head := 3, slab_journal_head := 2
        state := VDO_ADMIN_STATE_SAVED }).2.2.1 rfl,
    (record_recovery_journal_spec
      { sample_journal with
        tail := 5, block_map_head := 3, slab_journal_head := 2
        state := VDO_ADMIN_STATE_SUSPENDED }).2.2.2 (by decide)⟩

theorem set_journal_tail_frame (journal : recovery_journal) (tail : Nat) :
    ∃ active free active_block counter commit_point increments decrements state read_only
        suffix,
      set_journal_tail journal tail
        = { journal with
            tail := tail
            active_tail_blocks := active
            free_tail_blocks := free
            active_block := active_block
            lock_counter := counter
            commit_point := commit_point
            increment_waiters := increments
            decrement_waiters := decrements
            state := state
            read_only := read_only
            trace := journal.trace ++ suffix } := by
  unfold set_journal_tail
  by_cases h_over : tail ≥ 2 ^ 48
  · simp only [if_pos h_over]
    unfold enter_journal_read_only_mode
    obtain ⟨active, free, active_block, counter, commit_point, increments, decrements, state,
      suffix, e⟩ := check_for_drain_complete_frame
        (vdo_enter_read_only_mode journal VDO_JOURNAL_OVERFLOW)
    rw [e]
    exact ⟨active, free, active_block, counter, commit_point, increments, decrements, state,
      true, [Event.enter_read_only VDO_JOURNAL_OVERFLOW] ++ suffix, by
        simp [vdo_enter_read_only_mode, List.append_assoc]⟩
  · simp only [if_neg h_over]
    exact ⟨journal.active_tail_blocks, journal.free_tail_blocks, journal.active_block,
      journal.lock_counter, journal.commit_point, journal.increment_waiters,
      journal.decrement_waiters, journal.state, journal.read_only, [], by simp⟩

theorem decode_recovery_journal_fields (state : recovery_journal_state_7_0)
    (journal_size tail_buffer_size entries_per_block logical_zone_count
      physical_zone_count : Nat) (read_only : Bool) :
    (vdo_decode_recovery_journal state journal_size tail_buffer_size entries_per_block
        logical_zone_count physical_zone_count read_only).tail = state.journal_start
    ∧ (vdo_decode_recovery_journal state journal_size tail_buffer_size entries_per_block
        logical_zone_count physical_zone_count read_only).block_map_head = state.journal_start
    ∧ (vdo_decode_recovery_journal state journal_size tail_buffer_size entries_per_block
        logical_zone_count physical_zone_count read_only).slab_journal_head
        = state.journal_start
    ∧ (vdo_decode_recovery_journal state journal_size tail_buffer_size entries_per_block
        logical_zone_count physical_zone_count read_only).logical_blocks_used
        = state.logical_blocks_used
    ∧ (vdo_decode_recovery_journal state journal_size tail_buffer_size entries_per_block
        logical_zone_count physical_zone_count read_only).block_map_data_blocks
        = state.block_map_data_blocks
    ∧ (vdo_decode_recovery_journal state journal_size tail_buffer_size entries_per_block
        logical_zone_count physical_zone_count read_only).state
        = VDO_ADMIN_STATE_SUSPENDED := by
  unfold vdo_decode_recovery_journal
  simp only
  obtain ⟨active, free, active_block, counter, commit_point, increments, decrements, st, ro,
    suffix, e⟩ := set_journal_tail_frame
      { allocated_journal with
        read_only := read_only
        size := journal_size
        slab_journal_commit_threshold := mul_u64 journal_size 2 / 3
        logical_blocks_used := state.logical_blocks_used
        block_map_data_blocks := state.block_map_data_blocks
        entries_per_block := entries_per_block }
      state.journal_start
  rw [e]
  exact ⟨rfl, rfl, rfl, rfl, rfl, rfl⟩

theorem record_of_fields (journal : recovery_journal) (state : recovery_journal_state_7_0)
    (h_tail : journal.tail = state.journal_start)
    (h_block_map : journal.block_map_head = state.journal_start)
    (h_slab : journal.slab_journal_head = state.journal_start)
    (h_used : journal.logical_blocks_used = state.logical_blocks_used)
    (h_data : journal.block_map_data_blocks = state.block_map_data_blocks) :
    vdo_record_recovery_journal journal = state := by
  unfold vdo_record_recovery_journal get_recovery_journal_head
  rw [h_tail, h_block_map, h_slab, h_used, h_data, Nat.min_self, ite_self]

theorem drain_keeps_recorded_fields (journal : recovery_journal) (save : Bool) :
    (vdo_drain_recovery_journal journal save).tail = journal.tail
    ∧ (vdo_drain_recovery_journal journal save).block_map_head = journal.block_map_head
    ∧ (vdo_drain_recovery_journal journal save).slab_journal_head = journal.slab_journal_head
    ∧ (vdo_drain_recovery_journal journal save).logical_blocks_used
        = journal.logical_blocks_used
    ∧ (vdo_drain_recovery_journal journal save).block_map_data_blocks
        = journal.block_map_data_blocks := by
  unfold vdo_drain_recovery_journal
  split
  · obtain ⟨active, free, active_block, counter, commit_point, increments, decrements, st,
      suffix, e⟩ := check_for_drain_complete_frame
        { journal with
          state := if save then VDO_ADMIN_STATE_SAVING else VDO_ADMIN_STATE_SUSPENDING }
    rw [e]
    exact ⟨rfl, rfl, rfl, rfl, rfl⟩
  · exact ⟨rfl, rfl, rfl, rfl, rfl⟩

theorem check_for_drain_complete_idle (journal : recovery_journal)
    (h_active : journal.active_tail_blocks = [])
    (h_increments : journal.increment_waiters = [])
    (h_decrements : journal.decrement_waiters = []) :
    (vdo_is_state_draining journal.state = false → check_for_drain_complete journal = journal)
    ∧ (journal.state = VDO_ADMIN_STATE_SAVING → journal.reaping = false →
        journal.active_block = none →
        journal.lock_counter.state = LOCK_COUNTER_STATE_NOT_NOTIFYING →
        (check_for_drain_complete journal).state = VDO_ADMIN_STATE_SAVED) := by
  have h_released : release_waiters_read_only journal = journal := by
    unfold release_waiters_read_only notify_commit_waiters recycle_journal_blocks
    simp only [h_active, h_increments, h_decrements, notify_commit_waiters_from,
      recycle_journal_blocks_from, List.foldl_nil]
    cases journal
    simp only at h_active h_increments h_decrements
    subst h_active h_increments h_decrements
    rfl
  constructor
  · intro h_state
    unfold check_for_drain_complete
    rw [h_released]
    unfold finish_drain_if_complete
    simp [h_state]
  · intro h_state h_reaping h_block h_lock
    unfold check_for_drain_complete
    rw [h_released]
    unfold finish_drain_if_complete
    simp [h_state, h_reaping, h_block, h_lock, h_active, h_increments, h_decrements,
      vdo_is_state_draining, vdo_is_state_saving, has_block_waiters, get_journal_block,
      suspend_lock_counter, active_block_of, vdo_finish_draining_with_result]
    split <;> rfl

theorem decoded_journal_idle (state : recovery_journal_state_7_0)
    (journal_size tail_buffer_size entries_per_block logical_zone_count
      physical_zone_count : Nat) (read_only : Bool) :
    (vdo_decode_recovery_journal state journal_size tail_buffer_size entries_per_block
        logical_zone_count physical_zone_count read_only).active_tail_blocks = []
    ∧ (vdo_decode_recovery_journal state journal_size tail_buffer_size entries_per_block
        logical_zone_count physical_zone_count read_only).increment_waiters = []
    ∧ (vdo_decode_recovery_journal state journal_size tail_buffer_size entries_per_block
        logical_zone_count physical_zone_count read_only).decrement_waiters = []
    ∧ (vdo_decode_recovery_journal state journal_size tail_buffer_size entries_per_block
        logical_zone_count physical_zone_count read_only).reaping = false
    ∧ (vdo_decode_recovery_journal state journal_size tail_buffer_size entries_per_block
        logical_zone_count physical_zone_count read_only).active_block = none
    ∧ (vdo_decode_recovery_journal state journal_size tail_buffer_size entries_per_block
        logical_zone_count physical_zone_count read_only).lock_counter.state
        = LOCK_COUNTER_STATE_NOT_NOTIFYING := by
  have h_set : ∃ ro events, set_journal_tail
      { allocated_journal with
        read_only := read_only
        size := journal_size
        slab_journal_commit_threshold := mul_u64 journal_size 2 / 3
        logical_blocks_used := state.logical_blocks_used
        block_map_data_blocks := state.block_map_data_blocks
        entries_per_block := entries_per_block } state.journal_start
      = { allocated_journal with
          read_only := ro
          size := journal_size
          slab_journal_commit_threshold := mul_u64 journal_size 2 / 3
          logical_blocks_used := state.logical_blocks_used
          block_map_data_blocks := state.block_map_data_blocks
          entries_per_block := entries_per_block
          tail := state.journal_start
          trace := events } := by
    unfold set_journal_tail
    by_cases h_over : state.journal_start ≥ 2 ^ 48
    · simp only [if_pos h_over]
      unfold enter_journal_read_only_mode
      have h_idle := (check_for_drain_complete_idle
        (vdo_enter_read_only_mode
          { allocated_journal with
            read_only := read_only
            size := journal_size
            slab_journal_commit_threshold := mul_u64 journal_size 2 / 3
            logical_blocks_used := state.logical_blocks_used
            block_map_data_blocks := state.block_map_data_blocks
            entries_per_block := entries_per_block } VDO_JOURNAL_OVERFLOW) rfl rfl rfl).1 rfl
      rw [h_idle]
      exact ⟨true, allocated_journal.trace ++ [Event.enter_read_only VDO_JOURNAL_OVERFLOW],
        rfl⟩
    · simp only [if_neg h_over]
      exact ⟨read_only, allocated_journal.trace, rfl⟩
  obtain ⟨ro, events, e⟩ := h_set
  unfold vdo_decode_recovery_journal
  simp only
  rw [e]
  exact ⟨rfl, rfl, rfl, rfl, rfl, rfl⟩

theorem decoded_journal_drains (state : recovery_journal_state_7_0)
    (journal_size tail_buffer_size entries_per_block logical_zone_count
      physical_zone_count : Nat) (read_only : Bool) :
    (vdo_drain_recovery_journal
      (vdo_open_recovery_journal
        (vdo_decode_recovery_journal state journal_size tail_buffer_size entries_per_block
          logical_zone_count physical_zone_count read_only)) true).state
      = VDO_ADMIN_STATE_SAVED := by
  obtain ⟨i1, i2, i3, i4, i5, i6⟩ := decoded_journal_idle state journal_size
    tail_buffer_size entries_per_block logical_zone_count physical_zone_count read_only
  generalize vdo_decode_recovery_journal state journal_size tail_buffer_size
    entries_per_block logical_zone_count physical_zone_count read_only = decoded
    at i1 i2 i3 i4 i5 i6
  unfold vdo_drain_recovery_journal vdo_open_recovery_journal
  rw [if_pos (by rfl)]
  exact (check_for_drain_complete_idle
    { decoded with state := VDO_ADMIN_STATE_SAVING } i1 i2 i3).2 rfl i4 i5 i6

/-- C20: recording a journal just built by `vdo_decode_recovery_journal` from a state gives
back that state, its `journal_start` being the tail of the journal; the same holds after the
journal is opened and at once drained for a save, a drain that completes and leaves the
journal saved. -/
theorem decode_record_round_trip (state : recovery_journal_state_7_0)
    (journal_size tail_buffer_size entries_per_block logical_zone_count
      physical_zone_count : Nat) (read_only : Bool) :
    vdo_record_recovery_journal
        (vdo_decode_recovery_journal state journal_size tail_buffer_size entries_per_block
          logical_zone_count physical_zone_count read_only) = state
    ∧ (vdo_decode_recovery_journal state journal_size tail_buffer_size entries_per_block
          logical_zone_count physical_zone_count read_only).tail = state.journal_start
    ∧ vdo_record_recovery_journal
        (vdo_drain_recovery_journal
          (vdo_open_recovery_journal
            (vdo_decode_recovery_journal state journal_size tail_buffer_size entries_per_block
              logical_zone_count physical_zone_count read_only)) true) = state
    ∧ (vdo_drain_recovery_journal
          (vdo_open_recovery_journal
            (vdo_decode_recovery_journal state journal_size tail_buffer_size entries_per_block
              logical_zone_count physical_zone_count read_only)) true).tail
        = state.journal_start
    ∧ (vdo_drain_recovery_journal
          (vdo_open_recovery_journal
            (vdo_decode_recovery_journal state journal_size tail_buffer_size entries_per_block
              logical_zone_count physical_zone_count read_only)) true).state
        = VDO_ADMIN_STATE_SAVED := by
  obtain ⟨d1, d2, d3, d4, d5, d6⟩ := decode_recovery_journal_fields state journal_size
    tail_buffer_size entries_per_block logical_zone_count physical_zone_count read_only
  obtain ⟨k1, k2, k3, k4, k5⟩ := drain_keeps_recorded_fields
    (vdo_open_recovery_journal
      (vdo_decode_recovery_journal state journal_size tail_buffer_size entries_per_block
        logical_zone_count physical_zone_count read_only)) true
  exact ⟨record_of_fields _ _ d1 d2 d3 d4 d5, d1,
    record_of_fields _ _ (k1.trans d1) (k2.trans d2) (k3.trans d3) (k4.trans d4)
      (k5.trans d5),
    k1.trans d1,
    decoded_journal_drains state journal_size tail_buffer_size entries_per_block
      logical_zone_count physical_zone_count read_only⟩

/-! ### The reaper -/

theorem next_block_number (sequence_number size number : Nat)
    (h : number = sequence_number % size) :
    (if number + 1 = size then 0 else number + 1) = (sequence_number + 1) % size := by
  have h_mod : (sequence_number + 1) % size = (number + 1) % size := by
    rw [h, Nat.mod_add_mod]
  rw [h_mod]
  by_cases h_zero : size = 0
  · subst h_zero
    rw [if_neg (Nat.succ_ne_zero _), Nat.mod_zero]
  · have h_lt : number < size := by
      rw [h]
      exact Nat.mod_lt _ (Nat.pos_of_ne_zero h_zero)
    by_cases h_wrap : number + 1 = size
    · rw [if_pos h_wrap, h_wrap, Nat.mod_self]
    · rw [if_neg h_wrap, Nat.mod_eq_of_lt (by omega)]

theorem is_lock_locked_false_iff (journal : recovery_journal) (lock_number : Nat)
    (zone_type : vdo_zone_type) :
    is_lock_locked journal lock_number zone_type = false ↔
      (get_counter journal lock_number VDO_ZONE_TYPE_JOURNAL 0
          = to_u32 (get_decrement_counter journal lock_number)
        ∧ get_zone_count journal lock_number zone_type = 0) := by
  unfold is_lock_locked is_journal_zone_locked
  simp only
  by_cases h_journal : get_counter journal lock_number VDO_ZONE_TYPE_JOURNAL 0
      = to_u32 (get_decrement_counter journal lock_number)
  · simp [h_journal]
  · simp [h_journal]

theorem reap_block_map_head_spec (fuel : Nat) (journal : recovery_journal)
    (h_number : journal.block_map_head_block_number
      = journal.block_map_reap_head % journal.size) :
    ∃ head,
      reap_block_map_head fuel journal
        = { journal with
            block_map_reap_head := head
            block_map_head_block_number := head % journal.size }
      ∧ journal.block_map_reap_head ≤ head
      ∧ (∀ k, journal.block_map_reap_head ≤ k → k < head →
          k < journal.last_write_acknowledged
          ∧ is_lock_locked journal (k % journal.size) VDO_ZONE_TYPE_LOGICAL = false)
      ∧ (journal.last_write_acknowledged - journal.block_map_reap_head ≤ fuel →
          journal.last_write_acknowledged ≤ head
          ∨ is_lock_locked journal (head % journal.size) VDO_ZONE_TYPE_LOGICAL = true) := by
  induction fuel generalizing journal with
  | zero =>
    refine ⟨journal.block_map_reap_head, ?_, le_refl _, ?_, ?_⟩
    · unfold reap_block_map_head
      rw [← h_number]
    · intro k h1 h2
      omega
    · intro h_fuel
      left
      omega
  | succ fuel ih =>
    unfold reap_block_map_head
    by_cases h_step : journal.block_map_reap_head < journal.last_write_acknowledged
        ∧ (!is_lock_locked journal journal.block_map_head_block_number
            VDO_ZONE_TYPE_LOGICAL) = true
    · rw [if_pos h_step]
      have h_unlocked : is_lock_locked journal (journal.block_map_reap_head % journal.size)
          VDO_ZONE_TYPE_LOGICAL = false := by
        rw [← h_number]
        simpa using h_step.2
      obtain ⟨head, e, h_le, h_gate, h_stop⟩ := ih
        { journal with
          block_map_reap_head := journal.block_map_reap_head + 1
          block_map_head_block_number :=
            if journal.block_map_head_block_number + 1 = journal.size then 0
            else journal.block_map_head_block_number + 1 }
        (next_block_number _ _ _ h_number)
      refine ⟨head, ?_, ?_, ?_, ?_⟩
      · rw [e]
      · exact Nat.le_of_succ_le h_le
      · intro k h1 h2
        by_cases h_first : k = journal.block_map_reap_head
        · rw [h_first]
          exact ⟨h_step.1, h_unlocked⟩
        · exact h_gate k (by
            show journal.block_map_reap_head + 1 ≤ k
            omega) h2
      · intro h_fuel
        exact h_stop (by
          show journal.last_write_acknowledged - (journal.block_map_reap_head + 1) ≤ fuel
          omega)
    · rw [if_neg h_step]
      refine ⟨journal.block_map_reap_head, ?_, le_refl _, ?_, ?_⟩
      · rw [← h_number]
      · intro k h1 h2
        omega
      · intro _
        by_cases h_below : journal.block_map_reap_head < journal.last_write_acknowledged
        · right
          rw [← h_number]
          cases h_locked : is_lock_locked journal journal.block_map_head_block_number
              VDO_ZONE_TYPE_LOGICAL
          · exact absurd ⟨h_below, by rw [h_locked]; rfl⟩ h_step
          · rfl
        · left
          omega

theorem reap_slab_journal_head_spec (fuel : Nat) (journal : recovery_journal)
    (h_number : journal.slab_journal_head_block_number
      = journal.slab_journal_reap_head % journal.size) :
    ∃ head,
      reap_slab_journal_head fuel journal
        = { journal with
            slab_journal_reap_head := head
            slab_journal_head_block_number := head % journal.size }
      ∧ journal.slab_journal_reap_head ≤ head
      ∧ (∀ k, journal.slab_journal_reap_head ≤ k → k < head →
          k < journal.last_write_acknowledged
          ∧ is_lock_locked journal (k % journal.size) VDO_ZONE_TYPE_PHYSICAL = false)
      ∧ (journal.last_write_acknowledged - journal.slab_journal_reap_head ≤ fuel →
          journal.last_write_acknowledged ≤ head
          ∨ is_lock_locked journal (head % journal.size) VDO_ZONE_TYPE_PHYSICAL = true) := by
  induction fuel generalizing journal with
  | zero =>
    refine ⟨journal.slab_journal_reap_head, ?_, le_refl _, ?_, ?_⟩
    · unfold reap_slab_journal_head
      rw [← h_number]
    · intro k h1 h2
      omega
    · intro h_fuel
      left
      omega
  | succ fuel ih =>
    unfold reap_slab_journal_head
    by_cases h_step : journal.slab_journal_reap_head < journal.last_write_acknowledged
        ∧ (!is_lock_locked journal journal.slab_journal_head_block_number
            VDO_ZONE_TYPE_PHYSICAL) = true
    · rw [if_pos h_step]
      have h_unlocked : is_lock_locked journal (journal.slab_journal_reap_head % journal.size)
          VDO_ZONE_TYPE_PHYSICAL = false := by
        rw [← h_number]
        simpa using h_step.2
      obtain ⟨head, e, h_le, h_gate, h_stop⟩ := ih
        { journal with
          slab_journal_reap_head := journal.slab_journal_reap_head + 1
          slab_journal_head_block_number :=
            if journal.slab_journal_head_block_number + 1 = journal.size then 0
            else journal.slab_journal_head_block_number + 1 }
        (next_block_number _ _ _ h_number)
      refine ⟨head, ?_, ?_, ?_, ?_⟩
      · rw [e]
      · exact Nat.le_of_succ_le h_le
      · intro k h1 h2
        by_cases h_first : k = journal.slab_journal_reap_head
        · rw [h_first]
          exact ⟨h_step.1, h_unlocked⟩
        · exact h_gate k (by
            show journal.slab_journal_reap_head + 1 ≤ k
            omega) h2
      · intro h_fuel
        exact h_stop (by
          show journal.last_write_acknowledged - (journal.slab_journal_reap_head + 1) ≤ fuel
          omega)
    · rw [if_neg h_step]
      refine ⟨journal.slab_journal_reap_head, ?_, le_refl _, ?_, ?_⟩
      · rw [← h_number]
      · intro k h1 h2
        omega
      · intro _
        by_cases h_below : journal.slab_journal_reap_head < journal.last_write_acknowledged
        · right
          rw [← h_number]
          cases h_locked : is_lock_locked journal journal.slab_journal_head_block_number
              VDO_ZONE_TYPE_PHYSICAL
          · exact absurd ⟨h_below, by rw [h_locked]; rfl⟩ h_step
          · rfl
        · left
          omega

/-- C11: with each ring index standing at the block number of its reap head,
`reap_recovery_journal` moves `block_map_reap_head` past a block only from below
`last_write_acknowledged` and only when the journal-zone counter of the block equals its
decrement count and its logical aggregate is zero, and `slab_journal_reap_head` likewise with
the physical aggregate; when a scan is made, it leaves each reap head at or beyond
`last_write_acknowledged` or at a block that is locked for its zone type. -/
theorem reap_recovery_journal_spec (journal : recovery_journal)
    (h_block_map : journal.block_map_head_block_number
      = vdo_get_recovery_journal_block_number journal journal.block_map_reap_head)
    (h_slab : journal.slab_journal_head_block_number
      = vdo_get_recovery_journal_block_number journal journal.slab_journal_reap_head) :
    (∀ k, journal.block_map_reap_head ≤ k →
        k < (reap_recovery_journal journal).block_map_reap_head →
        k < journal.last_write_acknowledged
        ∧ get_counter journal (vdo_get_recovery_journal_block_number journal k)
            VDO_ZONE_TYPE_JOURNAL 0
          = to_u32 (get_decrement_counter journal
              (vdo_get_recovery_journal_block_number journal k))
        ∧ get_zone_count journal (vdo_get_recovery_journal_block_number journal k)
            VDO_ZONE_TYPE_LOGICAL = 0)
    ∧ (∀ k, journal.slab_journal_reap_head ≤ k →
        k < (reap_recovery_journal journal).slab_journal_reap_head →
        k < journal.last_write_acknowledged
        ∧ get_counter journal (vdo_get_recovery_journal_block_number journal k)
            VDO_ZONE_TYPE_JOURNAL 0
          = to_u32 (get_decrement_counter journal
              (vdo_get_recovery_journal_block_number journal k))
        ∧ get_zone_count journal (vdo_get_recovery_journal_block_number journal k)
            VDO_ZONE_TYPE_PHYSICAL = 0)
    ∧ (journal.reaping = false → vdo_is_state_quiescent journal.state = false →
        ((reap_recovery_journal journal).last_write_acknowledged
            ≤ (reap_recovery_journal journal).block_map_reap_head
          ∨ is_lock_locked (reap_recovery_journal journal)
              (reap_recovery_journal journal).block_map_head_block_number
              VDO_ZONE_TYPE_LOGICAL = true)
        ∧ ((reap_recovery_journal journal).last_write_acknowledged
            ≤ (reap_recovery_journal journal).slab_journal_reap_head
          ∨ is_lock_locked (reap_recovery_journal journal)
              (reap_recovery_journal journal).slab_journal_head_block_number
              VDO_ZONE_TYPE_PHYSICAL = true))
    ∧ journal.block_map_reap_head ≤ (reap_recovery_journal journal).block_map_reap_head
    ∧ journal.slab_journal_reap_head ≤ (reap_recovery_journal journal).slab_journal_reap_head
    ∧ (reap_recovery_journal journal).block_map_head_block_number
        = vdo_get_recovery_journal_block_number journal
            (reap_recovery_journal journal).block_map_reap_head
    ∧ (reap_recovery_journal journal).slab_journal_head_block_number
        = vdo_get_recovery_journal_block_number journal
            (reap_recovery_journal journal).slab_journal_reap_head := by
  unfold vdo_get_recovery_journal_block_number at h_block_map h_slab ⊢
  have h_idle : ∀ r : recovery_journal, r = journal →
      (∀ k, journal.block_map_reap_head ≤ k → k < r.block_map_reap_head →
        k < journal.last_write_acknowledged
        ∧ get_counter journal (k % journal.size) VDO_ZONE_TYPE_JOURNAL 0
          = to_u32 (get_decrement_counter journal (k % journal.size))
        ∧ get_zone_count journal (k % journal.size) VDO_ZONE_TYPE_LOGICAL = 0)
      ∧ (∀ k, journal.slab_journal_reap_head ≤ k → k < r.slab_journal_reap_head →
        k < journal.last_write_acknowledged
        ∧ get_counter journal (k % journal.size) VDO_ZONE_TYPE_JOURNAL 0
          = to_u32 (get_decrement_counter journal (k % journal.size))
        ∧ get_zone_count journal (k % journal.size) VDO_ZONE_TYPE_PHYSICAL = 0)
      ∧ journal.block_map_reap_head ≤ r.block_map_reap_head
      ∧ journal.slab_journal_reap_head ≤ r.slab_journal_reap_head
      ∧ r.block_map_head_block_number = r.block_map_reap_head % journal.size
      ∧ r.slab_journal_head_block_number = r.slab_journal_reap_head % journal.size := by
    intro r h_r
    subst h_r
    exact ⟨fun k h1 h2 => absurd h2 (by omega), fun k h1 h2 => absurd h2 (by omega),
      le_refl _, le_refl _, h_block_map, h_slab⟩
  by_cases h_reaping : journal.reaping = true
  · have h_same : reap_recovery_journal journal = journal := by
      unfold reap_recovery_journal
      rw [if_pos (by exact h_reaping)]
    obtain ⟨a1, a2, a3, a4, a5, a6⟩ := h_idle _ h_same
    refine ⟨a1, a2, ?_, a3, a4, a5, a6⟩
    intro h_false
    rw [h_reaping] at h_false
    cases h_false
  · by_cases h_quiescent : vdo_is_state_quiescent journal.state = true
    · have h_same : reap_recovery_journal journal = journal := by
        unfold reap_recovery_journal
        rw [if_neg (by exact h_reaping), if_pos h_quiescent]
      obtain ⟨a1, a2, a3, a4, a5, a6⟩ := h_idle _ h_same
      refine ⟨a1, a2, ?_, a3, a4, a5, a6⟩
      intro _ h_false
      rw [h_quiescent] at h_false
      cases h_false
    · obtain ⟨head1, e1, le1, gate1, stop1⟩ := reap_block_map_head_spec
        (journal.last_write_acknowledged - journal.block_map_reap_head) journal h_block_map
      obtain ⟨head2, e2, le2, gate2, stop2⟩ := reap_slab_journal_head_spec
        (journal.last_write_acknowledged - journal.slab_journal_reap_head)
        { journal with
          block_map_reap_head := head1
          block_map_head_block_number := head1 % journal.size } h_slab
      have h_scan : ∃ reaping events, reap_recovery_journal journal
          = { journal with
              block_map_reap_head := head1
              block_map_head_block_number := head1 % journal.size
              slab_journal_reap_head := head2
              slab_journal_head_block_number := head2 % journal.size
              reaping := reaping
              trace := events } := by
        unfold reap_recovery_journal
        rw [if_neg (by exact h_reaping), if_neg h_quiescent]
        simp only
        rw [e1]
        simp only
        rw [e2]
        split
        · exact ⟨journal.reaping, journal.trace, rfl⟩
        · exact ⟨true, journal.trace ++ [Event.submit_flush], rfl⟩
      obtain ⟨reaping, events, e⟩ := h_scan
      rw [e]
      refine ⟨?_, ?_, ?_, le1, le2, rfl, rfl⟩
      · intro k h1 h2
        obtain ⟨g1, g2⟩ := gate1 k h1 h2
        exact ⟨g1, (is_lock_locked_false_iff journal _ _).mp g2⟩
      · intro k h1 h2
        obtain ⟨g1, g2⟩ := gate2 k h1 h2
        exact ⟨g1, (is_lock_locked_false_iff journal _ _).mp g2⟩
      · intro _ _
        exact ⟨stop1 (le_refl _), stop2 (le_refl _)⟩

/-! ### What the writer and the assigner leave of the heads -/

theorem heads_kept_refl (journal : recovery_journal) : heads_kept journal journal :=
  ⟨rfl, rfl, rfl, rfl, rfl, rfl⟩

theorem heads_kept_trans (journal journal1 journal2 : recovery_journal)
    (h1 : heads_kept journal journal1) (h2 : heads_kept journal1 journal2) :
    heads_kept journal journal2 :=
  ⟨h2.1.trans h1.1, h2.2.1.trans h1.2.1, h2.2.2.1.trans h1.2.2.1,
    h2.2.2.2.1.trans h1.2.2.2.1, h2.2.2.2.2.1.trans h1.2.2.2.2.1,
    h2.2.2.2.2.2.trans h1.2.2.2.2.2⟩

theorem space_kept_refl (journal : recovery_journal) : space_kept journal journal :=
  ⟨heads_kept_refl journal, rfl, rfl⟩

theorem space_kept_trans (journal journal1 journal2 : recovery_journal)
    (h1 : space_kept journal journal1) (h2 : space_kept journal1 journal2) :
    space_kept journal journal2 :=
  ⟨heads_kept_trans _ _ _ h1.1 h2.1, h2.2.1.trans h1.2.1, h2.2.2.trans h1.2.2⟩

theorem notify_commit_waiters_space_kept (journal : recovery_journal) :
    space_kept journal (notify_commit_waiters journal) := by
  unfold notify_commit_waiters
  obtain ⟨commit_point, suffix, e, _⟩ :=
    notify_commit_waiters_from_frame journal.active_tail_blocks journal
  simp only
  rw [e]
  exact ⟨⟨rfl, rfl, rfl, rfl, rfl, rfl⟩, rfl, rfl⟩

theorem recycle_journal_blocks_space_kept (journal : recovery_journal) :
    space_kept journal (recycle_journal_blocks journal) := by
  unfold recycle_journal_blocks
  obtain ⟨active, free, active_block, counter, suffix, e, _, _⟩ :=
    recycle_journal_blocks_from_frame journal.active_tail_blocks journal
  rw [e]
  exact ⟨⟨rfl, rfl, rfl, rfl, rfl, rfl⟩, rfl, rfl⟩

theorem check_for_drain_complete_space_kept (journal : recovery_journal) :
    space_kept journal (check_for_drain_complete journal) := by
  obtain ⟨active, free, active_block, counter, commit_point, increments, decrements, state,
    suffix, e⟩ := check_for_drain_complete_frame journal
  rw [e]
  exact ⟨⟨rfl, rfl, rfl, rfl, rfl, rfl⟩, rfl, rfl⟩

theorem enter_journal_read_only_mode_space_kept (journal : recovery_journal)
    (error_code : vdo_status) :
    space_kept journal (enter_journal_read_only_mode journal error_code) := by
  unfold enter_journal_read_only_mode
  exact space_kept_trans journal (vdo_enter_read_only_mode journal error_code) _
    ⟨⟨rfl, rfl, rfl, rfl, rfl, rfl⟩, rfl, rfl⟩ (check_for_drain_complete_space_kept _)

theorem update_block_frame (journal : recovery_journal) (id : Nat)
    (f : recovery_journal_block → recovery_journal_block) :
    ∃ active free,
      update_block journal id f
        = { journal with active_tail_blocks := active, free_tail_blocks := free } := by
  unfold update_block
  split
  · exact ⟨_, journal.free_tail_blocks, rfl⟩
  · exact ⟨journal.active_tail_blocks, _, rfl⟩

theorem vdo_commit_recovery_block_space_kept (journal : recovery_journal)
    (block : recovery_journal_block) :
    space_kept journal (vdo_commit_recovery_block journal block).2 := by
  unfold vdo_commit_recovery_block
  split
  · exact space_kept_refl journal
  · obtain ⟨active, free, e⟩ := update_block_frame journal block.id
      (fun b =>
        { b with
          entries_in_commit := b.entry_waiters.length
          committing := true
          commit_waiters := b.commit_waiters ++ b.entry_waiters
          entry_waiters := [] })
    simp only
    rw [e]
    exact ⟨⟨rfl, rfl, rfl, rfl, rfl, rfl⟩, rfl, rfl⟩

theorem write_block_space_kept (journal : recovery_journal) (id : Nat) :
    space_kept journal (write_block journal id) := by
  unfold write_block
  split
  · exact space_kept_refl journal
  · split
    · exact space_kept_refl journal
    · simp only
      split
      · exact space_kept_trans _ _ _ (vdo_commit_recovery_block_space_kept _ _)
          (enter_journal_read_only_mode_space_kept _ _)
      · exact vdo_commit_recovery_block_space_kept _ _

theorem write_block_foldl_space_kept (ids : List Nat) (journal : recovery_journal) :
    space_kept journal (ids.foldl write_block journal) := by
  induction ids generalizing journal with
  | nil => exact space_kept_refl journal
  | cons id rest ih =>
    exact space_kept_trans _ _ _ (write_block_space_kept journal id) (ih _)

theorem write_blocks_space_kept (journal : recovery_journal) :
    space_kept journal (write_blocks journal) := by
  unfold write_blocks
  split
  · exact space_kept_refl journal
  · have h_written : space_kept journal
        (journal.pending_writes.foldl write_block { journal with pending_writes := [] }) :=
      space_kept_trans journal { journal with pending_writes := [] } _
        ⟨⟨rfl, rfl, rfl, rfl, rfl, rfl⟩, rfl, rfl⟩ (write_block_foldl_space_kept _ _)
    simp only
    split
    · split
      · exact space_kept_trans _ _ _ h_written (write_block_space_kept _ _)
      · exact h_written
    · exact h_written

theorem schedule_block_write_space_kept (journal : recovery_journal)
    (block : recovery_journal_block) :
    space_kept journal (schedule_block_write journal block) := by
  unfold schedule_block_write
  split
  · exact ⟨⟨rfl, rfl, rfl, rfl, rfl, rfl⟩, rfl, rfl⟩
  · exact space_kept_refl journal

theorem check_slab_journal_commit_threshold_space_kept (journal : recovery_journal) :
    space_kept journal (check_slab_journal_commit_threshold journal) := by
  unfold check_slab_journal_commit_threshold
  simp only
  split
  · exact ⟨⟨rfl, rfl, rfl, rfl, rfl, rfl⟩, rfl, rfl⟩
  · exact space_kept_refl journal

theorem heads_tail_trans (journal journal1 journal2 : recovery_journal)
    (h1 : heads_kept journal journal1 ∧ journal1.tail = journal.tail)
    (h2 : heads_kept journal1 journal2 ∧ journal2.tail = journal1.tail) :
    heads_kept journal journal2 ∧ journal2.tail = journal.tail :=
  ⟨heads_kept_trans _ _ _ h1.1 h2.1, h2.2.trans h1.2⟩

theorem heads_tail_of_space (journal journal1 : recovery_journal)
    (h : space_kept journal journal1) :
    heads_kept journal journal1 ∧ journal1.tail = journal.tail :=
  ⟨h.1, h.2.1⟩

theorem set_journal_tail_heads_kept (journal : recovery_journal) (tail : Nat) :
    heads_kept journal (set_journal_tail journal tail)
    ∧ (set_journal_tail journal tail).tail = tail
    ∧ (set_journal_tail journal tail).available_space = journal.available_space := by
  obtain ⟨active, free, active_block, counter, commit_point, increments, decrements, state,
    read_only, suffix, e⟩ := set_journal_tail_frame journal tail
  rw [e]
  exact ⟨⟨rfl, rfl, rfl, rfl, rfl, rfl⟩, rfl, rfl⟩

theorem advance_tail_heads_kept (journal : recovery_journal) :
    heads_kept journal (advance_tail journal).2
    ∧ (advance_tail journal).2.available_space = journal.available_space
    ∧ ((advance_tail journal).2.tail = journal.tail
        ∨ (advance_tail journal).2.tail = add_u64 journal.tail 1) := by
  obtain ⟨free, e⟩ := pop_free_list_frame journal
  unfold advance_tail
  cases h_pop : pop_free_list journal with
  | mk popped journal1 =>
    rw [h_pop] at e
    simp only at e
    subst e
    cases popped with
    | none => exact ⟨⟨rfl, rfl, rfl, rfl, rfl, rfl⟩, rfl, Or.inl rfl⟩
    | some block =>
      simp only
      obtain ⟨s1, s2, s3⟩ := set_journal_tail_heads_kept
        { journal with
          free_tail_blocks := free
          active_block := some block.id
          active_tail_blocks := journal.active_tail_blocks
            ++ [vdo_initialize_recovery_block { journal with free_tail_blocks := free }
                  block] }
        (add_u64 journal.tail 1)
      exact ⟨s1, s3, Or.inr s2⟩

theorem prepare_to_assign_entry_heads_kept (journal journal1 : recovery_journal)
    (increment flag : Bool)
    (h_eq : prepare_to_assign_entry journal increment = some (flag, journal1)) :
    heads_kept journal journal1
    ∧ journal1.available_space = journal.available_space
    ∧ (journal1.tail = journal.tail ∨ journal1.tail = add_u64 journal.tail 1) := by
  unfold prepare_to_assign_entry at h_eq
  by_cases h_space : (!check_for_entry_space journal increment) = true
  · rw [if_pos h_space] at h_eq
    by_cases h_inc : (!increment) = true
    · rw [if_pos h_inc] at h_eq
      simp only [Option.some.injEq, Prod.mk.injEq] at h_eq
      rw [← h_eq.2]
      have h_kept := enter_journal_read_only_mode_space_kept journal VDO_RECOVERY_JOURNAL_FULL
      exact ⟨h_kept.1, h_kept.2.2, Or.inl h_kept.2.1⟩
    · rw [if_neg h_inc] at h_eq
      simp only [Option.some.injEq, Prod.mk.injEq] at h_eq
      rw [← h_eq.2]
      exact ⟨heads_kept_refl _, rfl, Or.inl rfl⟩
  · rw [if_neg h_space] at h_eq
    simp only at h_eq
    have h_advanced : heads_kept journal
        (if is_block_full journal (active_block_of journal) then advance_tail journal
          else (true, journal)).2
        ∧ (if is_block_full journal (active_block_of journal) then advance_tail journal
          else (true, journal)).2.available_space = journal.available_space
        ∧ ((if is_block_full journal (active_block_of journal) then advance_tail journal
            else (true, journal)).2.tail = journal.tail
          ∨ (if is_block_full journal (active_block_of journal) then advance_tail journal
            else (true, journal)).2.tail = add_u64 journal.tail 1) := by
      split
      · exact advance_tail_heads_kept journal
      · exact ⟨heads_kept_refl _, rfl, Or.inl rfl⟩
    generalize (if is_block_full journal (active_block_of journal) then advance_tail journal
          else (true, journal)) = advanced at h_eq h_advanced
    by_cases h_flag : (!advanced.1) = true
    · rw [if_pos h_flag] at h_eq
      simp only [Option.some.injEq, Prod.mk.injEq] at h_eq
      rw [← h_eq.2]
      exact h_advanced
    · rw [if_neg h_flag] at h_eq
      cases h_active : active_block_of advanced.2 with
      | none =>
        rw [h_active] at h_eq
        cases h_eq
      | some block =>
        rw [h_active] at h_eq
        simp only at h_eq
        split at h_eq
        · simp only [Option.some.injEq, Prod.mk.injEq] at h_eq
          rw [← h_eq.2]
          exact h_advanced
        · split at h_eq
          · simp only [Option.some.injEq, Prod.mk.injEq] at h_eq
            rw [← h_eq.2]
            exact h_advanced
          · unfold initialize_lock_count at h_eq
            rw [h_active] at h_eq
            simp only [Option.some.injEq, Prod.mk.injEq] at h_eq
            rw [← h_eq.2]
            exact h_advanced

theorem continue_waiter_space_kept (result : vdo_status) (journal : recovery_journal)
    (waiter : data_vio) : space_kept journal (continue_waiter result journal waiter) :=
  ⟨⟨rfl, rfl, rfl, rfl, rfl, rfl⟩, rfl, rfl⟩

theorem release_journal_block_reference_space_kept (journal : recovery_journal)
    (block : recovery_journal_block) :
    space_kept journal (release_journal_block_reference journal block) := by
  unfold release_journal_block_reference
  obtain ⟨counter, suffix, e, _⟩ :=
    release_reference_quiet journal block.sequence_number 0 VDO_ZONE_TYPE_JOURNAL
  rw [e]
  exact ⟨⟨rfl, rfl, rfl, rfl, rfl, rfl⟩, rfl, rfl⟩

theorem assign_entry_enqueue_heads_kept (journal : recovery_journal) (stamped : data_vio)
    (block : recovery_journal_block) :
    heads_kept journal
      (if (vdo_enqueue_recovery_block_entry journal block stamped).1 ≠ VDO_SUCCESS then
        continue_waiter (vdo_enqueue_recovery_block_entry journal block stamped).1
          (enter_journal_read_only_mode (vdo_enqueue_recovery_block_entry journal block stamped).2
            (vdo_enqueue_recovery_block_entry journal block stamped).1) stamped
      else
        check_slab_journal_commit_threshold
          (match block_at (vdo_enqueue_recovery_block_entry journal block stamped).2 block.id with
          | some current =>
            if is_block_full (vdo_enqueue_recovery_block_entry journal block stamped).2
                (some current) then
              schedule_block_write (vdo_enqueue_recovery_block_entry journal block stamped).2
                current
            else (vdo_enqueue_recovery_block_entry journal block stamped).2
          | none => (vdo_enqueue_recovery_block_entry journal block stamped).2))
    ∧ (if (vdo_enqueue_recovery_block_entry journal block stamped).1 ≠ VDO_SUCCESS then
        continue_waiter (vdo_enqueue_recovery_block_entry journal block stamped).1
          (enter_journal_read_only_mode (vdo_enqueue_recovery_block_entry journal block stamped).2
            (vdo_enqueue_recovery_block_entry journal block stamped).1) stamped
      else
        check_slab_journal_commit_threshold
          (match block_at (vdo_enqueue_recovery_block_entry journal block stamped).2 block.id with
          | some current =>
            if is_block_full (vdo_enqueue_recovery_block_entry journal block stamped).2
                (some current) then
              schedule_block_write (vdo_enqueue_recovery_block_entry journal block stamped).2
                current
            else (vdo_enqueue_recovery_block_entry journal block stamped).2
          | none => (vdo_enqueue_recovery_block_entry journal block stamped).2)).tail
      = journal.tail := by
  have h_enqueued : space_kept journal
      (vdo_enqueue_recovery_block_entry journal block stamped).2 := by
    unfold vdo_enqueue_recovery_block_entry
    split
    · exact space_kept_refl journal
    · obtain ⟨active, free, e⟩ := update_block_frame journal block.id
        (fun b =>
          { b with
            entry_waiters := b.entry_waiters ++ [stamped]
            entry_count := b.entry_count + 1
            uncommitted_entry_count := b.uncommitted_entry_count + 1 })
      simp only
      rw [e]
      exact ⟨⟨rfl, rfl, rfl, rfl, rfl, rfl⟩, rfl, rfl⟩
  apply heads_tail_of_space
  split
  · exact space_kept_trans _ _ _ h_enqueued
      (space_kept_trans _ _ _ (enter_journal_read_only_mode_space_kept _ _)
        (continue_waiter_space_kept _ _ _))
  · refine space_kept_trans _ _ _ ?_ (check_slab_journal_commit_threshold_space_kept _)
    split
    · split
      · exact space_kept_trans _ _ _ h_enqueued (schedule_block_write_space_kept _ _)
      · exact h_enqueued
    · exact h_enqueued

theorem assign_entry_heads_kept (journal : recovery_journal) (waiter : data_vio)
    (block : recovery_journal_block) :
    heads_kept journal (assign_entry journal waiter block)
    ∧ (assign_entry journal waiter block).tail = journal.tail := by
  unfold assign_entry
  cases h_op : waiter.operation_type with
  | VDO_JOURNAL_DATA_INCREMENT =>
    simp only [h_op]
    refine heads_tail_trans journal _ _ ?_ (assign_entry_enqueue_heads_kept _ _ block)
    split
    · exact ⟨⟨rfl, rfl, rfl, rfl, rfl, rfl⟩, rfl⟩
    · exact ⟨⟨rfl, rfl, rfl, rfl, rfl, rfl⟩, rfl⟩
  | VDO_JOURNAL_DATA_DECREMENT =>
    simp only [h_op]
    refine heads_tail_trans journal _ _ ?_ (assign_entry_enqueue_heads_kept _ _ block)
    split
    · have h_released := release_journal_block_reference_space_kept
        { journal with logical_blocks_used := sub_u64 journal.logical_blocks_used 1 } block
      exact heads_tail_trans journal
        { journal with logical_blocks_used := sub_u64 journal.logical_blocks_used 1 } _
        ⟨⟨rfl, rfl, rfl, rfl, rfl, rfl⟩, rfl⟩
        (heads_tail_trans _
          (release_journal_block_reference
            { journal with logical_blocks_used := sub_u64 journal.logical_blocks_used 1 }
            block) _
          ⟨h_released.1, h_released.2.1⟩ ⟨⟨rfl, rfl, rfl, rfl, rfl, rfl⟩, rfl⟩)
    · have h_released := release_journal_block_reference_space_kept journal block
      exact heads_tail_trans journal (release_journal_block_reference journal block) _
        ⟨h_released.1, h_released.2.1⟩ ⟨⟨rfl, rfl, rfl, rfl, rfl, rfl⟩, rfl⟩
  | VDO_JOURNAL_BLOCK_MAP_INCREMENT =>
    simp only [h_op]
    exact heads_tail_trans journal
      { journal with
        block_map_data_blocks := add_u64 journal.block_map_data_blocks 1
        available_space := sub_u64 journal.available_space 1 } _
      ⟨⟨rfl, rfl, rfl, rfl, rfl, rfl⟩, rfl⟩ (assign_entry_enqueue_heads_kept _ _ block)
  | VDO_JOURNAL_BLOCK_MAP_DECREMENT =>
    simp only [h_op]
    exact heads_tail_of_space _ _
      (space_kept_trans _ _ _ (enter_journal_read_only_mode_space_kept _ _)
        (continue_waiter_space_kept _ _ _))

theorem add_u64_one_of_valid (tail : Nat) (h : tail < 2 ^ 48) : add_u64 tail 1 = tail + 1 := by
  have h_pow : (2 : Nat) ^ 48 = 281474976710656 := by norm_num
  unfold add_u64
  exact Nat.mod_eq_of_lt (by omega)

theorem assign_entries_from_queue_heads_kept (increment : Bool) (fuel : Nat)
    (journal journal1 : recovery_journal) (flag : Bool)
    (h_eq : assign_entries_from_queue increment fuel journal = some (flag, journal1)) :
    heads_kept journal journal1
    ∧ (commit_order_invariant journal → journal.tail ≤ journal1.tail) := by
  induction fuel generalizing journal with
  | zero =>
    unfold assign_entries_from_queue at h_eq
    split at h_eq
    · simp only [Option.some.injEq, Prod.mk.injEq] at h_eq
      rw [← h_eq.2]
      exact ⟨heads_kept_refl _, fun _ => le_refl _⟩
    · cases h_eq
  | succ fuel ih =>
    unfold assign_entries_from_queue at h_eq
    by_cases h_empty : (entry_waiters_of journal increment).isEmpty = true
    · rw [if_pos h_empty] at h_eq
      simp only [Option.some.injEq, Prod.mk.injEq] at h_eq
      rw [← h_eq.2]
      exact ⟨heads_kept_refl _, fun _ => le_refl _⟩
    · rw [if_neg h_empty] at h_eq
      cases h_prepared : prepare_to_assign_entry journal increment with
      | none =>
        rw [h_prepared] at h_eq
        cases h_eq
      | some prepared =>
        obtain ⟨ready, journal2⟩ := prepared
        obtain ⟨p1, _, p3⟩ := prepare_to_assign_entry_heads_kept journal journal2 increment
          ready h_prepared
        have h_tail : commit_order_invariant journal → journal.tail ≤ journal2.tail := by
          intro h_inv
          have h_ro := not_read_only_of_waiters journal increment h_inv
            (by simpa using h_empty)
          rcases p3 with h_same | h_next
          · rw [h_same]
          · rw [h_next, add_u64_one_of_valid _ (h_inv.1.2.2.2.2.1 h_ro)]
            exact Nat.le_succ _
        have h_inv2 : commit_order_invariant journal → commit_order_invariant journal2 :=
          fun h_inv => prepare_to_assign_entry_invariant journal journal2 increment ready
            h_inv (not_read_only_of_waiters journal increment h_inv (by simpa using h_empty))
            h_prepared
        rw [h_prepared] at h_eq
        cases ready with
        | false =>
          simp only [Option.some.injEq, Prod.mk.injEq] at h_eq
          rw [← h_eq.2]
          exact ⟨p1, h_tail⟩
        | true =>
          simp only at h_eq
          cases h_queue : entry_waiters_of journal2 increment with
          | nil =>
            rw [h_queue] at h_eq
            obtain ⟨i1, i2⟩ := ih journal2 h_eq
            exact ⟨heads_kept_trans _ _ _ p1 i1,
              fun h_inv => le_trans (h_tail h_inv) (i2 (h_inv2 h_inv))⟩
          | cons waiter rest =>
            rw [h_queue] at h_eq
            simp only at h_eq
            cases h_active : active_block_of journal2 with
            | none =>
              rw [h_active] at h_eq
              cases h_eq
            | some block =>
              rw [h_active] at h_eq
              simp only at h_eq
              obtain ⟨i1, i2⟩ := ih _ h_eq
              have h_set : heads_kept journal2 (set_entry_waiters journal2 increment rest)
                  ∧ (set_entry_waiters journal2 increment rest).tail = journal2.tail := by
                unfold set_entry_waiters
                split
                · exact ⟨⟨rfl, rfl, rfl, rfl, rfl, rfl⟩, rfl⟩
                · exact ⟨⟨rfl, rfl, rfl, rfl, rfl, rfl⟩, rfl⟩
              have h_assigned := heads_tail_trans _ _ _ h_set
                (assign_entry_heads_kept (set_entry_waiters journal2 increment rest) waiter
                  block)
              refine ⟨heads_kept_trans _ _ _ p1 (heads_kept_trans _ _ _ h_assigned.1 i1), ?_⟩
              intro h_inv
              have h_ro2 := not_read_only_of_waiters journal2 increment (h_inv2 h_inv) (by
                rw [h_queue]
                rfl)
              obtain ⟨s1, s2, s3, s4, _⟩ :=
                set_entry_waiters_invariant journal2 increment rest (h_inv2 h_inv) h_ro2
              have h_inv3 := assign_entry_invariant _ waiter block s1 s2
                ((block_at_congr _ _ _ s3 s4).trans (active_block_of_at _ _ h_active))
              have h_le := i2 h_inv3
              rw [h_assigned.2] at h_le
              exact le_trans (h_tail h_inv) h_le

theorem assign_entries_heads_kept (journal journal1 : recovery_journal)
    (h_eq : assign_entries journal = some journal1) :
    heads_kept journal journal1
    ∧ (commit_order_invariant journal → journal.tail ≤ journal1.tail) := by
  have h_flag : ∀ (j : recovery_journal) (flag : Bool),
      space_kept j { j with adding_entries := flag } :=
    fun j flag => ⟨⟨rfl, rfl, rfl, rfl, rfl, rfl⟩, rfl, rfl⟩
  have h_written : ∀ j : recovery_journal,
      space_kept j { write_blocks j with adding_entries := false } :=
    fun j => space_kept_trans _ _ _ (write_blocks_space_kept j) (h_flag _ false)
  unfold assign_entries at h_eq
  split at h_eq
  · rw [← Option.some.inj h_eq]
    exact ⟨heads_kept_refl _, fun _ => le_refl _⟩
  · simp only at h_eq
    split at h_eq
    · cases h_eq
    · rename_i journal2 h_first
      rw [← Option.some.inj h_eq]
      obtain ⟨f1, f2⟩ := assign_entries_from_queue_heads_kept _ _ _ _ _ h_first
      refine ⟨heads_kept_trans _ _ _ (h_flag journal true).1
        (heads_kept_trans _ _ _ f1 (h_written journal2).1), ?_⟩
      intro h_inv
      have h_le := f2 (adding_entries_invariant journal true h_inv)
      have h_same := (h_written journal2).2.1
      rw [h_same]
      exact h_le
    · rename_i journal2 h_first
      obtain ⟨f1, f2⟩ := assign_entries_from_queue_heads_kept _ _ _ _ _ h_first
      split at h_eq
      · cases h_eq
      · rename_i flag journal3 h_second
        rw [← Option.some.inj h_eq]
        obtain ⟨g1, g2⟩ := assign_entries_from_queue_heads_kept _ _ _ _ _ h_second
        refine ⟨heads_kept_trans _ _ _ (h_flag journal true).1
          (heads_kept_trans _ _ _ f1 (heads_kept_trans _ _ _ g1 (h_written journal3).1)), ?_⟩
        intro h_inv
        have h_inv1 := adding_entries_invariant journal true h_inv
        have h_inv2 := assign_entries_from_queue_invariant _ _ _ _ _ h_inv1 h_first
        have h_same := (h_written journal3).2.1
        rw [h_same]
        exact le_trans (f2 h_inv1) (g2 h_inv2)

theorem assign_entries_from_queue_empty (increment : Bool) (fuel : Nat)
    (journal : recovery_journal) (h : entry_waiters_of journal increment = []) :
    assign_entries_from_queue increment fuel journal = some (true, journal) := by
  cases fuel <;>
  · unfold assign_entries_from_queue
    simp [h]

theorem assign_entries_without_waiters (journal : recovery_journal)
    (h_increments : journal.increment_waiters = [])
    (h_decrements : journal.decrement_waiters = []) :
    ∃ journal1, assign_entries journal = some journal1 ∧ space_kept journal journal1 := by
  unfold assign_entries
  by_cases h_adding : journal.adding_entries = true
  · rw [if_pos (by exact h_adding)]
    exact ⟨journal, rfl, space_kept_refl _⟩
  · rw [if_neg (by exact h_adding)]
    simp only
    rw [assign_entries_from_queue_empty false _ _ (by simp [entry_waiters_of, h_decrements])]
    simp only
    rw [assign_entries_from_queue_empty true _ _ (by simp [entry_waiters_of, h_increments])]
    refine ⟨_, rfl, ?_⟩
    exact space_kept_trans journal { journal with adding_entries := true } _
      ⟨⟨rfl, rfl, rfl, rfl, rfl, rfl⟩, rfl, rfl⟩
      (space_kept_trans _ _ _ (write_blocks_space_kept _)
        ⟨⟨rfl, rfl, rfl, rfl, rfl, rfl⟩, rfl, rfl⟩)

/-! ### Finishing a reap and the order of the heads -/

theorem finish_reaping_eq (journal : recovery_journal) :
    finish_reaping journal
      = match assign_entries
          (check_slab_journal_commit_threshold (finish_reaping_heads journal)) with
        | none => none
        | some journal3 => some (check_for_drain_complete journal3) := rfl

theorem finish_reaping_heads_kept (journal journal1 : recovery_journal)
    (h_eq : finish_reaping journal = some journal1) :
    heads_kept (finish_reaping_heads journal) journal1
    ∧ (commit_order_invariant journal →
        (finish_reaping_heads journal).tail ≤ journal1.tail) := by
  rw [finish_reaping_eq] at h_eq
  split at h_eq
  · cases h_eq
  · rename_i journal3 h_assigned
    rw [← Option.some.inj h_eq]
    have h_checked := check_slab_journal_commit_threshold_space_kept
      (finish_reaping_heads journal)
    obtain ⟨a1, a2⟩ := assign_entries_heads_kept _ _ h_assigned
    have h_drained := check_for_drain_complete_space_kept journal3
    refine ⟨heads_kept_trans _ _ _ h_checked.1 (heads_kept_trans _ _ _ a1 h_drained.1), ?_⟩
    intro h_inv
    have h_inv1 : commit_order_invariant (finish_reaping_heads journal) :=
      commit_order_invariant_transfer journal (finish_reaping_heads journal) h_inv rfl rfl rfl
        rfl (List.Sublist.refl _) rfl rfl rfl
    have h_le := a2 (check_slab_journal_commit_threshold_invariant _ h_inv1)
    rw [h_checked.2.1] at h_le
    rw [h_drained.2.1]
    exact h_le

theorem finish_reaping_without_waiters (journal : recovery_journal)
    (h_increments : journal.increment_waiters = [])
    (h_decrements : journal.decrement_waiters = []) :
    ∃ journal1, finish_reaping journal = some journal1
      ∧ space_kept (finish_reaping_heads journal) journal1 := by
  have h_checked := check_slab_journal_commit_threshold_space_kept
    (finish_reaping_heads journal)
  have h_queues : (check_slab_journal_commit_threshold
        (finish_reaping_heads journal)).increment_waiters = []
      ∧ (check_slab_journal_commit_threshold
        (finish_reaping_heads journal)).decrement_waiters = [] := by
    unfold check_slab_journal_commit_threshold
    simp only
    split
    · exact ⟨h_increments, h_decrements⟩
    · exact ⟨h_increments, h_decrements⟩
  obtain ⟨journal3, h_assigned, h_kept⟩ := assign_entries_without_waiters _ h_queues.1
    h_queues.2
  rw [finish_reaping_eq, h_assigned]
  exact ⟨_, rfl, space_kept_trans _ _ _ h_checked
    (space_kept_trans _ _ _ h_kept (check_for_drain_complete_space_kept _))⟩

theorem finish_reaping_heads_space (journal : recovery_journal)
    (h_block_map : journal.block_map_head ≤ journal.block_map_reap_head)
    (h_slab : journal.slab_journal_head ≤ journal.slab_journal_reap_head)
    (h_head : min journal.block_map_reap_head journal.slab_journal_reap_head < 2 ^ 64)
    (h_fits : journal.available_space + journal.entries_per_block
        * (min journal.block_map_reap_head journal.slab_journal_reap_head
          - min journal.block_map_head journal.slab_journal_head) < 2 ^ 64) :
    (finish_reaping_heads journal).available_space
      = journal.available_space + journal.entries_per_block
        * (min journal.block_map_reap_head journal.slab_journal_reap_head
          - min journal.block_map_head journal.slab_journal_head) := by
  have h_pow : (2 : Nat) ^ 64 = 18446744073709551616 := by norm_num
  have h_min : min journal.block_map_head journal.slab_journal_head
      ≤ min journal.block_map_reap_head journal.slab_journal_reap_head := by
    simp only [Nat.min_def]
    split <;> split <;> omega
  show add_u64 journal.available_space
      (mul_u64 (sub_u64 (min journal.block_map_reap_head journal.slab_journal_reap_head)
        (min journal.block_map_head journal.slab_journal_head)) journal.entries_per_block) = _
  rw [sub_u64_exact _ _ h_min h_head]
  generalize min journal.block_map_reap_head journal.slab_journal_reap_head
    - min journal.block_map_head journal.slab_journal_head = reaped at h_fits ⊢
  have h_comm : reaped * journal.entries_per_block = journal.entries_per_block * reaped :=
    Nat.mul_comm _ _
  unfold add_u64 mul_u64
  rw [h_comm, Nat.mod_eq_of_lt (by omega), Nat.mod_eq_of_lt (by omega)]

/-- C13, amended: when a completed reap advances the head of the journal, the smaller of
`block_map_head` and `slab_journal_head`, with at least one entry per block and sums that fit
64 bits, `available_space` is strictly larger when `finish_reaping` hands the journal to
`assign_entries`, and on return when no data_vio was waiting for an entry; when the smaller
of the two heads stays where it was, `available_space` stays as it was, whichever head
advanced. -/
theorem finish_reaping_space_increase (journal : recovery_journal)
    (h_block_map : journal.block_map_head ≤ journal.block_map_reap_head)
    (h_slab : journal.slab_journal_head ≤ journal.slab_journal_reap_head)
    (h_head : min journal.block_map_reap_head journal.slab_journal_reap_head < 2 ^ 64)
    (h_fits : journal.available_space + journal.entries_per_block
        * (min journal.block_map_reap_head journal.slab_journal_reap_head
          - min journal.block_map_head journal.slab_journal_head) < 2 ^ 64) :
    (min journal.block_map_head journal.slab_journal_head
        < min journal.block_map_reap_head journal.slab_journal_reap_head →
      1 ≤ journal.entries_per_block →
      journal.available_space < (finish_reaping_heads journal).available_space
      ∧ (journal.increment_waiters = [] → journal.decrement_waiters = [] →
          ∃ journal1, finish_reaping journal = some journal1
            ∧ journal.available_space < journal1.available_space))
    ∧ (min journal.block_map_reap_head journal.slab_journal_reap_head
        = min journal.block_map_head journal.slab_journal_head →
      (finish_reaping_heads journal).available_space = journal.available_space
      ∧ (journal.increment_waiters = [] → journal.decrement_waiters = [] →
          ∃ journal1, finish_reaping journal = some journal1
            ∧ journal1.available_space = journal.available_space)) := by
  have h_space := finish_reaping_heads_space journal h_block_map h_slab h_head h_fits
  constructor
  · intro h_advance h_entries
    have h_gain : 0 < journal.entries_per_block
        * (min journal.block_map_reap_head journal.slab_journal_reap_head
          - min journal.block_map_head journal.slab_journal_head) :=
      Nat.mul_pos h_entries (Nat.sub_pos_of_lt h_advance)
    have h_more : journal.available_space < (finish_reaping_heads journal).available_space := by
      rw [h_space]
      omega
    refine ⟨h_more, ?_⟩
    intro h_increments h_decrements
    obtain ⟨journal1, h_eq, h_kept⟩ :=
      finish_reaping_without_waiters journal h_increments h_decrements
    exact ⟨journal1, h_eq, by rw [h_kept.2.2]; exact h_more⟩
  · intro h_same
    have h_equal : (finish_reaping_heads journal).available_space = journal.available_space := by
      rw [h_space, h_same, Nat.sub_self, Nat.mul_zero, Nat.add_zero]
    refine ⟨h_equal, ?_⟩
    intro h_increments h_decrements
    obtain ⟨journal1, h_eq, h_kept⟩ :=
      finish_reaping_without_waiters journal h_increments h_decrements
    exact ⟨journal1, h_eq, by rw [h_kept.2.2]; exact h_equal⟩

theorem heads_in_order_of_kept (journal journal1 : recovery_journal)
    (h_kept : heads_kept journal journal1) (h_tail : journal.tail ≤ journal1.tail)
    (h : heads_in_order journal) : heads_in_order journal1 := by
  obtain ⟨k1, k2, k3, k4, k5, _⟩ := h_kept
  obtain ⟨h1, h2, h3, h4, h5⟩ := h
  unfold heads_in_order
  rw [k1, k2, k3, k4, k5]
  exact ⟨h1, h2, h3, h4, le_trans h5 h_tail⟩

theorem reap_block_map_head_bounds (fuel : Nat) (journal : recovery_journal) :
    ∃ head number,
      reap_block_map_head fuel journal
        = { journal with block_map_reap_head := head, block_map_head_block_number := number }
      ∧ journal.block_map_reap_head ≤ head
      ∧ (journal.block_map_reap_head ≤ journal.last_write_acknowledged →
          head ≤ journal.last_write_acknowledged) := by
  induction fuel generalizing journal with
  | zero => exact ⟨_, _, rfl, le_refl _, fun h => h⟩
  | succ fuel ih =>
    unfold reap_block_map_head
    split
    · rename_i h_step
      obtain ⟨head, number, e, h_le, h_bound⟩ := ih
        { journal with
          block_map_reap_head := journal.block_map_reap_head + 1
          block_map_head_block_number :=
            if journal.block_map_head_block_number + 1 = journal.size then 0
            else journal.block_map_head_block_number + 1 }
      refine ⟨head, number, by rw [e], Nat.le_of_succ_le h_le, fun _ => h_bound ?_⟩
      exact h_step.1
    · exact ⟨_, _, rfl, le_refl _, fun h => h⟩

theorem reap_slab_journal_head_bounds (fuel : Nat) (journal : recovery_journal) :
    ∃ head number,
      reap_slab_journal_head fuel journal
        = { journal with
            slab_journal_reap_head := head, slab_journal_head_block_number := number }
      ∧ journal.slab_journal_reap_head ≤ head
      ∧ (journal.slab_journal_reap_head ≤ journal.last_write_acknowledged →
          head ≤ journal.last_write_acknowledged) := by
  induction fuel generalizing journal with
  | zero => exact ⟨_, _, rfl, le_refl _, fun h => h⟩
  | succ fuel ih =>
    unfold reap_slab_journal_head
    split
    · rename_i h_step
      obtain ⟨head, number, e, h_le, h_bound⟩ := ih
        { journal with
          slab_journal_reap_head := journal.slab_journal_reap_head + 1
          slab_journal_head_block_number :=
            if journal.slab_journal_head_block_number + 1 = journal.size then 0
            else journal.slab_journal_head_block_number + 1 }
      refine ⟨head, number, by rw [e], Nat.le_of_succ_le h_le, fun _ => h_bound ?_⟩
      exact h_step.1
    · exact ⟨_, _, rfl, le_refl _, fun h => h⟩

theorem reap_recovery_journal_in_order (journal : recovery_journal)
    (h : heads_in_order journal) : heads_in_order (reap_recovery_journal journal) := by
  unfold reap_recovery_journal
  split
  · exact h
  · split
    · exact h
    · obtain ⟨h1, h2, h3, h4, h5⟩ := h
      obtain ⟨head1, number1, e1, le1, bound1⟩ := reap_block_map_head_bounds
        (journal.last_write_acknowledged - journal.block_map_reap_head) journal
      simp only
      rw [e1]
      obtain ⟨head2, number2, e2, le2, bound2⟩ := reap_slab_journal_head_bounds
        (journal.last_write_acknowledged - journal.slab_journal_reap_head)
        { journal with block_map_reap_head := head1, block_map_head_block_number := number1 }
      simp only
      rw [e2]
      have h_order : heads_in_order
          { journal with
            block_map_reap_head := head1
            block_map_head_block_number := number1
            slab_journal_reap_head := head2
            slab_journal_head_block_number := number2 } :=
        ⟨le_trans h1 le1, bound1 h2, le_trans h3 le2, bound2 h4, h5⟩
      split
      · exact h_order
      · exact h_order

theorem complete_write_finish_space_kept (journal : recovery_journal) (id : Nat) :
    space_kept journal
      (check_for_drain_complete (write_blocks (recycle_journal_blocks
        (match block_at (notify_commit_waiters journal) id with
        | some current =>
          if is_block_dirty current
              && is_block_full (notify_commit_waiters journal) (some current) then
            schedule_block_write (notify_commit_waiters journal) current
          else notify_commit_waiters journal
        | none => notify_commit_waiters journal)))) := by
  have h_notified := notify_commit_waiters_space_kept journal
  refine space_kept_trans _ _ _ ?_ (check_for_drain_complete_space_kept _)
  refine space_kept_trans _ _ _ ?_ (write_blocks_space_kept _)
  refine space_kept_trans _ _ _ ?_ (recycle_journal_blocks_space_kept _)
  split
  · split
    · exact space_kept_trans _ _ _ h_notified (schedule_block_write_space_kept _ _)
    · exact h_notified
  · exact h_notified

theorem complete_write_in_order (journal journal1 : recovery_journal) (id : Nat)
    (block : recovery_journal_block) (h : heads_in_order journal)
    (h_block : block_at journal id = some block)
    (h_sequence : block.sequence_number < journal.tail)
    (h_eq : complete_write journal id = some journal1) : heads_in_order journal1 := by
  unfold complete_write at h_eq
  rw [h_block] at h_eq
  simp only at h_eq
  obtain ⟨active, free, e⟩ := update_block_frame journal id
    (fun b =>
      { b with
        uncommitted_entry_count := sub_u16 b.uncommitted_entry_count b.entries_in_commit
        entries_in_commit := 0
        committing := false })
  rw [e] at h_eq
  simp only at h_eq
  split at h_eq
  · cases h_eq
  · rw [← Option.some.inj h_eq]
    have h_kept := complete_write_finish_space_kept
      (if block.sequence_number > journal.last_write_acknowledged then
        { journal with
          active_tail_blocks := active
          free_tail_blocks := free
          pending_write_count := sub_u64 journal.pending_write_count 1
          events := { journal.events with
            blocks_committed := add_u64 journal.events.blocks_committed 1
            entries_committed :=
              add_u64 journal.events.entries_committed block.entries_in_commit }
          last_write_acknowledged := block.sequence_number }
      else
        { journal with
          active_tail_blocks := active
          free_tail_blocks := free
          pending_write_count := sub_u64 journal.pending_write_count 1
          events := { journal.events with
            blocks_committed := add_u64 journal.events.blocks_committed 1
            entries_committed :=
              add_u64 journal.events.entries_committed block.entries_in_commit } }) id
    refine heads_in_order_of_kept _ _ h_kept.1 (le_of_eq h_kept.2.1.symm) ?_
    obtain ⟨h1, h2, h3, h4, h5⟩ := h
    split
    · rename_i h_later
      exact ⟨h1, le_trans h2 (Nat.le_of_lt h_later), h3, le_trans h4 (Nat.le_of_lt h_later),
        Nat.le_of_lt h_sequence⟩
    · exact ⟨h1, h2, h3, h4, h5⟩

theorem advance_tail_in_order (journal : recovery_journal) (h : heads_in_order journal)
    (h_tail : journal.tail + 1 < 2 ^ 64) : heads_in_order (advance_tail journal).2 := by
  obtain ⟨a1, _, a3⟩ := advance_tail_heads_kept journal
  refine heads_in_order_of_kept _ _ a1 ?_ h
  rcases a3 with h_same | h_next
  · rw [h_same]
  · have h_pow : (2 : Nat) ^ 64 = 18446744073709551616 := by norm_num
    rw [h_next]
    unfold add_u64
    rw [Nat.mod_eq_of_lt (by omega)]
    exact Nat.le_succ _

theorem finish_reaping_in_order (journal journal1 : recovery_journal)
    (h : heads_in_order journal) (h_inv : commit_order_invariant journal)
    (h_eq : finish_reaping journal = some journal1) : heads_in_order journal1 := by
  obtain ⟨k1, k2⟩ := finish_reaping_heads_kept journal journal1 h_eq
  refine heads_in_order_of_kept _ _ k1 (k2 h_inv) ?_
  obtain ⟨h1, h2, h3, h4, h5⟩ := h
  exact ⟨le_refl _, h2, le_refl _, h4, h5⟩

/-- C14: the order of the heads (each head at most its reap head, each reap head at most
`last_write_acknowledged`, and that at most the tail, so that the head of the journal is at
most `last_write_acknowledged`) holds after `initialize_journal_state` and is kept by
`advance_tail` (for a tail whose successor fits 64 bits), by `complete_write` for a block
whose sequence number is below the tail, by `reap_recovery_journal`, and by `finish_reaping`
in a journal that keeps the invariant of its runs. -/
theorem heads_in_order_preserved :
    (∀ journal, heads_in_order journal →
      get_recovery_journal_head journal ≤ journal.last_write_acknowledged
      ∧ journal.last_write_acknowledged ≤ journal.tail)
    ∧ (∀ journal, heads_in_order (initialize_journal_state journal))
    ∧ (∀ journal, heads_in_order journal → journal.tail + 1 < 2 ^ 64 →
        heads_in_order (advance_tail journal).2)
    ∧ (∀ journal journal1 id block, heads_in_order journal →
        block_at journal id = some block → block.sequence_number < journal.tail →
        complete_write journal id = some journal1 → heads_in_order journal1)
    ∧ (∀ journal, heads_in_order journal → heads_in_order (reap_recovery_journal journal))
    ∧ (∀ journal journal1, heads_in_order journal → commit_order_invariant journal →
        finish_reaping journal = some journal1 → heads_in_order journal1) := by
  refine ⟨?_, ?_, advance_tail_in_order, ?_, reap_recovery_journal_in_order,
    finish_reaping_in_order⟩
  · intro journal h
    obtain ⟨h1, h2, h3, h4, h5⟩ := h
    refine ⟨?_, h5⟩
    unfold get_recovery_journal_head
    exact le_trans (Nat.min_le_left _ _) (le_trans h1 h2)
  · intro journal
    exact ⟨le_refl _, le_refl _, le_refl _, le_refl _, le_refl _⟩
  · intro journal journal1 id block h h_block h_sequence h_eq
    exact complete_write_in_order journal journal1 id block h h_block h_sequence h_eq

theorem sample_journal_to_reap_invariant : commit_order_invariant sample_journal_to_reap :=
  commit_order_invariant_start sample_journal_to_reap (by decide) (by decide) (by decide)
    (by decide) (by decide) (by decide) quiet_nil

theorem sample_journal_reaped_invariant : commit_order_invariant sample_journal_reaped :=
  commit_order_invariant_start sample_journal_reaped (by decide) (by decide) (by decide)
    (by decide) (by decide) (by decide) quiet_nil

/-- Witness of `heads_in_order_preserved`: the sample journal with heads 1, last acknowledged
block 3 and tail 4 is scanned (the block map reap head stops at the locked block 2, the slab
journal reap head reaches 3), and the sample journal whose reap has completed is finished. -/
theorem heads_in_order_preserved_witness :
    heads_in_order sample_journal_to_reap
    ∧ heads_in_order (reap_recovery_journal sample_journal_to_reap)
    ∧ (reap_recovery_journal sample_journal_to_reap).block_map_reap_head = 2
    ∧ (reap_recovery_journal sample_journal_to_reap).slab_journal_reap_head = 3
    ∧ heads_in_order (advance_tail sample_journal_to_reap).2
    ∧ ∃ journal1, finish_reaping sample_journal_reaped = some journal1
        ∧ heads_in_order journal1 :=
  ⟨by unfold heads_in_order; decide,
    heads_in_order_preserved.2.2.2.2.1 sample_journal_to_reap
      (by unfold heads_in_order; decide),
    by decide, by decide,
    heads_in_order_preserved.2.2.1 sample_journal_to_reap
      (by unfold heads_in_order; decide) (by decide),
    (finish_reaping sample_journal_reaped).get (by decide),
    (Option.some_get (by decide)).symm,
    heads_in_order_preserved.2.2.2.2.2 sample_journal_reaped _
      (by unfold heads_in_order; decide)
      sample_journal_reaped_invariant (Option.some_get (by decide)).symm⟩

/-- Witness of `reap_recovery_journal_spec`: in the sample journal with last acknowledged
block 3 the block map reap head moves from 1 to the locked block 2 and the slab journal reap
head from 1 to 3. -/
theorem reap_recovery_journal_spec_witness :
    (reap_recovery_journal sample_journal_to_reap).block_map_reap_head = 2
    ∧ (reap_recovery_journal sample_journal_to_reap).slab_journal_reap_head = 3
    ∧ ((reap_recovery_journal sample_journal_to_reap).last_write_acknowledged
          ≤ (reap_recovery_journal sample_journal_to_reap).block_map_reap_head
        ∨ is_lock_locked (reap_recovery_journal sample_journal_to_reap)
            (reap_recovery_journal sample_journal_to_reap).block_map_head_block_number
            VDO_ZONE_TYPE_LOGICAL = true)
    ∧ ((reap_recovery_journal sample_journal_to_reap).last_write_acknowledged
          ≤ (reap_recovery_journal sample_journal_to_reap).slab_journal_reap_head
        ∨ is_lock_locked (reap_recovery_journal sample_journal_to_reap)
            (reap_recovery_journal sample_journal_to_reap).slab_journal_head_block_number
            VDO_ZONE_TYPE_PHYSICAL = true) :=
  ⟨by decide, by decide,
    (reap_recovery_journal_spec sample_journal_to_reap (by decide) (by decide)).2.2.1
      (by decide) (by decide)⟩

/-- C13, as stated, fails: the reap completed in `sample_journal_reaped` advances
`block_map_head` from 1 to 2 while `slab_journal_head` stays at 1, no data_vio is waiting,
and `available_space` is 9 before and after. -/
theorem block_map_head_advance_alone_frees_no_space :
    sample_journal_reaped.block_map_head = 1
    ∧ sample_journal_reaped.available_space = 9
    ∧ (finish_reaping sample_journal_reaped).map
        (fun j => (j.block_map_head, j.slab_journal_head, j.available_space))
      = some (2, 1, 9)
    ∧ (finish_reaping sample_journal_reaped).map
        (fun j => decide (sample_journal_reaped.available_space < j.available_space))
      = some false := by
  decide

/-- Witness of `finish_reaping_space_increase`: the reap that moved both reap heads raises
`available_space`, the reap that moved `block_map_reap_head` alone does not. -/
theorem finish_reaping_space_increase_witness :
    (sample_journal_reaped_both.available_space
        < (finish_reaping_heads sample_journal_reaped_both).available_space
      ∧ (sample_journal_reaped_both.increment_waiters = [] →
          sample_journal_reaped_both.decrement_waiters = [] →
          ∃ journal1, finish_reaping sample_journal_reaped_both = some journal1
            ∧ sample_journal_reaped_both.available_space < journal1.available_space))
    ∧ (finish_reaping_heads sample_journal_reaped).available_space
        = sample_journal_reaped.available_space :=
  ⟨(finish_reaping_space_increase sample_journal_reaped_both (by decide) (by decide)
      (by decide) (by decide)).1 (by decide) (by decide),
    ((finish_reaping_space_increase sample_journal_reaped (by decide) (by decide)
      (by decide) (by decide)).2 (by decide)).1⟩

theorem scan_not_congruent (journal : recovery_journal) (valid : recovery_block_header → Bool)
    (journal_data : Nat → recovery_block_header) (scan : head_and_tail_scan) (i : Nat)
    (h : is_congruent_recovery_journal_block journal valid (journal_data i) i = false) :
    scan_recovery_journal_block journal valid journal_data scan i = scan := by
  unfold scan_recovery_journal_block
  simp only [h, Bool.not_false, if_true]

theorem scan_congruent (journal : recovery_journal) (valid : recovery_block_header → Bool)
    (journal_data : Nat → recovery_block_header) (scan : head_and_tail_scan) (i : Nat)
    (h : is_congruent_recovery_journal_block journal valid (journal_data i) i = true) :
    (scan_recovery_journal_block journal valid journal_data scan i).highest_tail
        = max scan.highest_tail (journal_data i).sequence_number
    ∧ (scan_recovery_journal_block journal valid journal_data scan i).found_entries
        = (scan.found_entries || decide (scan.highest_tail ≤ (journal_data i).sequence_number))
    ∧ (scan_recovery_journal_block journal valid journal_data scan i).block_map_head_max
        = max scan.block_map_head_max (journal_data i).block_map_head
    ∧ (scan_recovery_journal_block journal valid journal_data scan i).slab_journal_head_max
        = max scan.slab_journal_head_max (journal_data i).slab_journal_head := by
  unfold scan_recovery_journal_block
  simp only [h, Bool.not_true, Bool.false_eq_true, if_false]
  refine ⟨?_, ?_, ?_, ?_⟩
  · split <;> split <;> split <;> (try dsimp only at *) <;> omega
  · split <;> split <;> split <;> (try dsimp only at *) <;> simp <;> omega
  · split <;> split <;> split <;> (try dsimp only at *) <;> omega
  · split <;> split <;> split <;> (try dsimp only at *) <;> omega

/-! ### Scanning the journal region after a crash -/

/-- A loop that raises a running maximum at the selected positions ends with the largest of
the starting value and the selected values. -/
theorem fold_running_max {σ : Type} (step : σ → Nat → σ) (proj : σ → Nat) (sel : Nat → Bool)
    (val : Nat → Nat)
    (h_step : ∀ s i, proj (step s i) = if sel i = true then max (proj s) (val i) else proj s)
    (l : List Nat) (s : σ) :
    proj s ≤ proj (l.foldl step s)
    ∧ (∀ i ∈ l, sel i = true → val i ≤ proj (l.foldl step s))
    ∧ (proj (l.foldl step s) = proj s
      ∨ ∃ i ∈ l, sel i = true ∧ val i = proj (l.foldl step s)) := by
  induction l generalizing s with
  | nil => exact ⟨Nat.le_refl _, fun i hi => absurd hi (List.not_mem_nil i), Or.inl rfl⟩
  | cons i l ih =>
    rw [List.foldl_cons]
    obtain ⟨h1, h2, h3⟩ := ih (step s i)
    have e := h_step s i
    by_cases h : sel i = true
    · rw [if_pos h] at e
      refine ⟨by omega, ?_, ?_⟩
      · intro j hj h_sel
        rcases List.mem_cons.mp hj with rfl | hj
        · omega
        · exact h2 j hj h_sel
      · rcases h3 with h3 | ⟨j, hj, h_sel, h_val⟩
        · by_cases h_le : val i ≤ proj s
          · exact Or.inl (by omega)
          · exact Or.inr ⟨i, List.mem_cons_self i l, h, by omega⟩
        · exact Or.inr ⟨j, List.mem_cons_of_mem i hj, h_sel, h_val⟩
    · rw [if_neg h] at e
      refine ⟨by omega, ?_, ?_⟩
      · intro j hj h_sel
        rcases List.mem_cons.mp hj with rfl | hj
        · exact absurd h_sel h
        · exact h2 j hj h_sel
      · rcases h3 with h3 | ⟨j, hj, h_sel, h_val⟩
        · exact Or.inl (by omega)
        · exact Or.inr ⟨j, List.mem_cons_of_mem i hj, h_sel, h_val⟩

theorem scan_step_cases (journal : recovery_journal) (valid : recovery_block_header → Bool)
    (journal_data : Nat → recovery_block_header) (scan : head_and_tail_scan) (i : Nat) :
    (scan_recovery_journal_block journal valid journal_data scan i).highest_tail
        = (if is_congruent_recovery_journal_block journal valid (journal_data i) i = true then
            max scan.highest_tail (journal_data i).sequence_number else scan.highest_tail)
    ∧ (scan_recovery_journal_block journal valid journal_data scan i).block_map_head_max
        = (if is_congruent_recovery_journal_block journal valid (journal_data i) i = true then
            max scan.block_map_head_max (journal_data i).block_map_head
          else scan.block_map_head_max)
    ∧ (scan_recovery_journal_block journal valid journal_data scan i).slab_journal_head_max
        = (if is_congruent_recovery_journal_block journal valid (journal_data i) i = true then
            max scan.slab_journal_head_max (journal_data i).slab_journal_head
          else scan.slab_journal_head_max) := by
  cases h : is_congruent_recovery_journal_block journal valid (journal_data i) i with
  | false =>
    rw [scan_not_congruent journal valid journal_data scan i h]
    exact ⟨(if_neg (by decide)).symm, (if_neg (by decide)).symm, (if_neg (by decide)).symm⟩
  | true =>
    obtain ⟨e1, _, e3, e4⟩ := scan_congruent journal valid journal_data scan i h
    rw [e1, e3, e4]
    exact ⟨(if_pos rfl).symm, (if_pos rfl).symm, (if_pos rfl).symm⟩

theorem scan_fold_found_of_found (journal : recovery_journal)
    (valid : recovery_block_header → Bool) (journal_data : Nat → recovery_block_header)
    (l : List Nat) (scan : head_and_tail_scan) (h : scan.found_entries = true) :
    (l.foldl (scan_recovery_journal_block journal valid journal_data) scan).found_entries
      = true := by
  induction l generalizing scan with
  | nil => exact h
  | cons i l ih =>
    rw [List.foldl_cons]
    apply ih
    cases h_c : is_congruent_recovery_journal_block journal valid (journal_data i) i with
    | false => rw [scan_not_congruent journal valid journal_data scan i h_c]; exact h
    | true =>
      rw [(scan_congruent journal valid journal_data scan i h_c).2.1, h]
      rfl

theorem scan_fold_found (journal : recovery_journal) (valid : recovery_block_header → Bool)
    (journal_data : Nat → recovery_block_header) (l : List Nat) (scan : head_and_tail_scan) :
    (l.foldl (scan_recovery_journal_block journal valid journal_data) scan).found_entries = true
      ↔ (scan.found_entries = true
        ∨ ∃ i ∈ l, is_congruent_recovery_journal_block journal valid (journal_data i) i = true
            ∧ scan.highest_tail ≤ (journal_data i).sequence_number) := by
  induction l generalizing scan with
  | nil =>
    constructor
    · intro h; exact Or.inl h
    · rintro (h | ⟨i, hi, _⟩)
      · exact h
      · exact absurd hi (List.not_mem_nil i)
  | cons i l ih =>
    rw [List.foldl_cons, ih]
    cases h_c : is_congruent_recovery_journal_block journal valid (journal_data i) i with
    | false =>
      rw [scan_not_congruent journal valid journal_data scan i h_c]
      constructor
      · rintro (h | ⟨j, hj, h_j, h_le⟩)
        · exact Or.inl h
        · exact Or.inr ⟨j, List.mem_cons_of_mem i hj, h_j, h_le⟩
      · rintro (h | ⟨j, hj, h_j, h_le⟩)
        · exact Or.inl h
        · rcases List.mem_cons.mp hj with rfl | hj
          · rw [h_c] at h_j; exact absurd h_j (by decide)
          · exact Or.inr ⟨j, hj, h_j, h_le⟩
    | true =>
      obtain ⟨e1, e2, _, _⟩ := scan_congruent journal valid journal_data scan i h_c
      rw [e1, e2]
      constructor
      · rintro (h | ⟨j, hj, h_j, h_le⟩)
        · rcases Bool.or_eq_true_iff.mp h with h | h
          · exact Or.inl h
          · exact Or.inr ⟨i, List.mem_cons_self i l, h_c, of_decide_eq_true h⟩
        · exact Or.inr ⟨j, List.mem_cons_of_mem i hj, h_j, by omega⟩
      · rintro (h | ⟨j, hj, h_j, h_le⟩)
        · exact Or.inl (by rw [h]; rfl)
        · by_cases h_i : scan.highest_tail ≤ (journal_data i).sequence_number
          · exact Or.inl (by rw [decide_eq_true h_i]; exact Bool.or_true _)
          · rcases List.mem_cons.mp hj with rfl | hj
            · exact absurd h_le h_i
            · exact Or.inr ⟨j, hj, h_j, by omega⟩

/-- The scanner's result in terms of the state its loop ends in. -/
theorem find_head_and_tail_fields (journal : recovery_journal)
    (valid : recovery_block_header → Bool) (journal_data : Nat → recovery_block_header)
    (slab_journal_head_requested : Bool) (scan : head_and_tail_scan)
    (h : scan = (List.range journal.size).foldl
      (scan_recovery_journal_block journal valid journal_data)
      { highest_tail := journal.tail, block_map_head_max := 0, slab_journal_head_max := 0,
        found_entries := false }) :
    (vdo_find_recovery_journal_head_and_tail journal valid journal_data
        slab_journal_head_requested).found_entries = scan.found_entries
    ∧ (vdo_find_recovery_journal_head_and_tail journal valid journal_data
        slab_journal_head_requested).tail = scan.highest_tail
    ∧ (scan.found_entries = true →
        (vdo_find_recovery_journal_head_and_tail journal valid journal_data
          slab_journal_head_requested).block_map_head = some scan.block_map_head_max
        ∧ (vdo_find_recovery_journal_head_and_tail journal valid journal_data
          slab_journal_head_requested).slab_journal_head
            = if slab_journal_head_requested = true then some scan.slab_journal_head_max
              else none) := by
  unfold vdo_find_recovery_journal_head_and_tail
  simp only
  rw [← h]
  cases h_found : scan.found_entries with
  | false => exact ⟨rfl, rfl, fun h => absurd h (by decide)⟩
  | true => exact ⟨rfl, rfl, fun _ => ⟨rfl, rfl⟩⟩

/-- The scanner reports entries exactly when some congruent block is at or above the
journal's tail. -/
theorem find_head_and_tail_found_cases (journal : recovery_journal)
    (valid : recovery_block_header → Bool) (journal_data : Nat → recovery_block_header)
    (slab_journal_head_requested : Bool) :
    (vdo_find_recovery_journal_head_and_tail journal valid journal_data
        slab_journal_head_requested).found_entries = true
      ↔ ∃ i, i < journal.size
          ∧ is_congruent_recovery_journal_block journal valid (journal_data i) i = true
          ∧ journal.tail ≤ (journal_data i).sequence_number := by
  rw [(find_head_and_tail_fields journal valid journal_data slab_journal_head_requested
    _ rfl).1, scan_fold_found]
  constructor
  · rintro (h | ⟨i, hi, h_i, h_le⟩)
    · exact absurd h Bool.false_ne_true
    · exact ⟨i, List.mem_range.mp hi, h_i, h_le⟩
  · rintro ⟨i, hi, h_i, h_le⟩
    exact Or.inr ⟨i, List.mem_range.mpr hi, h_i, h_le⟩

/-- C21, as stated, fails: the sample region holds a congruent block (sequence number 1 at
position 1 of 4), yet with the journal's tail at 2 the scanner returns false and hands
back the tail 2. -/
theorem find_head_and_tail_ignores_blocks_below_tail :
    is_congruent_recovery_journal_block { sample_journal with tail := 2 } sample_valid
        (sample_journal_data_old 1) 1 = true
    ∧ (vdo_find_recovery_journal_head_and_tail { sample_journal with tail := 2 } sample_valid
        sample_journal_data_old true).found_entries = false
    ∧ (vdo_find_recovery_journal_head_and_tail { sample_journal with tail := 2 } sample_valid
        sample_journal_data_old true).tail = 2 := by
  refine ⟨by decide, by decide, by decide⟩

/-- C21 (amended): `vdo_find_recovery_journal_head_and_tail` returns true exactly when some
position holds a congruent block whose sequence number is at or above the tail the journal
has at the call; it returns false when there is none, so also when no congruent block
exists at all. -/
theorem find_head_and_tail_found_iff (journal : recovery_journal)
    (valid : recovery_block_header → Bool) (journal_data : Nat → recovery_block_header)
    (slab_journal_head_requested : Bool) :
    ((vdo_find_recovery_journal_head_and_tail journal valid journal_data
        slab_journal_head_requested).found_entries = true
      ↔ ∃ i, i < journal.size
          ∧ is_congruent_recovery_journal_block journal valid (journal_data i) i = true
          ∧ journal.tail ≤ (journal_data i).sequence_number)
    ∧ ((∀ i, i < journal.size →
          is_congruent_recovery_journal_block journal valid (journal_data i) i = false) →
        (vdo_find_recovery_journal_head_and_tail journal valid journal_data
          slab_journal_head_requested).found_entries = false) := by
  have h_iff := find_head_and_tail_found_cases journal valid journal_data
    slab_journal_head_requested
  refine ⟨h_iff, fun h_none => ?_⟩
  cases h_found : (vdo_find_recovery_journal_head_and_tail journal valid journal_data
      slab_journal_head_requested).found_entries with
  | false => rfl
  | true =>
    obtain ⟨i, hi, h_i, _⟩ := h_iff.mp h_found
    rw [h_none i hi] at h_i
    exact absurd h_i (by decide)

/-- Witness of `find_head_and_tail_found_iff`: a region without a congruent block (every
header fails the validity check) gives false. -/
theorem find_head_and_tail_found_iff_witness :
    (∀ i, i < sample_journal.size →
      is_congruent_recovery_journal_block sample_journal (fun _ => false)
        (sample_journal_data i) i = false)
    ∧ (vdo_find_recovery_journal_head_and_tail sample_journal (fun _ => false)
        sample_journal_data true).found_entries = false :=
  ⟨fun i _ => by unfold is_congruent_recovery_journal_block; exact Bool.and_false _,
    (find_head_and_tail_found_iff sample_journal (fun _ => false) sample_journal_data true).2
      (fun i _ => by unfold is_congruent_recovery_journal_block; exact Bool.and_false _)⟩

/-- The tail the scanner hands back is the largest of the journal's tail and the sequence
numbers of the congruent blocks. -/
theorem find_head_and_tail_tail_bounds (journal : recovery_journal)
    (valid : recovery_block_header → Bool) (journal_data : Nat → recovery_block_header)
    (slab_journal_head_requested : Bool) :
    journal.tail ≤ (vdo_find_recovery_journal_head_and_tail journal valid journal_data
        slab_journal_head_requested).tail
    ∧ (∀ i, i < journal.size →
        is_congruent_recovery_journal_block journal valid (journal_data i) i = true →
        (journal_data i).sequence_number
          ≤ (vdo_find_recovery_journal_head_and_tail journal valid journal_data
              slab_journal_head_requested).tail)
    ∧ ((vdo_find_recovery_journal_head_and_tail journal valid journal_data
          slab_journal_head_requested).tail = journal.tail
      ∨ ∃ i, i < journal.size
          ∧ is_congruent_recovery_journal_block journal valid (journal_data i) i = true
          ∧ (journal_data i).sequence_number
            = (vdo_find_recovery_journal_head_and_tail journal valid journal_data
                slab_journal_head_requested).tail) := by
  rw [(find_head_and_tail_fields journal valid journal_data slab_journal_head_requested
    _ rfl).2.1]
  obtain ⟨h1, h2, h3⟩ := fold_running_max
    (scan_recovery_journal_block journal valid journal_data)
    (fun scan => scan.highest_tail)
    (fun i => is_congruent_recovery_journal_block journal valid (journal_data i) i)
    (fun i => (journal_data i).sequence_number)
    (fun scan i => (scan_step_cases journal valid journal_data scan i).1)
    (List.range journal.size)
    { highest_tail := journal.tail, block_map_head_max := 0, slab_journal_head_max := 0,
      found_entries := false }
  refine ⟨h1, fun i hi h_i => h2 i (List.mem_range.mpr hi) h_i, ?_⟩
  rcases h3 with h3 | ⟨i, hi, h_i, h_val⟩
  · exact Or.inl h3
  · exact Or.inr ⟨i, List.mem_range.mp hi, h_i, h_val⟩

/-- C22, as stated, fails: the sample region holds the congruent blocks 5, 6 and 7 (and a
stale block at position 0), yet with the journal's tail at 9 the tail handed back is 9,
not 7. -/
theorem find_head_and_tail_keeps_higher_journal_tail :
    is_congruent_recovery_journal_block { sample_journal with tail := 9 } sample_valid
        (sample_journal_data 0) 0 = false
    ∧ is_congruent_recovery_journal_block { sample_journal with tail := 9 } sample_valid
        (sample_journal_data 1) 1 = true
    ∧ is_congruent_recovery_journal_block { sample_journal with tail := 9 } sample_valid
        (sample_journal_data 2) 2 = true
    ∧ is_congruent_recovery_journal_block { sample_journal with tail := 9 } sample_valid
        (sample_journal_data 3) 3 = true
    ∧ (sample_journal_data 1).sequence_number = 5
    ∧ (sample_journal_data 2).sequence_number = 6
    ∧ (sample_journal_data 3).sequence_number = 7
    ∧ (vdo_find_recovery_journal_head_and_tail { sample_journal with tail := 9 } sample_valid
        sample_journal_data true).tail = 9 := by
  refine ⟨by decide, by decide, by decide, by decide, by decide, by decide, by decide,
    by decide⟩

/-- C22 (amended): the tail handed back by `vdo_find_recovery_journal_head_and_tail` is the
largest of the journal's tail at the call and the sequence numbers of the congruent blocks;
so for every region with a congruent block at or above the journal's tail it is the maximum
sequence number over all congruent blocks. -/
theorem find_head_and_tail_tail_spec (journal : recovery_journal)
    (valid : recovery_block_header → Bool) (journal_data : Nat → recovery_block_header)
    (slab_journal_head_requested : Bool) :
    journal.tail ≤ (vdo_find_recovery_journal_head_and_tail journal valid journal_data
        slab_journal_head_requested).tail
    ∧ (∀ i, i < journal.size →
        is_congruent_recovery_journal_block journal valid (journal_data i) i = true →
        (journal_data i).sequence_number
          ≤ (vdo_find_recovery_journal_head_and_tail journal valid journal_data
              slab_journal_head_requested).tail)
    ∧ ((vdo_find_recovery_journal_head_and_tail journal valid journal_data
          slab_journal_head_requested).tail = journal.tail
      ∨ ∃ i, i < journal.size
          ∧ is_congruent_recovery_journal_block journal valid (journal_data i) i = true
          ∧ (journal_data i).sequence_number
            = (vdo_find_recovery_journal_head_and_tail journal valid journal_data
                slab_journal_head_requested).tail)
    ∧ ((∃ i, i < journal.size
          ∧ is_congruent_recovery_journal_block journal valid (journal_data i) i = true
          ∧ journal.tail ≤ (journal_data i).sequence_number) →
        ∃ i, i < journal.size
          ∧ is_congruent_recovery_journal_block journal valid (journal_data i) i = true
          ∧ (journal_data i).sequence_number
            = (vdo_find_recovery_journal_head_and_tail journal valid journal_data
                slab_journal_head_requested).tail) := by
  obtain ⟨h1, h2, h3⟩ := find_head_and_tail_tail_bounds journal valid journal_data
    slab_journal_head_requested
  refine ⟨h1, h2, h3, ?_⟩
  rintro ⟨i, hi, h_i, h_le⟩
  rcases h3 with h3 | h3
  · exact ⟨i, hi, h_i, by have := h2 i hi h_i; omega⟩
  · exact h3

/-- Witness of `find_head_and_tail_tail_spec`: with the journal's tail at 1, the region
holding the congruent blocks 5, 6 and 7 gives the tail 7. -/
theorem find_head_and_tail_tail_spec_witness :
    (∃ i, i < sample_journal.size
      ∧ is_congruent_recovery_journal_block sample_journal sample_valid
          (sample_journal_data i) i = true
      ∧ sample_journal.tail ≤ (sample_journal_data i).sequence_number)
    ∧ (vdo_find_recovery_journal_head_and_tail sample_journal sample_valid
        sample_journal_data true).tail = 7
    ∧ ∃ i, i < sample_journal.size
      ∧ is_congruent_recovery_journal_block sample_journal sample_valid
          (sample_journal_data i) i = true
      ∧ (sample_journal_data i).sequence_number
        = (vdo_find_recovery_journal_head_and_tail sample_journal sample_valid
            sample_journal_data true).tail :=
  ⟨⟨1, by decide, by decide, by decide⟩, by decide,
    (find_head_and_tail_tail_spec sample_journal sample_valid sample_journal_data true).2.2.2
      ⟨1, by decide, by decide, by decide⟩⟩

/-- Regions that agree wherever either holds a congruent block are scanned alike. -/
theorem scan_fold_congr (journal : recovery_journal) (valid : recovery_block_header → Bool)
    (journal_data other_data : Nat → recovery_block_header) (l : List Nat)
    (h : ∀ i ∈ l,
      is_congruent_recovery_journal_block journal valid (journal_data i) i = true
        ∨ is_congruent_recovery_journal_block journal valid (other_data i) i = true →
      other_data i = journal_data i)
    (scan : head_and_tail_scan) :
    l.foldl (scan_recovery_journal_block journal valid other_data) scan
      = l.foldl (scan_recovery_journal_block journal valid journal_data) scan := by
  induction l generalizing scan with
  | nil => rfl
  | cons i l ih =>
    rw [List.foldl_cons, List.foldl_cons]
    have h_step : scan_recovery_journal_block journal valid other_data scan i
        = scan_recovery_journal_block journal valid journal_data scan i := by
      cases h1 : is_congruent_recovery_journal_block journal valid (journal_data i) i with
      | true =>
        have e := h i (List.mem_cons_self i l) (Or.inl h1)
        unfold scan_recovery_journal_block
        rw [e]
      | false =>
        cases h2 : is_congruent_recovery_journal_block journal valid (other_data i) i with
        | true =>
          have e := h i (List.mem_cons_self i l) (Or.inr h2)
          unfold scan_recovery_journal_block
          rw [e]
        | false =>
          rw [scan_not_congruent journal valid journal_data scan i h1,
            scan_not_congruent journal valid other_data scan i h2]
    rw [h_step]
    exact ih (fun j hj => h j (List.mem_cons_of_mem i hj)) _

/-- C23: whenever `vdo_find_recovery_journal_head_and_tail` returns true, the
`block_map_head` it hands back is the maximum `block_map_head` over the congruent blocks
(at least each of them and equal to one of them), the `slab_journal_head` is handed back
exactly when requested and is then the maximum `slab_journal_head` over the congruent
blocks; and a region that differs only in blocks that are not congruent gives the same
result. -/
theorem find_head_and_tail_heads_spec (journal : recovery_journal)
    (valid : recovery_block_header → Bool) (journal_data : Nat → recovery_block_header)
    (slab_journal_head_requested : Bool)
    (h_found : (vdo_find_recovery_journal_head_and_tail journal valid journal_data
      slab_journal_head_requested).found_entries = true) :
    (∃ head, (vdo_find_recovery_journal_head_and_tail journal valid journal_data
          slab_journal_head_requested).block_map_head = some head
      ∧ (∀ i, i < journal.size →
          is_congruent_recovery_journal_block journal valid (journal_data i) i = true →
          (journal_data i).block_map_head ≤ head)
      ∧ ∃ i, i < journal.size
          ∧ is_congruent_recovery_journal_block journal valid (journal_data i) i = true
          ∧ (journal_data i).block_map_head = head)
    ∧ (∃ head, (vdo_find_recovery_journal_head_and_tail journal valid journal_data
          slab_journal_head_requested).slab_journal_head
            = (if slab_journal_head_requested = true then some head else none)
      ∧ (∀ i, i < journal.size →
          is_congruent_recovery_journal_block journal valid (journal_data i) i = true →
          (journal_data i).slab_journal_head ≤ head)
      ∧ ∃ i, i < journal.size
          ∧ is_congruent_recovery_journal_block journal valid (journal_data i) i = true
          ∧ (journal_data i).slab_journal_head = head)
    ∧ (∀ other_data : Nat → recovery_block_header,
        (∀ i, i < journal.size →
          is_congruent_recovery_journal_block journal valid (journal_data i) i = true
            ∨ is_congruent_recovery_journal_block journal valid (other_data i) i = true →
          other_data i = journal_data i) →
        vdo_find_recovery_journal_head_and_tail journal valid other_data
            slab_journal_head_requested
          = vdo_find_recovery_journal_head_and_tail journal valid journal_data
            slab_journal_head_requested) := by
  obtain ⟨e_found, _, e_heads⟩ := find_head_and_tail_fields journal valid journal_data
    slab_journal_head_requested _ rfl
  obtain ⟨j, hj, h_j, _⟩ := (find_head_and_tail_found_cases journal valid journal_data
    slab_journal_head_requested).mp h_found
  rw [e_found] at h_found
  obtain ⟨e_block_map, e_slab⟩ := e_heads h_found
  obtain ⟨_, b2, b3⟩ := fold_running_max
    (scan_recovery_journal_block journal valid journal_data)
    (fun scan => scan.block_map_head_max)
    (fun i => is_congruent_recovery_journal_block journal valid (journal_data i) i)
    (fun i => (journal_data i).block_map_head)
    (fun scan i => (scan_step_cases journal valid journal_data scan i).2.1)
    (List.range journal.size)
    { highest_tail := journal.tail, block_map_head_max := 0, slab_journal_head_max := 0,
      found_entries := false }
  obtain ⟨_, s2, s3⟩ := fold_running_max
    (scan_recovery_journal_block journal valid journal_data)
    (fun scan => scan.slab_journal_head_max)
    (fun i => is_congruent_recovery_journal_block journal valid (journal_data i) i)
    (fun i => (journal_data i).slab_journal_head)
    (fun scan i => (scan_step_cases journal valid journal_data scan i).2.2)
    (List.range journal.size)
    { highest_tail := journal.tail, block_map_head_max := 0, slab_journal_head_max := 0,
      found_entries := false }
  refine ⟨⟨_, e_block_map, fun i hi h_i => b2 i (List.mem_range.mpr hi) h_i, ?_⟩,
    ⟨_, e_slab, fun i hi h_i => s2 i (List.mem_range.mpr hi) h_i, ?_⟩, ?_⟩
  · rcases b3 with b3 | ⟨i, hi, h_i, h_val⟩
    · have := b2 j (List.mem_range.mpr hj) h_j
      exact ⟨j, hj, h_j, by simp only at b3 this ⊢; omega⟩
    · exact ⟨i, List.mem_range.mp hi, h_i, h_val⟩
  · rcases s3 with s3 | ⟨i, hi, h_i, h_val⟩
    · have := s2 j (List.mem_range.mpr hj) h_j
      exact ⟨j, hj, h_j, by simp only at s3 this ⊢; omega⟩
    · exact ⟨i, List.mem_range.mp hi, h_i, h_val⟩
  · intro other_data h_same
    unfold vdo_find_recovery_journal_head_and_tail
    rw [scan_fold_congr journal valid journal_data other_data (List.range journal.size)
      (fun i hi => h_same i (List.mem_range.mp hi))]

/-- Witness of `find_head_and_tail_heads_spec`: for the sample region the scanner returns
true with block map head 4 and slab journal head 3, the maxima over the blocks 5, 6 and 7;
the 9s of the stale block at position 0 do not count. -/
theorem find_head_and_tail_heads_spec_witness :
    (vdo_find_recovery_journal_head_and_tail sample_journal sample_valid sample_journal_data
        true).found_entries = true
    ∧ (vdo_find_recovery_journal_head_and_tail sample_journal sample_valid sample_journal_data
        true).block_map_head = some 4
    ∧ (vdo_find_recovery_journal_head_and_tail sample_journal sample_valid sample_journal_data
        true).slab_journal_head = some 3
    ∧ (sample_journal_data 0).block_map_head = 9
    ∧ ∃ head, (vdo_find_recovery_journal_head_and_tail sample_journal sample_valid
          sample_journal_data true).block_map_head = some head
      ∧ (∀ i, i < sample_journal.size →
          is_congruent_recovery_journal_block sample_journal sample_valid
            (sample_journal_data i) i = true →
          (sample_journal_data i).block_map_head ≤ head)
      ∧ ∃ i, i < sample_journal.size
          ∧ is_congruent_recovery_journal_block sample_journal sample_valid
            (sample_journal_data i) i = true
          ∧ (sample_journal_data i).block_map_head = head :=
  ⟨by decide, by decide, by decide, by decide,
    (find_head_and_tail_heads_spec sample_journal sample_valid sample_journal_data true
      (by decide)).1⟩

/-! ### Validating a journal entry -/

/-- C24: `vdo_validate_recovery_journal_entry` returns success exactly when the slot's pbn
is below the physical block count, the slot number is below the entries per page, the
mapping is a valid location on a physical data block and, for a block map increment, the
mapping state is not compressed and the mapping pbn is not the zero block; in every other
case it returns the corrupt journal error, and it returns nothing else. -/
theorem validate_recovery_journal_entry_spec (entries_per_page : Nat)
    (is_valid_location : data_location → Bool) (vdo : vdo) (entry : recovery_journal_entry) :
    (vdo_validate_recovery_journal_entry entries_per_page is_valid_location vdo entry
        = VDO_SUCCESS
      ↔ (entry.slot.pbn < vdo.physical_blocks ∧ entry.slot.slot < entries_per_page
        ∧ is_valid_location entry.mapping = true
        ∧ vdo.is_physical_data_block entry.mapping.pbn = true
        ∧ (entry.operation = VDO_JOURNAL_BLOCK_MAP_INCREMENT →
            vdo_is_state_compressed entry.mapping.state = false
            ∧ entry.mapping.pbn ≠ VDO_ZERO_BLOCK)))
    ∧ (vdo_validate_recovery_journal_entry entries_per_page is_valid_location vdo entry
        ≠ VDO_SUCCESS →
      vdo_validate_recovery_journal_entry entries_per_page is_valid_location vdo entry
        = VDO_CORRUPT_JOURNAL) := by
  unfold vdo_validate_recovery_journal_entry
  split
  · rename_i h
    simp only [Bool.or_eq_true, decide_eq_true_eq, Bool.not_eq_true'] at h
    refine ⟨⟨fun h_eq => absurd h_eq (by decide), ?_⟩, fun _ => rfl⟩
    rintro ⟨h1, h2, h3, h4, _⟩
    rcases h with ((h | h) | h) | h
    · omega
    · omega
    · rw [h3] at h; exact absurd h (by decide)
    · rw [h4] at h; exact absurd h (by decide)
  · rename_i h
    simp only [Bool.or_eq_true, decide_eq_true_eq, Bool.not_eq_true', not_or, not_le,
      Bool.not_eq_false] at h
    obtain ⟨⟨⟨h1, h2⟩, h3⟩, h4⟩ := h
    split
    · rename_i h_tree
      simp only [Bool.and_eq_true, Bool.or_eq_true, decide_eq_true_eq] at h_tree
      refine ⟨⟨fun h_eq => absurd h_eq (by decide), ?_⟩, fun _ => rfl⟩
      rintro ⟨_, _, _, _, h5⟩
      obtain ⟨h_state, h_pbn⟩ := h5 h_tree.1
      rcases h_tree.2 with h | h
      · rw [h_state] at h; exact absurd h (by decide)
      · exact absurd h h_pbn
    · rename_i h_tree
      simp only [Bool.and_eq_true, Bool.or_eq_true, decide_eq_true_eq, not_and, not_or,
        Bool.not_eq_true] at h_tree
      exact ⟨⟨fun _ => ⟨h1, h2, h3, h4, fun h_op => h_tree h_op⟩, fun _ => rfl⟩,
        fun h_ne => absurd rfl h_ne⟩

/-- Witness of `validate_recovery_journal_entry_spec`: a block map increment mapping to the
uncompressed block 7 is accepted, the same entry with a compressed state is rejected as a
corrupt journal. -/
theorem validate_recovery_journal_entry_spec_witness :
    vdo_validate_recovery_journal_entry 812 (fun _ => true) sample_vdo
        { slot := ⟨5, 3⟩, mapping := ⟨7, 1⟩, operation := VDO_JOURNAL_BLOCK_MAP_INCREMENT }
      = VDO_SUCCESS
    ∧ vdo_validate_recovery_journal_entry 812 (fun _ => true) sample_vdo
        { slot := ⟨5, 3⟩, mapping := ⟨7, 2⟩, operation := VDO_JOURNAL_BLOCK_MAP_INCREMENT }
      = VDO_CORRUPT_JOURNAL :=
  ⟨(validate_recovery_journal_entry_spec 812 (fun _ => true) sample_vdo
      { slot := ⟨5, 3⟩, mapping := ⟨7, 1⟩, operation := VDO_JOURNAL_BLOCK_MAP_INCREMENT }).1.mpr
      ⟨by decide, by decide, rfl, by decide, fun _ => ⟨by decide, by decide⟩⟩,
    (validate_recovery_journal_entry_spec 812 (fun _ => true) sample_vdo
      { slot := ⟨5, 3⟩, mapping := ⟨7, 2⟩, operation := VDO_JOURNAL_BLOCK_MAP_INCREMENT }).2
      (by decide)⟩

/-! ### Suspending and resuming the lock counter -/

/-- C25: `suspend_lock_counter` returns true and leaves the state suspended when the prior
state is not-notifying or suspended, and returns false leaving the state notifying (and
the journal as it was) when a notification is outstanding; `resume_lock_counter` returns
true exactly when the prior state was suspended, then moving it to not-notifying, and
otherwise changes nothing; so after a successful suspend, resume returns true (a reap pass
must be forced) and leaves the state not-notifying. -/
theorem suspend_resume_lock_counter_spec (journal : recovery_journal) :
    (journal.lock_counter.state = LOCK_COUNTER_STATE_NOT_NOTIFYING
        ∨ journal.lock_counter.state = LOCK_COUNTER_STATE_SUSPENDED →
      (suspend_lock_counter journal).1 = true
      ∧ (suspend_lock_counter journal).2.lock_counter.state = LOCK_COUNTER_STATE_SUSPENDED)
    ∧ (journal.lock_counter.state = LOCK_COUNTER_STATE_NOTIFYING →
      (suspend_lock_counter journal).1 = false
      ∧ (suspend_lock_counter journal).2 = journal
      ∧ (suspend_lock_counter journal).2.lock_counter.state = LOCK_COUNTER_STATE_NOTIFYING)
    ∧ ((resume_lock_counter journal).1 = true
      ↔ journal.lock_counter.state = LOCK_COUNTER_STATE_SUSPENDED)
    ∧ (journal.lock_counter.state = LOCK_COUNTER_STATE_SUSPENDED →
      (resume_lock_counter journal).2.lock_counter.state = LOCK_COUNTER_STATE_NOT_NOTIFYING)
    ∧ (journal.lock_counter.state ≠ LOCK_COUNTER_STATE_SUSPENDED →
      (resume_lock_counter journal).2 = journal)
    ∧ ((suspend_lock_counter journal).1 = true →
      (resume_lock_counter (suspend_lock_counter journal).2).1 = true
      ∧ (resume_lock_counter (suspend_lock_counter journal).2).2.lock_counter.state
        = LOCK_COUNTER_STATE_NOT_NOTIFYING) := by
  unfold suspend_lock_counter resume_lock_counter
  cases h : journal.lock_counter.state <;> simp [h]

/-- Witness of `suspend_resume_lock_counter_spec`: the sample journal, whose lock counter is
not notifying, is suspended and resumed. -/
theorem suspend_resume_lock_counter_spec_witness :
    (suspend_lock_counter sample_journal).1 = true
    ∧ (suspend_lock_counter sample_journal).2.lock_counter.state = LOCK_COUNTER_STATE_SUSPENDED
    ∧ (resume_lock_counter (suspend_lock_counter sample_journal).2).1 = true
    ∧ (resume_lock_counter (suspend_lock_counter sample_journal).2).2.lock_counter.state
      = LOCK_COUNTER_STATE_NOT_NOTIFYING :=
  ⟨((suspend_resume_lock_counter_spec sample_journal).1 (Or.inl (by decide))).1,
    ((suspend_resume_lock_counter_spec sample_journal).1 (Or.inl (by decide))).2,
    (suspend_resume_lock_counter_spec sample_journal).2.2.2.2.2
      (((suspend_resume_lock_counter_spec sample_journal).1 (Or.inl (by decide))).1)⟩

/-! ### The drain check -/

/-- C29: at the tail 2^48 − 1 the code does not do what the claim says. With free blocks
`advance_tail` returns true and moves the tail to 2^48, but `set_journal_tail` enters
read-only mode there and the drain check recycles the block just made active: on return
`active_block` is NULL, `active_tail_blocks` is empty and the block is back on the free
list. The journal-zone lock count of its block number, which `initialize_lock_count` has
not yet set for it, is decremented from 0 by the three releases of unused entry locks
(65533 is left in the `uint16_t`), against the assertion of
`vdo_release_recovery_journal_block_reference` that a decrement must not underflow, and the
caller `prepare_to_assign_entry` then applies `is_block_empty` to the NULL active block. -/
theorem advance_tail_at_overflow_leaves_no_active_block :
    { sample_journal_open with tail := 2 ^ 48 - 1 }.free_tail_blocks
        = [sample_block 0, sample_block 1, sample_block 2]
    ∧ { sample_journal_open with tail := 2 ^ 48 - 1 }.read_only = false
    ∧ get_counter { sample_journal_open with tail := 2 ^ 48 - 1 } 3 VDO_ZONE_TYPE_JOURNAL 0 = 0
    ∧ (advance_tail { sample_journal_open with tail := 2 ^ 48 - 1 }).1 = true
    ∧ (advance_tail { sample_journal_open with tail := 2 ^ 48 - 1 }).2.tail = 2 ^ 48
    ∧ (advance_tail { sample_journal_open with tail := 2 ^ 48 - 1 }).2.read_only = true
    ∧ (advance_tail { sample_journal_open with tail := 2 ^ 48 - 1 }).2.active_block = none
    ∧ (advance_tail { sample_journal_open with tail := 2 ^ 48 - 1 }).2.active_tail_blocks = []
    ∧ (advance_tail { sample_journal_open with tail := 2 ^ 48 - 1 }).2.free_tail_blocks
        = [sample_block 0, sample_block 1,
            { sample_block 2 with sequence_number := 2 ^ 48 - 1, block_number := 3 }]
    ∧ get_counter (advance_tail { sample_journal_open with tail := 2 ^ 48 - 1 }).2 3
        VDO_ZONE_TYPE_JOURNAL 0 = 65533
    ∧ (prepare_to_assign_entry { sample_journal_open with tail := 2 ^ 48 - 1 } true).isNone
        = true := by
  decide

/-- What `advance_tail` does away from the overflow of the tail: it returns false, leaving
the tail unchanged and the journal without an active block, when the free list is empty;
otherwise it returns true and increases the tail by exactly 1 (modulo 2^64), and when the
new tail is below 2^48 it has removed the last block from the free list, appended it,
initialised with the old tail as its sequence number, to the end of `active_tail_blocks`
and made it the active block. So below 2^64 the tail never decreases, and the sequence
number given out is below the new tail. -/
theorem advance_tail_spec (journal : recovery_journal) :
    (journal.free_tail_blocks = [] →
      advance_tail journal = (false, { journal with active_block := none }))
    ∧ (journal.free_tail_blocks ≠ [] →
      (advance_tail journal).1 = true
      ∧ (advance_tail journal).2.tail = add_u64 journal.tail 1)
    ∧ (∀ block, journal.free_tail_blocks.getLast? = some block → journal.tail + 1 < 2 ^ 48 →
      (advance_tail journal).1 = true
      ∧ (advance_tail journal).2.free_tail_blocks = journal.free_tail_blocks.dropLast
      ∧ (advance_tail journal).2.active_tail_blocks
          = journal.active_tail_blocks ++ [vdo_initialize_recovery_block journal block]
      ∧ (advance_tail journal).2.active_block = some block.id
      ∧ (vdo_initialize_recovery_block journal block).id = block.id
      ∧ (vdo_initialize_recovery_block journal block).sequence_number = journal.tail
      ∧ (advance_tail journal).2.tail = journal.tail + 1)
    ∧ (journal.tail + 1 < 2 ^ 64 → journal.tail ≤ (advance_tail journal).2.tail) := by
  have h_pow : (2 : Nat) ^ 48 = 281474976710656 := by norm_num
  have h_pow64 : (2 : Nat) ^ 64 = 18446744073709551616 := by norm_num
  have h_true : journal.free_tail_blocks ≠ [] →
      (advance_tail journal).1 = true
      ∧ (advance_tail journal).2.tail = add_u64 journal.tail 1 := by
    intro h_free
    obtain ⟨block, h_last⟩ : ∃ block, journal.free_tail_blocks.getLast? = some block := by
      cases h : journal.free_tail_blocks.getLast? with
      | none => exact absurd (List.getLast?_eq_none_iff.mp h) h_free
      | some block => exact ⟨block, rfl⟩
    unfold advance_tail pop_free_list
    simp only [h_last]
    obtain ⟨a, f, ab, c, cp, inc, dec, st, ro, s, e⟩ := set_journal_tail_frame
      { journal with
        free_tail_blocks := journal.free_tail_blocks.dropLast
        active_block := some block.id
        active_tail_blocks := journal.active_tail_blocks
          ++ [vdo_initialize_recovery_block
            { journal with free_tail_blocks := journal.free_tail_blocks.dropLast } block] }
      (add_u64 journal.tail 1)
    rw [e]
    constructor <;> trivial
  refine ⟨?_, h_true, ?_, ?_⟩
  · intro h_free
    unfold advance_tail pop_free_list
    simp only [h_free, List.getLast?_nil]
  · intro block h_last h_tail
    have h_next : add_u64 journal.tail 1 = journal.tail + 1 := by
      unfold add_u64
      exact Nat.mod_eq_of_lt (by omega)
    unfold advance_tail pop_free_list
    simp only [h_last]
    unfold set_journal_tail
    simp only [h_next]
    rw [if_neg (by omega)]
    refine ⟨?_, ?_, ?_, ?_, ?_, ?_, ?_⟩ <;> trivial
  · intro h_tail
    by_cases h_free : journal.free_tail_blocks = []
    · unfold advance_tail pop_free_list
      simp only [h_free, List.getLast?_nil]
      exact Nat.le_refl _
    · rw [(h_true h_free).2]
      unfold add_u64
      rw [Nat.mod_eq_of_lt (by omega)]
      exact Nat.le_succ _

/-- Witness of `advance_tail_spec`: the open sample journal, with its tail at 1, makes its
last free block the active block with sequence number 1 and moves the tail to 2. -/
theorem advance_tail_spec_witness :
    sample_journal_open.free_tail_blocks.getLast? = some (sample_block 2)
    ∧ (advance_tail sample_journal_open).1 = true
    ∧ (advance_tail sample_journal_open).2.active_block = some 2
    ∧ (advance_tail sample_journal_open).2.tail = 2
    ∧ advance_tail { sample_journal_open with free_tail_blocks := [] }
      = (false, { { sample_journal_open with free_tail_blocks := [] }
          with active_block := none }) :=
  ⟨by decide,
    ((advance_tail_spec sample_journal_open).2.2.1 (sample_block 2) (by decide)
      (by decide)).1,
    ((advance_tail_spec sample_journal_open).2.2.1 (sample_block 2) (by decide)
      (by decide)).2.2.2.1,
    ((advance_tail_spec sample_journal_open).2.2.1 (sample_block 2) (by decide)
      (by decide)).2.2.2.2.2.2,
    (advance_tail_spec { sample_journal_open with free_tail_blocks := [] }).1 rfl⟩

/-! ### What the writer and the assigner leave of the entry queues -/

theorem queues_left_refl (journal : recovery_journal) : queues_left journal journal :=
  ⟨Or.inl rfl, Or.inl rfl, fun h => h⟩

theorem queues_left_trans (journal journal1 journal2 : recovery_journal)
    (h1 : queues_left journal journal1) (h2 : queues_left journal1 journal2) :
    queues_left journal journal2 := by
  refine ⟨?_, ?_, fun h => h2.2.2 (h1.2.2 h)⟩
  · rcases h2.1 with a | a
    · rcases h1.1 with b | b
      · exact Or.inl (a.trans b)
      · exact Or.inr (a.trans b)
    · exact Or.inr a
  · rcases h2.2.1 with a | a
    · rcases h1.2.1 with b | b
      · exact Or.inl (a.trans b)
      · exact Or.inr (a.trans b)
    · exact Or.inr a

theorem notify_commit_waiters_queues_left (journal : recovery_journal) :
    queues_left journal (notify_commit_waiters journal) := by
  unfold notify_commit_waiters
  obtain ⟨commit_point, suffix, e, _⟩ :=
    notify_commit_waiters_from_frame journal.active_tail_blocks journal
  simp only
  rw [e]
  exact ⟨Or.inl rfl, Or.inl rfl, fun h => h⟩

theorem recycle_journal_blocks_queues_left (journal : recovery_journal) :
    queues_left journal (recycle_journal_blocks journal) := by
  unfold recycle_journal_blocks
  obtain ⟨active, free, active_block, counter, suffix, e, _, _⟩ :=
    recycle_journal_blocks_from_frame journal.active_tail_blocks journal
  rw [e]
  exact ⟨Or.inl rfl, Or.inl rfl, fun h => h⟩

theorem check_for_drain_complete_queues_left (journal : recovery_journal) :
    queues_left journal (check_for_drain_complete journal) := by
  unfold check_for_drain_complete
  by_cases h_ro : journal.read_only = true
  · rw [if_pos (by exact h_ro)]
    obtain ⟨a1, f1, ab1, c1, cp1, s1, h1, _⟩ := release_waiters_read_only_frame journal
    rw [h1]
    obtain ⟨a2, f2, ab2, c2, st2, s2, h2, _⟩ := finish_drain_if_complete_frame
      { journal with
        active_tail_blocks := a1
        free_tail_blocks := f1
        active_block := ab1
        lock_counter := c1
        commit_point := cp1
        increment_waiters := []
        decrement_waiters := []
        trace := journal.trace ++ s1 } VDO_READ_ONLY
    rw [h2]
    exact ⟨Or.inr rfl, Or.inr rfl, fun h => h⟩
  · rw [if_neg (by exact h_ro)]
    obtain ⟨a2, f2, ab2, c2, st2, s2, h2, _⟩ :=
      finish_drain_if_complete_frame journal VDO_SUCCESS
    rw [h2]
    exact ⟨Or.inl rfl, Or.inl rfl, fun h => h⟩

theorem enter_journal_read_only_mode_queues_left (journal : recovery_journal)
    (error_code : vdo_status) :
    queues_left journal (enter_journal_read_only_mode journal error_code)
    ∧ (enter_journal_read_only_mode journal error_code).read_only = true := by
  unfold enter_journal_read_only_mode
  have h_checked := check_for_drain_complete_queues_left
    (vdo_enter_read_only_mode journal error_code)
  exact ⟨queues_left_trans journal (vdo_enter_read_only_mode journal error_code) _
    ⟨Or.inl rfl, Or.inl rfl, fun _ => rfl⟩ h_checked, h_checked.2.2 rfl⟩

theorem vdo_commit_recovery_block_queues_left (journal : recovery_journal)
    (block : recovery_journal_block) :
    queues_left journal (vdo_commit_recovery_block journal block).2 := by
  unfold vdo_commit_recovery_block
  split
  · exact queues_left_refl journal
  · obtain ⟨active, free, e⟩ := update_block_frame journal block.id
      (fun b =>
        { b with
          entries_in_commit := b.entry_waiters.length
          committing := true
          commit_waiters := b.commit_waiters ++ b.entry_waiters
          entry_waiters := [] })
    simp only
    rw [e]
    exact ⟨Or.inl rfl, Or.inl rfl, fun h => h⟩

theorem write_block_queues_left (journal : recovery_journal) (id : Nat) :
    queues_left journal (write_block journal id) := by
  unfold write_block
  split
  · exact queues_left_refl journal
  · split
    · exact queues_left_refl journal
    · simp only
      split
      · exact queues_left_trans _ _ _ (vdo_commit_recovery_block_queues_left _ _)
          (enter_journal_read_only_mode_queues_left _ _).1
      · exact vdo_commit_recovery_block_queues_left _ _

theorem write_block_foldl_queues_left (ids : List Nat) (journal : recovery_journal) :
    queues_left journal (ids.foldl write_block journal) := by
  induction ids generalizing journal with
  | nil => exact queues_left_refl journal
  | cons id rest ih =>
    exact queues_left_trans _ _ _ (write_block_queues_left journal id) (ih _)

theorem write_blocks_queues_left (journal : recovery_journal) :
    queues_left journal (write_blocks journal) := by
  unfold write_blocks
  split
  · exact queues_left_refl journal
  · have h_written : queues_left journal
        (journal.pending_writes.foldl write_block { journal with pending_writes := [] }) :=
      queues_left_trans journal { journal with pending_writes := [] } _
        ⟨Or.inl rfl, Or.inl rfl, fun h => h⟩ (write_block_foldl_queues_left _ _)
    simp only
    split
    · split
      · exact queues_left_trans _ _ _ h_written (write_block_queues_left _ _)
      · exact h_written
    · exact h_written

theorem schedule_block_write_queues_left (journal : recovery_journal)
    (block : recovery_journal_block) :
    queues_left journal (schedule_block_write journal block) := by
  unfold schedule_block_write
  split
  · exact ⟨Or.inl rfl, Or.inl rfl, fun h => h⟩
  · exact queues_left_refl journal

theorem update_first_find (id : Nat) (f : recovery_journal_block → recovery_journal_block)
    (h_id : ∀ b, (f b).id = b.id) (blocks : List recovery_journal_block) :
    (update_first id f blocks).find? (fun b => decide (b.id = id))
      = (blocks.find? (fun b => decide (b.id = id))).map f := by
  induction blocks with
  | nil => rfl
  | cons b rest ih =>
    unfold update_first
    by_cases h : b.id = id
    · rw [if_pos h]
      simp [List.find?_cons, h, h_id]
    · rw [if_neg h]
      simp [List.find?_cons, h, ih]

theorem block_at_update_block (journal : recovery_journal) (id : Nat)
    (f : recovery_journal_block → recovery_journal_block) (block : recovery_journal_block)
    (h_id : ∀ b, (f b).id = b.id) (h : block_at journal id = some block) :
    block_at (update_block journal id f) id = some (f block) := by
  unfold block_at at h ⊢
  unfold update_block
  rw [List.find?_append] at h
  by_cases h_any : journal.active_tail_blocks.any (fun b => b.id = id) = true
  · rw [if_pos h_any]
    simp only
    rw [List.find?_append, update_first_find id f h_id]
    cases h_found : journal.active_tail_blocks.find? (fun b => decide (b.id = id)) with
    | none =>
      have h_none := List.find?_eq_none.mp h_found
      obtain ⟨x, h_x, h_px⟩ := List.any_eq_true.mp h_any
      exact absurd h_px (h_none x h_x)
    | some y =>
      rw [h_found] at h
      simp only [Option.or_some, Option.some.injEq] at h
      rw [h]
      rfl
  · rw [if_neg h_any]
    simp only
    rw [List.find?_append, update_first_find id f h_id]
    cases h_found : journal.active_tail_blocks.find? (fun b => decide (b.id = id)) with
    | none =>
      rw [h_found] at h
      simp only [Option.none_or] at h
      rw [h]
      rfl
    | some y =>
      have h_y := List.find?_some h_found
      have h_mem := List.mem_of_find?_eq_some h_found
      exact absurd (List.any_eq_true.mpr ⟨y, h_mem, h_y⟩) h_any

theorem complete_write_finish_queues_left (journal journal1 : recovery_journal) (id : Nat)
    (h_eq : complete_write_finish journal id = some journal1) :
    queues_left journal journal1 ∧ space_kept journal journal1 := by
  unfold complete_write_finish at h_eq
  split at h_eq
  · cases h_eq
  · simp only [Option.some.injEq] at h_eq
    rw [← h_eq]
    refine ⟨?_, complete_write_finish_space_kept journal id⟩
    have h_notified := notify_commit_waiters_queues_left journal
    refine queues_left_trans _ _ _ ?_ (check_for_drain_complete_queues_left _)
    refine queues_left_trans _ _ _ ?_ (write_blocks_queues_left _)
    refine queues_left_trans _ _ _ ?_ (recycle_journal_blocks_queues_left _)
    split
    · split
      · exact queues_left_trans _ _ _ h_notified (schedule_block_write_queues_left _ _)
      · exact h_notified
    · exact h_notified

theorem complete_write_counts_fields (journal : recovery_journal) (id : Nat)
    (block : recovery_journal_block) :
    (complete_write_counts journal id block).pending_write_count
        = sub_u64 journal.pending_write_count 1
    ∧ (complete_write_counts journal id block).last_write_acknowledged
        = max journal.last_write_acknowledged block.sequence_number
    ∧ (complete_write_counts journal id block).read_only = journal.read_only
    ∧ (block_at journal id = some block →
        block_at (complete_write_counts journal id block) id
          = some { block with
              uncommitted_entry_count :=
                sub_u16 block.uncommitted_entry_count block.entries_in_commit
              entries_in_commit := 0
              committing := false }) := by
  have h_updated := block_at_update_block journal id
    (fun b =>
      { b with
        uncommitted_entry_count := sub_u16 b.uncommitted_entry_count b.entries_in_commit
        entries_in_commit := 0
        committing := false }) block (fun _ => rfl)
  obtain ⟨active, free, e⟩ := update_block_frame journal id
    (fun b =>
      { b with
        uncommitted_entry_count := sub_u16 b.uncommitted_entry_count b.entries_in_commit
        entries_in_commit := 0
        committing := false })
  unfold complete_write_counts
  rw [e] at h_updated ⊢
  simp only
  split
  · rename_i h_later
    refine ⟨rfl, ?_, rfl, fun h_block => ?_⟩
    · simp only at h_later ⊢
      omega
    · rw [← h_updated h_block]
      exact block_at_congr _ _ id rfl rfl
  · rename_i h_later
    refine ⟨rfl, ?_, rfl, fun h_block => ?_⟩
    · simp only at h_later ⊢
      omega
    · rw [← h_updated h_block]
      exact block_at_congr _ _ id rfl rfl

/-! ### An increment and its decrement -/

theorem counts_kept_trans (journal journal1 journal2 : recovery_journal)
    (h1 : counts_kept journal journal1) (h2 : counts_kept journal1 journal2) :
    counts_kept journal journal2 :=
  ⟨h2.1.trans h1.1, h2.2.1.trans h1.2.1, h2.2.2.1.trans h1.2.2.1,
    h2.2.2.2.1.trans h1.2.2.2.1, h2.2.2.2.2.1.trans h1.2.2.2.2.1,
    h2.2.2.2.2.2.1.trans h1.2.2.2.2.2.1, h2.2.2.2.2.2.2.trans h1.2.2.2.2.2.2⟩

theorem schedule_block_write_counts_kept (journal : recovery_journal)
    (block : recovery_journal_block) :
    counts_kept journal (schedule_block_write journal block) := by
  unfold schedule_block_write
  split <;> exact ⟨rfl, rfl, rfl, rfl, rfl, rfl, rfl⟩

theorem check_slab_journal_commit_threshold_counts_kept (journal : recovery_journal) :
    counts_kept journal (check_slab_journal_commit_threshold journal) := by
  unfold check_slab_journal_commit_threshold
  simp only
  split <;> exact ⟨rfl, rfl, rfl, rfl, rfl, rfl, rfl⟩

theorem release_journal_block_reference_counts_kept (journal : recovery_journal)
    (block : recovery_journal_block) :
    counts_kept journal (release_journal_block_reference journal block) := by
  unfold release_journal_block_reference
  obtain ⟨counter, suffix, e, _⟩ :=
    release_reference_quiet journal block.sequence_number 0 VDO_ZONE_TYPE_JOURNAL
  rw [e]
  exact ⟨rfl, rfl, rfl, rfl, rfl, rfl, rfl⟩

/-- The second half of `assign_entry` on a block with room: the entry is appended to the
block and the counters are left alone. -/
theorem assign_entry_enqueue_counts (journal : recovery_journal) (stamped : data_vio)
    (block : recovery_journal_block) (h_block : block_at journal block.id = some block)
    (h_room : journal.entries_per_block ≠ block.entry_count) :
    ∃ journal1,
      (if (vdo_enqueue_recovery_block_entry journal block stamped).1 ≠ VDO_SUCCESS then
        continue_waiter (vdo_enqueue_recovery_block_entry journal block stamped).1
          (enter_journal_read_only_mode (vdo_enqueue_recovery_block_entry journal block stamped).2
            (vdo_enqueue_recovery_block_entry journal block stamped).1) stamped
      else
        check_slab_journal_commit_threshold
          (match block_at (vdo_enqueue_recovery_block_entry journal block stamped).2 block.id with
          | some current =>
            if is_block_full (vdo_enqueue_recovery_block_entry journal block stamped).2
                (some current) then
              schedule_block_write (vdo_enqueue_recovery_block_entry journal block stamped).2
                current
            else (vdo_enqueue_recovery_block_entry journal block stamped).2
          | none => (vdo_enqueue_recovery_block_entry journal block stamped).2)) = journal1
      ∧ journal1.available_space = journal.available_space
      ∧ journal1.logical_blocks_used = journal.logical_blocks_used
      ∧ journal1.pending_decrement_count = journal.pending_decrement_count
      ∧ journal1.block_map_data_blocks = journal.block_map_data_blocks
      ∧ journal1.entries_per_block = journal.entries_per_block
      ∧ block_at journal1 block.id
        = some { block with
            entry_waiters := block.entry_waiters ++ [stamped]
            entry_count := block.entry_count + 1
            uncommitted_entry_count := block.uncommitted_entry_count + 1 } := by
  have h_enqueued : vdo_enqueue_recovery_block_entry journal block stamped
      = (VDO_SUCCESS, update_block journal block.id (fun b =>
          { b with
            entry_waiters := b.entry_waiters ++ [stamped]
            entry_count := b.entry_count + 1
            uncommitted_entry_count := b.uncommitted_entry_count + 1 })) := by
    unfold vdo_enqueue_recovery_block_entry is_block_full
    simp only [decide_eq_true_eq]
    rw [if_neg h_room]
  have h_at := block_at_update_block journal block.id
    (fun b =>
      { b with
        entry_waiters := b.entry_waiters ++ [stamped]
        entry_count := b.entry_count + 1
        uncommitted_entry_count := b.uncommitted_entry_count + 1 }) block (fun _ => rfl)
    h_block
  obtain ⟨active, free, e⟩ := update_block_frame journal block.id
    (fun b =>
      { b with
        entry_waiters := b.entry_waiters ++ [stamped]
        entry_count := b.entry_count + 1
        uncommitted_entry_count := b.uncommitted_entry_count + 1 })
  rw [h_enqueued]
  simp only [ne_eq, not_true_eq_false, if_false]
  rw [h_at]
  simp only
  generalize update_block journal block.id (fun b =>
      { b with
        entry_waiters := b.entry_waiters ++ [stamped]
        entry_count := b.entry_count + 1
        uncommitted_entry_count := b.uncommitted_entry_count + 1 }) = updated at h_at e ⊢
  have h_scheduled : counts_kept updated
      (if is_block_full updated
          (some { block with
            entry_waiters := block.entry_waiters ++ [stamped]
            entry_count := block.entry_count + 1
            uncommitted_entry_count := block.uncommitted_entry_count + 1 }) = true then
        schedule_block_write updated
          { block with
            entry_waiters := block.entry_waiters ++ [stamped]
            entry_count := block.entry_count + 1
            uncommitted_entry_count := block.uncommitted_entry_count + 1 }
      else updated) := by
    split
    · exact schedule_block_write_counts_kept _ _
    · exact ⟨rfl, rfl, rfl, rfl, rfl, rfl, rfl⟩
  have h_kept := counts_kept_trans _ _ _ h_scheduled
    (check_slab_journal_commit_threshold_counts_kept _)
  refine ⟨_, rfl, ?_, ?_, ?_, ?_, ?_, ?_⟩
  · rw [h_kept.1, e]
  · rw [h_kept.2.1, e]
  · rw [h_kept.2.2.1, e]
  · rw [h_kept.2.2.2.1, e]
  · rw [h_kept.2.2.2.2.1, e]
  · exact (block_at_congr _ _ _ h_kept.2.2.2.2.2.1 h_kept.2.2.2.2.2.2).trans h_at

theorem assign_entry_data_increment (journal : recovery_journal) (waiter : data_vio)
    (block : recovery_journal_block)
    (h_op : waiter.operation_type = VDO_JOURNAL_DATA_INCREMENT)
    (h_block : block_at journal block.id = some block)
    (h_room : journal.entries_per_block ≠ block.entry_count) :
    (assign_entry journal waiter block).available_space = sub_u64 journal.available_space 1
    ∧ (assign_entry journal waiter block).logical_blocks_used
      = (if waiter.operation_state ≠ VDO_MAPPING_STATE_UNMAPPED then
          add_u64 journal.logical_blocks_used 1 else journal.logical_blocks_used)
    ∧ (assign_entry journal waiter block).pending_decrement_count
      = to_u16 (journal.pending_decrement_count + 1)
    ∧ (assign_entry journal waiter block).block_map_data_blocks
      = journal.block_map_data_blocks
    ∧ (assign_entry journal waiter block).entries_per_block = journal.entries_per_block
    ∧ block_at (assign_entry journal waiter block) block.id
      = some { block with
          entry_waiters := block.entry_waiters
            ++ [{ waiter with
                  recovery_journal_point := ⟨block.sequence_number, block.entry_count⟩ }]
          entry_count := block.entry_count + 1
          uncommitted_entry_count := block.uncommitted_entry_count + 1 } := by
  have h_at : ∀ j : recovery_journal,
      j.active_tail_blocks = journal.active_tail_blocks →
      j.free_tail_blocks = journal.free_tail_blocks → block_at j block.id = some block :=
    fun j h_active h_free => (block_at_congr journal j _ h_active h_free).trans h_block
  by_cases h_state : waiter.operation_state ≠ VDO_MAPPING_STATE_UNMAPPED
  · obtain ⟨journal1, e, a1, a2, a3, a4, a5, a6⟩ := assign_entry_enqueue_counts
      { journal with
        logical_blocks_used := add_u64 journal.logical_blocks_used 1
        pending_decrement_count := to_u16 (journal.pending_decrement_count + 1)
        available_space := sub_u64 journal.available_space 1 }
      { waiter with recovery_journal_point := ⟨block.sequence_number, block.entry_count⟩ }
      block (h_at _ rfl rfl) h_room
    have h_eq : assign_entry journal waiter block = journal1 := by
      rw [← e]
      unfold assign_entry
      simp only [h_op]
      rw [if_pos h_state]
    rw [h_eq, if_pos h_state]
    exact ⟨a1, a2, a3, a4, a5, a6⟩
  · obtain ⟨journal1, e, a1, a2, a3, a4, a5, a6⟩ := assign_entry_enqueue_counts
      { journal with
        pending_decrement_count := to_u16 (journal.pending_decrement_count + 1)
        available_space := sub_u64 journal.available_space 1 }
      { waiter with recovery_journal_point := ⟨block.sequence_number, block.entry_count⟩ }
      block (h_at _ rfl rfl) h_room
    have h_eq : assign_entry journal waiter block = journal1 := by
      rw [← e]
      unfold assign_entry
      simp only [h_op]
      rw [if_neg h_state]
    rw [h_eq, if_neg h_state]
    exact ⟨a1, a2, a3, a4, a5, a6⟩

theorem assign_entry_data_decrement (journal : recovery_journal) (waiter : data_vio)
    (block : recovery_journal_block)
    (h_op : waiter.operation_type = VDO_JOURNAL_DATA_DECREMENT)
    (h_block : block_at journal block.id = some block)
    (h_room : journal.entries_per_block ≠ block.entry_count) :
    (assign_entry journal waiter block).available_space = sub_u64 journal.available_space 1
    ∧ (assign_entry journal waiter block).logical_blocks_used
      = (if waiter.operation_state ≠ VDO_MAPPING_STATE_UNMAPPED then
          sub_u64 journal.logical_blocks_used 1 else journal.logical_blocks_used)
    ∧ (assign_entry journal waiter block).pending_decrement_count
      = sub_u16 journal.pending_decrement_count 1
    ∧ (assign_entry journal waiter block).block_map_data_blocks
      = journal.block_map_data_blocks
    ∧ (assign_entry journal waiter block).entries_per_block = journal.entries_per_block
    ∧ block_at (assign_entry journal waiter block) block.id
      = some { block with
          entry_waiters := block.entry_waiters
            ++ [{ waiter with
                  recovery_journal_point := ⟨block.sequence_number, block.entry_count⟩ }]
          entry_count := block.entry_count + 1
          uncommitted_entry_count := block.uncommitted_entry_count + 1 } := by
  have h_at : ∀ j : recovery_journal,
      j.active_tail_blocks = journal.active_tail_blocks →
      j.free_tail_blocks = journal.free_tail_blocks → block_at j block.id = some block :=
    fun j h_active h_free => (block_at_congr journal j _ h_active h_free).trans h_block
  by_cases h_state : waiter.operation_state ≠ VDO_MAPPING_STATE_UNMAPPED
  · have h_released := release_journal_block_reference_counts_kept
      { journal with logical_blocks_used := sub_u64 journal.logical_blocks_used 1 } block
    obtain ⟨journal1, e, a1, a2, a3, a4, a5, a6⟩ := assign_entry_enqueue_counts
      { release_journal_block_reference
          { journal with logical_blocks_used := sub_u64 journal.logical_blocks_used 1 }
          block with
        pending_decrement_count := sub_u16
          (release_journal_block_reference
            { journal with logical_blocks_used := sub_u64 journal.logical_blocks_used 1 }
            block).pending_decrement_count 1
        available_space := sub_u64
          (release_journal_block_reference
            { journal with logical_blocks_used := sub_u64 journal.logical_blocks_used 1 }
            block).available_space 1 }
      { waiter with recovery_journal_point := ⟨block.sequence_number, block.entry_count⟩ }
      block (h_at _ h_released.2.2.2.2.2.1 h_released.2.2.2.2.2.2)
      (by rw [show _ = journal.entries_per_block from h_released.2.2.2.2.1]; exact h_room)
    have h_eq : assign_entry journal waiter block = journal1 := by
      rw [← e]
      unfold assign_entry
      simp only [h_op]
      rw [if_pos h_state]
    rw [h_eq, if_pos h_state]
    refine ⟨a1.trans ?_, a2.trans h_released.2.1, a3.trans ?_, a4.trans h_released.2.2.2.1,
      a5.trans h_released.2.2.2.2.1, a6⟩
    · exact congrArg (fun x => sub_u64 x 1) h_released.1
    · exact congrArg (fun x => sub_u16 x 1) h_released.2.2.1
  · have h_released := release_journal_block_reference_counts_kept journal block
    obtain ⟨journal1, e, a1, a2, a3, a4, a5, a6⟩ := assign_entry_enqueue_counts
      { release_journal_block_reference journal block with
        pending_decrement_count := sub_u16
          (release_journal_block_reference journal block).pending_decrement_count 1
        available_space := sub_u64
          (release_journal_block_reference journal block).available_space 1 }
      { waiter with recovery_journal_point := ⟨block.sequence_number, block.entry_count⟩ }
      block (h_at _ h_released.2.2.2.2.2.1 h_released.2.2.2.2.2.2)
      (by rw [show _ = journal.entries_per_block from h_released.2.2.2.2.1]; exact h_room)
    have h_eq : assign_entry journal waiter block = journal1 := by
      rw [← e]
      unfold assign_entry
      simp only [h_op]
      rw [if_neg h_state]
    rw [h_eq, if_neg h_state]
    refine ⟨a1.trans ?_, a2.trans h_released.2.1, a3.trans ?_, a4.trans h_released.2.2.2.1,
      a5.trans h_released.2.2.2.2.1, a6⟩
    · exact congrArg (fun x => sub_u64 x 1) h_released.1
    · exact congrArg (fun x => sub_u16 x 1) h_released.2.2.1

theorem counted_and_uncounted (used pending space : Nat) (h_used : used < 2 ^ 64)
    (h_pending : pending < 65536) (h_space : 2 ≤ space) (h_space_max : space < 2 ^ 64) :
    sub_u64 (add_u64 used 1) 1 = used
    ∧ sub_u16 (to_u16 (pending + 1)) 1 = pending
    ∧ sub_u64 (sub_u64 space 1) 1 = space - 2 := by
  have h_pow : (2 : Nat) ^ 64 = 18446744073709551616 := by norm_num
  unfold sub_u64 add_u64 sub_u16 to_u16
  refine ⟨?_, ?_, ?_⟩ <;> omega

/-- C28: `assign_entry` applied to a data increment and then to a data decrement of the
same mapping state, both entries going to a block with room for them, leaves
`logical_blocks_used` and `pending_decrement_count` at their starting values, reduces
`available_space` by exactly 2 and leaves `block_map_data_blocks` unchanged; the block
then carries the increment at the position it had free and the decrement at the next
position, the first before the second. -/
theorem increment_then_decrement_spec (journal : recovery_journal)
    (increment decrement : data_vio) (block : recovery_journal_block)
    (h_increment : increment.operation_type = VDO_JOURNAL_DATA_INCREMENT)
    (h_decrement : decrement.operation_type = VDO_JOURNAL_DATA_DECREMENT)
    (h_state : decrement.operation_state = increment.operation_state)
    (h_block : block_at journal block.id = some block)
    (h_room : journal.entries_per_block ≠ block.entry_count)
    (h_more_room : journal.entries_per_block ≠ block.entry_count + 1)
    (h_used : journal.logical_blocks_used < 2 ^ 64)
    (h_pending : journal.pending_decrement_count < 65536)
    (h_space : 2 ≤ journal.available_space)
    (h_space_max : journal.available_space < 2 ^ 64) :
    ∃ journal1 block1 journal2 block2,
      journal1 = assign_entry journal increment block
      ∧ block_at journal1 block.id = some block1
      ∧ journal2 = assign_entry journal1 decrement block1
      ∧ block_at journal2 block.id = some block2
      ∧ journal2.logical_blocks_used = journal.logical_blocks_used
      ∧ journal2.pending_decrement_count = journal.pending_decrement_count
      ∧ journal2.available_space = journal.available_space - 2
      ∧ journal2.block_map_data_blocks = journal.block_map_data_blocks
      ∧ block2.entry_waiters = block.entry_waiters
          ++ [{ increment with
                recovery_journal_point := ⟨block.sequence_number, block.entry_count⟩ },
              { decrement with
                recovery_journal_point := ⟨block.sequence_number, block.entry_count + 1⟩ }]
      ∧ block2.entry_count = block.entry_count + 2
      ∧ vdo_before_journal_point ⟨block.sequence_number, block.entry_count⟩
          ⟨block.sequence_number, block.entry_count + 1⟩ = true := by
  obtain ⟨a1, a2, a3, a4, a5, a6⟩ :=
    assign_entry_data_increment journal increment block h_increment h_block h_room
  obtain ⟨b1, b2, b3, b4, _, b6⟩ := assign_entry_data_decrement
    (assign_entry journal increment block) decrement
    { block with
      entry_waiters := block.entry_waiters
        ++ [{ increment with
              recovery_journal_point := ⟨block.sequence_number, block.entry_count⟩ }]
      entry_count := block.entry_count + 1
      uncommitted_entry_count := block.uncommitted_entry_count + 1 }
    h_decrement a6 (by rw [a5]; exact h_more_room)
  obtain ⟨c1, c2, c3⟩ := counted_and_uncounted journal.logical_blocks_used
    journal.pending_decrement_count journal.available_space h_used h_pending h_space
    h_space_max
  refine ⟨_, _, _, _, rfl, a6, rfl, b6, ?_, ?_, ?_, ?_, ?_, rfl, ?_⟩
  · rw [b2, a2, h_state]
    split
    · exact c1
    · rfl
  · rw [b3, a3]
    exact c2
  · rw [b1, a1]
    exact c3
  · rw [b4, a4]
  · simp only [List.append_assoc, List.singleton_append]
  · unfold vdo_before_journal_point
    simp

/-- Witness of `increment_then_decrement_spec`: on the sample journal with an empty active
block of three entries, an increment and its decrement take the positions (1, 0) and (1, 1)
and two of the nine entries of space. -/
theorem increment_then_decrement_spec_witness :
    block_at sample_journal_active 0
      = some { sample_block 0 with sequence_number := 1, block_number := 1 }
    ∧ sample_journal_active.available_space = 9
    ∧ ∃ journal1 block1 journal2 block2,
      journal1 = assign_entry sample_journal_active (sample_increment 7)
        { sample_block 0 with sequence_number := 1, block_number := 1 }
      ∧ block_at journal1 0 = some block1
      ∧ journal2 = assign_entry journal1 (sample_decrement 8) block1
      ∧ block_at journal2 0 = some block2
      ∧ journal2.logical_blocks_used = sample_journal_active.logical_blocks_used
      ∧ journal2.pending_decrement_count = sample_journal_active.pending_decrement_count
      ∧ journal2.available_space = sample_journal_active.available_space - 2
      ∧ journal2.block_map_data_blocks = sample_journal_active.block_map_data_blocks
      ∧ block2.entry_waiters = [] ++
          [{ sample_increment 7 with recovery_journal_point := ⟨1, 0⟩ },
            { sample_decrement 8 with recovery_journal_point := ⟨1, 1⟩ }]
      ∧ block2.entry_count = 0 + 2
      ∧ vdo_before_journal_point ⟨1, 0⟩ ⟨1, 0 + 1⟩ = true :=
  ⟨by decide, by decide,
    increment_then_decrement_spec sample_journal_active (sample_increment 7)
      (sample_decrement 8) { sample_block 0 with sequence_number := 1, block_number := 1 }
      rfl rfl rfl (by decide) (by decide) (by decide) (by decide) (by decide) (by decide)
      (by decide)⟩

/-! ### Sequence number zero, flush errors and the scan of the reaper -/

/-- C38: called with sequence number 0, `vdo_acquire_recovery_journal_block_reference`,
`vdo_release_recovery_journal_block_reference` and `vdo_release_journal_entry_lock` return
the journal as it was, for every zone type and zone id: every lock counter, every
aggregate, the decrement counts and the notification state are unchanged and nothing is
added to the outgoing calls. -/
theorem sequence_number_zero_changes_nothing (journal : recovery_journal)
    (zone_type : vdo_zone_type) (zone_id : Nat) :
    vdo_acquire_recovery_journal_block_reference journal 0 zone_type zone_id = journal
    ∧ vdo_release_recovery_journal_block_reference journal 0 zone_type zone_id = journal
    ∧ vdo_release_journal_entry_lock journal 0 = journal
    ∧ (vdo_acquire_recovery_journal_block_reference journal 0 zone_type zone_id).lock_counter
      = journal.lock_counter
    ∧ (vdo_release_recovery_journal_block_reference journal 0 zone_type zone_id).lock_counter
      = journal.lock_counter
    ∧ (vdo_release_journal_entry_lock journal 0).lock_counter = journal.lock_counter
    ∧ (vdo_acquire_recovery_journal_block_reference journal 0 zone_type zone_id).trace
      = journal.trace
    ∧ (vdo_release_recovery_journal_block_reference journal 0 zone_type zone_id).trace
      = journal.trace
    ∧ (vdo_release_journal_entry_lock journal 0).trace = journal.trace := by
  have h_acquire : vdo_acquire_recovery_journal_block_reference journal 0 zone_type zone_id
      = journal := by
    unfold vdo_acquire_recovery_journal_block_reference
    exact if_pos rfl
  have h_release : vdo_release_recovery_journal_block_reference journal 0 zone_type zone_id
      = journal := by
    unfold vdo_release_recovery_journal_block_reference
    exact if_pos rfl
  have h_entry : vdo_release_journal_entry_lock journal 0 = journal := by
    unfold vdo_release_journal_entry_lock
    exact if_pos rfl
  rw [h_acquire, h_release, h_entry]
  exact ⟨rfl, rfl, rfl, rfl, rfl, rfl, rfl, rfl, rfl⟩

/-- What `reap_recovery_journal` can change: the reap heads with their ring indexes, the
reaping flag and the outgoing calls. -/
theorem reap_recovery_journal_frame (journal : recovery_journal) :
    ∃ head1 number1 head2 number2 reaping events,
      reap_recovery_journal journal
        = { journal with
            block_map_reap_head := head1
            block_map_head_block_number := number1
            slab_journal_reap_head := head2
            slab_journal_head_block_number := number2
            reaping := reaping
            trace := events }
      ∧ journal.block_map_reap_head ≤ head1
      ∧ journal.slab_journal_reap_head ≤ head2 := by
  unfold reap_recovery_journal
  split
  · exact ⟨_, _, _, _, _, _, rfl, le_refl _, le_refl _⟩
  · split
    · exact ⟨_, _, _, _, _, _, rfl, le_refl _, le_refl _⟩
    · obtain ⟨head1, number1, e1, le1, _⟩ := reap_block_map_head_bounds
        (journal.last_write_acknowledged - journal.block_map_reap_head) journal
      simp only
      rw [e1]
      obtain ⟨head2, number2, e2, le2, _⟩ := reap_slab_journal_head_bounds
        (journal.last_write_acknowledged - journal.slab_journal_reap_head)
        { journal with block_map_reap_head := head1, block_map_head_block_number := number1 }
      simp only at e2 ⊢
      rw [e2]
      split
      · exact ⟨head1, number1, head2, number2, journal.reaping, journal.trace, rfl, le1, le2⟩
      · exact ⟨head1, number1, head2, number2, true, journal.trace ++ [Event.submit_flush],
          rfl, le1, le2⟩

theorem reap_block_map_head_stops (fuel : Nat) (journal : recovery_journal)
    (h : journal.last_write_acknowledged - journal.block_map_reap_head ≤ fuel) :
    ¬ ((reap_block_map_head fuel journal).block_map_reap_head
          < (reap_block_map_head fuel journal).last_write_acknowledged
        ∧ (!is_lock_locked (reap_block_map_head fuel journal)
            (reap_block_map_head fuel journal).block_map_head_block_number
            VDO_ZONE_TYPE_LOGICAL) = true)
    ∧ reap_block_map_head (fuel + 1) journal = reap_block_map_head fuel journal := by
  induction fuel generalizing journal with
  | zero =>
    have h_done : ¬ (journal.block_map_reap_head < journal.last_write_acknowledged
        ∧ (!is_lock_locked journal journal.block_map_head_block_number
            VDO_ZONE_TYPE_LOGICAL) = true) := fun h_step => by omega
    refine ⟨h_done, ?_⟩
    unfold reap_block_map_head
    rw [if_neg h_done]
  | succ fuel ih =>
    by_cases h_step : journal.block_map_reap_head < journal.last_write_acknowledged
        ∧ (!is_lock_locked journal journal.block_map_head_block_number
            VDO_ZONE_TYPE_LOGICAL) = true
    · have h_next := ih
        { journal with
          block_map_reap_head := journal.block_map_reap_head + 1
          block_map_head_block_number :=
            if journal.block_map_head_block_number + 1 = journal.size then 0
            else journal.block_map_head_block_number + 1 }
        (by simp only; omega)
      have e : ∀ n, reap_block_map_head (n + 1) journal
          = reap_block_map_head n
              { journal with
                block_map_reap_head := journal.block_map_reap_head + 1
                block_map_head_block_number :=
                  if journal.block_map_head_block_number + 1 = journal.size then 0
                  else journal.block_map_head_block_number + 1 } := by
        intro n
        conv => lhs; unfold reap_block_map_head
        rw [if_pos h_step]
      rw [e (fuel + 1), e fuel]
      exact h_next
    · have e : ∀ n, reap_block_map_head (n + 1) journal = journal := by
        intro n
        conv => lhs; unfold reap_block_map_head
        rw [if_neg h_step]
      rw [e (fuel + 1), e fuel]
      exact ⟨h_step, rfl⟩

theorem reap_slab_journal_head_stops (fuel : Nat) (journal : recovery_journal)
    (h : journal.last_write_acknowledged - journal.slab_journal_reap_head ≤ fuel) :
    ¬ ((reap_slab_journal_head fuel journal).slab_journal_reap_head
          < (reap_slab_journal_head fuel journal).last_write_acknowledged
        ∧ (!is_lock_locked (reap_slab_journal_head fuel journal)
            (reap_slab_journal_head fuel journal).slab_journal_head_block_number
            VDO_ZONE_TYPE_PHYSICAL) = true)
    ∧ reap_slab_journal_head (fuel + 1) journal = reap_slab_journal_head fuel journal := by
  induction fuel generalizing journal with
  | zero =>
    have h_done : ¬ (journal.slab_journal_reap_head < journal.last_write_acknowledged
        ∧ (!is_lock_locked journal journal.slab_journal_head_block_number
            VDO_ZONE_TYPE_PHYSICAL) = true) := fun h_step => by omega
    refine ⟨h_done, ?_⟩
    unfold reap_slab_journal_head
    rw [if_neg h_done]
  | succ fuel ih =>
    by_cases h_step : journal.slab_journal_reap_head < journal.last_write_acknowledged
        ∧ (!is_lock_locked journal journal.slab_journal_head_block_number
            VDO_ZONE_TYPE_PHYSICAL) = true
    · have h_next := ih
        { journal with
          slab_journal_reap_head := journal.slab_journal_reap_head + 1
          slab_journal_head_block_number :=
            if journal.slab_journal_head_block_number + 1 = journal.size then 0
            else journal.slab_journal_head_block_number + 1 }
        (by simp only; omega)
      have e : ∀ n, reap_slab_journal_head (n + 1) journal
          = reap_slab_journal_head n
              { journal with
                slab_journal_reap_head := journal.slab_journal_reap_head + 1
                slab_journal_head_block_number :=
                  if journal.slab_journal_head_block_number + 1 = journal.size then 0
                  else journal.slab_journal_head_block_number + 1 } := by
        intro n
        conv => lhs; unfold reap_slab_journal_head
        rw [if_pos h_step]
      rw [e (fuel + 1), e fuel]
      exact h_next
    · have e : ∀ n, reap_slab_journal_head (n + 1) journal = journal := by
        intro n
        conv => lhs; unfold reap_slab_journal_head
        rw [if_neg h_step]
      rw [e (fuel + 1), e fuel]
      exact ⟨h_step, rfl⟩

theorem reap_block_map_head_fuel (journal : recovery_journal) (extra : Nat) :
    reap_block_map_head
        (journal.last_write_acknowledged - journal.block_map_reap_head + extra) journal
      = reap_block_map_head (journal.last_write_acknowledged - journal.block_map_reap_head)
          journal := by
  induction extra with
  | zero => rfl
  | succ extra ih =>
    rw [← Nat.add_assoc, (reap_block_map_head_stops _ journal (Nat.le_add_right _ _)).2, ih]

theorem reap_slab_journal_head_fuel (journal : recovery_journal) (extra : Nat) :
    reap_slab_journal_head
        (journal.last_write_acknowledged - journal.slab_journal_reap_head + extra) journal
      = reap_slab_journal_head
          (journal.last_write_acknowledged - journal.slab_journal_reap_head) journal := by
  induction extra with
  | zero => rfl
  | succ extra ih =>
    rw [← Nat.add_assoc, (reap_slab_journal_head_stops _ journal (Nat.le_add_right _ _)).2, ih]

/-- The first loop of the reaper given `fuel` iterations makes some `n ≤ fuel` of them, each
moving the reap head on by one. -/
theorem reap_block_map_head_iterations (fuel : Nat) (journal : recovery_journal) :
    ∃ n, n ≤ fuel
      ∧ reap_block_map_head fuel journal = reap_block_map_head n journal
      ∧ (reap_block_map_head n journal).block_map_reap_head
        = journal.block_map_reap_head + n := by
  induction fuel generalizing journal with
  | zero => exact ⟨0, le_refl _, rfl, rfl⟩
  | succ fuel ih =>
    by_cases h_step : journal.block_map_reap_head < journal.last_write_acknowledged
        ∧ (!is_lock_locked journal journal.block_map_head_block_number
            VDO_ZONE_TYPE_LOGICAL) = true
    · obtain ⟨n, h_le, e, h_head⟩ := ih
        { journal with
          block_map_reap_head := journal.block_map_reap_head + 1
          block_map_head_block_number :=
            if journal.block_map_head_block_number + 1 = journal.size then 0
            else journal.block_map_head_block_number + 1 }
      have e_step : ∀ m, reap_block_map_head (m + 1) journal
          = reap_block_map_head m
              { journal with
                block_map_reap_head := journal.block_map_reap_head + 1
                block_map_head_block_number :=
                  if journal.block_map_head_block_number + 1 = journal.size then 0
                  else journal.block_map_head_block_number + 1 } := by
        intro m
        conv => lhs; unfold reap_block_map_head
        rw [if_pos h_step]
      refine ⟨n + 1, by omega, ?_, ?_⟩
      · rw [e_step fuel, e_step n, e]
      · rw [e_step n, h_head]
        simp only
        omega
    · refine ⟨0, Nat.zero_le _, ?_, rfl⟩
      conv => lhs; unfold reap_block_map_head
      rw [if_neg h_step]
      rfl

/-- The second loop of the reaper given `fuel` iterations makes some `n ≤ fuel` of them,
each moving the reap head on by one. -/
theorem reap_slab_journal_head_iterations (fuel : Nat) (journal : recovery_journal) :
    ∃ n, n ≤ fuel
      ∧ reap_slab_journal_head fuel journal = reap_slab_journal_head n journal
      ∧ (reap_slab_journal_head n journal).slab_journal_reap_head
        = journal.slab_journal_reap_head + n := by
  induction fuel generalizing journal with
  | zero => exact ⟨0, le_refl _, rfl, rfl⟩
  | succ fuel ih =>
    by_cases h_step : journal.slab_journal_reap_head < journal.last_write_acknowledged
        ∧ (!is_lock_locked journal journal.slab_journal_head_block_number
            VDO_ZONE_TYPE_PHYSICAL) = true
    · obtain ⟨n, h_le, e, h_head⟩ := ih
        { journal with
          slab_journal_reap_head := journal.slab_journal_reap_head + 1
          slab_journal_head_block_number :=
            if journal.slab_journal_head_block_number + 1 = journal.size then 0
            else journal.slab_journal_head_block_number + 1 }
      have e_step : ∀ m, reap_slab_journal_head (m + 1) journal
          = reap_slab_journal_head m
              { journal with
                slab_journal_reap_head := journal.slab_journal_reap_head + 1
                slab_journal_head_block_number :=
                  if journal.slab_journal_head_block_number + 1 = journal.size then 0
                  else journal.slab_journal_head_block_number + 1 } := by
        intro m
        conv => lhs; unfold reap_slab_journal_head
        rw [if_pos h_step]
      refine ⟨n + 1, by omega, ?_, ?_⟩
      · rw [e_step fuel, e_step n, e]
      · rw [e_step n, h_head]
        simp only
        omega
    · refine ⟨0, Nat.zero_le _, ?_, rfl⟩
      conv => lhs; unfold reap_slab_journal_head
      rw [if_neg h_step]
      rfl

/-- C40: for a journal with both reap heads at most `last_write_acknowledged`, each scan
loop of `reap_recovery_journal` makes some n iterations, n at most
`last_write_acknowledged` less its reap head, after which its condition is false (more
iterations allowed change nothing), and raises its reap head by n, to at most
`last_write_acknowledged`; the call never lowers a reap head; a journal that is already reaping or is quiescent is returned as it is; and
otherwise `reaping` is set, with the flush submitted, exactly when after the scan a reap
head differs from its head. -/
theorem reap_recovery_journal_terminates (journal : recovery_journal)
    (h_block_map : journal.block_map_reap_head ≤ journal.last_write_acknowledged)
    (h_slab : journal.slab_journal_reap_head ≤ journal.last_write_acknowledged) :
    (∃ n, n ≤ journal.last_write_acknowledged - journal.block_map_reap_head
      ∧ (∀ extra, reap_block_map_head
            (journal.last_write_acknowledged - journal.block_map_reap_head + extra) journal
          = reap_block_map_head n journal)
      ∧ (reap_block_map_head n journal).block_map_reap_head
          = journal.block_map_reap_head + n
      ∧ journal.block_map_reap_head + n ≤ journal.last_write_acknowledged
      ∧ ¬ ((reap_block_map_head n journal).block_map_reap_head
            < (reap_block_map_head n journal).last_write_acknowledged
          ∧ is_lock_locked (reap_block_map_head n journal)
              (reap_block_map_head n journal).block_map_head_block_number
              VDO_ZONE_TYPE_LOGICAL = false))
    ∧ (∃ n, n ≤ journal.last_write_acknowledged - journal.slab_journal_reap_head
      ∧ (∀ extra, reap_slab_journal_head
            (journal.last_write_acknowledged - journal.slab_journal_reap_head + extra) journal
          = reap_slab_journal_head n journal)
      ∧ (reap_slab_journal_head n journal).slab_journal_reap_head
          = journal.slab_journal_reap_head + n
      ∧ journal.slab_journal_reap_head + n ≤ journal.last_write_acknowledged
      ∧ ¬ ((reap_slab_journal_head n journal).slab_journal_reap_head
            < (reap_slab_journal_head n journal).last_write_acknowledged
          ∧ is_lock_locked (reap_slab_journal_head n journal)
              (reap_slab_journal_head n journal).slab_journal_head_block_number
              VDO_ZONE_TYPE_PHYSICAL = false))
    ∧ journal.block_map_reap_head ≤ (reap_recovery_journal journal).block_map_reap_head
    ∧ journal.slab_journal_reap_head ≤ (reap_recovery_journal journal).slab_journal_reap_head
    ∧ (journal.reaping = true ∨ vdo_is_state_quiescent journal.state = true →
        reap_recovery_journal journal = journal)
    ∧ (journal.reaping = false → vdo_is_state_quiescent journal.state = false →
        ((reap_recovery_journal journal).reaping = true
          ↔ ¬ ((reap_recovery_journal journal).block_map_reap_head
                = (reap_recovery_journal journal).block_map_head
              ∧ (reap_recovery_journal journal).slab_journal_reap_head
                = (reap_recovery_journal journal).slab_journal_head))
        ∧ ((reap_recovery_journal journal).reaping = true →
            (reap_recovery_journal journal).trace = journal.trace ++ [Event.submit_flush])
        ∧ ((reap_recovery_journal journal).reaping = false →
            (reap_recovery_journal journal).trace = journal.trace)) := by
  refine ⟨?_, ?_, ?_, ?_, ?_, ?_⟩
  · obtain ⟨n, h_le, e, h_head⟩ := reap_block_map_head_iterations
      (journal.last_write_acknowledged - journal.block_map_reap_head) journal
    have h_stop := (reap_block_map_head_stops
      (journal.last_write_acknowledged - journal.block_map_reap_head) journal (le_refl _)).1
    rw [e] at h_stop
    refine ⟨n, h_le, fun extra => by rw [reap_block_map_head_fuel, e], h_head,
      by omega, ?_⟩
    intro h_step
    exact h_stop ⟨h_step.1, by rw [h_step.2]; rfl⟩
  · obtain ⟨n, h_le, e, h_head⟩ := reap_slab_journal_head_iterations
      (journal.last_write_acknowledged - journal.slab_journal_reap_head) journal
    have h_stop := (reap_slab_journal_head_stops
      (journal.last_write_acknowledged - journal.slab_journal_reap_head) journal (le_refl _)).1
    rw [e] at h_stop
    refine ⟨n, h_le, fun extra => by rw [reap_slab_journal_head_fuel, e], h_head,
      by omega, ?_⟩
    intro h_step
    exact h_stop ⟨h_step.1, by rw [h_step.2]; rfl⟩
  · obtain ⟨_, _, _, _, _, _, e, le1, _⟩ := reap_recovery_journal_frame journal
    rw [e]
    exact le1
  · obtain ⟨_, _, _, _, _, _, e, _, le2⟩ := reap_recovery_journal_frame journal
    rw [e]
    exact le2
  · intro h_idle
    unfold reap_recovery_journal
    rcases h_idle with h_reaping | h_quiescent
    · rw [if_pos (by exact h_reaping)]
    · by_cases h_reaping : journal.reaping = true
      · rw [if_pos (by exact h_reaping)]
      · rw [if_neg (by exact h_reaping), if_pos h_quiescent]
  · intro h_reaping h_quiescent
    unfold reap_recovery_journal
    rw [if_neg (by rw [h_reaping]; decide), if_neg (by rw [h_quiescent]; decide)]
    obtain ⟨head1, number1, e1, _, _⟩ := reap_block_map_head_bounds
      (journal.last_write_acknowledged - journal.block_map_reap_head) journal
    simp only
    rw [e1]
    obtain ⟨head2, number2, e2, _, _⟩ := reap_slab_journal_head_bounds
      (journal.last_write_acknowledged - journal.slab_journal_reap_head)
      { journal with block_map_reap_head := head1, block_map_head_block_number := number1 }
    simp only at e2 ⊢
    rw [e2]
    by_cases h_same : head1 = journal.block_map_head ∧ head2 = journal.slab_journal_head
    · rw [if_pos h_same]
      have h_flag : ∀ h : journal.reaping = true, False := fun h => by
        rw [h_reaping] at h
        cases h
      exact ⟨⟨fun h => (h_flag h).elim, fun h => absurd h_same h⟩,
        fun h => (h_flag h).elim, fun _ => rfl⟩
    · rw [if_neg h_same]
      exact ⟨⟨fun _ => h_same, fun _ => rfl⟩, fun _ => rfl, fun h => by cases h⟩

/-- Witness of `reap_recovery_journal_terminates`: in the sample journal with last
acknowledged block 3 and both reap heads at 1 the scan sets reaping and submits the
flush. -/
theorem reap_recovery_journal_terminates_witness :
    sample_journal_to_reap.block_map_reap_head ≤ sample_journal_to_reap.last_write_acknowledged
    ∧ (reap_recovery_journal sample_journal_to_reap).reaping = true
    ∧ (reap_recovery_journal sample_journal_to_reap).trace
      = sample_journal_to_reap.trace ++ [Event.submit_flush]
    ∧ sample_journal_to_reap.block_map_reap_head
      ≤ (reap_recovery_journal sample_journal_to_reap).block_map_reap_head :=
  ⟨by decide, by decide,
    ((reap_recovery_journal_terminates sample_journal_to_reap (by decide)
      (by decide)).2.2.2.2.2 (by decide) (by decide)).2.1 (by decide),
    (reap_recovery_journal_terminates sample_journal_to_reap (by decide) (by decide)).2.2.1⟩

/-- C37: after `initialize_journal_state` each ring index is the block number of its reap
head (the reap head modulo the size); and when that holds of a journal it holds after
`reap_recovery_journal` and after any number of iterations of either scan loop, so the
lock a loop tests is the lock of the block at its reap head. -/
theorem reap_head_block_numbers_exact (journal : recovery_journal) :
    (initialize_journal_state journal).block_map_head_block_number
      = (initialize_journal_state journal).block_map_reap_head
        % (initialize_journal_state journal).size
    ∧ (initialize_journal_state journal).slab_journal_head_block_number
      = (initialize_journal_state journal).slab_journal_reap_head
        % (initialize_journal_state journal).size
    ∧ (journal.block_map_head_block_number = journal.block_map_reap_head % journal.size →
        journal.slab_journal_head_block_number
          = journal.slab_journal_reap_head % journal.size →
        (reap_recovery_journal journal).block_map_head_block_number
          = (reap_recovery_journal journal).block_map_reap_head
            % (reap_recovery_journal journal).size
        ∧ (reap_recovery_journal journal).slab_journal_head_block_number
          = (reap_recovery_journal journal).slab_journal_reap_head
            % (reap_recovery_journal journal).size
        ∧ (∀ fuel, (reap_block_map_head fuel journal).block_map_head_block_number
            = vdo_get_recovery_journal_block_number (reap_block_map_head fuel journal)
                (reap_block_map_head fuel journal).block_map_reap_head)
        ∧ (∀ fuel, (reap_slab_journal_head fuel journal).slab_journal_head_block_number
            = vdo_get_recovery_journal_block_number (reap_slab_journal_head fuel journal)
                (reap_slab_journal_head fuel journal).slab_journal_reap_head)) := by
  refine ⟨rfl, rfl, ?_⟩
  intro h_block_map h_slab
  refine ⟨?_, ?_, ?_, ?_⟩
  · unfold reap_recovery_journal
    split
    · exact h_block_map
    · split
      · exact h_block_map
      · obtain ⟨head1, e1, _, _, _⟩ := reap_block_map_head_spec
          (journal.last_write_acknowledged - journal.block_map_reap_head) journal h_block_map
        simp only
        rw [e1]
        obtain ⟨head2, e2, _, _, _⟩ := reap_slab_journal_head_spec
          (journal.last_write_acknowledged - journal.slab_journal_reap_head)
          { journal with
            block_map_reap_head := head1
            block_map_head_block_number := head1 % journal.size } h_slab
        simp only at e2 ⊢
        rw [e2]
        split <;> rfl
  · unfold reap_recovery_journal
    split
    · exact h_slab
    · split
      · exact h_slab
      · obtain ⟨head1, e1, _, _, _⟩ := reap_block_map_head_spec
          (journal.last_write_acknowledged - journal.block_map_reap_head) journal h_block_map
        simp only
        rw [e1]
        obtain ⟨head2, e2, _, _, _⟩ := reap_slab_journal_head_spec
          (journal.last_write_acknowledged - journal.slab_journal_reap_head)
          { journal with
            block_map_reap_head := head1
            block_map_head_block_number := head1 % journal.size } h_slab
        simp only at e2 ⊢
        rw [e2]
        split <;> rfl
  · intro fuel
    obtain ⟨head, e, _, _, _⟩ := reap_block_map_head_spec fuel journal h_block_map
    rw [e]
    rfl
  · intro fuel
    obtain ⟨head, e, _, _, _⟩ := reap_slab_journal_head_spec fuel journal h_slab
    rw [e]
    rfl

/-- Witness of `reap_head_block_numbers_exact`: the sample journal of four blocks, reaped
with last acknowledged block 3, has its block map ring index at 2 and its slab journal
ring index at 3. -/
theorem reap_head_block_numbers_exact_witness :
    (reap_recovery_journal sample_journal_to_reap).block_map_head_block_number
      = (reap_recovery_journal sample_journal_to_reap).block_map_reap_head
        % (reap_recovery_journal sample_journal_to_reap).size
    ∧ (reap_recovery_journal sample_journal_to_reap).block_map_head_block_number = 2
    ∧ (reap_recovery_journal sample_journal_to_reap).slab_journal_head_block_number = 3 :=
  ⟨((reap_head_block_numbers_exact sample_journal_to_reap).2.2 (by decide) (by decide)).1,
    by decide, by decide⟩

/-! ### Exact lock accounting -/

theorem recovery_count_byte_eq (recovery_count : Nat) :
    compute_recovery_count_byte recovery_count = recovery_count % 256 := by
  unfold compute_recovery_count_byte RECOVERY_COUNT_MASK
  have h := Nat.and_pow_two_sub_one_eq_mod recovery_count 8
  have h_mask : (2 : Nat) ^ 8 - 1 = 0xff := by norm_num
  have h_pow : (2 : Nat) ^ 8 = 256 := by norm_num
  rw [h_mask, h_pow] at h
  rw [h, Nat.mod_mod]

/-- C35: after `initialize_journal_state` the sequence number of the append point, the last
acknowledged write, both heads and both reap heads equal the tail, both ring indexes equal
the tail modulo the size, and `available_space` is `entries_per_block` times
`vdo_get_recovery_journal_length(size)` (for a product that fits 64 bits);
`vdo_initialize_recovery_journal_post_recovery(journal, recovery_count, t)` establishes
this state with tail t + 1 (for t + 1 below 2^64) and stores the byte
`recovery_count & 0xff`, which is `recovery_count` modulo 256. -/
theorem initialize_journal_state_spec (journal : recovery_journal) (recovery_count t : Nat)
    (h_fits : journal.entries_per_block * vdo_get_recovery_journal_length journal.size
      < 2 ^ 64)
    (h_tail : t + 1 < 2 ^ 64) :
    ((initialize_journal_state journal).tail = journal.tail
      ∧ (initialize_journal_state journal).append_point.sequence_number = journal.tail
      ∧ (initialize_journal_state journal).last_write_acknowledged = journal.tail
      ∧ (initialize_journal_state journal).block_map_head = journal.tail
      ∧ (initialize_journal_state journal).slab_journal_head = journal.tail
      ∧ (initialize_journal_state journal).block_map_reap_head = journal.tail
      ∧ (initialize_journal_state journal).slab_journal_reap_head = journal.tail
      ∧ (initialize_journal_state journal).block_map_head_block_number
        = journal.tail % journal.size
      ∧ (initialize_journal_state journal).slab_journal_head_block_number
        = journal.tail % journal.size
      ∧ (initialize_journal_state journal).available_space
        = journal.entries_per_block * vdo_get_recovery_journal_length journal.size)
    ∧ ((vdo_initialize_recovery_journal_post_recovery journal recovery_count t).1.tail = t + 1
      ∧ (vdo_initialize_recovery_journal_post_recovery journal recovery_count
          t).1.append_point.sequence_number = t + 1
      ∧ (vdo_initialize_recovery_journal_post_recovery journal recovery_count
          t).1.last_write_acknowledged = t + 1
      ∧ (vdo_initialize_recovery_journal_post_recovery journal recovery_count
          t).1.block_map_head = t + 1
      ∧ (vdo_initialize_recovery_journal_post_recovery journal recovery_count
          t).1.slab_journal_head = t + 1
      ∧ (vdo_initialize_recovery_journal_post_recovery journal recovery_count
          t).1.block_map_reap_head = t + 1
      ∧ (vdo_initialize_recovery_journal_post_recovery journal recovery_count
          t).1.slab_journal_reap_head = t + 1
      ∧ (vdo_initialize_recovery_journal_post_recovery journal recovery_count
          t).1.block_map_head_block_number = (t + 1) % journal.size
      ∧ (vdo_initialize_recovery_journal_post_recovery journal recovery_count
          t).1.slab_journal_head_block_number = (t + 1) % journal.size
      ∧ (vdo_initialize_recovery_journal_post_recovery journal recovery_count
          t).1.available_space
        = journal.entries_per_block * vdo_get_recovery_journal_length journal.size
      ∧ (vdo_initialize_recovery_journal_post_recovery journal recovery_count t).2
        = recovery_count % 256
      ∧ (vdo_initialize_recovery_journal_post_recovery journal recovery_count t).2
        = recovery_count &&& 0xff) := by
  have h_pow : (2 : Nat) ^ 64 = 18446744073709551616 := by norm_num
  have h_space : ∀ j : recovery_journal,
      j.entries_per_block = journal.entries_per_block → j.size = journal.size →
      (initialize_journal_state j).available_space
        = journal.entries_per_block * vdo_get_recovery_journal_length journal.size := by
    intro j h_entries h_size
    show mul_u64 j.entries_per_block (vdo_get_recovery_journal_length j.size) = _
    unfold mul_u64
    rw [h_entries, h_size]
    exact Nat.mod_eq_of_lt (by omega)
  refine ⟨⟨rfl, rfl, rfl, rfl, rfl, rfl, rfl, rfl, rfl, h_space journal rfl rfl⟩, ?_⟩
  have h_next : add_u64 t 1 = t + 1 := by
    unfold add_u64
    exact Nat.mod_eq_of_lt (by omega)
  obtain ⟨a, f, ab, c, cp, inc, dec, st, ro, s, e⟩ :=
    set_journal_tail_frame journal (add_u64 t 1)
  have h_byte := recovery_count_byte_eq recovery_count
  have h_mask : recovery_count % 256 = recovery_count &&& 0xff := by
    have h := Nat.and_pow_two_sub_one_eq_mod recovery_count 8
    have h_m : (2 : Nat) ^ 8 - 1 = 0xff := by norm_num
    have h_p : (2 : Nat) ^ 8 = 256 := by norm_num
    rw [h_m, h_p] at h
    exact h.symm
  unfold vdo_initialize_recovery_journal_post_recovery
  simp only
  rw [e, h_next]
  refine ⟨rfl, rfl, rfl, rfl, rfl, rfl, rfl, rfl, rfl, h_space _ rfl rfl, h_byte,
    h_byte.trans h_mask⟩

/-- Witness of `initialize_journal_state_spec`: the sample journal of four blocks of three
entries, initialised after a recovery that ended at block 5 with 258 recoveries completed,
has its tail at 6, nine entries of space and the recovery count byte 2. -/
theorem initialize_journal_state_spec_witness :
    (vdo_initialize_recovery_journal_post_recovery sample_journal 258 5).1.tail = 5 + 1
    ∧ (vdo_initialize_recovery_journal_post_recovery sample_journal 258
        5).1.block_map_head_block_number = 2
    ∧ (vdo_initialize_recovery_journal_post_recovery sample_journal 258 5).1.available_space
      = 9
    ∧ (vdo_initialize_recovery_journal_post_recovery sample_journal 258 5).2 = 2 :=
  ⟨(initialize_journal_state_spec sample_journal 258 5 (by decide) (by decide)).2.1,
    by decide, by decide,
    (initialize_journal_state_spec sample_journal 258 5 (by decide)
      (by decide)).2.2.2.2.2.2.2.2.2.2.2.1.trans (by decide)⟩

/-- C34: the tail handed back by `vdo_find_recovery_journal_head_and_tail` is never below
the tail of the journal: it is the largest of that tail and the sequence numbers of the
congruent blocks; when the function returns false the tail handed back is the tail of the
journal and neither head is stored. The journal is an argument the function only reads,
and of it only the tail and the size. -/
theorem find_head_and_tail_outputs (journal : recovery_journal)
    (valid : recovery_block_header → Bool) (journal_data : Nat → recovery_block_header)
    (slab_journal_head_requested : Bool) :
    journal.tail ≤ (vdo_find_recovery_journal_head_and_tail journal valid journal_data
        slab_journal_head_requested).tail
    ∧ (∀ i, i < journal.size →
        is_congruent_recovery_journal_block journal valid (journal_data i) i = true →
        (journal_data i).sequence_number
          ≤ (vdo_find_recovery_journal_head_and_tail journal valid journal_data
              slab_journal_head_requested).tail)
    ∧ ((vdo_find_recovery_journal_head_and_tail journal valid journal_data
          slab_journal_head_requested).tail = journal.tail
      ∨ ∃ i, i < journal.size
          ∧ is_congruent_recovery_journal_block journal valid (journal_data i) i = true
          ∧ (journal_data i).sequence_number
            = (vdo_find_recovery_journal_head_and_tail journal valid journal_data
                slab_journal_head_requested).tail)
    ∧ ((vdo_find_recovery_journal_head_and_tail journal valid journal_data
          slab_journal_head_requested).found_entries = false →
        (vdo_find_recovery_journal_head_and_tail journal valid journal_data
          slab_journal_head_requested).tail = journal.tail
        ∧ (vdo_find_recovery_journal_head_and_tail journal valid journal_data
          slab_journal_head_requested).block_map_head = none
        ∧ (vdo_find_recovery_journal_head_and_tail journal valid journal_data
          slab_journal_head_requested).slab_journal_head = none)
    ∧ (∀ other : recovery_journal, other.tail = journal.tail → other.size = journal.size →
        vdo_find_recovery_journal_head_and_tail other valid journal_data
            slab_journal_head_requested
          = vdo_find_recovery_journal_head_and_tail journal valid journal_data
            slab_journal_head_requested) := by
  obtain ⟨h1, h2, h3⟩ := find_head_and_tail_tail_bounds journal valid journal_data
    slab_journal_head_requested
  refine ⟨h1, h2, h3, ?_, ?_⟩
  · intro h_none
    refine ⟨?_, ?_, ?_⟩
    · rcases h3 with h3 | ⟨i, hi, h_i, h_seq⟩
      · exact h3
      · have h_found := (find_head_and_tail_found_cases journal valid journal_data
          slab_journal_head_requested).mpr ⟨i, hi, h_i, by rw [h_seq]; exact h1⟩
        rw [h_none] at h_found
        cases h_found
    · unfold vdo_find_recovery_journal_head_and_tail at h_none ⊢
      simp only at h_none ⊢
      split
      · rfl
      · rename_i h_found
        rw [if_neg h_found] at h_none
        cases h_none
    · unfold vdo_find_recovery_journal_head_and_tail at h_none ⊢
      simp only at h_none ⊢
      split
      · rfl
      · rename_i h_found
        rw [if_neg h_found] at h_none
        cases h_none
  · intro other h_tail h_size
    have h_step : scan_recovery_journal_block other valid journal_data
        = scan_recovery_journal_block journal valid journal_data := by
      funext scan i
      unfold scan_recovery_journal_block is_congruent_recovery_journal_block
        vdo_get_recovery_journal_block_number
      rw [h_size]
    unfold vdo_find_recovery_journal_head_and_tail
    rw [h_step, h_tail, h_size]

/-- Witness of `find_head_and_tail_outputs`: with the journal's tail at 2 and one congruent
block of sequence number 1 the function returns false, hands back the tail 2 and stores no
head. -/
theorem find_head_and_tail_outputs_witness :
    (vdo_find_recovery_journal_head_and_tail { sample_journal with tail := 2 } sample_valid
        sample_journal_data_old true).found_entries = false
    ∧ (vdo_find_recovery_journal_head_and_tail { sample_journal with tail := 2 } sample_valid
        sample_journal_data_old true).tail = 2
    ∧ (vdo_find_recovery_journal_head_and_tail { sample_journal with tail := 2 } sample_valid
        sample_journal_data_old true).block_map_head = none
    ∧ (vdo_find_recovery_journal_head_and_tail { sample_journal with tail := 2 } sample_valid
        sample_journal_data_old true).slab_journal_head = none :=
  ⟨by decide,
    (find_head_and_tail_outputs { sample_journal with tail := 2 } sample_valid
      sample_journal_data_old true).2.2.2.1 (by decide)⟩

/-! ### The counters of an assignment -/

theorem accounts_kept_trans (journal journal1 journal2 : recovery_journal)
    (h1 : accounts_kept journal journal1) (h2 : accounts_kept journal1 journal2) :
    accounts_kept journal journal2 :=
  ⟨h2.1.trans h1.1, h2.2.1.trans h1.2.1, h2.2.2.1.trans h1.2.2.1, h2.2.2.2.trans h1.2.2.2⟩

theorem accounts_kept_of_counts (journal journal1 : recovery_journal)
    (h : counts_kept journal journal1) : accounts_kept journal journal1 :=
  ⟨h.1, h.2.1, h.2.2.2.1, h.2.2.1⟩

theorem enter_journal_read_only_mode_accounts_kept (journal : recovery_journal)
    (error_code : vdo_status) :
    accounts_kept journal (enter_journal_read_only_mode journal error_code) := by
  unfold enter_journal_read_only_mode
  obtain ⟨a, f, ab, c, cp, inc, dec, st, suffix, h⟩ := check_for_drain_complete_frame
    (vdo_enter_read_only_mode journal error_code)
  rw [h]
  exact ⟨rfl, rfl, rfl, rfl⟩

theorem continue_waiter_accounts_kept (result : vdo_status) (journal : recovery_journal)
    (waiter : data_vio) : accounts_kept journal (continue_waiter result journal waiter) :=
  ⟨rfl, rfl, rfl, rfl⟩

/-- The second half of `assign_entry`, whether the block takes the entry or rejects it,
leaves the four counters alone. -/
theorem assign_entry_enqueue_accounts (journal : recovery_journal) (stamped : data_vio)
    (block : recovery_journal_block) :
    ∃ journal1,
      (if (vdo_enqueue_recovery_block_entry journal block stamped).1 ≠ VDO_SUCCESS then
        continue_waiter (vdo_enqueue_recovery_block_entry journal block stamped).1
          (enter_journal_read_only_mode (vdo_enqueue_recovery_block_entry journal block stamped).2
            (vdo_enqueue_recovery_block_entry journal block stamped).1) stamped
      else
        check_slab_journal_commit_threshold
          (match block_at (vdo_enqueue_recovery_block_entry journal block stamped).2 block.id with
          | some current =>
            if is_block_full (vdo_enqueue_recovery_block_entry journal block stamped).2
                (some current) then
              schedule_block_write (vdo_enqueue_recovery_block_entry journal block stamped).2
                current
            else (vdo_enqueue_recovery_block_entry journal block stamped).2
          | none => (vdo_enqueue_recovery_block_entry journal block stamped).2)) = journal1
      ∧ accounts_kept journal journal1 := by
  refine ⟨_, rfl, ?_⟩
  have h_enqueued : accounts_kept journal
      (vdo_enqueue_recovery_block_entry journal block stamped).2 := by
    unfold vdo_enqueue_recovery_block_entry
    split
    · exact ⟨rfl, rfl, rfl, rfl⟩
    · obtain ⟨active, free, e⟩ := update_block_frame journal block.id
        (fun b =>
          { b with
            entry_waiters := b.entry_waiters ++ [stamped]
            entry_count := b.entry_count + 1
            uncommitted_entry_count := b.uncommitted_entry_count + 1 })
      simp only
      rw [e]
      exact ⟨rfl, rfl, rfl, rfl⟩
  split
  · exact accounts_kept_trans _ _ _ h_enqueued
      (accounts_kept_trans _ _ _ (enter_journal_read_only_mode_accounts_kept _ _)
        (continue_waiter_accounts_kept _ _ _))
  · refine accounts_kept_trans _ _ _ ?_
      (accounts_kept_of_counts _ _ (check_slab_journal_commit_threshold_counts_kept _))
    split
    · split
      · exact accounts_kept_trans _ _ _ h_enqueued
          (accounts_kept_of_counts _ _ (schedule_block_write_counts_kept _ _))
      · exact h_enqueued
    · exact h_enqueued

/-- The counters after `assign_entry`, for each operation and whether or not the block takes
the entry. -/
theorem assign_entry_accounts (journal : recovery_journal) (waiter : data_vio)
    (block : recovery_journal_block) :
    (waiter.operation_type = VDO_JOURNAL_DATA_INCREMENT →
      (assign_entry journal waiter block).available_space = sub_u64 journal.available_space 1
      ∧ (assign_entry journal waiter block).pending_decrement_count
        = to_u16 (journal.pending_decrement_count + 1))
    ∧ (waiter.operation_type = VDO_JOURNAL_DATA_DECREMENT →
      (assign_entry journal waiter block).available_space = sub_u64 journal.available_space 1
      ∧ (assign_entry journal waiter block).pending_decrement_count
        = sub_u16 journal.pending_decrement_count 1)
    ∧ (waiter.operation_type = VDO_JOURNAL_BLOCK_MAP_INCREMENT →
      (assign_entry journal waiter block).available_space = sub_u64 journal.available_space 1
      ∧ (assign_entry journal waiter block).pending_decrement_count
        = journal.pending_decrement_count)
    ∧ (waiter.operation_type = VDO_JOURNAL_BLOCK_MAP_DECREMENT →
      accounts_kept journal (assign_entry journal waiter block)) := by
  refine ⟨?_, ?_, ?_, ?_⟩
  · intro h_op
    by_cases h_state : waiter.operation_state ≠ VDO_MAPPING_STATE_UNMAPPED
    · obtain ⟨journal1, e, a1, _, _, a4⟩ := assign_entry_enqueue_accounts
        { journal with
          logical_blocks_used := add_u64 journal.logical_blocks_used 1
          pending_decrement_count := to_u16 (journal.pending_decrement_count + 1)
          available_space := sub_u64 journal.available_space 1 }
        { waiter with recovery_journal_point := ⟨block.sequence_number, block.entry_count⟩ }
        block
      have h_eq : assign_entry journal waiter block = journal1 := by
        rw [← e]
        unfold assign_entry
        simp only [h_op]
        rw [if_pos h_state]
        try rfl
      rw [h_eq]
      exact ⟨a1, a4⟩
    · obtain ⟨journal1, e, a1, _, _, a4⟩ := assign_entry_enqueue_accounts
        { journal with
          pending_decrement_count := to_u16 (journal.pending_decrement_count + 1)
          available_space := sub_u64 journal.available_space 1 }
        { waiter with recovery_journal_point := ⟨block.sequence_number, block.entry_count⟩ }
        block
      have h_eq : assign_entry journal waiter block = journal1 := by
        rw [← e]
        unfold assign_entry
        simp only [h_op]
        rw [if_neg h_state]
        try rfl
      rw [h_eq]
      exact ⟨a1, a4⟩
  · intro h_op
    by_cases h_state : waiter.operation_state ≠ VDO_MAPPING_STATE_UNMAPPED
    · have h_released := release_journal_block_reference_counts_kept
        { journal with logical_blocks_used := sub_u64 journal.logical_blocks_used 1 } block
      obtain ⟨journal1, e, a1, _, _, a4⟩ := assign_entry_enqueue_accounts
        { release_journal_block_reference
            { journal with logical_blocks_used := sub_u64 journal.logical_blocks_used 1 }
            block with
          pending_decrement_count := sub_u16
            (release_journal_block_reference
              { journal with logical_blocks_used := sub_u64 journal.logical_blocks_used 1 }
              block).pending_decrement_count 1
          available_space := sub_u64
            (release_journal_block_reference
              { journal with logical_blocks_used := sub_u64 journal.logical_blocks_used 1 }
              block).available_space 1 }
        { waiter with recovery_journal_point := ⟨block.sequence_number, block.entry_count⟩ }
        block
      have h_eq : assign_entry journal waiter block = journal1 := by
        rw [← e]
        unfold assign_entry
        simp only [h_op]
        rw [if_pos h_state]
        try rfl
      rw [h_eq]
      exact ⟨a1.trans (congrArg (fun x => sub_u64 x 1) h_released.1),
        a4.trans (congrArg (fun x => sub_u16 x 1) h_released.2.2.1)⟩
    · have h_released := release_journal_block_reference_counts_kept journal block
      obtain ⟨journal1, e, a1, _, _, a4⟩ := assign_entry_enqueue_accounts
        { release_journal_block_reference journal block with
          pending_decrement_count := sub_u16
            (release_journal_block_reference journal block).pending_decrement_count 1
          available_space := sub_u64
            (release_journal_block_reference journal block).available_space 1 }
        { waiter with recovery_journal_point := ⟨block.sequence_number, block.entry_count⟩ }
        block
      have h_eq : assign_entry journal waiter block = journal1 := by
        rw [← e]
        unfold assign_entry
        simp only [h_op]
        rw [if_neg h_state]
        try rfl
      rw [h_eq]
      exact ⟨a1.trans (congrArg (fun x => sub_u64 x 1) h_released.1),
        a4.trans (congrArg (fun x => sub_u16 x 1) h_released.2.2.1)⟩
  · intro h_op
    obtain ⟨journal1, e, a1, _, _, a4⟩ := assign_entry_enqueue_accounts
      { journal with
        block_map_data_blocks := add_u64 journal.block_map_data_blocks 1
        available_space := sub_u64 journal.available_space 1 }
      { waiter with recovery_journal_point := ⟨block.sequence_number, block.entry_count⟩ }
      block
    have h_eq : assign_entry journal waiter block = journal1 := by
      rw [← e]
      unfold assign_entry
      simp only [h_op]
      try rfl
    rw [h_eq]
    exact ⟨a1, a4⟩
  · intro h_op
    have h_eq : assign_entry journal waiter block
        = continue_waiter VDO_NOT_IMPLEMENTED
            (enter_journal_read_only_mode journal VDO_NOT_IMPLEMENTED)
            { waiter with
              recovery_journal_point := ⟨block.sequence_number, block.entry_count⟩ } := by
      unfold assign_entry
      simp only [h_op]
    rw [h_eq]
    exact accounts_kept_trans _ _ _ (enter_journal_read_only_mode_accounts_kept _ _)
      (continue_waiter_accounts_kept _ _ _)

/-- C33: if `available_space ≥ pending_decrement_count` before an entry is assigned (both
within their C types), then after `assign_entry` for an entry admitted by
`check_for_entry_space` (a data decrement only while `pending_decrement_count > 0`)
`available_space ≥ pending_decrement_count` still holds, whether or not the block takes
the entry, so the subtraction of the increment rule does not wrap around. -/
theorem entry_space_invariant (journal : recovery_journal) (waiter : data_vio)
    (block : recovery_journal_block)
    (h_inv : journal.pending_decrement_count ≤ journal.available_space)
    (h_space : journal.available_space < 2 ^ 64)
    (h_pending : journal.pending_decrement_count < 65536)
    (h_admitted : check_for_entry_space journal
      (vdo_is_journal_increment_operation waiter.operation_type) = true)
    (h_decrement : waiter.operation_type = VDO_JOURNAL_DATA_DECREMENT →
      0 < journal.pending_decrement_count) :
    (assign_entry journal waiter block).pending_decrement_count
      ≤ (assign_entry journal waiter block).available_space
    ∧ sub_u64 (assign_entry journal waiter block).available_space
        (assign_entry journal waiter block).pending_decrement_count
      = (assign_entry journal waiter block).available_space
        - (assign_entry journal waiter block).pending_decrement_count := by
  have h_pow : (2 : Nat) ^ 64 = 18446744073709551616 := by norm_num
  obtain ⟨a1, a2, a3, a4⟩ := assign_entry_accounts journal waiter block
  have h_exact := sub_u64_exact journal.available_space journal.pending_decrement_count
    h_inv h_space
  have h_main : (assign_entry journal waiter block).pending_decrement_count
        ≤ (assign_entry journal waiter block).available_space
      ∧ (assign_entry journal waiter block).available_space < 2 ^ 64 := by
    cases h_op : waiter.operation_type with
    | VDO_JOURNAL_DATA_INCREMENT =>
      obtain ⟨b1, b2⟩ := a1 h_op
      rw [h_op] at h_admitted
      have h_room : sub_u64 journal.available_space journal.pending_decrement_count > 1 := by
        simpa [check_for_entry_space, vdo_is_journal_increment_operation] using h_admitted
      rw [h_exact] at h_room
      rw [b1, b2]
      unfold sub_u64 to_u16
      omega
    | VDO_JOURNAL_DATA_DECREMENT =>
      obtain ⟨b1, b2⟩ := a2 h_op
      have h_some := h_decrement h_op
      rw [h_op] at h_admitted
      have h_room : journal.available_space > 0 := by
        simpa [check_for_entry_space, vdo_is_journal_increment_operation] using h_admitted
      rw [b1, b2]
      unfold sub_u64 sub_u16
      omega
    | VDO_JOURNAL_BLOCK_MAP_INCREMENT =>
      obtain ⟨b1, b2⟩ := a3 h_op
      rw [h_op] at h_admitted
      have h_room : sub_u64 journal.available_space journal.pending_decrement_count > 1 := by
        simpa [check_for_entry_space, vdo_is_journal_increment_operation] using h_admitted
      rw [h_exact] at h_room
      rw [b1, b2]
      unfold sub_u64
      omega
    | VDO_JOURNAL_BLOCK_MAP_DECREMENT =>
      obtain ⟨b1, _, _, b4⟩ := a4 h_op
      rw [b1, b4]
      exact ⟨h_inv, h_space⟩
  exact ⟨h_main.1, sub_u64_exact _ _ h_main.1 h_main.2⟩

/-- Witness of `entry_space_invariant`: an increment assigned on the sample journal with
nine entries of space and no decrement pending leaves eight entries and one decrement
pending. -/
theorem entry_space_invariant_witness :
    sample_journal_active.pending_decrement_count ≤ sample_journal_active.available_space
    ∧ (assign_entry sample_journal_active (sample_increment 7)
        { sample_block 0 with sequence_number := 1, block_number := 1 }).available_space = 8
    ∧ (assign_entry sample_journal_active (sample_increment 7)
        { sample_block 0 with sequence_number := 1, block_number := 1
        }).pending_decrement_count = 1
    ∧ (assign_entry sample_journal_active (sample_increment 7)
        { sample_block 0 with sequence_number := 1, block_number := 1
        }).pending_decrement_count
      ≤ (assign_entry sample_journal_active (sample_increment 7)
        { sample_block 0 with sequence_number := 1, block_number := 1 }).available_space :=
  ⟨by decide, by decide, by decide,
    (entry_space_invariant sample_journal_active (sample_increment 7)
      { sample_block 0 with sequence_number := 1, block_number := 1 }
      (by decide) (by decide) (by decide) (by decide) (fun h => by cases h)).1⟩

/-! ### An operation the journal does not implement -/

theorem entry_counts_kept_trans (journal journal1 journal2 : recovery_journal)
    (h1 : entry_counts_kept journal journal1) (h2 : entry_counts_kept journal1 journal2) :
    entry_counts_kept journal journal2 :=
  fun p => (h2 p).trans (h1 p)

theorem entry_counts_kept_of_lists (journal journal1 : recovery_journal)
    (h_active : journal1.active_tail_blocks = journal.active_tail_blocks)
    (h_free : journal1.free_tail_blocks = journal.free_tail_blocks) :
    entry_counts_kept journal journal1 := by
  intro p
  unfold block_entry_counts
  rw [h_active, h_free]

theorem notify_commit_waiters_from_counts (blocks : List recovery_journal_block)
    (journal : recovery_journal) :
    (notify_commit_waiters_from journal blocks).2.map (fun b => (b.id, b.entry_count))
      = blocks.map (fun b => (b.id, b.entry_count)) := by
  induction blocks generalizing journal with
  | nil => rfl
  | cons block rest ih =>
    unfold notify_commit_waiters_from
    split
    · rfl
    · simp only
      split
      · simp only [List.map_cons, ih]
      · split
        · rfl
        · simp only [List.map_cons, ih]

theorem notify_commit_waiters_entry_counts (journal : recovery_journal) :
    entry_counts_kept journal (notify_commit_waiters journal) := by
  intro p
  obtain ⟨commit_point, suffix, e, _⟩ :=
    notify_commit_waiters_from_frame journal.active_tail_blocks journal
  have h_counts := notify_commit_waiters_from_counts journal.active_tail_blocks journal
  unfold notify_commit_waiters block_entry_counts
  simp only
  rw [e]
  simp only [List.map_append]
  rw [h_counts]

theorem recycled_lists_mem (active free : List recovery_journal_block)
    (block x : recovery_journal_block) (h : x ∈ active ++ free) :
    x ∈ active.erase block ++ (free.erase block ++ [block]) := by
  by_cases h_same : x = block
  · rw [h_same]
    simp
  · rcases List.mem_append.mp h with h_x | h_x
    · exact List.mem_append_left _ ((List.mem_erase_of_ne h_same).mpr h_x)
    · exact List.mem_append_right _
        (List.mem_append_left _ ((List.mem_erase_of_ne h_same).mpr h_x))

theorem recycled_lists_counts (active free : List recovery_journal_block)
    (block : recovery_journal_block) (h_block : block ∈ active ++ free) (p : Nat × Nat) :
    p ∈ (active.erase block ++ (free.erase block ++ [block])).map
        (fun b => (b.id, b.entry_count))
      ↔ p ∈ (active ++ free).map (fun b => (b.id, b.entry_count)) := by
  constructor
  · intro h
    obtain ⟨x, h_x, h_p⟩ := List.mem_map.mp h
    refine List.mem_map.mpr ⟨x, ?_, h_p⟩
    rcases List.mem_append.mp h_x with h_a | h_f
    · exact List.mem_append_left _ (List.mem_of_mem_erase h_a)
    · rcases List.mem_append.mp h_f with h_f | h_b
      · exact List.mem_append_right _ (List.mem_of_mem_erase h_f)
      · rw [List.mem_singleton.mp h_b]
        exact h_block
  · intro h
    obtain ⟨x, h_x, h_p⟩ := List.mem_map.mp h
    exact List.mem_map.mpr ⟨x, recycled_lists_mem active free block x h_x, h_p⟩

theorem recycle_journal_block_entry_counts (journal : recovery_journal)
    (block : recovery_journal_block)
    (h_block : block ∈ journal.active_tail_blocks ++ journal.free_tail_blocks) :
    entry_counts_kept journal (recycle_journal_block journal block)
    ∧ ∀ x, x ∈ journal.active_tail_blocks ++ journal.free_tail_blocks →
        x ∈ (recycle_journal_block journal block).active_tail_blocks
          ++ (recycle_journal_block journal block).free_tail_blocks := by
  obtain ⟨active_block, counter, suffix, e, _⟩ := recycle_journal_block_frame journal block
  rw [e]
  exact ⟨fun p => recycled_lists_counts _ _ block h_block p,
    fun x h_x => recycled_lists_mem _ _ block x h_x⟩

theorem recycle_journal_blocks_from_entry_counts (blocks : List recovery_journal_block)
    (journal : recovery_journal)
    (h_blocks : ∀ b, b ∈ blocks →
      b ∈ journal.active_tail_blocks ++ journal.free_tail_blocks) :
    entry_counts_kept journal (recycle_journal_blocks_from journal blocks) := by
  induction blocks generalizing journal with
  | nil => exact fun p => Iff.rfl
  | cons block rest ih =>
    unfold recycle_journal_blocks_from
    split
    · exact fun p => Iff.rfl
    · split
      · exact fun p => Iff.rfl
      · obtain ⟨h_counts, h_mem⟩ := recycle_journal_block_entry_counts journal block
          (h_blocks block (List.mem_cons_self _ _))
        exact entry_counts_kept_trans _ _ _ h_counts
          (ih _ (fun b h_b => h_mem b (h_blocks b (List.mem_cons_of_mem _ h_b))))

theorem recycle_journal_blocks_entry_counts (journal : recovery_journal) :
    entry_counts_kept journal (recycle_journal_blocks journal) := by
  unfold recycle_journal_blocks
  exact recycle_journal_blocks_from_entry_counts _ journal
    (fun b h_b => List.mem_append_left _ h_b)

theorem release_waiters_read_only_entry_counts (journal : recovery_journal) :
    entry_counts_kept journal (release_waiters_read_only journal) := by
  unfold release_waiters_read_only
  simp only [continue_waiter_foldl]
  exact entry_counts_kept_trans _ _ _ (notify_commit_waiters_entry_counts journal)
    (entry_counts_kept_trans _ _ _
      (recycle_journal_blocks_entry_counts (notify_commit_waiters journal))
      (entry_counts_kept_of_lists _ _ rfl rfl))

theorem finish_drain_if_complete_entry_counts (journal : recovery_journal)
    (result : vdo_status) :
    entry_counts_kept journal (finish_drain_if_complete journal result) := by
  have h_suspended : entry_counts_kept journal (suspend_lock_counter journal).2 := by
    unfold suspend_lock_counter
    simp only
    split
    · exact entry_counts_kept_of_lists _ _ rfl rfl
    · exact fun p => Iff.rfl
  unfold finish_drain_if_complete
  split
  · exact fun p => Iff.rfl
  · simp only
    split
    · exact h_suspended
    · refine entry_counts_kept_trans _ _ _ ?_
        (entry_counts_kept_of_lists _ (vdo_finish_draining_with_result _ result) rfl rfl)
      split
      · split
        · rename_i block h_active
          have h_at := active_block_of_at _ block h_active
          unfold block_at at h_at
          exact entry_counts_kept_trans _ _ _ h_suspended
            (recycle_journal_block_entry_counts _ block
              (List.mem_of_find?_eq_some h_at)).1
        · exact h_suspended
      · exact h_suspended

theorem check_for_drain_complete_entry_counts (journal : recovery_journal) :
    entry_counts_kept journal (check_for_drain_complete journal) := by
  unfold check_for_drain_complete
  split
  · exact entry_counts_kept_trans _ _ _ (release_waiters_read_only_entry_counts journal)
      (finish_drain_if_complete_entry_counts _ _)
  · exact finish_drain_if_complete_entry_counts _ _

theorem enter_journal_read_only_mode_entry_counts (journal : recovery_journal)
    (error_code : vdo_status) :
    entry_counts_kept journal (enter_journal_read_only_mode journal error_code) := by
  unfold enter_journal_read_only_mode
  exact entry_counts_kept_trans journal (vdo_enter_read_only_mode journal error_code) _
    (entry_counts_kept_of_lists _ _ rfl rfl) (check_for_drain_complete_entry_counts _)

/-- With distinct block addresses, a block found at its address keeps its entry count when
the entry counts of the blocks are kept. -/
theorem block_at_entry_count_kept (journal journal1 : recovery_journal)
    (block : recovery_journal_block) (h_kept : entry_counts_kept journal journal1)
    (h_block : block_at journal block.id = some block)
    (h_distinct : ((journal.active_tail_blocks ++ journal.free_tail_blocks).map
      (fun b => b.id)).Nodup) :
    ∃ current, block_at journal1 block.id = some current
      ∧ current.entry_count = block.entry_count := by
  have h_mem : block ∈ journal.active_tail_blocks ++ journal.free_tail_blocks := by
    unfold block_at at h_block
    exact List.mem_of_find?_eq_some h_block
  have h_key : (block.id, block.entry_count) ∈ block_entry_counts journal1 :=
    (h_kept _).mpr (List.mem_map.mpr ⟨block, h_mem, rfl⟩)
  obtain ⟨x, h_x, h_x_key⟩ := List.mem_map.mp h_key
  cases h_found : block_at journal1 block.id with
  | none =>
    unfold block_at at h_found
    have h_none := List.find?_eq_none.mp h_found x h_x
    have h_id : x.id = block.id := (Prod.mk.inj h_x_key).1
    simp [h_id] at h_none
  | some current =>
    refine ⟨current, rfl, ?_⟩
    have h_id := block_at_id journal1 block.id current h_found
    have h_current : current ∈ journal1.active_tail_blocks ++ journal1.free_tail_blocks := by
      unfold block_at at h_found
      exact List.mem_of_find?_eq_some h_found
    have h_old : (current.id, current.entry_count) ∈ block_entry_counts journal :=
      (h_kept _).mp (List.mem_map.mpr ⟨current, h_current, rfl⟩)
    obtain ⟨y, h_y, h_y_key⟩ := List.mem_map.mp h_old
    have h_y_id : y.id = block.id := (Prod.mk.inj h_y_key).1.trans h_id
    have h_same : y = block := List.inj_on_of_nodup_map h_distinct h_y h_mem h_y_id
    rw [← (Prod.mk.inj h_y_key).2, h_same]

/-- C31: for an entry whose operation is not a data increment, a data decrement or a block
map increment, `assign_entry` puts the journal into read-only mode with
`VDO_NOT_IMPLEMENTED` (its next outgoing call), continues the data_vio with
`VDO_NOT_IMPLEMENTED` (its last outgoing call) and leaves `available_space`,
`logical_blocks_used`, `block_map_data_blocks`, `pending_decrement_count` and the entry
count of every block buffer, that of the block of the call included, unchanged. -/
theorem assign_entry_not_implemented (journal : recovery_journal) (waiter : data_vio)
    (block : recovery_journal_block)
    (h_increment : waiter.operation_type ≠ VDO_JOURNAL_DATA_INCREMENT)
    (h_decrement : waiter.operation_type ≠ VDO_JOURNAL_DATA_DECREMENT)
    (h_block_map : waiter.operation_type ≠ VDO_JOURNAL_BLOCK_MAP_INCREMENT) :
    (assign_entry journal waiter block).read_only = true
    ∧ (∃ later, (assign_entry journal waiter block).trace
        = journal.trace ++ Event.enter_read_only VDO_NOT_IMPLEMENTED :: later)
    ∧ (assign_entry journal waiter block).trace.getLast?
      = some (Event.continue_data_vio
          { waiter with
            recovery_journal_point := ⟨block.sequence_number, block.entry_count⟩ }
          VDO_NOT_IMPLEMENTED)
    ∧ (assign_entry journal waiter block).available_space = journal.available_space
    ∧ (assign_entry journal waiter block).logical_blocks_used = journal.logical_blocks_used
    ∧ (assign_entry journal waiter block).block_map_data_blocks
      = journal.block_map_data_blocks
    ∧ (assign_entry journal waiter block).pending_decrement_count
      = journal.pending_decrement_count
    ∧ (∀ p, p ∈ block_entry_counts (assign_entry journal waiter block)
        ↔ p ∈ block_entry_counts journal)
    ∧ (block_at journal block.id = some block →
        ((journal.active_tail_blocks ++ journal.free_tail_blocks).map
          (fun b => b.id)).Nodup →
        ∃ current, block_at (assign_entry journal waiter block) block.id = some current
          ∧ current.entry_count = block.entry_count) := by
  have h_op : waiter.operation_type = VDO_JOURNAL_BLOCK_MAP_DECREMENT := by
    cases h : waiter.operation_type with
    | VDO_JOURNAL_DATA_INCREMENT => exact absurd h h_increment
    | VDO_JOURNAL_DATA_DECREMENT => exact absurd h h_decrement
    | VDO_JOURNAL_BLOCK_MAP_INCREMENT => exact absurd h h_block_map
    | VDO_JOURNAL_BLOCK_MAP_DECREMENT => rfl
  have h_eq : assign_entry journal waiter block
      = continue_waiter VDO_NOT_IMPLEMENTED
          (enter_journal_read_only_mode journal VDO_NOT_IMPLEMENTED)
          { waiter with
            recovery_journal_point := ⟨block.sequence_number, block.entry_count⟩ } := by
    unfold assign_entry
    simp only [h_op]
  obtain ⟨a1, a2, a3, a4⟩ := (assign_entry_accounts journal waiter block).2.2.2 h_op
  have h_counts : entry_counts_kept journal (assign_entry journal waiter block) := by
    rw [h_eq]
    exact entry_counts_kept_trans _ _ _
      (enter_journal_read_only_mode_entry_counts journal VDO_NOT_IMPLEMENTED)
      (entry_counts_kept_of_lists _ (continue_waiter _ _ _) rfl rfl)
  refine ⟨?_, ?_, ?_, a1, a2, a3, a4, h_counts, ?_⟩
  · rw [h_eq]
    exact (enter_journal_read_only_mode_queues_left journal VDO_NOT_IMPLEMENTED).2
  · rw [h_eq]
    unfold continue_waiter enter_journal_read_only_mode
    obtain ⟨a, f, ab, c, cp, inc, dec, st, suffix, h⟩ := check_for_drain_complete_frame
      (vdo_enter_read_only_mode journal VDO_NOT_IMPLEMENTED)
    rw [h]
    exact ⟨suffix ++ [Event.continue_data_vio
        { waiter with
          recovery_journal_point := ⟨block.sequence_number, block.entry_count⟩ }
        VDO_NOT_IMPLEMENTED], by simp [vdo_enter_read_only_mode]⟩
  · rw [h_eq]
    unfold continue_waiter
    simp
  · intro h_block h_distinct
    exact block_at_entry_count_kept journal _ block h_counts h_block h_distinct

/-- Witness of `assign_entry_not_implemented`: a block map decrement handed to the sample
journal with an empty active block leaves its nine entries of space and its counters and
the journal read-only. -/
theorem assign_entry_not_implemented_witness :
    (assign_entry sample_journal_active (sample_block_map_decrement 7)
        { sample_block 0 with sequence_number := 1, block_number := 1 }).read_only = true
    ∧ (assign_entry sample_journal_active (sample_block_map_decrement 7)
        { sample_block 0 with sequence_number := 1, block_number := 1 }).available_space
      = sample_journal_active.available_space
    ∧ sample_journal_active.available_space = 9
    ∧ ∃ current, block_at (assign_entry sample_journal_active (sample_block_map_decrement 7)
          { sample_block 0 with sequence_number := 1, block_number := 1 }) 0 = some current
        ∧ current.entry_count = 0 :=
  ⟨(assign_entry_not_implemented sample_journal_active (sample_block_map_decrement 7)
      { sample_block 0 with sequence_number := 1, block_number := 1 }
      (by decide) (by decide) (by decide)).1,
    (assign_entry_not_implemented sample_journal_active (sample_block_map_decrement 7)
      { sample_block 0 with sequence_number := 1, block_number := 1 }
      (by decide) (by decide) (by decide)).2.2.2.1,
    by decide,
    (assign_entry_not_implemented sample_journal_active (sample_block_map_decrement 7)
      { sample_block 0 with sequence_number := 1, block_number := 1 }
      (by decide) (by decide) (by decide)).2.2.2.2.2.2.2.2 (by decide) (by decide)⟩

/-! ### What a completed write leaves on return -/

theorem submitted_writes_of_trace (journal journal1 : recovery_journal) (suffix : List Event)
    (h_trace : journal1.trace = journal.trace ++ suffix)
    (h_none : ∀ e, e ∈ suffix → is_block_write e = false) :
    submitted_writes journal1 = submitted_writes journal := by
  unfold submitted_writes
  rw [h_trace, List.filter_append]
  have h_nil : suffix.filter is_block_write = [] := by
    apply List.filter_eq_nil_iff.mpr
    intro e h_e
    rw [h_none e h_e]
    exact Bool.false_ne_true
  rw [h_nil, List.append_nil]

theorem notify_lock_counter_writes (journal : recovery_journal) :
    submitted_writes (notify_lock_counter journal) = submitted_writes journal := by
  unfold notify_lock_counter
  split
  · refine submitted_writes_of_trace journal _ [Event.lock_counter_notification] rfl ?_
    intro e h_e
    rw [List.mem_singleton.mp h_e]
    rfl
  · rfl

theorem release_reference_writes (journal : recovery_journal) (sequence_number zone_id : Nat)
    (zone_type : vdo_zone_type) :
    submitted_writes
        (vdo_release_recovery_journal_block_reference journal sequence_number zone_type zone_id)
      = submitted_writes journal := by
  have h_set : ∀ (j : recovery_journal) (l v : Nat) (t : vdo_zone_type) (z : Nat),
      submitted_writes (set_counter j l t z v) = submitted_writes j := by
    intro j l v t z
    unfold set_counter
    split
    · rfl
    · split <;> rfl
  have h_zone : ∀ (j : recovery_journal) (l : Nat) (t : vdo_zone_type) (v : Int),
      submitted_writes (set_zone_count j l t v) = submitted_writes j := by
    intro j l t v
    unfold set_zone_count
    split <;> rfl
  unfold vdo_release_recovery_journal_block_reference
  split
  · rfl
  · simp only
    split
    · split
      · exact h_set _ _ _ _ _
      · exact (notify_lock_counter_writes _).trans (h_set _ _ _ _ _)
    · split
      · exact h_set _ _ _ _ _
      · split
        · exact (h_zone _ _ _ _).trans (h_set _ _ _ _ _)
        · exact (notify_lock_counter_writes _).trans
            ((h_zone _ _ _ _).trans (h_set _ _ _ _ _))

theorem release_iterate_writes (block : recovery_journal_block) (count : Nat)
    (journal : recovery_journal) :
    submitted_writes
        (Nat.iterate (fun j => release_journal_block_reference j block) count journal)
      = submitted_writes journal := by
  induction count generalizing journal with
  | zero => rfl
  | succ n ih =>
    rw [Function.iterate_succ_apply, ih]
    exact release_reference_writes journal block.sequence_number 0 VDO_ZONE_TYPE_JOURNAL

theorem recycle_journal_block_writes (journal : recovery_journal)
    (block : recovery_journal_block) :
    submitted_writes (recycle_journal_block journal block) = submitted_writes journal := by
  have h_tail : ∀ j : recovery_journal,
      submitted_writes (if j.active_block = some block.id then { j with active_block := none }
        else j) = submitted_writes j := by
    intro j
    split <;> rfl
  unfold recycle_journal_block
  simp only
  rw [h_tail]
  split
  · exact (release_reference_writes _ block.sequence_number 0 VDO_ZONE_TYPE_JOURNAL).trans
      (release_iterate_writes block _ _)
  · exact release_iterate_writes block _ _

theorem recycle_journal_blocks_from_writes (blocks : List recovery_journal_block)
    (journal : recovery_journal) :
    submitted_writes (recycle_journal_blocks_from journal blocks) = submitted_writes journal := by
  induction blocks generalizing journal with
  | nil => rfl
  | cons block rest ih =>
    unfold recycle_journal_blocks_from
    split
    · rfl
    · split
      · rfl
      · exact (ih _).trans (recycle_journal_block_writes journal block)

theorem continue_committed_waiter_writes (journal : recovery_journal) (waiter : data_vio) :
    submitted_writes (continue_committed_waiter journal waiter) = submitted_writes journal := by
  unfold continue_committed_waiter
  simp only
  split
  · refine submitted_writes_of_trace journal _ [_] rfl ?_
    intro e h_e
    rw [List.mem_singleton.mp h_e]
    rfl
  · refine submitted_writes_of_trace journal _
      [Event.commit_order_assertion_failed journal.commit_point waiter.recovery_journal_point,
        Event.commit_notification waiter
          (if journal.read_only then VDO_READ_ONLY else VDO_SUCCESS)] (by simp) ?_
    intro e h_e
    simp only [List.mem_cons, List.mem_singleton, List.not_mem_nil, or_false] at h_e
    rcases h_e with h | h <;> rw [h] <;> rfl

theorem continue_committed_waiter_foldl_writes (waiters : List data_vio)
    (journal : recovery_journal) :
    submitted_writes (waiters.foldl continue_committed_waiter journal)
      = submitted_writes journal := by
  induction waiters generalizing journal with
  | nil => rfl
  | cons w rest ih =>
    rw [List.foldl_cons, ih]
    exact continue_committed_waiter_writes journal w

theorem notify_commit_waiters_from_writes (blocks : List recovery_journal_block)
    (journal : recovery_journal) :
    submitted_writes (notify_commit_waiters_from journal blocks).1
      = submitted_writes journal := by
  induction blocks generalizing journal with
  | nil => rfl
  | cons block rest ih =>
    unfold notify_commit_waiters_from
    split
    · rfl
    · simp only
      split
      · exact (ih _).trans ((continue_committed_waiter_foldl_writes _ _).trans
          (continue_committed_waiter_foldl_writes _ _))
      · split
        · exact continue_committed_waiter_foldl_writes _ _
        · exact (ih _).trans (continue_committed_waiter_foldl_writes _ _)

theorem writes_kept_trans (journal journal1 journal2 : recovery_journal)
    (h1 : writes_kept journal journal1) (h2 : writes_kept journal1 journal2) :
    writes_kept journal journal2 :=
  ⟨h2.1.trans h1.1, h2.2.1.trans h1.2.1, fun p => (h2.2.2 p).trans (h1.2.2 p)⟩

theorem writes_kept_of_lists (journal journal1 : recovery_journal)
    (h_writes : submitted_writes journal1 = submitted_writes journal)
    (h_pending : journal1.pending_write_count = journal.pending_write_count)
    (h_active : journal1.active_tail_blocks = journal.active_tail_blocks)
    (h_free : journal1.free_tail_blocks = journal.free_tail_blocks) :
    writes_kept journal journal1 := by
  refine ⟨h_writes, h_pending, fun p => ?_⟩
  unfold block_write_states
  rw [h_active, h_free]

theorem notify_commit_waiters_from_write_states (blocks : List recovery_journal_block)
    (journal : recovery_journal) :
    (notify_commit_waiters_from journal blocks).2.map block_write_state
      = blocks.map block_write_state := by
  induction blocks generalizing journal with
  | nil => rfl
  | cons block rest ih =>
    unfold notify_commit_waiters_from
    split
    · rfl
    · simp only
      split
      · rw [List.map_cons, List.map_cons, ih]
        rfl
      · split
        · rfl
        · rw [List.map_cons, List.map_cons, ih]
          rfl

theorem notify_commit_waiters_writes_kept (journal : recovery_journal) :
    writes_kept journal (notify_commit_waiters journal) := by
  obtain ⟨commit_point, suffix, e, _⟩ :=
    notify_commit_waiters_from_frame journal.active_tail_blocks journal
  have h_states := notify_commit_waiters_from_write_states journal.active_tail_blocks journal
  have h_writes := notify_commit_waiters_from_writes journal.active_tail_blocks journal
  unfold notify_commit_waiters
  refine ⟨h_writes, ?_, fun p => ?_⟩
  · simp only
    rw [e]
  · unfold block_write_states
    simp only
    rw [e]
    simp only [List.map_append]
    rw [h_states]

theorem recycled_lists_write_states (active free : List recovery_journal_block)
    (block : recovery_journal_block) (h_block : block ∈ active ++ free)
    (p : Nat × Nat × Nat × Nat × Bool) :
    p ∈ (active.erase block ++ (free.erase block ++ [block])).map block_write_state
      ↔ p ∈ (active ++ free).map block_write_state := by
  constructor
  · intro h
    obtain ⟨x, h_x, h_p⟩ := List.mem_map.mp h
    refine List.mem_map.mpr ⟨x, ?_, h_p⟩
    rcases List.mem_append.mp h_x with h_a | h_f
    · exact List.mem_append_left _ (List.mem_of_mem_erase h_a)
    · rcases List.mem_append.mp h_f with h_f | h_b
      · exact List.mem_append_right _ (List.mem_of_mem_erase h_f)
      · rw [List.mem_singleton.mp h_b]
        exact h_block
  · intro h
    obtain ⟨x, h_x, h_p⟩ := List.mem_map.mp h
    exact List.mem_map.mpr ⟨x, recycled_lists_mem active free block x h_x, h_p⟩

theorem recycle_journal_block_writes_kept (journal : recovery_journal)
    (block : recovery_journal_block)
    (h_block : block ∈ journal.active_tail_blocks ++ journal.free_tail_blocks) :
    writes_kept journal (recycle_journal_block journal block)
    ∧ ∀ x, x ∈ journal.active_tail_blocks ++ journal.free_tail_blocks →
        x ∈ (recycle_journal_block journal block).active_tail_blocks
          ++ (recycle_journal_block journal block).free_tail_blocks := by
  have h_writes := recycle_journal_block_writes journal block
  obtain ⟨active_block, counter, suffix, e, _⟩ := recycle_journal_block_frame journal block
  rw [e] at h_writes ⊢
  exact ⟨⟨h_writes, rfl, fun p => recycled_lists_write_states _ _ block h_block p⟩,
    fun x h_x => recycled_lists_mem _ _ block x h_x⟩

theorem recycle_journal_blocks_from_writes_kept (blocks : List recovery_journal_block)
    (journal : recovery_journal)
    (h_blocks : ∀ b, b ∈ blocks →
      b ∈ journal.active_tail_blocks ++ journal.free_tail_blocks) :
    writes_kept journal (recycle_journal_blocks_from journal blocks) := by
  induction blocks generalizing journal with
  | nil => exact ⟨rfl, rfl, fun p => Iff.rfl⟩
  | cons block rest ih =>
    unfold recycle_journal_blocks_from
    split
    · exact ⟨rfl, rfl, fun p => Iff.rfl⟩
    · split
      · exact ⟨rfl, rfl, fun p => Iff.rfl⟩
      · obtain ⟨h_kept, h_mem⟩ := recycle_journal_block_writes_kept journal block
          (h_blocks block (List.mem_cons_self _ _))
        exact writes_kept_trans _ _ _ h_kept
          (ih _ (fun b h_b => h_mem b (h_blocks b (List.mem_cons_of_mem _ h_b))))

theorem recycle_journal_blocks_writes_kept (journal : recovery_journal) :
    writes_kept journal (recycle_journal_blocks journal) := by
  unfold recycle_journal_blocks
  exact recycle_journal_blocks_from_writes_kept _ journal
    (fun b h_b => List.mem_append_left _ h_b)

theorem continue_waiter_foldl_writes_kept (result : vdo_status) (waiters : List data_vio)
    (journal : recovery_journal) :
    writes_kept journal (waiters.foldl (continue_waiter result) journal) := by
  rw [continue_waiter_foldl]
  refine writes_kept_of_lists _ _ ?_ rfl rfl rfl
  refine submitted_writes_of_trace journal _ _ rfl ?_
  intro e h_e
  obtain ⟨w, _, h_w⟩ := List.mem_map.mp h_e
  rw [← h_w]
  rfl

theorem release_waiters_read_only_writes_kept (journal : recovery_journal) :
    writes_kept journal (release_waiters_read_only journal) := by
  unfold release_waiters_read_only
  refine writes_kept_trans _ _ _ (notify_commit_waiters_writes_kept journal)
    (writes_kept_trans _ _ _
      (recycle_journal_blocks_writes_kept (notify_commit_waiters journal)) ?_)
  exact writes_kept_trans _
    { recycle_journal_blocks (notify_commit_waiters journal) with decrement_waiters := [] } _
    (writes_kept_of_lists _ _ rfl rfl rfl rfl)
    (writes_kept_trans _ _ _ (continue_waiter_foldl_writes_kept _ _ _)
      (writes_kept_trans _
        { (recycle_journal_blocks (notify_commit_waiters journal)).decrement_waiters.foldl
            (continue_waiter VDO_READ_ONLY)
            { recycle_journal_blocks (notify_commit_waiters journal) with
              decrement_waiters := [] } with increment_waiters := [] } _
        (writes_kept_of_lists _ _ rfl rfl rfl rfl)
        (continue_waiter_foldl_writes_kept _ _ _)))

theorem finish_drain_if_complete_writes_kept (journal : recovery_journal)
    (result : vdo_status) :
    writes_kept journal (finish_drain_if_complete journal result) := by
  have h_suspended : writes_kept journal (suspend_lock_counter journal).2 := by
    unfold suspend_lock_counter
    simp only
    split
    · exact writes_kept_of_lists _ _ rfl rfl rfl rfl
    · exact ⟨rfl, rfl, fun p => Iff.rfl⟩
  have h_finish : ∀ j : recovery_journal,
      writes_kept j (vdo_finish_draining_with_result j result) := by
    intro j
    refine writes_kept_of_lists _ _ ?_ rfl rfl rfl
    refine submitted_writes_of_trace j _ [Event.finish_draining result] rfl ?_
    intro e h_e
    rw [List.mem_singleton.mp h_e]
    rfl
  unfold finish_drain_if_complete
  split
  · exact ⟨rfl, rfl, fun p => Iff.rfl⟩
  · simp only
    split
    · exact h_suspended
    · refine writes_kept_trans _ _ _ ?_ (h_finish _)
      split
      · split
        · rename_i block h_active
          have h_at := active_block_of_at _ block h_active
          unfold block_at at h_at
          exact writes_kept_trans _ _ _ h_suspended
            (recycle_journal_block_writes_kept _ block
              (List.mem_of_find?_eq_some h_at)).1
        · exact h_suspended
      · exact h_suspended

theorem check_for_drain_complete_writes_kept (journal : recovery_journal) :
    writes_kept journal (check_for_drain_complete journal) := by
  unfold check_for_drain_complete
  split
  · exact writes_kept_trans _ _ _ (release_waiters_read_only_writes_kept journal)
      (finish_drain_if_complete_writes_kept _ _)
  · exact finish_drain_if_complete_writes_kept _ _

theorem enter_journal_read_only_mode_writes_kept (journal : recovery_journal)
    (error_code : vdo_status) :
    writes_kept journal (enter_journal_read_only_mode journal error_code) := by
  unfold enter_journal_read_only_mode
  refine writes_kept_trans journal (vdo_enter_read_only_mode journal error_code) _
    (writes_kept_of_lists _ _ ?_ rfl rfl rfl) (check_for_drain_complete_writes_kept _)
  refine submitted_writes_of_trace journal _ [Event.enter_read_only error_code] rfl ?_
  intro e h_e
  rw [List.mem_singleton.mp h_e]
  rfl

theorem schedule_block_write_writes_kept (journal : recovery_journal)
    (block : recovery_journal_block) :
    writes_kept journal (schedule_block_write journal block) := by
  unfold schedule_block_write
  split
  · exact writes_kept_of_lists _ _ rfl rfl rfl rfl
  · exact ⟨rfl, rfl, fun p => Iff.rfl⟩

theorem block_uncommitted_counts_of_states (journal : recovery_journal) :
    block_uncommitted_counts journal
      = (block_write_states journal).map (fun s => (s.1, s.2.1, s.2.2.1)) := by
  unfold block_uncommitted_counts block_write_states
  rw [List.map_map]
  rfl

theorem writes_accounted_of_kept (journal journal1 : recovery_journal)
    (h : writes_kept journal journal1) : writes_accounted journal journal1 [] := by
  refine ⟨by rw [h.1, List.append_nil], h.2.1, fun p => ?_, fun p h_p _ => (h.2.2 p).mp h_p⟩
  rw [block_uncommitted_counts_of_states, block_uncommitted_counts_of_states]
  constructor
  · intro h_p
    obtain ⟨s, h_s, h_eq⟩ := List.mem_map.mp h_p
    exact List.mem_map.mpr ⟨s, (h.2.2 s).mp h_s, h_eq⟩
  · intro h_p
    obtain ⟨s, h_s, h_eq⟩ := List.mem_map.mp h_p
    exact List.mem_map.mpr ⟨s, (h.2.2 s).mpr h_s, h_eq⟩

theorem writes_accounted_trans (journal journal1 journal2 : recovery_journal)
    (first second : List Event) (h1 : writes_accounted journal journal1 first)
    (h2 : writes_accounted journal1 journal2 second) :
    writes_accounted journal journal2 (first ++ second) := by
  refine ⟨?_, ?_, fun p => (h2.2.2.1 p).trans (h1.2.2.1 p), ?_⟩
  · rw [h2.1, h1.1, List.append_assoc]
  · rw [h2.2.1, h1.2.1, List.length_append, Nat.add_comm, Function.iterate_add_apply]
  · intro p h_p h_none
    rw [List.filter_append] at h_none
    obtain ⟨h_first, h_second⟩ := List.append_eq_nil.mp h_none
    exact h1.2.2.2 p (h2.2.2.2 p h_p h_second) h_first

theorem update_first_map {α : Type} (g : recovery_journal_block → α) (id : Nat)
    (f : recovery_journal_block → recovery_journal_block) (h : ∀ b, g (f b) = g b)
    (blocks : List recovery_journal_block) :
    (update_first id f blocks).map g = blocks.map g := by
  induction blocks with
  | nil => rfl
  | cons b rest ih =>
    unfold update_first
    split
    · rw [List.map_cons, List.map_cons, h]
    · rw [List.map_cons, List.map_cons, ih]

theorem update_block_map {α : Type} (g : recovery_journal_block → α) (journal : recovery_journal)
    (id : Nat) (f : recovery_journal_block → recovery_journal_block)
    (h : ∀ b, g (f b) = g b) :
    ((update_block journal id f).active_tail_blocks
        ++ (update_block journal id f).free_tail_blocks).map g
      = (journal.active_tail_blocks ++ journal.free_tail_blocks).map g := by
  unfold update_block
  split
  · simp only [List.map_append]
    rw [update_first_map g id f h]
  · simp only [List.map_append]
    rw [update_first_map g id f h]

theorem update_block_mem (journal : recovery_journal) (id : Nat)
    (f : recovery_journal_block → recovery_journal_block) (x : recovery_journal_block)
    (h : x ∈ (update_block journal id f).active_tail_blocks
      ++ (update_block journal id f).free_tail_blocks) :
    x ∈ journal.active_tail_blocks ++ journal.free_tail_blocks
    ∨ ∃ b, b ∈ journal.active_tail_blocks ++ journal.free_tail_blocks ∧ b.id = id
        ∧ x = f b := by
  unfold update_block at h
  split at h
  · rcases List.mem_append.mp h with h_a | h_f
    · rcases update_first_mem id f _ x h_a with h_old | ⟨b, h_b, h_eq⟩
      · exact Or.inl (List.mem_append_left _ h_old)
      · exact Or.inr ⟨b, List.mem_append_left _ (List.mem_of_find?_eq_some h_b),
          by simpa using List.find?_some h_b, h_eq⟩
    · exact Or.inl (List.mem_append_right _ h_f)
  · rcases List.mem_append.mp h with h_a | h_f
    · exact Or.inl (List.mem_append_left _ h_a)
    · rcases update_first_mem id f _ x h_f with h_old | ⟨b, h_b, h_eq⟩
      · exact Or.inl (List.mem_append_right _ h_old)
      · exact Or.inr ⟨b, List.mem_append_right _ (List.mem_of_find?_eq_some h_b),
          by simpa using List.find?_some h_b, h_eq⟩

theorem update_block_fields (journal : recovery_journal) (id : Nat)
    (f : recovery_journal_block → recovery_journal_block) :
    (update_block journal id f).trace = journal.trace
    ∧ (update_block journal id f).pending_write_count = journal.pending_write_count
    ∧ (update_block journal id f).read_only = journal.read_only
    ∧ (update_block journal id f).last_write_acknowledged = journal.last_write_acknowledged := by
  unfold update_block
  split <;> exact ⟨rfl, rfl, rfl, rfl⟩

theorem vdo_commit_recovery_block_accounted (journal : recovery_journal)
    (block : recovery_journal_block) :
    (vdo_commit_recovery_block journal block).1 = VDO_SUCCESS
    ∧ ∃ writes, writes_accounted journal (vdo_commit_recovery_block journal block).2 writes := by
  unfold vdo_commit_recovery_block
  split
  · exact ⟨rfl, [], writes_accounted_of_kept _ _ ⟨rfl, rfl, fun p => Iff.rfl⟩⟩
  · refine ⟨rfl,
      [Event.submit_block_write block.id block.sequence_number block.entry_waiters.length],
      ?_, ?_, fun p => ?_, ?_⟩
    · unfold submitted_writes
      simp only
      rw [(update_block_fields journal block.id _).1, List.filter_append]
      rfl
    · simp only
      rw [(update_block_fields journal block.id _).2.1]
      rfl
    · unfold block_uncommitted_counts
      simp only
      rw [update_block_map block_uncommitted_count journal block.id
        (fun b =>
          { b with
            entries_in_commit := b.entry_waiters.length
            committing := true
            commit_waiters := b.commit_waiters ++ b.entry_waiters
            entry_waiters := [] }) (fun _ => rfl)]
    · intro p h_p h_none
      obtain ⟨x, h_x, h_state⟩ := List.mem_map.mp h_p
      rcases update_block_mem journal block.id _ x h_x with h_old | ⟨b, h_b, h_id, h_eq⟩
      · exact List.mem_map.mpr ⟨x, h_old, h_state⟩
      · exfalso
        have h_first : p.1 = block.id := by
          rw [← h_state, h_eq]
          exact h_id
        rw [h_first] at h_none
        simp [is_write_of] at h_none

theorem write_block_accounted (journal : recovery_journal) (id : Nat) :
    ∃ writes, writes_accounted journal (write_block journal id) writes := by
  unfold write_block
  split
  · exact ⟨[], writes_accounted_of_kept _ _ ⟨rfl, rfl, fun p => Iff.rfl⟩⟩
  · split
    · exact ⟨[], writes_accounted_of_kept _ _ ⟨rfl, rfl, fun p => Iff.rfl⟩⟩
    · rename_i block _
      obtain ⟨h_status, writes, h_writes⟩ := vdo_commit_recovery_block_accounted journal block
      simp only
      rw [if_neg (by rw [h_status]; exact fun h => h rfl)]
      exact ⟨writes, h_writes⟩

theorem write_block_foldl_accounted (ids : List Nat) (journal : recovery_journal) :
    ∃ writes, writes_accounted journal (ids.foldl write_block journal) writes := by
  induction ids generalizing journal with
  | nil => exact ⟨[], writes_accounted_of_kept _ _ ⟨rfl, rfl, fun p => Iff.rfl⟩⟩
  | cons id rest ih =>
    obtain ⟨first, h_first⟩ := write_block_accounted journal id
    obtain ⟨second, h_second⟩ := ih (write_block journal id)
    exact ⟨first ++ second, writes_accounted_trans _ _ _ _ _ h_first h_second⟩

theorem write_blocks_accounted (journal : recovery_journal) :
    ∃ writes, writes_accounted journal (write_blocks journal) writes := by
  have h_emptied : writes_accounted journal { journal with pending_writes := [] } [] :=
    writes_accounted_of_kept _ _ (writes_kept_of_lists _ _ rfl rfl rfl rfl)
  obtain ⟨first, h_first⟩ := write_block_foldl_accounted journal.pending_writes
    { journal with pending_writes := [] }
  have h_folded := writes_accounted_trans _ _ _ _ _ h_emptied h_first
  unfold write_blocks
  split
  · exact ⟨[], writes_accounted_of_kept _ _ ⟨rfl, rfl, fun p => Iff.rfl⟩⟩
  · simp only
    split
    · split
      · rename_i id _
        obtain ⟨second, h_second⟩ := write_block_accounted
          (journal.pending_writes.foldl write_block { journal with pending_writes := [] }) id
        exact ⟨[] ++ first ++ second, writes_accounted_trans _ _ _ _ _ h_folded h_second⟩
      · exact ⟨[] ++ first, h_folded⟩
    · exact ⟨[] ++ first, h_folded⟩

theorem write_block_read_only (journal : recovery_journal) (id : Nat)
    (h : journal.read_only = true) : write_block journal id = journal := by
  unfold write_block
  rw [if_pos h]

theorem write_block_foldl_read_only (ids : List Nat) (journal : recovery_journal)
    (h : journal.read_only = true) : ids.foldl write_block journal = journal := by
  induction ids with
  | nil => rfl
  | cons id rest ih => rw [List.foldl_cons, write_block_read_only journal id h, ih]

theorem write_blocks_read_only (journal : recovery_journal) (h : journal.read_only = true) :
    writes_kept journal (write_blocks journal) := by
  unfold write_blocks
  split
  · exact ⟨rfl, rfl, fun p => Iff.rfl⟩
  · simp only
    rw [write_block_foldl_read_only _ { journal with pending_writes := [] } h]
    split
    · split
      · rw [write_block_read_only { journal with pending_writes := [] } _ h]
        exact writes_kept_of_lists _ _ rfl rfl rfl rfl
      · exact writes_kept_of_lists _ _ rfl rfl rfl rfl
    · exact writes_kept_of_lists _ _ rfl rfl rfl rfl

theorem recycled_lists_perm (active free : List recovery_journal_block)
    (block : recovery_journal_block) (h_nodup : (active ++ free).Nodup)
    (h_block : block ∈ active ++ free) :
    (active.erase block ++ (free.erase block ++ [block])).Perm (active ++ free) := by
  by_cases h_active : block ∈ active
  · have h_free : block ∉ free := fun h => (List.nodup_append.mp h_nodup).2.2 h_active h
    rw [List.erase_of_not_mem h_free, ← List.append_assoc]
    refine (List.perm_append_singleton block _).trans ?_
    rw [← List.cons_append]
    exact List.Perm.append_right free (List.perm_cons_erase h_active).symm
  · have h_free : block ∈ free := (List.mem_append.mp h_block).resolve_left h_active
    rw [List.erase_of_not_mem h_active]
    refine List.Perm.append_left active ?_
    exact (List.perm_append_singleton block _).trans (List.perm_cons_erase h_free).symm

theorem recycle_journal_block_block_ids (journal : recovery_journal)
    (block : recovery_journal_block) (h_nodup : (block_ids journal).Nodup)
    (h_block : block ∈ journal.active_tail_blocks ++ journal.free_tail_blocks) :
    (block_ids (recycle_journal_block journal block)).Perm (block_ids journal) := by
  obtain ⟨active_block, counter, suffix, e, _⟩ := recycle_journal_block_frame journal block
  rw [e]
  unfold block_ids at h_nodup ⊢
  exact List.Perm.map _ (recycled_lists_perm _ _ block (List.Nodup.of_map _ h_nodup) h_block)

theorem recycle_journal_blocks_from_block_ids (blocks : List recovery_journal_block)
    (journal : recovery_journal) (h_nodup : (block_ids journal).Nodup)
    (h_blocks : ∀ b, b ∈ blocks →
      b ∈ journal.active_tail_blocks ++ journal.free_tail_blocks) :
    (block_ids (recycle_journal_blocks_from journal blocks)).Perm (block_ids journal) := by
  induction blocks generalizing journal with
  | nil => exact List.Perm.refl _
  | cons block rest ih =>
    unfold recycle_journal_blocks_from
    split
    · exact List.Perm.refl _
    · split
      · exact List.Perm.refl _
      · have h_mem := h_blocks block (List.mem_cons_self _ _)
        have h_step := recycle_journal_block_block_ids journal block h_nodup h_mem
        have h_kept := (recycle_journal_block_writes_kept journal block h_mem).2
        exact (ih _ (h_step.nodup_iff.mpr h_nodup)
          (fun b h_b => h_kept b (h_blocks b (List.mem_cons_of_mem _ h_b)))).trans h_step

theorem notify_commit_waiters_block_ids (journal : recovery_journal) :
    block_ids (notify_commit_waiters journal) = block_ids journal := by
  obtain ⟨commit_point, suffix, e, _⟩ :=
    notify_commit_waiters_from_frame journal.active_tail_blocks journal
  have h_states := notify_commit_waiters_from_write_states journal.active_tail_blocks journal
  have h_ids : ∀ blocks : List recovery_journal_block,
      blocks.map (fun b => b.id) = (blocks.map block_write_state).map (fun s => s.1) := by
    intro blocks
    rw [List.map_map]
    rfl
  unfold notify_commit_waiters block_ids
  simp only
  rw [e]
  simp only [List.map_append]
  rw [h_ids (notify_commit_waiters_from journal journal.active_tail_blocks).2, h_states,
    ← h_ids]

theorem release_waiters_read_only_block_ids (journal : recovery_journal)
    (h_nodup : (block_ids journal).Nodup) :
    (block_ids (release_waiters_read_only journal)).Perm (block_ids journal) := by
  have h_notified := notify_commit_waiters_block_ids journal
  have h_recycled : (block_ids (recycle_journal_blocks (notify_commit_waiters journal))).Perm
      (block_ids journal) := by
    rw [← h_notified]
    unfold recycle_journal_blocks
    exact recycle_journal_blocks_from_block_ids _ _ (by rw [h_notified]; exact h_nodup)
      (fun b h_b => List.mem_append_left _ h_b)
  unfold release_waiters_read_only
  simp only [continue_waiter_foldl]
  exact h_recycled

theorem finish_drain_if_complete_block_ids (journal : recovery_journal)
    (result : vdo_status) (h_nodup : (block_ids journal).Nodup) :
    (block_ids (finish_drain_if_complete journal result)).Perm (block_ids journal) := by
  have h_suspended : block_ids (suspend_lock_counter journal).2 = block_ids journal := by
    unfold suspend_lock_counter
    simp only
    split <;> rfl
  unfold finish_drain_if_complete
  split
  · exact List.Perm.refl _
  · simp only
    split
    · rw [h_suspended]
    · show (block_ids _).Perm (block_ids journal)
      split
      · split
        · rename_i block h_active
          have h_at := active_block_of_at _ block h_active
          unfold block_at at h_at
          have h_step := recycle_journal_block_block_ids (suspend_lock_counter journal).2 block
            (by rw [h_suspended]; exact h_nodup) (List.mem_of_find?_eq_some h_at)
          rw [h_suspended] at h_step
          exact h_step
        · rw [← h_suspended]
          exact List.Perm.refl _
      · rw [← h_suspended]
        exact List.Perm.refl _

theorem check_for_drain_complete_block_ids (journal : recovery_journal)
    (h_nodup : (block_ids journal).Nodup) :
    (block_ids (check_for_drain_complete journal)).Perm (block_ids journal) := by
  unfold check_for_drain_complete
  split
  · have h_released := release_waiters_read_only_block_ids journal h_nodup
    exact (finish_drain_if_complete_block_ids _ _
      (h_released.nodup_iff.mpr h_nodup)).trans h_released
  · exact finish_drain_if_complete_block_ids _ _ h_nodup

theorem enter_journal_read_only_mode_block_ids (journal : recovery_journal)
    (error_code : vdo_status) (h_nodup : (block_ids journal).Nodup) :
    (block_ids (enter_journal_read_only_mode journal error_code)).Perm (block_ids journal) := by
  unfold enter_journal_read_only_mode
  exact check_for_drain_complete_block_ids (vdo_enter_read_only_mode journal error_code)
    h_nodup

theorem add_u64_iterate (count start : Nat) (h : start + count < 2 ^ 64) :
    Nat.iterate (fun n => add_u64 n 1) count start = start + count := by
  induction count generalizing start with
  | zero => rfl
  | succ n ih =>
    rw [Function.iterate_succ_apply]
    have h_step : add_u64 start 1 = start + 1 := by
      unfold add_u64
      exact Nat.mod_eq_of_lt (by norm_num at h ⊢; omega)
    rw [h_step, ih (start + 1) (by omega)]
    omega

/-- With distinct block addresses, the block found at an address after writes were
submitted has its uncommitted entries as before, and its write state as before unless one
of the writes is a write of that block. -/
theorem block_at_writes_accounted (journal journal1 : recovery_journal) (writes : List Event)
    (id : Nat) (block : recovery_journal_block)
    (h : writes_accounted journal journal1 writes)
    (h_block : block_at journal id = some block) (h_distinct : (block_ids journal).Nodup) :
    ∃ current, block_at journal1 id = some current
      ∧ block_uncommitted_count current = block_uncommitted_count block
      ∧ (writes.filter (is_write_of id) = [] →
          block_write_state current = block_write_state block) := by
  have h_mem : block ∈ journal.active_tail_blocks ++ journal.free_tail_blocks := by
    unfold block_at at h_block
    exact List.mem_of_find?_eq_some h_block
  have h_id := block_at_id journal id block h_block
  have h_key : block_uncommitted_count block ∈ block_uncommitted_counts journal1 :=
    (h.2.2.1 _).mpr (List.mem_map.mpr ⟨block, h_mem, rfl⟩)
  obtain ⟨x, h_x, h_x_key⟩ := List.mem_map.mp h_key
  cases h_found : block_at journal1 id with
  | none =>
    unfold block_at at h_found
    have h_none := List.find?_eq_none.mp h_found x h_x
    have h_x_id : x.id = id := (congrArg Prod.fst h_x_key).trans h_id
    simp [h_x_id] at h_none
  | some current =>
    have h_current_id := block_at_id journal1 id current h_found
    have h_current : current ∈ journal1.active_tail_blocks ++ journal1.free_tail_blocks := by
      unfold block_at at h_found
      exact List.mem_of_find?_eq_some h_found
    have h_same : ∀ y, y ∈ journal.active_tail_blocks ++ journal.free_tail_blocks →
        y.id = current.id → y = block := by
      intro y h_y h_y_id
      unfold block_ids at h_distinct
      exact List.inj_on_of_nodup_map h_distinct h_y h_mem
        (h_y_id.trans (h_current_id.trans h_id.symm))
    refine ⟨current, rfl, ?_, ?_⟩
    · have h_old : block_uncommitted_count current ∈ block_uncommitted_counts journal :=
        (h.2.2.1 _).mp (List.mem_map.mpr ⟨current, h_current, rfl⟩)
      obtain ⟨y, h_y, h_y_key⟩ := List.mem_map.mp h_old
      rw [← h_y_key, h_same y h_y (congrArg Prod.fst h_y_key)]
    · intro h_none
      have h_old : block_write_state current ∈ block_write_states journal := by
        refine h.2.2.2 _ (List.mem_map.mpr ⟨current, h_current, rfl⟩) ?_
        show writes.filter (is_write_of current.id) = []
        rw [h_current_id]
        exact h_none
      obtain ⟨y, h_y, h_y_key⟩ := List.mem_map.mp h_old
      rw [← h_y_key, h_same y h_y (congrArg Prod.fst h_y_key)]

theorem update_block_active_blocks (journal : recovery_journal) (id : Nat)
    (f : recovery_journal_block → recovery_journal_block)
    (h_active : journal.active_tail_blocks ≠ []) :
    (update_block journal id f).active_tail_blocks ≠ [] := by
  have h_first : ∀ blocks : List recovery_journal_block, blocks ≠ [] →
      update_first id f blocks ≠ [] := by
    intro blocks h_blocks
    cases blocks with
    | nil => exact absurd rfl h_blocks
    | cons b rest =>
      unfold update_first
      split <;> exact List.cons_ne_nil _ _
  unfold update_block
  split
  · exact h_first _ h_active
  · exact h_active

/-- What the first part of `complete_write` leaves besides the counters it updates: the
writes submitted and the addresses of the blocks as they were, the active list still not
empty. -/
theorem complete_write_counts_accounts (journal : recovery_journal) (id : Nat)
    (block : recovery_journal_block) :
    submitted_writes (complete_write_counts journal id block) = submitted_writes journal
    ∧ block_ids (complete_write_counts journal id block) = block_ids journal
    ∧ (journal.active_tail_blocks ≠ [] →
        (complete_write_counts journal id block).active_tail_blocks ≠ []) := by
  have h_fields := update_block_fields journal id
    (fun b =>
      { b with
        uncommitted_entry_count := sub_u16 b.uncommitted_entry_count b.entries_in_commit
        entries_in_commit := 0
        committing := false })
  have h_ids := update_block_map (fun b => b.id) journal id
    (fun b =>
      { b with
        uncommitted_entry_count := sub_u16 b.uncommitted_entry_count b.entries_in_commit
        entries_in_commit := 0
        committing := false }) (fun _ => rfl)
  have h_kept := update_block_active_blocks journal id
    (fun b =>
      { b with
        uncommitted_entry_count := sub_u16 b.uncommitted_entry_count b.entries_in_commit
        entries_in_commit := 0
        committing := false })
  unfold complete_write_counts
  simp only
  split
  · refine ⟨?_, h_ids, h_kept⟩
    unfold submitted_writes
    simp only
    rw [h_fields.1]
  · refine ⟨?_, h_ids, h_kept⟩
    unfold submitted_writes
    simp only
    rw [h_fields.1]

/-- The rest of `complete_write` returns when the list of active blocks is not empty, and
accounts for the writes it submits; it submits none when the journal is read-only. -/
theorem complete_write_finish_accounted (journal : recovery_journal) (id : Nat)
    (h_active : journal.active_tail_blocks ≠ []) :
    ∃ journal1 writes,
      complete_write_finish journal id = some journal1
      ∧ writes_accounted journal journal1 writes
      ∧ (journal.read_only = true → writes = []) := by
  have h_key : ∀ journal4 : recovery_journal, writes_kept journal journal4 →
      (journal.read_only = true → journal4.read_only = true) →
      ∃ journal1 writes,
        some (check_for_drain_complete (write_blocks (recycle_journal_blocks journal4)))
          = some journal1
        ∧ writes_accounted journal journal1 writes
        ∧ (journal.read_only = true → writes = []) := by
    intro journal4 h_kept h_read_only
    have h_recycled := writes_kept_trans _ _ _ h_kept
      (recycle_journal_blocks_writes_kept journal4)
    by_cases h_ro : journal.read_only = true
    · have h_ro4 := (recycle_journal_blocks_queues_left journal4).2.2 (h_read_only h_ro)
      refine ⟨_, [], rfl, ?_, fun _ => rfl⟩
      exact writes_accounted_of_kept _ _
        (writes_kept_trans _ _ _ h_recycled
          (writes_kept_trans _ _ _ (write_blocks_read_only _ h_ro4)
            (check_for_drain_complete_writes_kept _)))
    · obtain ⟨writes, h_writes⟩ := write_blocks_accounted (recycle_journal_blocks journal4)
      refine ⟨_, ([] ++ writes) ++ [], rfl, ?_, fun h => absurd h h_ro⟩
      exact writes_accounted_trans _ _ _ _ _
        (writes_accounted_trans _ _ _ _ _ (writes_accounted_of_kept _ _ h_recycled) h_writes)
        (writes_accounted_of_kept _ _ (check_for_drain_complete_writes_kept _))
  obtain ⟨first, h_first⟩ : ∃ first,
      get_journal_block journal.active_tail_blocks = some first := by
    unfold get_journal_block
    cases h_list : journal.active_tail_blocks with
    | nil => exact absurd h_list h_active
    | cons b rest => exact ⟨b, rfl⟩
  unfold complete_write_finish
  rw [h_first]
  simp only
  apply h_key
  · split
    · split
      · exact writes_kept_trans _ _ _ (notify_commit_waiters_writes_kept journal)
          (schedule_block_write_writes_kept _ _)
      · exact notify_commit_waiters_writes_kept journal
    · exact notify_commit_waiters_writes_kept journal
  · intro h_ro
    have h_notified := (notify_commit_waiters_queues_left journal).2.2 h_ro
    split
    · split
      · exact (schedule_block_write_queues_left _ _).2.2 h_notified
      · exact h_notified
    · exact h_notified

/-- What `complete_write` leaves on return for the block at address `id`, when the block
addresses are distinct and the list of active blocks is not empty. -/
theorem complete_write_on_return (journal : recovery_journal) (id : Nat)
    (block : recovery_journal_block) (h_block : block_at journal id = some block)
    (h_distinct : (block_ids journal).Nodup)
    (h_active : journal.active_tail_blocks ≠ []) :
    ∃ journal1 writes current,
      complete_write journal id = some journal1
      ∧ submitted_writes journal1 = submitted_writes journal ++ writes
      ∧ block_at journal1 id = some current
      ∧ current.uncommitted_entry_count
          = sub_u16 block.uncommitted_entry_count block.entries_in_commit
      ∧ (writes.filter (is_write_of id) = [] →
          current.entries_in_commit = 0 ∧ current.committing = false)
      ∧ journal1.pending_write_count
          = Nat.iterate (fun n => add_u64 n 1) writes.length
              (sub_u64 journal.pending_write_count 1)
      ∧ journal1.last_write_acknowledged
          = max journal.last_write_acknowledged block.sequence_number
      ∧ (journal.read_only = true → writes = [] ∧ journal1.read_only = true) := by
  have h_parts : complete_write journal id
      = complete_write_finish (complete_write_counts journal id block) id := by
    unfold complete_write complete_write_finish complete_write_counts
    rw [h_block]
  obtain ⟨c1, c2, c3, c4⟩ := complete_write_counts_fields journal id block
  obtain ⟨a1, a2, a3⟩ := complete_write_counts_accounts journal id block
  obtain ⟨journal1, writes, h_eq, h_accounted, h_none⟩ :=
    complete_write_finish_accounted (complete_write_counts journal id block) id (a3 h_active)
  obtain ⟨current, h_at, h_count, h_state⟩ := block_at_writes_accounted _ journal1 writes id _
    h_accounted (c4 h_block) (by rw [a2]; exact h_distinct)
  obtain ⟨h_left, h_space⟩ := complete_write_finish_queues_left _ journal1 id h_eq
  refine ⟨journal1, writes, current, h_parts.trans h_eq, ?_, h_at, ?_, ?_, ?_, ?_, ?_⟩
  · rw [h_accounted.1, a1]
  · exact congrArg (fun s => s.2.2) h_count
  · intro h_write
    exact ⟨congrArg (fun s => s.2.2.2.1) (h_state h_write),
      congrArg (fun s => s.2.2.2.2) (h_state h_write)⟩
  · rw [h_accounted.2.1, c1]
  · rw [h_space.1.2.2.2.2.1, c2]
  · intro h_ro
    exact ⟨h_none (c3.trans h_ro), h_left.2.2 (c3.trans h_ro)⟩

/-- C30 (amended): `complete_write` decreases the block's `uncommitted_entry_count` by
`entries_in_commit` (in 16 bits) and sets `last_write_acknowledged` to the larger of its old
value and the block's sequence number, and both stand when it returns; it resets
`entries_in_commit` to 0 and clears `committing`, which stand on return unless the function
has submitted a new write of the block, and it decreases `pending_write_count` by 1, which
on return is the old value less 1 plus the number of writes the function has submitted (in
64 bits); a read-only journal submits none. After a write error `handle_write_error` makes
the journal read-only and then runs `complete_write`: on return the journal is read-only,
no write has been submitted and all five updates stand. The block addresses are distinct
and the list of active blocks is not empty where `complete_write` reads its first block. -/
theorem complete_write_spec (journal : recovery_journal) (id : Nat)
    (block : recovery_journal_block) (h_block : block_at journal id = some block)
    (h_distinct : (block_ids journal).Nodup) :
    (journal.active_tail_blocks ≠ [] →
      ∃ journal1 writes current,
        complete_write journal id = some journal1
        ∧ submitted_writes journal1 = submitted_writes journal ++ writes
        ∧ block_at journal1 id = some current
        ∧ current.uncommitted_entry_count
            = sub_u16 block.uncommitted_entry_count block.entries_in_commit
        ∧ journal1.last_write_acknowledged
            = max journal.last_write_acknowledged block.sequence_number
        ∧ (writes.filter (is_write_of id) = [] →
            current.entries_in_commit = 0 ∧ current.committing = false)
        ∧ journal1.pending_write_count
            = Nat.iterate (fun n => add_u64 n 1) writes.length
                (sub_u64 journal.pending_write_count 1)
        ∧ (0 < journal.pending_write_count →
            journal.pending_write_count + writes.length < 2 ^ 64 →
            journal1.pending_write_count = journal.pending_write_count - 1 + writes.length)
        ∧ (journal.read_only = true → writes = [] ∧ journal1.read_only = true))
    ∧ (∀ result,
        handle_write_error journal id result
          = complete_write (enter_journal_read_only_mode journal result) id
        ∧ (enter_journal_read_only_mode journal result).read_only = true
        ∧ ((enter_journal_read_only_mode journal result).active_tail_blocks ≠ [] →
          ∃ journal1 current,
            handle_write_error journal id result = some journal1
            ∧ journal1.read_only = true
            ∧ submitted_writes journal1 = submitted_writes journal
            ∧ block_at journal1 id = some current
            ∧ current.uncommitted_entry_count
                = sub_u16 block.uncommitted_entry_count block.entries_in_commit
            ∧ current.entries_in_commit = 0
            ∧ current.committing = false
            ∧ journal1.pending_write_count = sub_u64 journal.pending_write_count 1
            ∧ journal1.last_write_acknowledged
                = max journal.last_write_acknowledged block.sequence_number))
    ∧ (block.entries_in_commit ≤ block.uncommitted_entry_count →
        block.uncommitted_entry_count < 65536 →
        sub_u16 block.uncommitted_entry_count block.entries_in_commit
          = block.uncommitted_entry_count - block.entries_in_commit)
    ∧ (0 < journal.pending_write_count → journal.pending_write_count < 2 ^ 64 →
        sub_u64 journal.pending_write_count 1 = journal.pending_write_count - 1) := by
  refine ⟨?_, ?_, fun h_le h_lt => sub_u16_exact _ _ h_le h_lt,
    fun h_pos h_lt => sub_u64_exact _ _ h_pos h_lt⟩
  · intro h_active
    obtain ⟨journal1, writes, current, r1, r2, r3, r4, r5, r6, r7, r8⟩ :=
      complete_write_on_return journal id block h_block h_distinct h_active
    refine ⟨journal1, writes, current, r1, r2, r3, r4, r7, r5, r6, ?_, r8⟩
    intro h_pos h_fit
    have h_less : sub_u64 journal.pending_write_count 1 = journal.pending_write_count - 1 :=
      sub_u64_exact _ _ h_pos (by omega)
    rw [r6, h_less]
    exact add_u64_iterate _ _ (by omega)
  · intro result
    have h_entered := enter_journal_read_only_mode_writes_kept journal result
    have h_read_only := (enter_journal_read_only_mode_queues_left journal result).2
    refine ⟨rfl, h_read_only, fun h_active => ?_⟩
    have h_ids := enter_journal_read_only_mode_block_ids journal result h_distinct
    obtain ⟨entered, h_at, _, h_state⟩ := block_at_writes_accounted journal _ [] id block
      (writes_accounted_of_kept _ _ h_entered) h_block h_distinct
    have h_same := h_state rfl
    obtain ⟨journal1, writes, current, r1, r2, r3, r4, r5, r6, r7, r8⟩ :=
      complete_write_on_return (enter_journal_read_only_mode journal result) id entered h_at
        (h_ids.nodup_iff.mpr h_distinct) h_active
    obtain ⟨h_none, h_left⟩ := r8 h_read_only
    have h_sequence : entered.sequence_number = block.sequence_number :=
      congrArg (fun s => s.2.1) h_same
    have h_count : entered.uncommitted_entry_count = block.uncommitted_entry_count :=
      congrArg (fun s => s.2.2.1) h_same
    have h_commit : entered.entries_in_commit = block.entries_in_commit :=
      congrArg (fun s => s.2.2.2.1) h_same
    have h_flags := r5 (by rw [h_none]; rfl)
    refine ⟨journal1, current, r1, h_left, ?_, r3, ?_, h_flags.1, h_flags.2, ?_, ?_⟩
    · rw [r2, h_none, List.append_nil, h_entered.1]
    · rw [r4, h_count, h_commit]
    · rw [r6, h_none, h_entered.2.1, List.length_nil, Function.iterate_zero_apply]
    · rw [r7, h_sequence,
        (enter_journal_read_only_mode_space_kept journal result).1.2.2.2.2.1]

/-- C30, as stated, fails: block 0 of the sample journal is full, is being written with two
of its three entries in the write, and is the only write pending; when that write
completes, `complete_write` finds the block still dirty and submits a new write of it, so
on return the block is committing again with one entry in the write and
`pending_write_count` is 1 as before, not 0. -/
theorem complete_write_rewrites_dirty_block :
    (block_at sample_journal_writing 0).map
        (fun b => (b.uncommitted_entry_count, b.entries_in_commit, b.committing))
      = some (3, 2, true)
    ∧ sample_journal_writing.pending_write_count = 1
    ∧ (complete_write sample_journal_writing 0).map
        (fun journal1 => (journal1.pending_write_count,
          (block_at journal1 0).map
            (fun b => (b.uncommitted_entry_count, b.entries_in_commit, b.committing))))
      = some (1, some (1, 1, true))
    ∧ (complete_write sample_journal_writing 0).map (fun journal1 => journal1.trace)
      = some [Event.submit_block_write 0 1 1] := by
  decide

/-- Witness of `complete_write_spec`: the write of block 0 of the sample journal completes;
the block has one uncommitted entry left on return and block 1 is acknowledged, and after a
write error the block is returned clean of the write with no write pending. -/
theorem complete_write_spec_witness :
    (block_ids sample_journal_writing).Nodup
    ∧ sample_journal_writing.active_tail_blocks ≠ []
    ∧ (∃ journal1 writes current,
        complete_write sample_journal_writing 0 = some journal1
        ∧ submitted_writes journal1 = submitted_writes sample_journal_writing ++ writes
        ∧ block_at journal1 0 = some current
        ∧ current.uncommitted_entry_count = 1
        ∧ journal1.last_write_acknowledged = 1)
    ∧ (∃ journal1 current,
        handle_write_error sample_journal_writing 0 (VDO_IO_ERROR 5) = some journal1
        ∧ journal1.read_only = true
        ∧ block_at journal1 0 = some current
        ∧ current.uncommitted_entry_count = 1
        ∧ current.entries_in_commit = 0
        ∧ current.committing = false
        ∧ journal1.pending_write_count = 0) :=
  ⟨by decide, by decide,
    Exists.imp
      (fun _ => Exists.imp (fun _ => Exists.imp (fun _ h =>
        ⟨h.1, h.2.1, h.2.2.1, h.2.2.2.1.trans (by decide),
          h.2.2.2.2.1.trans (by decide)⟩)))
      ((complete_write_spec sample_journal_writing 0 sample_block_writing (by decide)
        (by decide)).1 (by decide)),
    Exists.imp
      (fun _ => Exists.imp (fun _ h =>
        ⟨h.1, h.2.1, h.2.2.2.1, h.2.2.2.2.1.trans (by decide), h.2.2.2.2.2.1,
          h.2.2.2.2.2.2.1, h.2.2.2.2.2.2.2.1.trans (by decide)⟩))
      (((complete_write_spec sample_journal_writing 0 sample_block_writing (by decide)
        (by decide)).2.1 (VDO_IO_ERROR 5)).2.2 (by decide))⟩

end RecoveryJournal
